import Mathlib

/-! Magpie: rotation selector, status materialisation, checker retries, queue cadence.

A shallow embedding of the parts of the Magpie backend that the specification's
contract claims are about, followed by the theorems that settle them.

Conventions of the embedding:
* Go unsigned integers (`uint64` ids, `uint8` retries) are `Nat`; wrap-around is
  written out with `% 2 ^ w` where it can happen.
* `time.Time` is an `Int` number of nanoseconds since the Unix epoch; `time.Duration` is an
  `Int` number of nanoseconds.
* Pointers that may be `nil` are `Option`.
* A Go run-time panic (indexing an empty slice) is `none`.
* Relational tables are lists of rows.
-/

namespace Magpie

/-! ## Data model -/

/-- The columns of `domain.Proxy` that the rotation selector and the queue read; `Hash` is
the byte string of the unique hash key. -/
structure Proxy where
  ID : Nat
  IP : String
  Port : Nat
  Username : String
  Password : String
  Hash : List Nat := []
  deriving DecidableEq, Repr

/-- Embeds `Proxy.GetIp` -/
def Proxy.GetIp (proxy : Proxy) : String := proxy.IP

/-- Embeds `Proxy.HasAuth` -/
def Proxy.HasAuth (proxy : Proxy) : Bool :=
  proxy.Username != "" && proxy.Password != ""

/-! ## Rotation selector: `selectNextProxy` -/

/-- The `for idx := range proxies` loop of `selectNextProxy`, entered at index `idx`
with `rest` the elements still to visit. Falling off the end returns `proxies[0]`. -/
def selectNextProxyLoop (proxies : List Proxy) (lastProxyID : Nat) :
    Nat → List Proxy → Option Proxy
  | _, [] => proxies[0]?
  | idx, p :: rest =>
    if p.ID = lastProxyID then
      let next := idx + 1
      let next := if next ≥ proxies.length then 0 else next
      proxies[next]?
    else
      selectNextProxyLoop proxies lastProxyID (idx + 1) rest

/-- Embeds `selectNextProxy(proxies, lastProxyID)`; `none` is the index-out-of-range panic
on an empty slice (the caller returns before on `len(proxies) == 0`). -/
def selectNextProxy (proxies : List Proxy) (lastProxyID : Option Nat) : Option Proxy :=
  match lastProxyID with
  | none => proxies[0]?
  | some last => selectNextProxyLoop proxies last 0 proxies

/-! ## Serial rotations against a stable eligible set -/

/-- The ids returned by `k` consecutive completed calls of `GetNextRotatingProxy` on one
rotator whose eligible set stays `proxies`: each call runs `selectNextProxy` on the stored
`last_proxy_id` and stores the selected id (the row lock makes the calls serial). -/
def rotations (proxies : List Proxy) : Option Nat → Nat → List Nat
  | _, 0 => []
  | last, k + 1 =>
    match selectNextProxy proxies last with
    | none => []
    | some selected => selected.ID :: rotations proxies (some selected.ID) k

/-- The window of `m` completed rotations that follows `s` earlier ones. -/
def rotationWindow (proxies : List Proxy) (last : Option Nat) (s m : Nat) : List Nat :=
  (rotations proxies last (s + m)).drop s

/-- The id stored at position `j` of the eligible list (0 outside it). -/
def idAt (proxies : List Proxy) (j : Nat) : Nat := (proxies.map (·.ID)).getD j 0

/-- The positions visited by `m` steps of a cyclic walk over `n` slots from offset `b`. -/
def cyc (n b m : Nat) : List Nat := (List.range m).map (fun t => (b + t) % n)

/-- Fifty alive proxies with ids 1..50 (scenario S4). -/
def fiftyProxies : List Proxy :=
  (List.range 50).map (fun i => { ID := i + 1, IP := "", Port := 8080, Username := "", Password := "" })

/-- Three proxies with ids 10, 20, 30, ordered by id. -/
def threeProxies : List Proxy :=
  [ { ID := 10, IP := "10.0.0.1", Port := 8080, Username := "user-one", Password := "pass-one" },
    { ID := 20, IP := "10.0.0.2", Port := 8081, Username := "", Password := "" },
    { ID := 30, IP := "10.0.0.3", Port := 8082, Username := "", Password := "" } ]

/-! ## Go strings -/

/-- Embeds `unicode.IsSpace`: the white-space runes that `strings.TrimSpace` removes. -/
def isSpace (c : Char) : Bool :=
  let v := c.val.toNat
  v = 9 || v = 10 || v = 11 || v = 12 || v = 13 || v = 32 || v = 0x85 || v = 0xA0 ||
  v = 0x1680 || (0x2000 ≤ v && v ≤ 0x200A) || v = 0x2028 || v = 0x2029 || v = 0x202F ||
  v = 0x205F || v = 0x3000

/-- Embeds `strings.TrimSpace` -/
def TrimSpace (s : String) : String :=
  String.mk (((s.toList.dropWhile isSpace).reverse.dropWhile isSpace).reverse)

/-- Embeds `unicode.ToLower` restricted to what an equality test against an ASCII constant can
see: `A`..`Z` are lower-cased, and the two non-ASCII runes whose lower case is ASCII
(U+0130 to `i`, U+212A to `k`) are mapped; every other rune is left as it is (Go maps it
to a rune outside ASCII). -/
def toLowerRune (c : Char) : Char :=
  let v := c.val.toNat
  if 65 ≤ v ∧ v ≤ 90 then Char.ofNat (v + 32)
  else if v = 0x130 then Char.ofNat 105
  else if v = 0x212A then Char.ofNat 107
  else c

/-- Embeds `strings.ToLower` (see `toLowerRune`). -/
def ToLower (s : String) : String := String.mk (s.toList.map toLowerRune)

/-! ## Floating-point values -/

/-- A `float64` as far as the uptime filter looks at it: NaN, the infinities, or a finite
value, taken as the rational it denotes; both zeros are `finite 0`. The result of an
arithmetic operation is rounded by `roundToFloat64`. -/
inductive Float64 where
  | nan
  | posInf
  | negInf
  | finite (q : ℚ)
  deriving DecidableEq

/-- Embeds `math.IsNaN` -/
def Float64.IsNaN : Float64 → Bool
  | .nan => true
  | _ => false

/-- Embeds `math.IsInf(value, 0)` -/
def Float64.IsInf : Float64 → Bool
  | .posInf => true
  | .negInf => true
  | _ => false

/-- Embeds `value < 0 || value > 100` -/
def Float64.outOfPercentRange : Float64 → Bool
  | .nan => false
  | .posInf => true
  | .negInf => true
  | .finite q => decide (q < 0) || decide (q > 100)

/-- Embeds `math.Round` on a rational: nearest integer, halves away from zero. -/
def mathRound (q : ℚ) : ℤ :=
  if 0 ≤ q then ⌊q + 1 / 2⌋ else -⌊-q + 1 / 2⌋

/-- Two to the power `e`. -/
def pow2 (e : ℤ) : ℚ :=
  if 0 ≤ e then ((2 ^ e.toNat : ℕ) : ℚ) else 1 / ((2 ^ (-e).toNat : ℕ) : ℚ)

/-- The integer nearest to a rational, a half going to the even neighbour: the rounding of
IEEE 754 arithmetic. -/
def roundHalfEven (q : ℚ) : ℤ :=
  let f := ⌊q⌋
  if q - f < 1 / 2 then f
  else if 1 / 2 < q - f then f + 1
  else if f % 2 = 0 then f else f + 1

/-- Counts, with `fuel`, how often `n` can be halved before it drops below 2. -/
def log2Loop : Nat → Nat → Nat
  | 0, _ => 0
  | fuel + 1, n => if 2 ≤ n then log2Loop fuel (n / 2) + 1 else 0

/-- The binary logarithm of a natural number, rounded down (0 for 0). -/
def natLog2 (n : Nat) : Nat := log2Loop n n

/-- The binary exponent of a positive rational: the `e` with `2^e ≤ q < 2^(e+1)`. -/
def floorLog2 (q : ℚ) : ℤ :=
  if 1 ≤ q then (natLog2 ⌊q⌋.toNat : ℤ)
  else -((natLog2 (⌈1 / q⌉.toNat - 1) : ℤ) + 1)

/-- The `float64` that IEEE 754 arithmetic returns for the exact result `q`: the nearest
value with a significand of 53 bits (in steps of `2^-1074` below `2^-1022`), a half going
to the even significand, and an infinity from `2^1024` on. Both zeros are `finite 0`. -/
def roundToFloat64 (q : ℚ) : Float64 :=
  if q = 0 then .finite 0
  else
    let e := max (floorLog2 |q| - 52) (-1074)
    let r := (roundHalfEven (|q| / pow2 e) : ℚ) * pow2 e
    if pow2 1024 ≤ r then (if 0 < q then .posInf else .negInf)
    else .finite (if 0 < q then r else -r)

/-- Embeds the comparison `a <= b` of two `float64` values. -/
def Float64.le : Float64 → Float64 → Bool
  | .nan, _ => false
  | _, .nan => false
  | .negInf, _ => true
  | _, .posInf => true
  | .posInf, _ => false
  | _, .negInf => false
  | .finite a, .finite b => decide (a ≤ b)

/-- Embeds `math.Round(value*10) / 10`: the product and the quotient are `float64`
operations, rounded by `roundToFloat64`; `math.Round` of a `float64` is exact. NaN and the
infinities are returned as they are. -/
def roundToTenth : Float64 → Float64
  | .finite q =>
    match roundToFloat64 (q * 10) with
    | .finite p => roundToFloat64 ((mathRound p : ℚ) / 10)
    | v => v
  | v => v

/-! ## Relational tables read by the rotation selector -/

/-- A row of `protocols`. -/
structure Protocol where
  ID : Int
  Name : String
  deriving DecidableEq, Repr

/-- A row of `user_proxies`. -/
structure UserProxy where
  UserID : Nat
  ProxyID : Nat
  deriving DecidableEq, Repr

/-- A row of `proxy_latest_statistics` (`domain.ProxyLatestStatistic`). -/
structure ProxyLatestStatistic where
  ProxyID : Nat
  ProtocolID : Int
  Alive : Bool
  StatisticID : Nat
  CheckedAt : Int
  deriving DecidableEq, Repr

/-- A row of `proxy_statistics` (`domain.ProxyStatistic`), append-only. -/
structure ProxyStatistic where
  ID : Nat
  ProxyID : Nat
  ProtocolID : Int
  JudgeID : Nat
  Alive : Bool
  Attempt : Nat
  ResponseTime : Nat
  CreatedAt : Int
  deriving DecidableEq, Repr

/-- A row of `proxy_reputations`. -/
structure ProxyReputation where
  ProxyID : Nat
  Kind : String
  Label : String
  deriving DecidableEq, Repr

/-- A row of `proxy_overall_statuses` (`domain.ProxyOverallStatus`). -/
structure ProxyOverallStatus where
  ProxyID : Nat
  OverallAlive : Bool
  LastCheckedAt : Int
  deriving DecidableEq, Repr

/-- A row of `rotating_proxies` (`domain.RotatingProxy`): the columns the selector and the
listeners use; `AuthPassword` is the decrypted password, `Protocol` and `ListenProtocol` are
the preloaded associations (zero values when not loaded). -/
structure RotatingProxy where
  ID : Nat
  UserID : Nat
  Name : String
  ProtocolID : Int
  ReputationLabels : List String
  UptimeFilterType : String
  UptimePercentage : Option Float64
  LastProxyID : Option Nat
  LastRotationAt : Option Int
  AuthRequired : Bool := false
  AuthUsername : String := ""
  AuthPassword : String := ""
  InstanceID : String := ""
  ListenProtocolID : Int := 0
  TransportProtocol : String := ""
  ListenTransportProtocol : String := ""
  ListenPort : Nat := 0
  Protocol : Magpie.Protocol := { ID := 0, Name := "" }
  ListenProtocol : Magpie.Protocol := { ID := 0, Name := "" }
  deriving DecidableEq

/-- The columns of `domain.User` that `work` and `CreateRotatingProxy` read. -/
structure User where
  ID : Nat
  HTTPProtocol : Bool
  HTTPSProtocol : Bool
  SOCKS4Protocol : Bool
  SOCKS5Protocol : Bool
  Timeout : Nat
  Retries : Nat
  UseHttpsForSocks : Bool
  deriving DecidableEq, Repr

/-- The relational store. -/
structure Database where
  protocols : List Protocol
  proxies : List Proxy
  userProxies : List UserProxy
  proxyStatistics : List ProxyStatistic
  proxyLatestStatistics : List ProxyLatestStatistic
  proxyOverallStatuses : List ProxyOverallStatus
  proxyReputations : List ProxyReputation
  rotatingProxies : List RotatingProxy
  users : List User := []

/-- Embeds `dto.RotatingProxyNext` -/
structure RotatingProxyNext where
  ProxyID : Nat
  IP : String
  Port : Nat
  Username : String
  Password : String
  HasAuth : Bool
  Protocol : String
  deriving DecidableEq, Repr

/-! ## Eligible set: `aliveProxiesForProtocol` -/

/-- Embeds `reputationLabelOrder` (also the key set of `reputationLabelSet`). -/
def reputationLabelOrder : List String := ["good", "neutral", "poor"]

/-- Embeds `uptimeFilterMin` -/
def uptimeFilterMin : String := "min"

/-- Embeds `uptimeFilterMax` -/
def uptimeFilterMax : String := "max"

/-- Modelled from the spec: the constant `domain.ProxyReputationKindOverall` is not under
src/; the spec names the row an "overall" reputation row. -/
def ProxyReputationKindOverall : String := "overall"

/-- Embeds `sanitizeRotatorReputationLabels` -/
def sanitizeRotatorReputationLabels (labels : List String) : List String :=
  if labels.length = 0 then []
  else
    let seen := (labels.map (fun raw => ToLower (TrimSpace raw))).filter
      (fun label => decide (label ∈ reputationLabelOrder))
    if seen.length = 0 then []
    else reputationLabelOrder.filter (fun label => decide (label ∈ seen))

/-- Embeds `normalizeRotatorUptimeFilter` -/
def normalizeRotatorUptimeFilter (rawType : String) (rawPercentage : Option Float64) :
    String × Option Float64 :=
  let filterType := ToLower (TrimSpace rawType)
  match rawPercentage with
  | none => ("", none)
  | some value =>
    if filterType ≠ uptimeFilterMin ∧ filterType ≠ uptimeFilterMax then ("", none)
    else if value.IsNaN || value.IsInf || value.outOfPercentRange then ("", none)
    else (filterType, some (roundToTenth value))

/-- Embeds `shouldApplyReputationFilter` -/
def shouldApplyReputationFilter (labels : List String) : Bool :=
  decide (labels.length > 0) && decide (labels.length < reputationLabelOrder.length)

/-- The join partners that `applyReputationFilter` adds for one proxy: with no filter the
row passes once; otherwise once per `overall` reputation row whose label is listed. -/
def applyReputationFilter (db : Database) (labels : List String) (proxy : Proxy) :
    List ProxyReputation :=
  if !shouldApplyReputationFilter labels then
    [{ ProxyID := proxy.ID, Kind := "", Label := "" }]
  else
    db.proxyReputations.filter (fun pr =>
      decide (pr.ProxyID = proxy.ID) && decide (pr.Kind = ProxyReputationKindOverall) &&
      decide (pr.Label ∈ labels))

/-- The sub-select of `applyUptimeFilter` for one proxy:
`ROUND(100.0 * SUM(alive) / COUNT(*), 1)` over its statistics of the protocol, or no row
when it has none. -/
def uptimePercentageOf (db : Database) (protocolID : Int) (proxyID : Nat) : Option ℚ :=
  let rows := db.proxyStatistics.filter (fun psr =>
    decide (psr.ProtocolID = protocolID) && decide (psr.ProxyID = proxyID))
  if rows.length = 0 then none
  else
    let alive := (rows.filter (fun psr => psr.Alive)).length
    some ((mathRound ((100 * (alive : ℚ) / (rows.length : ℚ)) * 10) : ℚ) / 10)

/-- Embeds `applyUptimeFilter` for one proxy: whether the row survives the join and the
`WHERE`. The `numeric` uptime of the sub-select is compared with the `float64` parameter as
`float64` values (sent as a decimal, the parameter is the shortest decimal that reads back
as the same `float64`, which for a whole number of tenths is that number and gives the same
order). -/
def applyUptimeFilter (db : Database) (protocolID : Int) (uptimeFilterType : String)
    (uptimePercentage : Option Float64) (proxy : Proxy) : Bool :=
  match normalizeRotatorUptimeFilter uptimeFilterType uptimePercentage with
  | (normalizedType, some threshold) =>
    if normalizedType = "" then true
    else
      match uptimePercentageOf db protocolID proxy.ID with
      | none => false
      | some uptime =>
        if normalizedType = uptimeFilterMax then (roundToFloat64 uptime).le threshold
        else threshold.le (roundToFloat64 uptime)
  | _ => true

/-- Embeds `aliveProxiesForProtocol`: the inner joins of the query, one output row per
combination of join partners, ordered by `proxies.id`. -/
def aliveProxiesForProtocol (db : Database) (userID : Nat) (protocolID : Int)
    (labels : List String) (uptimeFilterType : String) (uptimePercentage : Option Float64) :
    List Proxy :=
  let filterLabels := sanitizeRotatorReputationLabels labels
  let rows := db.proxies.flatMap (fun proxy =>
    (db.userProxies.filter (fun up =>
        decide (up.ProxyID = proxy.ID) && decide (up.UserID = userID))).flatMap (fun _ =>
      (db.proxyLatestStatistics.filter (fun pls =>
          decide (pls.ProxyID = proxy.ID) && decide (pls.ProtocolID = protocolID) &&
          pls.Alive)).flatMap (fun _ =>
        (applyReputationFilter db filterLabels proxy).flatMap (fun _ =>
          if applyUptimeFilter db protocolID uptimeFilterType uptimePercentage proxy
          then [proxy] else []))))
  rows.insertionSort (fun a b => a.ID ≤ b.ID)

/-! ## `GetNextRotatingProxy` -/

/-- The errors `GetNextRotatingProxy` returns on an initialised, reachable database;
`indexOutOfRange` is the run-time panic of `proxies[0]` on an empty slice. -/
inductive RotatorError where
  | ErrRotatingProxyNotFound
  | ErrRotatingProxyNoAliveProxies
  | indexOutOfRange
  deriving DecidableEq, Repr

/-- Embeds `Preload("Protocol")`: the protocol row of the rotator, or the zero value. -/
def preloadProtocol (db : Database) (protocolID : Int) : Protocol :=
  (db.protocols.find? (fun p => decide (p.ID = protocolID))).getD { ID := 0, Name := "" }

/-- Embeds `Where("user_id = ? AND id = ?", userID, rotatingProxyID).First(&entity)` -/
def findRotator (db : Database) (userID rotatingProxyID : Nat) : Option RotatingProxy :=
  db.rotatingProxies.find? (fun r => decide (r.UserID = userID) && decide (r.ID = rotatingProxyID))

/-- The eligible set of a rotator row, as `GetNextRotatingProxy` computes it. -/
def eligibleSet (db : Database) (userID : Nat) (entity : RotatingProxy) : List Proxy :=
  let labels := sanitizeRotatorReputationLabels entity.ReputationLabels
  let filter := normalizeRotatorUptimeFilter entity.UptimeFilterType entity.UptimePercentage
  aliveProxiesForProtocol db userID entity.ProtocolID labels filter.1 filter.2

/-- Embeds `Model(&domain.RotatingProxy{}).Where("id = ?", id).Updates(updatePayload)` -/
def updateRotation (rows : List RotatingProxy) (id selectedID : Nat) (now : Int) :
    List RotatingProxy :=
  rows.map (fun r =>
    if r.ID = id then { r with LastProxyID := some selectedID, LastRotationAt := some now }
    else r)

/-- Embeds `GetNextRotatingProxy(userID, rotatingProxyID)` run at time `now` as one transaction on
an initialised database whose statements succeed: the result, and the database after the
call (an error rolls the transaction back). -/
def GetNextRotatingProxy (db : Database) (now : Int) (userID rotatingProxyID : Nat) :
    Except RotatorError RotatingProxyNext × Database :=
  match findRotator db userID rotatingProxyID with
  | none => (.error .ErrRotatingProxyNotFound, db)
  | some entity =>
    let proxies := eligibleSet db userID entity
    if proxies.length = 0 then (.error .ErrRotatingProxyNoAliveProxies, db)
    else
      match selectNextProxy proxies entity.LastProxyID with
      | none => (.error .indexOutOfRange, db)
      | some selected =>
        (.ok { ProxyID := selected.ID, IP := selected.GetIp, Port := selected.Port,
               Username := selected.Username, Password := selected.Password,
               HasAuth := selected.HasAuth,
               Protocol := (preloadProtocol db entity.ProtocolID).Name },
         { db with
           rotatingProxies := updateRotation db.rotatingProxies entity.ID selected.ID now })

/-- The proxy ids returned by consecutive calls of `GetNextRotatingProxy` on one rotator,
made one after the other at the times `times` with no other write in between; the calls
stop at the first error. -/
def serialCalls (userID rotatingProxyID : Nat) : Database → List Int → List Nat
  | _, [] => []
  | db, now :: later =>
    match GetNextRotatingProxy db now userID rotatingProxyID with
    | (.ok next, after) => next.ProxyID :: serialCalls userID rotatingProxyID after later
    | (.error _, _) => []

/-! ## Status materialisation: `database_proxy_status_handler.go` -/

/-- Go's zero `time.Time` (January 1 of year 1, 00:00:00 UTC). -/
def zeroTime : Int := -62135596800 * 1000000000

/-- Embeds `Time.IsZero` -/
def IsZero (t : Int) : Bool := decide (t = zeroTime)

/-- Embeds `proxyProtocolKey` -/
structure proxyProtocolKey where
  ProxyID : Nat
  ProtocolID : Int
  deriving DecidableEq, Repr

/-- A Go `map[proxyProtocolKey]domain.ProxyLatestStatistic`: bindings with pairwise
distinct keys. Go iterates a map in no fixed order; the bindings are held here in the
order of first insertion, and nothing proved below depends on that order. -/
abbrev LatestMap := List (proxyProtocolKey × ProxyLatestStatistic)

/-- Embeds `existing, ok := latest[key]` -/
def mapGet (latest : LatestMap) (key : proxyProtocolKey) : Option ProxyLatestStatistic :=
  (latest.find? (fun kv => decide (kv.1 = key))).map (·.2)

/-- Embeds `latest[key] = entry` -/
def mapSet (latest : LatestMap) (key : proxyProtocolKey) (entry : ProxyLatestStatistic) :
    LatestMap :=
  if latest.any (fun kv => decide (kv.1 = key)) then
    latest.map (fun kv => if kv.1 = key then (key, entry) else kv)
  else latest ++ [(key, entry)]

/-- Embeds `proxyIDSet[id] = struct{}{}` on a `map[uint64]struct{}` -/
def setAdd (proxyIDSet : List Nat) (id : Nat) : List Nat :=
  if id ∈ proxyIDSet then proxyIDSet else proxyIDSet ++ [id]

/-- Embeds `isNewerLatestStat`: `After` / `Before` compare the instants. -/
def isNewerLatestStat (candidate existing : ProxyLatestStatistic) : Bool :=
  if candidate.CheckedAt > existing.CheckedAt then true
  else if candidate.CheckedAt < existing.CheckedAt then false
  else decide (candidate.StatisticID > existing.StatisticID)

/-- The `entry` that the loop of `latestProxyStatusEntries` builds for one statistic. -/
def latestEntryOf (now : Int) (stat : ProxyStatistic) : ProxyLatestStatistic :=
  let checkedAt := if IsZero stat.CreatedAt then now else stat.CreatedAt
  { ProxyID := stat.ProxyID, ProtocolID := stat.ProtocolID, Alive := stat.Alive,
    StatisticID := stat.ID, CheckedAt := checkedAt }

/-- One iteration of the loop of `latestProxyStatusEntries` on the two maps. -/
def latestProxyStatusStep (now : Int) (state : LatestMap × List Nat) (stat : ProxyStatistic) :
    LatestMap × List Nat :=
  if stat.ProxyID = 0 ∨ stat.ProtocolID = 0 then state
  else
    let key : proxyProtocolKey := { ProxyID := stat.ProxyID, ProtocolID := stat.ProtocolID }
    let entry := latestEntryOf now stat
    match mapGet state.1 key with
    | some existing =>
      if !isNewerLatestStat entry existing then state
      else (mapSet state.1 key entry, setAdd state.2 stat.ProxyID)
    | none => (mapSet state.1 key entry, setAdd state.2 stat.ProxyID)

/-- Embeds `latestProxyStatusEntries(stats)` called at time `now`; `nil` slices are `[]`. -/
def latestProxyStatusEntries (now : Int) (stats : List ProxyStatistic) :
    List ProxyLatestStatistic × List Nat :=
  if stats.length = 0 then ([], [])
  else
    let state := stats.foldl (latestProxyStatusStep now) ([], [])
    if state.1.length = 0 then ([], [])
    else (state.1.map (·.2), state.2)

/-- The loop invariant of `latestProxyStatusEntries` after the statistics `seen`: keys are
distinct, every binding is keyed by its own ids, has non-zero ids, was built from a seen
statistic and is not older than any seen statistic of its key; every seen statistic with
non-zero ids has a binding; the id set is the set of proxy ids of the keys. -/
def LatestInv (now : Int) (seen : List ProxyStatistic) (state : LatestMap × List Nat) : Prop :=
  (state.1.map (·.1)).Nodup ∧
  (∀ kv ∈ state.1,
    kv.1 = { ProxyID := kv.2.ProxyID, ProtocolID := kv.2.ProtocolID } ∧
    kv.2.ProxyID ≠ 0 ∧ kv.2.ProtocolID ≠ 0 ∧
    (∃ s ∈ seen, kv.2 = latestEntryOf now s) ∧
    (∀ s ∈ seen, s.ProxyID = kv.2.ProxyID → s.ProtocolID = kv.2.ProtocolID →
      isNewerLatestStat (latestEntryOf now s) kv.2 = false)) ∧
  (∀ s ∈ seen, s.ProxyID ≠ 0 → s.ProtocolID ≠ 0 →
    ∃ kv ∈ state.1, kv.1 = { ProxyID := s.ProxyID, ProtocolID := s.ProtocolID }) ∧
  state.2.Nodup ∧
  (∀ p, p ∈ state.2 ↔ ∃ kv ∈ state.1, kv.1.ProxyID = p)

/-- The `WHERE` of the `ON CONFLICT ... DO UPDATE` in `upsertProxyLatestStatistics`:
`excluded.checked_at > stored.checked_at OR (excluded.checked_at = stored.checked_at AND
excluded.statistic_id > stored.statistic_id)`. -/
def upsertLatestWhere (excluded stored : ProxyLatestStatistic) : Bool :=
  decide (excluded.CheckedAt > stored.CheckedAt) ||
    (decide (excluded.CheckedAt = stored.CheckedAt) &&
      decide (excluded.StatisticID > stored.StatisticID))

/-- The `DO UPDATE SET alive = excluded.alive, statistic_id = excluded.statistic_id,
checked_at = excluded.checked_at` assignments on a stored row. -/
def assignExcluded (stored excluded : ProxyLatestStatistic) : ProxyLatestStatistic :=
  { stored with
    Alive := excluded.Alive, StatisticID := excluded.StatisticID,
    CheckedAt := excluded.CheckedAt }

/-- What the upsert of `excluded` does to one stored row: the row conflicts when it has the
key of `excluded`, and is then updated where the conflict condition holds. -/
def conflictUpdate (excluded stored : ProxyLatestStatistic) : ProxyLatestStatistic :=
  if stored.ProxyID = excluded.ProxyID ∧ stored.ProtocolID = excluded.ProtocolID ∧
      upsertLatestWhere excluded stored = true then
    assignExcluded stored excluded
  else stored

/-- The upsert of one row into `proxy_latest_statistics`, whose key is
`(proxy_id, protocol_id)`: insert when no row has the key, otherwise the conflict update. -/
def upsertLatestRow (table : List ProxyLatestStatistic) (excluded : ProxyLatestStatistic) :
    List ProxyLatestStatistic :=
  if table.any (fun r => decide (r.ProxyID = excluded.ProxyID) &&
      decide (r.ProtocolID = excluded.ProtocolID)) then
    table.map (conflictUpdate excluded)
  else table ++ [excluded]

/-- Whether a row of `proxy_latest_statistics` has the key `(p, q)`. -/
def hasKey (p : Nat) (q : Int) (r : ProxyLatestStatistic) : Bool :=
  decide (r.ProxyID = p) && decide (r.ProtocolID = q)

/-- The row kept for a key when candidate `e` meets stored row `x`. -/
def pickNewer (x e : ProxyLatestStatistic) : ProxyLatestStatistic :=
  if isNewerLatestStat e x then e else x

/-- The row stored for one key after candidates for that key arrive one by one. -/
def storedAfter : Option ProxyLatestStatistic → List ProxyLatestStatistic →
    Option ProxyLatestStatistic
  | cur, [] => cur
  | none, e :: rest => storedAfter (some e) rest
  | some x, e :: rest => storedAfter (some (pickNewer x e)) rest

/-- Three candidate rows for the key (5, 1), with distinct statistic ids. -/
def candidateRows : List ProxyLatestStatistic :=
  [ { ProxyID := 5, ProtocolID := 1, Alive := true, StatisticID := 1, CheckedAt := 100 },
    { ProxyID := 5, ProtocolID := 1, Alive := false, StatisticID := 2, CheckedAt := 100 },
    { ProxyID := 5, ProtocolID := 1, Alive := true, StatisticID := 3, CheckedAt := 90 } ]

/-- Embeds `upsertProxyLatestStatistics(tx, entries)` on the table. -/
def upsertProxyLatestStatistics (table : List ProxyLatestStatistic)
    (entries : List ProxyLatestStatistic) : List ProxyLatestStatistic :=
  if entries.length = 0 then table else entries.foldl upsertLatestRow table

/-- SQL `MAX` over the values of a group, `none` for an empty group. -/
def sqlMax : List Int → Option Int
  | [] => none
  | t :: ts => some (ts.foldl max t)

/-- The `SELECT ... GROUP BY pls.proxy_id` of `upsertProxyOverallStatuses`: one row per
proxy id of the list that has latest rows, with `overall_alive` the `MAX(alive) > 0` and
`last_checked_at` the `MAX(checked_at)` of its rows. -/
def selectOverallStatuses (latest : List ProxyLatestStatistic) (proxyIDs : List Nat) :
    List ProxyOverallStatus :=
  let rows := latest.filter (fun pls => decide (pls.ProxyID ∈ proxyIDs))
  (rows.map (·.ProxyID)).dedup.filterMap (fun id =>
    let group := rows.filter (fun pls => decide (pls.ProxyID = id))
    (sqlMax (group.map (·.CheckedAt))).map (fun lastCheckedAt =>
      { ProxyID := id, OverallAlive := group.any (·.Alive), LastCheckedAt := lastCheckedAt }))

/-- Embeds `ON CONFLICT (proxy_id) DO UPDATE SET overall_alive = ..., last_checked_at = ...` for
one selected row. -/
def upsertOverallRow (table : List ProxyOverallStatus) (excluded : ProxyOverallStatus) :
    List ProxyOverallStatus :=
  if table.any (fun r => decide (r.ProxyID = excluded.ProxyID)) then
    table.map (fun r =>
      if r.ProxyID = excluded.ProxyID then
        { r with OverallAlive := excluded.OverallAlive, LastCheckedAt := excluded.LastCheckedAt }
      else r)
  else table ++ [excluded]

/-- Embeds `upsertProxyOverallStatuses(tx, proxyIDs)` -/
def upsertProxyOverallStatuses (db : Database) (proxyIDs : List Nat) : Database :=
  if proxyIDs.length = 0 then db
  else
    let selected := selectOverallStatuses db.proxyLatestStatistics proxyIDs
    { db with proxyOverallStatuses := selected.foldl upsertOverallRow db.proxyOverallStatuses }

/-- Embeds `updateProxyStatusCaches(tx, stats)` at time `now`, on an initialised transaction whose
statements succeed. -/
def updateProxyStatusCaches (db : Database) (now : Int) (stats : List ProxyStatistic) :
    Database :=
  let out := latestProxyStatusEntries now stats
  if out.1.length = 0 then db
  else
    let db1 := { db with
      proxyLatestStatistics := upsertProxyLatestStatistics db.proxyLatestStatistics out.1 }
    if out.2.length = 0 then db1
    else upsertProxyOverallStatuses db1 out.2


/-- A batch of statistics and a database on which to commit it. -/
def sampleBatch : List ProxyStatistic :=
  [ { ID := 1, ProxyID := 5, ProtocolID := 1, JudgeID := 1, Alive := true, Attempt := 0,
      ResponseTime := 150, CreatedAt := 100 },
    { ID := 2, ProxyID := 5, ProtocolID := 2, JudgeID := 1, Alive := false, Attempt := 2,
      ResponseTime := 900, CreatedAt := 120 } ]

/-- An empty database. -/
def emptyDatabase : Database :=
  { protocols := [], proxies := [], userProxies := [], proxyStatistics := [],
    proxyLatestStatistics := [], proxyOverallStatuses := [], proxyReputations := [],
    rotatingProxies := [] }

/-! ## Checker: `CheckProxyWithRetries` -/

/-- What one call of `ProxyCheckRequest` gives back, with the elapsed time that
`time.Since(timeStart).Milliseconds()` measures for it; `err = none` is a nil error. -/
structure ProbeOutcome where
  html : String
  err : Option String
  elapsedMs : Int
  deriving DecidableEq, Repr

/-- The four results of `CheckProxyWithRetries`, and the number of probe requests it
issued. -/
structure RetryResult where
  html : String
  err : Option String
  responseTime : Int
  attempt : Nat
  probes : Nat
  deriving DecidableEq, Repr

/-- The loop `for i := uint8(0); i < retries; i++` of `CheckProxyWithRetries`, entered at
index `i` with `remaining = retries - i` iterations left and the current values of `html`,
`err`, `responseTime`; `probe k` is the outcome of the `k`-th probe request. -/
def CheckProxyWithRetriesLoop (probe : Nat → ProbeOutcome) (retries : Nat) :
    Nat → Nat → String → Option String → Int → RetryResult
  | 0, i, html, err, responseTime =>
    { html := html, err := err, responseTime := responseTime, attempt := retries, probes := i }
  | remaining + 1, i, _, _, _ =>
    let out := probe i
    if out.err = none then
      { html := out.html, err := out.err, responseTime := out.elapsedMs, attempt := i,
        probes := i + 1 }
    else
      CheckProxyWithRetriesLoop probe retries remaining (i + 1) out.html out.err out.elapsedMs

/-- Embeds `CheckProxyWithRetries(proxy, judge, protocol, timeout, retries)`: the probe requests
for the fixed proxy, judge, protocol and timeout are the outcomes `probe 0, probe 1, ...`;
`retries` is a `uint8`, so `retries < 256` and `i++` never wraps. -/
def CheckProxyWithRetries (probe : Nat → ProbeOutcome) (retries : Nat) : RetryResult :=
  CheckProxyWithRetriesLoop probe retries retries 0 "" none 0

/-- A probe that fails every time (an invalid judge URL). -/
def failingProbe : Nat → ProbeOutcome :=
  fun _ => { html := "", err := some "missing protocol scheme", elapsedMs := 0 }

/-! ## Shared proxy queue: `proxy_queue.go` -/

/-- One second as a `time.Duration`. -/
def Second : Int := 1000000000

/-- Embeds `Time.Unix()`: whole seconds since the epoch (rounded down). -/
def Unix (t : Int) : Int := t / Second

/-- Embeds `time.Unix(sec, 0)` -/
def timeUnix (sec : Int) : Int := sec * Second

/-- The queue's backing store: the string keys `proxy:<hash>` with the stored proxy record
(the JSON encoding is taken to round-trip), and the sorted set `proxy_queue` of members
(proxy hashes) with their scores. A score is a `float64` holding a whole number of unix
seconds; it is exact below `2^53` and is an `Int` here. -/
structure RedisProxyQueue where
  records : List (List Nat × Proxy)
  queue : List (List Nat × Int)
  deriving DecidableEq

/-- Embeds `SET proxy:<hash> <json>` -/
def setRecord (records : List (List Nat × Proxy)) (hash : List Nat) (proxy : Proxy) :
    List (List Nat × Proxy) :=
  if records.any (fun kv => decide (kv.1 = hash)) then
    records.map (fun kv => if kv.1 = hash then (hash, proxy) else kv)
  else records ++ [(hash, proxy)]

/-- Embeds `GET proxy:<hash>` -/
def getRecord (records : List (List Nat × Proxy)) (hash : List Nat) : Option Proxy :=
  (records.find? (fun kv => decide (kv.1 = hash))).map (·.2)

/-- Embeds `ZADD proxy_queue <score> <member>`: add the member or move it to the score. -/
def zadd (queue : List (List Nat × Int)) (member : List Nat) (score : Int) :
    List (List Nat × Int) :=
  if queue.any (fun e => decide (e.1 = member)) then
    queue.map (fun e => if e.1 = member then (member, score) else e)
  else queue ++ [(member, score)]

/-- Embeds `ZSCORE proxy_queue <member>` -/
def zscore (queue : List (List Nat × Int)) (member : List Nat) : Option Int :=
  (queue.find? (fun e => decide (e.1 = member))).map (·.2)

/-- Embeds `RequeueProxy(proxy, lastCheckTime)` when `config.GetTimeBetweenChecks()` is `interval`
(the configuration is not under src/, so the period is a parameter). The function does not
read the clock. -/
def RequeueProxy (interval : Int) (rpq : RedisProxyQueue) (proxy : Proxy)
    (lastCheckTime : Int) : RedisProxyQueue :=
  let nextCheck := lastCheckTime + interval
  { records := setRecord rpq.records proxy.Hash proxy,
    queue := zadd rpq.queue proxy.Hash (Unix nextCheck) }

/-- The entry of least score (the first such in the list). -/
def lowestScored : List (List Nat × Int) → Option (List Nat × Int)
  | [] => none
  | e :: rest =>
    match lowestScored rest with
    | none => some e
    | some m => if e.2 ≤ m.2 then some e else some m

/-- Modelled from the spec: the server-side script `pop.lua` is not under src/. The spec:
"find the lowest-scored element with score ≤ now, read its record, remove it from the
queue, return (record, scored_time)", and nil when nothing is due. Returns the member, its
record, its score and the queue without the member. -/
def popDue (rpq : RedisProxyQueue) (now : Int) :
    Option (List Nat × Proxy × Int × RedisProxyQueue) :=
  match lowestScored rpq.queue with
  | none => none
  | some (member, score) =>
    if score ≤ now then
      match getRecord rpq.records member with
      | none => none
      | some proxy =>
        some (member, proxy, score,
          { rpq with queue := rpq.queue.filter (fun e => decide (e.1 ≠ member)) })
    else none

/-- One round of the loop of `GetNextProxyContext` at unix time `now` (seconds): the popped
proxy with `time.Unix(score, 0)`, or `none` when nothing is due (the call then sleeps one
second and tries again). -/
def GetNextProxy (rpq : RedisProxyQueue) (now : Int) :
    Option (Proxy × Int × RedisProxyQueue) :=
  match popDue rpq now with
  | none => none
  | some (_, proxy, score, rest) => some (proxy, timeUnix score, rest)

/-- One iteration of the checker's `work` loop as the queue sees it: pop the next due proxy
at unix time `now`, probe it (the probes write statistics and leave the queue alone), then
`RequeueProxy(proxy, scheduledTime)` with the scheduled time that the pop returned. -/
def workIteration (interval : Int) (rpq : RedisProxyQueue) (now : Int) :
    Option RedisProxyQueue :=
  match GetNextProxy rpq now with
  | none => none
  | some (proxy, scheduledTime, rest) => some (RequeueProxy interval rest proxy scheduledTime)

/-- A proxy with hash bytes `[7]`. -/
def queuedProxy : Proxy :=
  { ID := 1, IP := "192.0.2.10", Port := 8080, Username := "", Password := "", Hash := [7] }

/-- A queue holding `queuedProxy` alone, scheduled at unix second 10. -/
def oneProxyQueue : RedisProxyQueue :=
  { records := [([7], queuedProxy)], queue := [([7], 10)] }

/-! ## Checker: `getAutoThreads` -/

/-- Embeds `math.MaxUint32` -/
def MaxUint32 : Nat := 2 ^ 32 - 1

/-- Two's-complement wrap-around of an `int64` result. -/
def wrapInt64 (x : Int) : Int := (x + 2 ^ 63) % 2 ^ 64 - 2 ^ 63

/-- The conversion `uint64(x)` of an `int64`. -/
def toUint64 (x : Int) : Nat := (x % 2 ^ 64).toNat

/-- Modelled from the spec: `settings.Config` and
`settings.CalculateMillisecondsOfCheckingPeriod` are not under src/. This is the checker
section as `getAutoThreads` reads it: `retries`, `timeout_ms` and the checking period in
milliseconds (a `uint64`, so below `2^64`). The declared integer types of `Retries` and
`Timeout` are not known; they are taken to be unsigned, `RetriesBits` being the width of
the type in which `retries+1` is computed. -/
structure CheckerConfig where
  Retries : Nat
  Timeout : Nat
  CheckingPeriodMs : Nat
  RetriesBits : Nat
  deriving DecidableEq, Repr

/-- Embeds `getAutoThreads(cfg)`; `proxyCount` and `instanceCount` are the answers of
`GetProxyCount()` (an `int64`) and `GetActiveInstances()` (an `int`), `none` when the call
returns an error. The `uint64` products and sums wrap modulo `2^64`. -/
def getAutoThreads (cfg : CheckerConfig) (proxyCount instanceCount : Option Nat) : Nat :=
  match proxyCount with
  | none => 1
  | some totalProxies =>
    let activeInstances : Nat := match instanceCount with
      | none => 1
      | some n => n
    let activeInstances : Nat := if activeInstances = 0 then 1 else activeInstances
    let perInstanceProxies : Int :=
      Int.tdiv (wrapInt64 ((totalProxies : Int) + (activeInstances : Int) - 1))
        (activeInstances : Int)
    let protocolsCount : Nat := 4
    let retriesPlusOne : Nat := (cfg.Retries + 1) % 2 ^ cfg.RetriesBits
    let numerator : Nat :=
      (toUint64 perInstanceProxies * protocolsCount * retriesPlusOne * (cfg.Timeout % 2 ^ 64))
        % 2 ^ 64
    let checkingPeriodMs : Nat :=
      if cfg.CheckingPeriodMs = 0 then 86400000 else cfg.CheckingPeriodMs
    let requiredThreads : Nat := ((numerator + checkingPeriodMs - 1) % 2 ^ 64) / checkingPeriodMs
    let requiredThreads : Nat :=
      if requiredThreads = 0 ∧ perInstanceProxies > 0 then 1 else requiredThreads
    let requiredThreads : Nat :=
      if requiredThreads > MaxUint32 then MaxUint32 else requiredThreads
    requiredThreads % 2 ^ 32

/-- The ceiling of `a / b` for `b > 0`. -/
def ceilDiv (a b : Nat) : Nat := (a + b - 1) / b

/-- The spec's `per_instance_proxies = ceil(total / max(1, active_instances))`. -/
def specPerInstanceProxies (total activeInstances : Nat) : Nat :=
  ceilDiv total (max 1 activeInstances)

/-- The spec's period: the configured one, a period of 0 being one day. -/
def specPeriodMs (cfg : CheckerConfig) : Nat :=
  if cfg.CheckingPeriodMs = 0 then 86400000 else cfg.CheckingPeriodMs

/-- The spec's worker target before clamping:
`ceil(per_instance_proxies * 4 * (retries+1) * timeout_ms / period_ms)`. -/
def specRequiredThreads (cfg : CheckerConfig) (total activeInstances : Nat) : Nat :=
  ceilDiv (specPerInstanceProxies total activeInstances * 4 * (cfg.Retries + 1) * cfg.Timeout)
    (specPeriodMs cfg)

/-- A configuration with a 50-day period, no retries and a 1 ms timeout. -/
def longPeriodConfig : CheckerConfig :=
  { Retries := 0, Timeout := 1, CheckingPeriodMs := 4320000000, RetriesBits := 8 }

/-- The default checker settings (2 retries, 7500 ms) with a period of 0. -/
def defaultCheckerConfig : CheckerConfig :=
  { Retries := 2, Timeout := 7500, CheckingPeriodMs := 0, RetriesBits := 8 }

/-! ## Anonymity level: `GetProxyLevel` -/

/-- Embeds `strings.HasPrefix` on the runes of two strings. -/
def hasPrefixRunes : List Char → List Char → Bool
  | _, [] => true
  | [], _ :: _ => false
  | c :: s, d :: p => c == d && hasPrefixRunes s p

/-- Scans `s` from the left for an occurrence of `substr`. -/
def containsRunes : List Char → List Char → Bool
  | [], substr => substr.isEmpty
  | c :: s, substr => hasPrefixRunes (c :: s) substr || containsRunes s substr

/-- Embeds `strings.Contains`: `substr` occurs in `s` (the empty string occurs in every
string). -/
def Contains (s substr : String) : Bool := containsRunes s.toList substr.toList

/-- The loop of `GetProxyLevel` over `cfg.Checker.ProxyHeader`, returning 2 at the first
header name found in the body and 1 when the list is exhausted. -/
def GetProxyLevelLoop (html : String) : List String → Nat
  | [] => 1
  | header :: rest => if Contains html header then 2 else GetProxyLevelLoop html rest

/-- Embeds `support.GetProxyLevel`. The package `config` is not part of the sources at hand:
the value of `config.GetCurrentIp()` and the list `cfg.Checker.ProxyHeader` are the
parameters `currentIp` and `proxyHeader`. -/
def GetProxyLevel (currentIp : String) (proxyHeader : List String) (html : String) : Nat :=
  if Contains html currentIp then 3 else GetProxyLevelLoop html proxyHeader

/-! ## Rotator validation: `validateRotatorUptimeFilter` -/

/-- The sentinel errors of the uptime-filter validation. -/
inductive UptimeFilterError where
  | ErrRotatingProxyUptimeTypeInvalid
  | ErrRotatingProxyUptimeTypeMissing
  | ErrRotatingProxyUptimeValueMissing
  | ErrRotatingProxyUptimeOutOfRange
  deriving DecidableEq, Repr

/-- Embeds `validateRotatorUptimeFilter`: the normalised type and the rounded percentage, or
the error; a nil `*float64` is `none`. -/
def validateRotatorUptimeFilter (rawType : String) (rawPercentage : Option Float64) :
    Except UptimeFilterError (String × Option Float64) :=
  let filterType := ToLower (TrimSpace rawType)
  let hasType : Bool := decide (filterType ≠ "")
  let hasPercentage : Bool := rawPercentage.isSome
  if !hasType && !hasPercentage then .ok ("", none)
  else if !hasType && hasPercentage then .error .ErrRotatingProxyUptimeTypeMissing
  else if hasType && !hasPercentage then .error .ErrRotatingProxyUptimeValueMissing
  else if filterType ≠ uptimeFilterMin ∧ filterType ≠ uptimeFilterMax then
    .error .ErrRotatingProxyUptimeTypeInvalid
  else
    match rawPercentage with
    | none => .ok ("", none)
    | some value =>
      if value.IsNaN || value.IsInf then .error .ErrRotatingProxyUptimeOutOfRange
      else if value.outOfPercentRange then .error .ErrRotatingProxyUptimeOutOfRange
      else .ok (filterType, some (roundToTenth value))

/-! ## Uptime filter: the scenario of `TestGetNextRotatingProxy_UptimeFilterApplied` -/

/-- Embeds `m[key] = value` on a Go map held as a list of entries with distinct keys. -/
def mapAssign {κ ν : Type} [DecidableEq κ] (m : List (κ × ν)) (key : κ) (value : ν) :
    List (κ × ν) :=
  if m.any (fun kv => decide (kv.1 = key)) then
    m.map (fun kv => if kv.1 = key then (key, value) else kv)
  else m ++ [(key, value)]

/-- Embeds `m[key]` with the comma-ok form. -/
def mapLookup {κ ν : Type} [DecidableEq κ] (m : List (κ × ν)) (key : κ) : Option ν :=
  (m.find? (fun kv => decide (kv.1 = key))).map (·.2)

/-- Embeds `User.GetProtocolMap`: the entries of the returned map. -/
def User.GetProtocolMap (u : User) : List (String × Int) :=
  let protocols : List (String × Int) := []
  let protocols := if u.HTTPProtocol then mapAssign protocols "http" 1 else protocols
  let protocols := if u.HTTPSProtocol then mapAssign protocols "https" 2 else protocols
  let protocols := if u.SOCKS4Protocol then mapAssign protocols "socks4" 3 else protocols
  let protocols := if u.SOCKS5Protocol then mapAssign protocols "socks5" 4 else protocols
  protocols

/-- The value type of `judgeRequests`: the judge (by id), the request protocol and the map
from regex to protocol id. -/
structure JudgeRequest where
  judge : Nat
  protocol : String
  regexToProto : List (String × Int)
  deriving DecidableEq, Repr

/-- The order in which each `range` over a map visits the entries; Go leaves it
unspecified, so it is a parameter. -/
structure RangeOrder where
  protocols : List (String × Int) → List (String × Int)
  requests : List (String × JudgeRequest) → List (String × JudgeRequest)
  regexes : List (String × Int) → List (String × Int)

/-- A `range` visits every entry of the map exactly once. -/
def RangeOrder.Valid (order : RangeOrder) : Prop :=
  (∀ m, (order.protocols m).Perm m) ∧ (∀ m, (order.requests m).Perm m) ∧
  (∀ m, (order.regexes m).Perm m)

/-- The order of insertion, one of the orders a `range` may take. -/
def insertionOrder : RangeOrder :=
  { protocols := id, requests := id, regexes := id }

/-- Embeds `strconv.Itoa` for a non-negative value. -/
def Itoa (n : Nat) : String := String.mk (Nat.toDigits 10 n)

/-- The state of the prefetch loop of `work`: the grouped requests, the number of calls of
`judges.GetNextJudge` made so far, and the running maxima. -/
structure PrefetchState where
  judgeRequests : List (String × JudgeRequest)
  calls : Nat
  maxTimeout : Nat
  maxRetries : Nat

/-- The body of `for protocol, protocolId := range user.GetProtocolMap()`. The package
`judges` is not part of the sources at hand: `GetNextJudge calls userID requestProtocol` is
the judge id and the regex that the call number `calls` of `judges.GetNextJudge` returns. -/
def prefetchProtocol (GetNextJudge : Nat → Nat → String → Nat × String) (user : User)
    (state : PrefetchState) (entry : String × Int) : PrefetchState :=
  let protocol := entry.1
  let protocolId := entry.2
  let requestProtocol :=
    if protocolId > 2 then (if user.UseHttpsForSocks then "https" else "http") else protocol
  let next := GetNextJudge state.calls user.ID requestProtocol
  let nextJudge := next.1
  let regex := next.2
  let judgeKey := Itoa nextJudge ++ "_" ++ requestProtocol
  let judgeRequests :=
    match mapLookup state.judgeRequests judgeKey with
    | some existingRequest =>
      mapAssign state.judgeRequests judgeKey
        { existingRequest with
          regexToProto := mapAssign existingRequest.regexToProto regex protocolId }
    | none =>
      mapAssign state.judgeRequests judgeKey
        { judge := nextJudge, protocol := requestProtocol,
          regexToProto := [(regex, protocolId)] }
  { state with judgeRequests := judgeRequests, calls := state.calls + 1 }

/-- The body of `for _, user := range proxy.Users`. -/
def prefetchUser (order : RangeOrder) (GetNextJudge : Nat → Nat → String → Nat × String)
    (state : PrefetchState) (user : User) : PrefetchState :=
  let state := if user.Timeout > state.maxTimeout then { state with maxTimeout := user.Timeout }
    else state
  let state := if user.Retries > state.maxRetries then { state with maxRetries := user.Retries }
    else state
  (order.protocols user.GetProtocolMap).foldl (prefetchProtocol GetNextJudge user) state

/-- The statistics that `work` hands to `database.AddProxyStatistic` for one request of
`judgeRequests`, one per entry of `regexToProto`. -/
def requestStatistics (order : RangeOrder) (CheckForValidResponse : String → String → Bool)
    (proxyID : Nat) (item : JudgeRequest) (result : RetryResult) : List ProxyStatistic :=
  (order.regexes item.regexToProto).map (fun entry =>
    { ID := 0, ProxyID := proxyID, ProtocolID := entry.2, JudgeID := item.judge,
      Alive := decide (result.err = none) && CheckForValidResponse result.html entry.1,
      Attempt := result.attempt, ResponseTime := (result.responseTime % 2 ^ 16).toNat,
      CreatedAt := zeroTime })

/-- Embeds the probing part of one iteration of `work` for a dequeued proxy with the owning
users `users`: the statistics handed to `database.AddProxyStatistic`, in order.
`probe judge protocol timeout k` is the outcome of the `k`-th `ProxyCheckRequest` for that
judge, request protocol and timeout; `CheckForValidResponse` is not part of the sources at
hand and is a parameter. -/
def workStatistics (order : RangeOrder) (GetNextJudge : Nat → Nat → String → Nat × String)
    (probe : Nat → String → Nat → Nat → ProbeOutcome)
    (CheckForValidResponse : String → String → Bool) (proxyID : Nat) (users : List User) :
    List ProxyStatistic :=
  let start : PrefetchState := { judgeRequests := [], calls := 0, maxTimeout := 0, maxRetries := 0 }
  let state := users.foldl (prefetchUser order GetNextJudge) start
  (order.requests state.judgeRequests).flatMap (fun keyed =>
    let item := keyed.2
    let result := CheckProxyWithRetries (probe item.judge item.protocol state.maxTimeout)
      state.maxRetries
    requestStatistics order CheckForValidResponse proxyID item result)

/-- The protocol ids enabled by at least one owning user. -/
def enabledProtocolIds (users : List User) : List Int :=
  users.flatMap (fun user => user.GetProtocolMap.map (·.2))

/-- An owning user with the default settings (HTTPS checks, HTTPS requests for SOCKS) who
also enabled SOCKS5. -/
def socksUser : User :=
  { ID := 1, HTTPProtocol := false, HTTPSProtocol := true, SOCKS4Protocol := false,
    SOCKS5Protocol := true, Timeout := 7500, Retries := 2, UseHttpsForSocks := true }

/-- A judge pool with a single judge (id 7) and a single regex for every request protocol:
every call of `judges.GetNextJudge` returns them. -/
def singleJudge : Nat → Nat → String → Nat × String :=
  fun _ _ _ => (7, "default")

/-- The single grouped request that `socksUser` and `singleJudge` lead to, with the one
protocol id that its `regexToProto` holds for the shared regex. -/
def sharedRequest (protocolId : Int) : JudgeRequest :=
  { judge := 7, protocol := "https", regexToProto := [("default", protocolId)] }

/-! ## Rotating proxy listeners: wire helpers of `rotatingproxy/handler.go` -/

/-- The UTF-8 encoding of one rune. -/
def utf8EncodeRune (c : Char) : List Nat :=
  let v := c.toNat
  if v < 0x80 then [v]
  else if v < 0x800 then [0xC0 + v / 64, 0x80 + v % 64]
  else if v < 0x10000 then [0xE0 + v / 4096, 0x80 + v / 64 % 64, 0x80 + v % 64]
  else [0xF0 + v / 262144, 0x80 + v / 4096 % 64, 0x80 + v / 64 % 64, 0x80 + v % 64]

/-- The bytes of a Go string held as a Lean string: what `[]byte(s)` is, and what `==`
compares when the other side comes off the wire. -/
def bytesOf (s : String) : List Nat := s.toList.flatMap utf8EncodeRune

/-- A client connection as a handler sees it: the bytes the client sends before it stops
(not yet read), and the bytes written to the client so far. Writes to the client succeed. -/
structure Conn where
  input : List Nat
  output : List Nat
  deriving DecidableEq, Repr

/-- Embeds `conn.Write(bytes)` -/
def Conn.Write (conn : Conn) (bytes : List Nat) : Conn :=
  { conn with output := conn.output ++ bytes }

/-- Embeds `io.ReadFull(conn, buf)` with `len(buf) = n`: the `n` bytes read, or an error
(`none`) when the client stops before `n` bytes. -/
def ReadFull (conn : Conn) (n : Nat) : Option (List Nat) × Conn :=
  if conn.input.length < n then (none, { conn with input := [] })
  else (some (conn.input.take n), { conn with input := conn.input.drop n })

deriving instance DecidableEq for Except

/-- The errors of the SOCKS handlers: the error of a failed read, or `errors.New(text)`. -/
inductive SocksError where
  | read
  | message (text : String)
  deriving DecidableEq, Repr

/-- Embeds `net.IP.To4` -/
def To4 (ip : List Nat) : Option (List Nat) :=
  if ip.length = 4 then some ip
  else if ip.length = 16 ∧ ip.take 10 = List.replicate 10 0 ∧ ip.getD 10 0 = 0xff ∧
      ip.getD 11 0 = 0xff then some (ip.drop 12)
  else none

/-- Embeds `net.IP.To16` -/
def To16 (ip : List Nat) : Option (List Nat) :=
  if ip.length = 4 then some (List.replicate 10 0 ++ [0xff, 0xff] ++ ip)
  else if ip.length = 16 then some ip
  else none

/-- The value of `net.IPv4zero`. -/
def IPv4zero : List Nat := List.replicate 10 0 ++ [0xff, 0xff, 0, 0, 0, 0]

/-- Embeds `writeSocks5BoundReply` -/
def writeSocks5BoundReply (conn : Conn) (rep : Nat) (ip : List Nat) (port : Nat) : Conn :=
  let atypAddr : Nat × List Nat :=
    match To4 ip with
    | some addrBytes => (0x01, addrBytes)
    | none =>
      match To16 ip with
      | some v6 => (0x04, v6)
      | none => (0x01, [0, 0, 0, 0])
  let resp := [0x05, rep, 0x00, atypAddr.1]
  let resp := resp ++ atypAddr.2
  let resp := resp ++ [port / 256 % 256, port % 256]
  conn.Write resp

/-- Embeds `writeSocks5Reply` -/
def writeSocks5Reply (conn : Conn) (rep : Nat) : Conn :=
  writeSocks5BoundReply conn rep IPv4zero 0

/-- The eight 16-bit groups of a 16-byte address. -/
def v6groups (ip : List Nat) : List Nat :=
  (List.range 8).map (fun i => ip.getD (2 * i) 0 * 256 + ip.getD (2 * i + 1) 0)

/-- The first loop of `netip.Addr.appendTo6`: the longest run of at least two zero groups,
the leftmost one on a tie, as `(zeroStart, zeroEnd)`; `(255, 255)` when there is none. -/
def zeroRun (groups : List Nat) : Nat × Nat :=
  (List.range 8).foldl (fun (run : Nat × Nat) i =>
    let j := i + ((groups.drop i).takeWhile (fun g => decide (g = 0))).length
    let l := j - i
    if l ≥ 2 ∧ l > run.2 - run.1 then (i, j) else run) (255, 255)

/-- The lower-case hexadecimal digits of a number, without leading zeros. -/
def appendHex (n : Nat) : List Nat := bytesOf (String.mk (Nat.toDigits 16 n))

/-- The second loop of `netip.Addr.appendTo6`, entered at group `i`. -/
def appendTo6Loop (groups : List Nat) (zeroStart zeroEnd : Nat) : Nat → Nat → List Nat
  | 0, _ => []
  | fuel + 1, i =>
    if i ≥ 8 then []
    else if i = zeroStart then
      [58, 58] ++
        (if zeroEnd ≥ 8 then []
         else appendHex (groups.getD zeroEnd 0) ++
           appendTo6Loop groups zeroStart zeroEnd fuel (zeroEnd + 1))
    else
      (if i > 0 then [58] else []) ++ appendHex (groups.getD i 0) ++
        appendTo6Loop groups zeroStart zeroEnd fuel (i + 1)

/-- Embeds `net.IP.String` (as bytes): dotted decimal for an IPv4 or IPv4-mapped address,
the compressed IPv6 text otherwise. -/
def IPString (ip : List Nat) : List Nat :=
  if ip.length = 0 then bytesOf "<nil>"
  else if ip.length ≠ 4 ∧ ip.length ≠ 16 then
    bytesOf "?" ++ ip.flatMap (fun b =>
      bytesOf (String.mk [Nat.digitChar (b / 16), Nat.digitChar (b % 16)]))
  else
    match To4 ip with
    | some p4 => bytesOf (String.intercalate "." (p4.map Itoa))
    | none =>
      let groups := v6groups ip
      let run := zeroRun groups
      appendTo6Loop groups run.1 run.2 8 0

/-- Embeds `net.JoinHostPort` -/
def JoinHostPort (host port : List Nat) : List Nat :=
  if 58 ∈ host then [91] ++ host ++ [93, 58] ++ port
  else host ++ [58] ++ port

/-- Embeds `binary.BigEndian.Uint16` -/
def BigEndianUint16 (b : List Nat) : Nat := b.getD 0 0 * 256 + b.getD 1 0

/-- Embeds `readSocksAddress` -/
def readSocksAddress (conn : Conn) (atyp : Nat) : Except SocksError (List Nat) × Conn :=
  let hostRead : Except SocksError (List Nat) × Conn :=
    if atyp = 0x01 then
      match ReadFull conn 4 with
      | (none, conn) => (.error .read, conn)
      | (some ip, conn) => (.ok (IPString ip), conn)
    else if atyp = 0x03 then
      match ReadFull conn 1 with
      | (none, conn) => (.error .read, conn)
      | (some lenBuf, conn) =>
        match ReadFull conn (lenBuf.getD 0 0) with
        | (none, conn) => (.error .read, conn)
        | (some domain, conn) => (.ok domain, conn)
    else if atyp = 0x04 then
      match ReadFull conn 16 with
      | (none, conn) => (.error .read, conn)
      | (some ip, conn) => (.ok (IPString ip), conn)
    else (.error (.message "unsupported address type"), conn)
  match hostRead with
  | (.error e, conn) => (.error e, conn)
  | (.ok host, conn) =>
    match ReadFull conn 2 with
    | (none, conn) => (.error .read, conn)
    | (some portBuf, conn) =>
      (.ok (JoinHostPort host (bytesOf (Itoa (BigEndianUint16 portBuf)))), conn)

/-- Embeds `readSocks5Target` -/
def readSocks5Target (conn : Conn) : Except SocksError (List Nat) × Conn :=
  match ReadFull conn 4 with
  | (none, conn) => (.error .read, conn)
  | (some header, conn) =>
    if header.getD 0 0 ≠ 0x05 then
      (.error (.message "invalid socks version"), writeSocks5Reply conn 0x01)
    else if header.getD 1 0 ≠ 0x01 then
      (.error (.message "unsupported socks5 command"), writeSocks5Reply conn 0x07)
    else
      match readSocksAddress conn (header.getD 3 0) with
      | (.error e, conn) => (.error e, writeSocks5Reply conn 0x08)
      | (.ok target, conn) => (.ok target, conn)

/-! ## SOCKS5 listener: `performSocks5Handshake` -/

/-- Embeds `verifySocks5Credentials`: `none` is a nil error. -/
def verifySocks5Credentials (rotator : RotatingProxy) (conn : Conn) :
    Option SocksError × Conn :=
  match ReadFull conn 2 with
  | (none, conn) => (some .read, conn)
  | (some header, conn) =>
    if header.getD 0 0 ≠ 0x01 then
      (some (.message "invalid socks5 authentication version"), conn.Write [0x01, 0x01])
    else
      let usernameLen := header.getD 1 0
      match ReadFull conn usernameLen with
      | (none, conn) => (some .read, conn)
      | (some username, conn) =>
        match ReadFull conn 1 with
        | (none, conn) => (some .read, conn)
        | (some passLen, conn) =>
          match ReadFull conn (passLen.getD 0 0) with
          | (none, conn) => (some .read, conn)
          | (some password, conn) =>
            if rotator.AuthRequired ∧ (username ≠ bytesOf rotator.AuthUsername ∨
                password ≠ bytesOf rotator.AuthPassword) then
              (some (.message "invalid socks5 credentials"), conn.Write [0x01, 0x01])
            else (none, conn.Write [0x01, 0x00])

/-- The method selection of `performSocks5Handshake`: the value of `selected` after the
loops over the offered methods (`0xff` when none is acceptable). -/
def selectSocks5Method (authRequired : Bool) (methods : List Nat) : Nat :=
  let selected : Nat := 0xff
  if authRequired then
    if methods.any (fun method => decide (method = 0x02)) then 0x02 else selected
  else
    let selected : Nat :=
      if methods.any (fun method => decide (method = 0x00)) then 0x00 else selected
    if selected = 0xff then
      if methods.any (fun method => decide (method = 0x02)) then 0x02 else selected
    else selected

/-- Embeds `performSocks5Handshake`: the target, or the error, and the connection after
the call. -/
def performSocks5Handshake (rotator : RotatingProxy) (conn : Conn) :
    Except SocksError (List Nat) × Conn :=
  match ReadFull conn 2 with
  | (none, conn) => (.error .read, conn)
  | (some header, conn) =>
    if header.getD 0 0 ≠ 0x05 then
      (.error (.message "unsupported socks version"), writeSocks5Reply conn 0x01)
    else
      match ReadFull conn (header.getD 1 0) with
      | (none, conn) => (.error .read, conn)
      | (some methods, conn) =>
        let selected := selectSocks5Method rotator.AuthRequired methods
        if selected = 0xff then
          (.error (.message "no acceptable authentication methods"), conn.Write [0x05, 0xff])
        else
          let conn := conn.Write [0x05, selected]
          let verified : Option SocksError × Conn :=
            if selected = 0x02 then verifySocks5Credentials rotator conn else (none, conn)
          match verified with
          | (some err, conn) => (.error err, conn)
          | (none, conn) => readSocks5Target conn

/-- The greeting of a SOCKS5 client offering `methods`, followed by `rest`. -/
def socks5Greeting (methods rest : List Nat) : Conn :=
  { input := [0x05, methods.length] ++ methods ++ rest, output := [] }

/-- A rotator that requires the credentials `rot-user` / `rot-pass`. -/
def authRotator : RotatingProxy :=
  { ID := 1, UserID := 1, Name := "rotator", ProtocolID := 1, ReputationLabels := [],
    UptimeFilterType := "", UptimePercentage := none, LastProxyID := none,
    LastRotationAt := none, AuthRequired := true, AuthUsername := "rot-user",
    AuthPassword := "rot-pass" }

/-- A rotator that requires no authentication. -/
def openRotator : RotatingProxy :=
  { ID := 2, UserID := 1, Name := "open", ProtocolID := 1, ReputationLabels := [],
    UptimeFilterType := "", UptimePercentage := none, LastProxyID := none,
    LastRotationAt := none }

/-- What a handler has written so far stays written: `c2` extends the output of `c1`. -/
def Conn.Extends (c1 c2 : Conn) : Prop := ∃ tail, c2.output = c1.output ++ tail

/-- The steps of `performSocks5Handshake` after the method has been selected and announced:
the credentials are verified exactly when the method is `0x02`, then the target is read. -/
def afterSelection (rotator : RotatingProxy) (selected : Nat) (conn : Conn) :
    Except SocksError (List Nat) × Conn :=
  match (if selected = 0x02 then verifySocks5Credentials rotator conn else (none, conn)) with
  | (some err, conn) => (.error err, conn)
  | (none, conn) => readSocks5Target conn

/-- The RFC 1929 request of a client: version byte, user name and password with their
lengths, followed by `rest`. -/
def socks5AuthRequest (ver : Nat) (username password rest : List Nat) : List Nat :=
  [ver, username.length] ++ (username ++ ([password.length] ++ (password ++ rest)))

/-- A `CONNECT` request for `1.1.1.1:1080`. -/
def connectRequest : List Nat := [0x05, 0x01, 0x00, 0x01, 1, 1, 1, 1, 0x04, 0x38]

/-! ## SOCKS4 listener: `handleSocks4` -/

/-- Embeds `bufio.Reader.ReadString(delim)`: the bytes up to and including the first
`delim`, or an error (`none`) when the client stops before sending one. -/
def ReadString (conn : Conn) (delim : Nat) : Option (List Nat) × Conn :=
  if delim ∈ conn.input then
    (some (conn.input.takeWhile (fun b => decide (b ≠ delim)) ++ [delim]),
      { conn with input := (conn.input.dropWhile (fun b => decide (b ≠ delim))).drop 1 })
  else (none, { conn with input := [] })

/-- Embeds `strings.TrimSuffix` on bytes. -/
def TrimSuffix (s suffix : List Nat) : List Nat :=
  if suffix.isSuffixOf s then s.take (s.length - suffix.length) else s

/-- Embeds `writeSocks4Response` -/
def writeSocks4Response (conn : Conn) (status : Nat) (port ip : List Nat) : Conn :=
  let resp := [0x00, status]
  let port := if port.length ≠ 2 then [0x00, 0x00] else port
  let ip := if ip.length ≠ 4 then [0x00, 0x00, 0x00, 0x00] else ip
  let resp := resp ++ port
  let resp := resp ++ ip
  conn.Write resp

/-- Embeds `supportedUpstream` -/
def supportedUpstream (protocol : String) : Bool :=
  decide (ToLower protocol ∈ ["http", "https", "socks4", "socks5"])

/-- What one call of a SOCKS handler did: the client connection afterwards, whether
`getNextRotatingProxyFunc` was called, the target `connectThroughUpstreamFunc` was called
with (if it was), and whether `pipeConnections` was reached. -/
structure HandlerTrace where
  conn : Conn
  upstreamRequested : Bool
  connectTarget : Option (List Nat)
  piped : Bool
  deriving DecidableEq, Repr

/-- The identifier a SOCKS4 client has to present: the user name, or
`fmt.Sprintf("%s:%s", username, password)` when the password is not empty. -/
def socks4Expected (rotator : RotatingProxy) : List Nat :=
  let expected := bytesOf rotator.AuthUsername
  if rotator.AuthPassword ≠ "" then
    bytesOf rotator.AuthUsername ++ [58] ++ bytesOf rotator.AuthPassword
  else expected

/-- Embeds `handleSocks4`. `getNextRotatingProxyFunc userID rotatorID` is the result of the
selector call and `connectThroughUpstreamFunc target next` tells whether the upstream
connection could be made. -/
def handleSocks4 (rotator : RotatingProxy)
    (getNextRotatingProxyFunc : Nat → Nat → Except RotatorError RotatingProxyNext)
    (connectThroughUpstreamFunc : List Nat → RotatingProxyNext → Bool) (conn : Conn) :
    HandlerTrace :=
  let quit (conn : Conn) (requested : Bool) (target : Option (List Nat)) : HandlerTrace :=
    { conn := conn, upstreamRequested := requested, connectTarget := target, piped := false }
  match ReadFull conn 8 with
  | (none, conn) => quit conn false none
  | (some header, conn) =>
    if header.getD 0 0 ≠ 0x04 ∨ header.getD 1 0 ≠ 0x01 then
      quit (writeSocks4Response conn 0x5B ((header.drop 2).take 2) ((header.drop 4).take 4))
        false none
    else
      let dstPort := (header.drop 2).take 2
      let dstIP := (header.drop 4).take 4
      match ReadString conn 0 with
      | (none, conn) => quit (writeSocks4Response conn 0x5B dstPort dstIP) false none
      | (some userID, conn) =>
        let userID := TrimSuffix userID [0]
        let targetHost := IPString dstIP
        let domainRead : Option (List Nat) × Conn :=
          if dstIP.getD 0 0 = 0 ∧ dstIP.getD 1 0 = 0 ∧ dstIP.getD 2 0 = 0 ∧
              dstIP.getD 3 0 ≠ 0 then
            match ReadString conn 0 with
            | (none, conn) => (none, conn)
            | (some domain, conn) => (some (TrimSuffix domain [0]), conn)
          else (some targetHost, conn)
        match domainRead with
        | (none, conn) => quit (writeSocks4Response conn 0x5B dstPort dstIP) false none
        | (some targetHost, conn) =>
          if rotator.AuthRequired ∧ userID ≠ socks4Expected rotator then
            quit (writeSocks4Response conn 0x5B dstPort dstIP) false none
          else
            let port := BigEndianUint16 dstPort
            let target := JoinHostPort targetHost (bytesOf (Itoa port))
            match getNextRotatingProxyFunc rotator.UserID rotator.ID with
            | .error _ => quit (writeSocks4Response conn 0x5B dstPort dstIP) true none
            | .ok next =>
              if !supportedUpstream next.Protocol then
                quit (writeSocks4Response conn 0x5B dstPort dstIP) true none
              else if !connectThroughUpstreamFunc target next then
                quit (writeSocks4Response conn 0x5B dstPort dstIP) true (some target)
              else
                { conn := writeSocks4Response conn 0x5A dstPort dstIP,
                  upstreamRequested := true, connectTarget := some target, piped := true }

/-- A SOCKS4 `CONNECT` request: destination port and address, the identifier with its
terminating zero byte, followed by `rest`. -/
def socks4Request (dstPort dstIP ident rest : List Nat) : Conn :=
  { input := ([0x04, 0x01] ++ dstPort ++ dstIP) ++ (ident ++ ([0] ++ rest)), output := [] }

/-- The selector stub of `TestSocks4Handler_WithUserIDAuth`. -/
def testNext : Nat → Nat → Except RotatorError RotatingProxyNext :=
  fun _ _ => .ok { ProxyID := 101, IP := "198.51.100.10", Port := 9050, Username := "",
                   Password := "", HasAuth := false, Protocol := "socks4" }

/-! ## HTTP listener: `authenticateClient` -/

/-- Embeds `strings.SplitN(s, sep, 2)` for a separator of one element: the part before the
first separator and the part after it, or `s` alone when there is no separator. -/
def SplitN {α : Type} [DecidableEq α] (s : List α) (sep : α) : List (List α) :=
  if sep ∈ s then
    [s.takeWhile (fun x => decide (x ≠ sep)), (s.dropWhile (fun x => decide (x ≠ sep))).drop 1]
  else [s]

/-- Whether the rune `c` equals the ASCII rune `t` under Unicode simple case folding: the
other case of a letter, and the two non-ASCII runes that fold to an ASCII letter (the
Kelvin sign to `k`, the long s to `s`). -/
def foldsToASCII (c t : Char) : Bool :=
  let v := t.toNat
  c = t ||
  (65 ≤ v && v ≤ 90 && c.toNat = v + 32) ||
  (97 ≤ v && v ≤ 122 && c.toNat = v - 32) ||
  ((v = 75 || v = 107) && c.toNat = 0x212A) ||
  ((v = 83 || v = 115) && c.toNat = 0x17F)

/-- Embeds `strings.EqualFold(s, t)` for an ASCII string `t`. -/
def EqualFold : List Char → List Char → Bool
  | [], [] => true
  | c :: s, d :: t => foldsToASCII c d && EqualFold s t
  | _, _ => false

/-- The decode map of `base64.StdEncoding`: the value of an alphabet character, `none` for
every other character (`0xff` in the table). -/
def decodeMap (c : Char) : Option Nat :=
  let v := c.toNat
  if 65 ≤ v ∧ v ≤ 90 then some (v - 65)
  else if 97 ≤ v ∧ v ≤ 122 then some (v - 97 + 26)
  else if 48 ≤ v ∧ v ≤ 57 then some (v - 48 + 52)
  else if v = 43 then some 62
  else if v = 47 then some 63
  else none

/-- Whether the character is `\n` or `\r`, which the decoder skips. -/
def isNewline (c : Char) : Bool := c.toNat = 10 || c.toNat = 13

/-- The end of `decodeQuantum`: the first `dlen - 1` bytes of the 24-bit value of the
sextets `dbuf` (missing sextets are zero; left-over bits are ignored, the encoding is not
strict). -/
def quantumBytes (dbuf : List Nat) (dlen : Nat) : List Nat :=
  let val := dbuf.getD 0 0 * 2 ^ 18 + dbuf.getD 1 0 * 2 ^ 12 + dbuf.getD 2 0 * 2 ^ 6 +
    dbuf.getD 3 0
  [val / 2 ^ 16 % 256, val / 2 ^ 8 % 256, val % 256].take (dlen - 1)

/-- The loop of `Encoding.Decode` over `decodeQuantum`, entered with the sextets `dbuf` of
the current quantum: the decoded bytes from here on, or `none` for a `CorruptInputError`. -/
def DecodeLoop : List Char → List Nat → Option (List Nat)
  | [], dbuf => if dbuf.length = 0 then some [] else none
  | c :: src, dbuf =>
    match decodeMap c with
    | some out =>
      if dbuf.length + 1 = 4 then
        (DecodeLoop src []).map (fun tail => quantumBytes (dbuf ++ [out]) 4 ++ tail)
      else DecodeLoop src (dbuf ++ [out])
    | none =>
      if isNewline c then DecodeLoop src dbuf
      else if c ≠ '=' then none
      else if dbuf.length = 0 ∨ dbuf.length = 1 then none
      else if dbuf.length = 2 then
        match src.dropWhile isNewline with
        | [] => none
        | c2 :: src2 =>
          if c2 ≠ '=' then none
          else if (src2.dropWhile isNewline).length > 0 then none
          else some (quantumBytes dbuf 2)
      else if (src.dropWhile isNewline).length > 0 then none
      else some (quantumBytes dbuf dbuf.length)

/-- Embeds `base64.StdEncoding.DecodeString` as far as the caller looks at it: the decoded
bytes when the error is nil, `none` otherwise. -/
def DecodeString (s : List Char) : Option (List Nat) := DecodeLoop s []

/-- The response as `authenticateClient` can change it: the header map, the status code
once written, and the body. -/
structure ResponseWriter where
  header : List (String × String)
  code : Option Nat
  body : List Nat
  deriving DecidableEq, Repr

/-- Embeds `writeProxyAuthRequired`; the first `WriteHeader` fixes the status code. -/
def writeProxyAuthRequired (w : ResponseWriter) : ResponseWriter :=
  let header := mapAssign w.header "Proxy-Authenticate" "Basic realm=\"Magpie Rotator\""
  let w := { w with header := header }
  let w := { w with code := if w.code.isNone then some 407 else w.code }
  { w with body := w.body ++ bytesOf "Proxy authentication required" }

/-- Embeds `authenticateClient`; `proxyAuthorization` is the value of
`r.Header.Get("Proxy-Authorization")`, empty when the header is missing. -/
def authenticateClient (rotator : RotatingProxy) (w : ResponseWriter)
    (proxyAuthorization : String) : Bool × ResponseWriter :=
  if !rotator.AuthRequired then (true, w)
  else
    let header := TrimSpace proxyAuthorization
    if header = "" then (false, writeProxyAuthRequired w)
    else
      let parts := SplitN header.toList ' '
      if parts.length ≠ 2 ∨ !EqualFold (parts.getD 0 []) "Basic".toList then
        (false, writeProxyAuthRequired w)
      else
        match DecodeString (parts.getD 1 []) with
        | none => (false, writeProxyAuthRequired w)
        | some decoded =>
          let creds := SplitN decoded 58
          if creds.length ≠ 2 then (false, writeProxyAuthRequired w)
          else if creds.getD 0 [] ≠ bytesOf rotator.AuthUsername ∨
              creds.getD 1 [] ≠ bytesOf rotator.AuthPassword then
            (false, writeProxyAuthRequired w)
          else (true, w)

/-- The alphabet of `base64.StdEncoding`. -/
def encodeStd : String :=
  "ABCDEFGHIJKLMNOPQRSTUVWXYZabcdefghijklmnopqrstuvwxyz0123456789+/"

/-- The standard base64 encoding with padding (RFC 4648), as the specification names it. -/
def specBase64 : List Nat → List Char
  | [] => []
  | [a] => [encodeStd.toList.getD (a / 4) 'A', encodeStd.toList.getD (a % 4 * 16) 'A', '=', '=']
  | [a, b] =>
    [encodeStd.toList.getD (a / 4) 'A', encodeStd.toList.getD (a % 4 * 16 + b / 16) 'A',
      encodeStd.toList.getD (b % 16 * 4) 'A', '=']
  | a :: b :: c :: rest =>
    [encodeStd.toList.getD (a / 4) 'A', encodeStd.toList.getD (a % 4 * 16 + b / 16) 'A',
      encodeStd.toList.getD (b % 16 * 4 + c / 64) 'A', encodeStd.toList.getD (c % 64) 'A'] ++
      specBase64 rest

/-- The header value `Basic base64(user:pass)` of the specification. -/
def specBasicHeader (username password : String) : String :=
  String.mk ("Basic ".toList ++
    specBase64 (bytesOf username ++ [58] ++ bytesOf password))

/-- A response to which nothing has been written. -/
def newRecorder : ResponseWriter := { header := [], code := none, body := [] }

/-- The rotator of `TestAuthenticateClient_SucceedsWithValidCredentials`. -/
def httpRotator : RotatingProxy :=
  { authRotator with AuthUsername := "proxy-user", AuthPassword := "proxy-pass" }

/-- A rotator whose user name contains a colon. -/
def colonRotator : RotatingProxy :=
  { authRotator with AuthUsername := "a:b", AuthPassword := "c" }

/-- The steps of `handleSocks4` after the request has been read: the identifier check, the
selector call, the upstream connection and the reply, for the parsed destination port and
address, identifier and target host, with `unread` left on the connection. -/
def afterSocks4Request (rotator : RotatingProxy)
    (getNextRotatingProxyFunc : Nat → Nat → Except RotatorError RotatingProxyNext)
    (connectThroughUpstreamFunc : List Nat → RotatingProxyNext → Bool)
    (dstPort dstIP userID targetHost unread : List Nat) : HandlerTrace :=
  let conn : Conn := { input := unread, output := [] }
  let quit (conn : Conn) (requested : Bool) (target : Option (List Nat)) : HandlerTrace :=
    { conn := conn, upstreamRequested := requested, connectTarget := target, piped := false }
  if rotator.AuthRequired ∧ userID ≠ socks4Expected rotator then
    quit (writeSocks4Response conn 0x5B dstPort dstIP) false none
  else
    let port := BigEndianUint16 dstPort
    let target := JoinHostPort targetHost (bytesOf (Itoa port))
    match getNextRotatingProxyFunc rotator.UserID rotator.ID with
    | .error _ => quit (writeSocks4Response conn 0x5B dstPort dstIP) true none
    | .ok next =>
      if !supportedUpstream next.Protocol then
        quit (writeSocks4Response conn 0x5B dstPort dstIP) true none
      else if !connectThroughUpstreamFunc target next then
        quit (writeSocks4Response conn 0x5B dstPort dstIP) true (some target)
      else
        { conn := writeSocks4Response conn 0x5A dstPort dstIP,
          upstreamRequested := true, connectTarget := some target, piped := true }

/-! ## SOCKS5 listener: `handleSocks5` -/

/-- Embeds `writeSocks5Success`; `addr` is the local address of the upstream connection: the
address bytes (empty for a nil `IP`) and the port of a `*net.TCPAddr`, or `none` for any
other kind of address. -/
def writeSocks5Success (conn : Conn) (addr : Option (List Nat × Nat)) : Conn :=
  match addr with
  | some (ip, port) =>
    let ip := if ip.length = 0 then IPv4zero else ip
    writeSocks5BoundReply conn 0x00 ip (port % 2 ^ 16)
  | none => writeSocks5BoundReply conn 0x00 IPv4zero 0

/-- Embeds `handleSocks5`. `getNextRotatingProxyFunc userID rotatorID` is the result of the
selector call; `connectThroughUpstreamFunc target next` is `none` when the upstream
connection fails and the local address of the connection otherwise. -/
def handleSocks5 (rotator : RotatingProxy)
    (getNextRotatingProxyFunc : Nat → Nat → Except RotatorError RotatingProxyNext)
    (connectThroughUpstreamFunc : List Nat → RotatingProxyNext → Option (Option (List Nat × Nat)))
    (conn : Conn) : HandlerTrace :=
  match performSocks5Handshake rotator conn with
  | (.error _, conn) =>
    { conn := conn, upstreamRequested := false, connectTarget := none, piped := false }
  | (.ok target, conn) =>
    match getNextRotatingProxyFunc rotator.UserID rotator.ID with
    | .error _ =>
      { conn := writeSocks5Reply conn 0x01, upstreamRequested := true, connectTarget := none,
        piped := false }
    | .ok next =>
      if !supportedUpstream next.Protocol then
        { conn := writeSocks5Reply conn 0x07, upstreamRequested := true,
          connectTarget := none, piped := false }
      else
        match connectThroughUpstreamFunc target next with
        | none =>
          { conn := writeSocks5Reply conn 0x05, upstreamRequested := true,
            connectTarget := some target, piped := false }
        | some localAddr =>
          { conn := writeSocks5Success conn localAddr, upstreamRequested := true,
            connectTarget := some target, piped := true }

/-- Whether the bytes `tail` that follow the request header hold a complete address of type
`atyp` and the two port bytes (named after the words of the specification: a request that
is not cut short). -/
def specAddressComplete (atyp : Nat) (tail : List Nat) : Bool :=
  if atyp = 0x01 then decide (6 ≤ tail.length)
  else if atyp = 0x04 then decide (18 ≤ tail.length)
  else if atyp = 0x03 then decide (1 ≤ tail.length ∧ 1 + tail.getD 0 0 + 2 ≤ tail.length)
  else false

/-- The fixed shape of a failure reply: `05 <code> 00 01` and six zero bytes. -/
def specFailureReply (code : Nat) : List Nat := [0x05, code, 0x00, 0x01, 0, 0, 0, 0, 0, 0]

/-- A selector that finds no alive proxy. -/
def failingNext : Nat → Nat → Except RotatorError RotatingProxyNext :=
  fun _ _ => .error .ErrRotatingProxyNoAliveProxies

/-! ## Rotating proxy server: `manager.go` and the dispatch of `socksProxyHandler.handle` -/

/-- Embeds `support.NormalizeTransportProtocol` -/
def NormalizeTransportProtocol (value : String) : String :=
  let value := ToLower (TrimSpace value)
  if value ∈ ["tcp", "quic", "http3"] then value else "tcp"

/-- Embeds `isSocksProtocol` -/
def isSocksProtocol (name : String) : Bool :=
  decide (ToLower (TrimSpace name) ∈ ["socks4", "socks5"])

/-- Embeds `listenProtocolName` -/
def listenProtocolName (rotator : RotatingProxy) : String :=
  if TrimSpace rotator.ListenProtocol.Name ≠ "" then TrimSpace rotator.ListenProtocol.Name
  else TrimSpace rotator.Protocol.Name

/-- Embeds `listenTransportProtocolName` -/
def listenTransportProtocolName (rotator : RotatingProxy) : String :=
  if TrimSpace rotator.ListenTransportProtocol ≠ "" then
    NormalizeTransportProtocol (TrimSpace rotator.ListenTransportProtocol)
  else if TrimSpace rotator.TransportProtocol ≠ "" then
    NormalizeTransportProtocol (TrimSpace rotator.TransportProtocol)
  else "tcp"

/-- The server that `proxyServer.Start` starts. -/
inductive ServerKind where
  | startHTTP3Server (transport : String)
  | startSocksServer
  | startHTTPServer
  deriving DecidableEq, Repr

/-- Embeds `proxyServer.Start`: which server is started, or the error; opening the listener
is taken to succeed. -/
def Start (rotator : RotatingProxy) : Except String ServerKind :=
  let transport := listenTransportProtocolName rotator
  if transport = "quic" ∨ transport = "http3" then
    if isSocksProtocol (listenProtocolName rotator) then
      .error "socks rotators require tcp transport"
    else .ok (.startHTTP3Server transport)
  else
    if isSocksProtocol (listenProtocolName rotator) then .ok .startSocksServer
    else .ok .startHTTPServer

/-- Embeds `socksProxyHandler.handle`, which every connection accepted by
`startSocksServer` is given to. The SOCKS4 handler only looks at whether the upstream
connection could be made. -/
def handle (rotator : RotatingProxy)
    (getNextRotatingProxyFunc : Nat → Nat → Except RotatorError RotatingProxyNext)
    (connectThroughUpstreamFunc : List Nat → RotatingProxyNext → Option (Option (List Nat × Nat)))
    (conn : Conn) : HandlerTrace :=
  if ToLower (TrimSpace rotator.Protocol.Name) = "socks4" then
    handleSocks4 rotator getNextRotatingProxyFunc
      (fun target next => (connectThroughUpstreamFunc target next).isSome) conn
  else
    handleSocks5 rotator getNextRotatingProxyFunc connectThroughUpstreamFunc conn

/-- A rotator over HTTP upstream proxies that listens for SOCKS4 clients. -/
def socks4OverHttp : RotatingProxy :=
  { openRotator with Protocol := { ID := 1, Name := "http" }, ListenProtocolID := 3,
                     ListenProtocol := { ID := 3, Name := "socks4" },
                     TransportProtocol := "tcp", ListenTransportProtocol := "tcp" }

/-- A rotator over SOCKS4 upstream proxies that listens for SOCKS5 clients. -/
def socks5OverSocks4 : RotatingProxy :=
  { openRotator with ProtocolID := 3, Protocol := { ID := 3, Name := "socks4" },
                     ListenProtocolID := 4, ListenProtocol := { ID := 4, Name := "socks5" },
                     TransportProtocol := "tcp", ListenTransportProtocol := "tcp" }

/-! ## Rotator creation: `CreateRotatingProxy` -/

/-- Embeds `dto.RotatingProxyCreateRequest` -/
structure RotatingProxyCreateRequest where
  Name : String
  InstanceID : String := ""
  InstanceName : String := ""
  InstanceRegion : String := ""
  Protocol : String
  ListenProtocol : String := ""
  TransportProtocol : String := ""
  ListenTransportProtocol : String := ""
  UptimeFilterType : String := ""
  UptimePercentage : Option Float64 := none
  AuthRequired : Bool := false
  AuthUsername : String := ""
  AuthPassword : String := ""
  ReputationLabels : List String := []
  deriving DecidableEq

/-- The fields of `dto.RotatingProxy` that `CreateRotatingProxy` fills in. -/
structure CreatedRotatingProxy where
  ID : Nat
  Name : String
  InstanceID : String
  Protocol : String
  ListenProtocol : String
  TransportProtocol : String
  ListenTransportProtocol : String
  UptimeFilterType : String
  UptimePercentage : Option Float64
  AliveProxyCount : Nat
  ListenPort : Nat
  AuthRequired : Bool
  AuthUsername : String
  AuthPassword : String
  ReputationLabels : List String
  deriving DecidableEq

/-- The errors `CreateRotatingProxy` returns on an initialised, reachable database;
`userNotFound` is the `fmt.Errorf("rotating proxy: user %d not found", userID)`. -/
inductive CreateError where
  | ErrRotatingProxyNameRequired
  | ErrRotatingProxyNameTooLong
  | ErrRotatingProxyProtocolMissing
  | ErrRotatingProxyAuthUsernameNeeded
  | ErrRotatingProxyAuthPasswordNeeded
  | uptimeFilter (err : UptimeFilterError)
  | userNotFound
  | ErrRotatingProxyProtocolDenied
  | ErrRotatingProxyPortExhausted
  deriving DecidableEq, Repr

/-- What `CreateRotatingProxy` takes from the process: the value of `support.GetInstanceID()`,
the bounds of `support.GetRotatingProxyPortRange()` and the permutation that `r.Shuffle`
applies to the candidate ports. They are not part of the sources at hand. -/
structure CreateEnv where
  instanceID : String
  portStart : Int
  portEnd : Int
  shuffle : List Int → List Int

/-- Embeds `rotatingProxyNameMaxLength` -/
def rotatingProxyNameMaxLength : Nat := 120

/-- Embeds `fetchProtocolByName`: `Where("LOWER(name) = ?", strings.ToLower(name)).First`,
the matching row with the least id. -/
def fetchProtocolByName (db : Database) (name : String) : Option Protocol :=
  ((db.protocols.filter (fun p => decide (ToLower p.Name = ToLower name))).insertionSort
    (fun a b => a.ID ≤ b.ID)).head?

/-- Embeds `isProtocolEnabledForUser` -/
def isProtocolEnabledForUser (user : User) (protocolName : String) : Bool :=
  if protocolName = "http" then user.HTTPProtocol
  else if protocolName = "https" then user.HTTPSProtocol
  else if protocolName = "socks4" then user.SOCKS4Protocol
  else if protocolName = "socks5" then user.SOCKS5Protocol
  else false

/-- Embeds `allocateListenPort`: the first port of the shuffled range that no rotator of
the instance listens on. -/
def allocateListenPort (env : CreateEnv) (db : Database) (instanceID : String) :
    Except CreateError Nat :=
  if env.portStart ≤ 0 ∨ env.portEnd ≤ 0 then .error .ErrRotatingProxyPortExhausted
  else
    let count := env.portEnd - env.portStart + 1
    if count ≤ 0 then .error .ErrRotatingProxyPortExhausted
    else
      let ports := (List.range count.toNat).map (fun i => env.portStart + (i : Int))
      let ports := env.shuffle ports
      match ports.find? (fun port =>
          decide ((db.rotatingProxies.filter (fun r =>
            decide (r.InstanceID = instanceID) && decide ((r.ListenPort : Int) = port))).length
              = 0)) with
      | some port => .ok (port % 2 ^ 16).toNat
      | none => .error .ErrRotatingProxyPortExhausted

/-- Embeds `RotatingProxy.BeforeSave` on the columns of the model; the stored password is
the one `AfterFind` decrypts again. -/
def BeforeSave (env : CreateEnv) (rp : RotatingProxy) : RotatingProxy :=
  let instanceID := if TrimSpace rp.InstanceID = "" then env.instanceID else rp.InstanceID
  let listenProtocolID := if rp.ListenProtocolID = 0 then rp.ProtocolID else rp.ListenProtocolID
  let transport := ToLower (TrimSpace rp.TransportProtocol)
  let transport := if transport = "" then "tcp" else transport
  let listenTransport := ToLower (TrimSpace rp.ListenTransportProtocol)
  let listenTransport := if listenTransport = "" then transport else listenTransport
  let password := if rp.AuthRequired ∧ rp.AuthPassword ≠ "" then rp.AuthPassword else ""
  { rp with InstanceID := instanceID, ListenProtocolID := listenProtocolID,
            TransportProtocol := transport, ListenTransportProtocol := listenTransport,
            AuthPassword := password }

/-- Embeds `tx.Create(&entity)` on `rotating_proxies`: the row gets the next id. The two
columns of the one unique index, instance and port, are free by `allocateListenPort`, so the
insert is taken to succeed. -/
def createRotatingProxyRow (env : CreateEnv) (db : Database) (entity : RotatingProxy) :
    RotatingProxy × Database :=
  let id := (db.rotatingProxies.map (·.ID)).foldl max 0 + 1
  let row := BeforeSave env { entity with ID := id }
  (row, { db with rotatingProxies := db.rotatingProxies ++ [row] })

/-- Embeds `CreateRotatingProxy` on an initialised database: the result and the database
afterwards (unchanged when the transaction returns an error). -/
def CreateRotatingProxy (env : CreateEnv) (db : Database) (userID : Nat)
    (payload : RotatingProxyCreateRequest) :
    Except CreateError CreatedRotatingProxy × Database :=
  let name := TrimSpace payload.Name
  if name = "" then (.error .ErrRotatingProxyNameRequired, db)
  else if (bytesOf name).length > rotatingProxyNameMaxLength then
    (.error .ErrRotatingProxyNameTooLong, db)
  else
    let protocolName := ToLower (TrimSpace payload.Protocol)
    if protocolName = "" then (.error .ErrRotatingProxyProtocolMissing, db)
    else
      let listenProtocolName := ToLower (TrimSpace payload.ListenProtocol)
      let listenProtocolName := if listenProtocolName = "" then protocolName
        else listenProtocolName
      let transportProtocol := NormalizeTransportProtocol payload.TransportProtocol
      let listenTransportProtocol :=
        if TrimSpace payload.ListenTransportProtocol = "" then transportProtocol
        else NormalizeTransportProtocol payload.ListenTransportProtocol
      let instanceID := if TrimSpace payload.InstanceID = "" then env.instanceID
        else TrimSpace payload.InstanceID
      if payload.AuthRequired ∧ TrimSpace payload.AuthUsername = "" then
        (.error .ErrRotatingProxyAuthUsernameNeeded, db)
      else if payload.AuthRequired ∧ TrimSpace payload.AuthPassword = "" then
        (.error .ErrRotatingProxyAuthPasswordNeeded, db)
      else
        match validateRotatorUptimeFilter payload.UptimeFilterType payload.UptimePercentage with
        | .error err => (.error (.uptimeFilter err), db)
        | .ok (uptimeFilterType, uptimePercentage) =>
          match db.users.find? (fun u => decide (u.ID = userID)) with
          | none => (.error .userNotFound, db)
          | some user =>
            match fetchProtocolByName db protocolName with
            | none => (.error .ErrRotatingProxyProtocolDenied, db)
            | some proxyProtocol =>
              if !isProtocolEnabledForUser user protocolName then
                (.error .ErrRotatingProxyProtocolDenied, db)
              else
                match fetchProtocolByName db listenProtocolName with
                | none => (.error .ErrRotatingProxyProtocolDenied, db)
                | some listenProtocol =>
                  let filters := sanitizeRotatorReputationLabels payload.ReputationLabels
                  match allocateListenPort env db instanceID with
                  | .error err => (.error err, db)
                  | .ok listenPort =>
                    let entity : RotatingProxy :=
                      { ID := 0, UserID := userID, Name := name,
                        ProtocolID := proxyProtocol.ID, ReputationLabels := filters,
                        UptimeFilterType := uptimeFilterType,
                        UptimePercentage := uptimePercentage, LastProxyID := none,
                        LastRotationAt := none, AuthRequired := payload.AuthRequired,
                        AuthUsername := TrimSpace payload.AuthUsername,
                        AuthPassword := payload.AuthPassword, InstanceID := instanceID,
                        ListenProtocolID := listenProtocol.ID,
                        TransportProtocol := transportProtocol,
                        ListenTransportProtocol := listenTransportProtocol,
                        ListenPort := listenPort }
                    let created := createRotatingProxyRow env db entity
                    let aliveProxies := aliveProxiesForProtocol created.2 userID
                      proxyProtocol.ID filters uptimeFilterType uptimePercentage
                    (.ok
                      { ID := created.1.ID, Name := created.1.Name,
                        InstanceID := created.1.InstanceID, Protocol := proxyProtocol.Name,
                        ListenProtocol := listenProtocol.Name,
                        TransportProtocol := transportProtocol,
                        ListenTransportProtocol := listenTransportProtocol,
                        UptimeFilterType := uptimeFilterType,
                        UptimePercentage := uptimePercentage,
                        AliveProxyCount := aliveProxies.length,
                        ListenPort := created.1.ListenPort,
                        AuthRequired := created.1.AuthRequired,
                        AuthUsername := created.1.AuthUsername,
                        AuthPassword := TrimSpace payload.AuthPassword,
                        ReputationLabels := filters },
                      created.2)

/-- Embeds `normalizeRotatingProxyProtocols` on the fields the server reads. -/
def normalizeRotatingProxyProtocols (env : CreateEnv) (rotator : RotatingProxy) :
    RotatingProxy :=
  let listenProtocolID :=
    if rotator.ListenProtocolID = 0 then rotator.ProtocolID else rotator.ListenProtocolID
  let listenProtocol :=
    if TrimSpace rotator.ListenProtocol.Name = "" then rotator.Protocol
    else rotator.ListenProtocol
  let transportProtocol := NormalizeTransportProtocol rotator.TransportProtocol
  let listenTransportProtocol :=
    if TrimSpace rotator.ListenTransportProtocol = "" then transportProtocol
    else NormalizeTransportProtocol rotator.ListenTransportProtocol
  let filter := normalizeRotatorUptimeFilter rotator.UptimeFilterType rotator.UptimePercentage
  let instanceID := if TrimSpace rotator.InstanceID = "" then env.instanceID
    else rotator.InstanceID
  { rotator with ListenProtocolID := listenProtocolID, ListenProtocol := listenProtocol,
                 TransportProtocol := transportProtocol,
                 ListenTransportProtocol := listenTransportProtocol,
                 UptimeFilterType := filter.1, UptimePercentage := filter.2,
                 InstanceID := instanceID }

/-- Embeds `GetRotatingProxyByID`: the row of this instance with its two protocols
preloaded, normalised. -/
def GetRotatingProxyByID (env : CreateEnv) (db : Database) (rotatorID : Nat) :
    Option RotatingProxy :=
  match db.rotatingProxies.find? (fun r =>
      decide (r.ID = rotatorID) && decide (r.InstanceID = env.instanceID)) with
  | none => none
  | some row =>
    let loaded := { row with Protocol := preloadProtocol db row.ProtocolID,
                             ListenProtocol := preloadProtocol db row.ListenProtocolID }
    some (normalizeRotatingProxyProtocols env loaded)

/-- The process of the scenario: instance `node-1`, ports 20000 to 20010, tried in
ascending order. -/
def scenarioEnv : CreateEnv :=
  { instanceID := "node-1", portStart := 20000, portEnd := 20010, shuffle := id }

/-- A database with the four protocols and one user who enabled HTTP and SOCKS5. -/
def createScenario : Database :=
  { emptyDatabase with
    protocols := [{ ID := 1, Name := "http" }, { ID := 2, Name := "https" },
      { ID := 3, Name := "socks4" }, { ID := 4, Name := "socks5" }],
    users := [{ ID := 7, HTTPProtocol := true, HTTPSProtocol := false,
                SOCKS4Protocol := false, SOCKS5Protocol := true, Timeout := 7500,
                Retries := 2, UseHttpsForSocks := true }] }

/-- A create request for a rotator that listens for SOCKS5 clients on QUIC. -/
def socksOnQuicRequest : RotatingProxyCreateRequest :=
  { Name := "socks-on-quic", Protocol := "http", ListenProtocol := "socks5",
    ListenTransportProtocol := "quic" }

/-- What `CreateRotatingProxy` returns for `socksOnQuicRequest` in the scenario. -/
def socksOnQuicCreated : CreatedRotatingProxy :=
  { ID := 1, Name := "socks-on-quic", InstanceID := "node-1", Protocol := "http",
    ListenProtocol := "socks5", TransportProtocol := "tcp",
    ListenTransportProtocol := "quic", UptimeFilterType := "", UptimePercentage := none,
    AliveProxyCount := 0, ListenPort := 20000, AuthRequired := false, AuthUsername := "",
    AuthPassword := "", ReputationLabels := [] }

/-! ## Proxy identity: `Proxy.GenerateHash` and `deduplicateProxies` -/

/-- The string that `GenerateHash` feeds to SHA-256:
`strings.ToLower(fmt.Sprintf("%s|%d|%s|%s", ip, port, username, password))`. The case
tables of `unicode.ToLower` are not part of the sources at hand: `lower` is the mapping of
one rune. -/
def hashInput (lower : Char → Char) (proxy : Proxy) : String :=
  String.mk ((proxy.GetIp ++ "|" ++ Itoa proxy.Port ++ "|" ++ proxy.Username ++ "|" ++
    proxy.Password).toList.map lower)

/-- Embeds `Proxy.GenerateHash`; `sha256` is `sha256.Sum256` on bytes. -/
def Proxy.GenerateHash (sha256 : List Nat → List Nat) (lower : Char → Char) (proxy : Proxy) :
    Proxy :=
  { proxy with Hash := sha256 (bytesOf (hashInput lower proxy)) }

/-- The body of the loop of `deduplicateProxies`: the state is the key set `seen` and the
slice `unique`. -/
def deduplicateStep (sha256 : List Nat → List Nat) (lower : Char → Char)
    (state : List (List Nat) × List Proxy) (p : Proxy) : List (List Nat) × List Proxy :=
  let p := p.GenerateHash sha256 lower
  let key := p.Hash
  if key ∈ state.1 then state else (key :: state.1, state.2 ++ [p])

/-- Embeds `deduplicateProxies` -/
def deduplicateProxies (sha256 : List Nat → List Nat) (lower : Char → Char)
    (proxies : List Proxy) : List Proxy :=
  (proxies.foldl (deduplicateStep sha256 lower) ([], [])).2

/-- Two proxies at the same address whose user name and password differ, but whose hashed
strings are both `1.1.1.1|80|a|b|c`. -/
def pipeProxyA : Proxy := { ID := 0, IP := "1.1.1.1", Port := 80, Username := "a|b", Password := "c" }

/-- See `pipeProxyA`. -/
def pipeProxyB : Proxy := { ID := 0, IP := "1.1.1.1", Port := 80, Username := "a", Password := "b|c" }

/-! ## Decimal numbers: `strconv.Atoi` -/

/-- The value of a run of decimal digit bytes, read left to right as `strconv.Atoi` does
(`n = n*10 + int(ch - '0')`). -/
def decimalValue (digits : List Nat) : Nat :=
  digits.foldl (fun n ch => n * 10 + (ch - 48)) 0

/-- Embeds `strconv.Atoi` on the bytes of a string: an optional sign, then one or more
decimal digits and nothing else; a value outside the 64-bit `int` range is an error. -/
def Atoi (s : List Nat) : Option Int :=
  let neg := s.head? = some 45
  let digits := if s.head? = some 45 ∨ s.head? = some 43 then s.tail else s
  if digits = [] then none
  else if digits.all (fun ch => decide (48 ≤ ch ∧ ch ≤ 57)) then
    let n : Int := decimalValue digits
    let v := if neg then -n else n
    if v < -(2 ^ 63) ∨ 2 ^ 63 - 1 < v then none else some v
  else none

/-- The decimal digits of `n` as bytes. -/
def digitsOf (n : Nat) : List Nat := (Nat.toDigits 10 n).map Char.toNat

/-! ## Textual IP addresses: `net.ParseIP` -/

/-- Embeds the loop of `netip.parseIPv4Fields` over the bytes that are left: `prev` is the
byte before the current one (`none` at index 0), `val`, `pos` and `digLen` are the loop
variables and `fields` holds the octets stored so far. `none` is an error. -/
def parseIPv4FieldsLoop : List Nat → Option Nat → Nat → Nat → Nat → List Nat →
    Option (List Nat)
  | [], _, val, pos, _, fields => if pos < 3 then none else some (fields ++ [val])
  | c :: rest, prev, val, pos, digLen, fields =>
    if 48 ≤ c ∧ c ≤ 57 then
      if digLen = 1 ∧ val = 0 then none
      else if val * 10 + (c - 48) > 255 then none
      else parseIPv4FieldsLoop rest (some c) (val * 10 + (c - 48)) pos (digLen + 1) fields
    else if c = 46 then
      if prev = none ∨ rest = [] ∨ prev = some 46 then none
      else if pos = 3 then none
      else parseIPv4FieldsLoop rest (some c) 0 (pos + 1) 0 (fields ++ [val])
    else none

/-- Embeds `netip.parseIPv4Fields` on a whole string. -/
def parseIPv4Fields (s : List Nat) : Option (List Nat) :=
  parseIPv4FieldsLoop s none 0 0 0 []

/-- The value of a hexadecimal digit byte. -/
def hexValue (c : Nat) : Option Nat :=
  if 48 ≤ c ∧ c ≤ 57 then some (c - 48)
  else if 97 ≤ c ∧ c ≤ 102 then some (c - 97 + 10)
  else if 65 ≤ c ∧ c ≤ 70 then some (c - 65 + 10)
  else none

/-- Embeds the inner loop of `netip.parseIPv6` that reads one hexadecimal group: the result
is the number of digits read, their value and the rest of the string; `none` is an error
(more than four digits). -/
def parseHexGroup : List Nat → Nat → Nat → Option (Nat × Nat × List Nat)
  | [], off, acc => some (off, acc, [])
  | c :: rest, off, acc =>
    match hexValue c with
    | none => some (off, acc, c :: rest)
    | some d =>
      if off > 3 then none
      else if acc * 16 + d > 0xffff then none
      else parseHexGroup rest (off + 1) (acc * 16 + d)

/-- Embeds the outer loop of `netip.parseIPv6` (`for i < 16`): `s` is the rest of the
string, `ip` the `i` bytes stored so far, `ellipsis` the position of `::` if it was seen.
The result is the state at the exit of the loop; `none` is an error. Every round stores two
bytes, so eight rounds are enough. -/
def parseIPv6Loop : Nat → List Nat → Nat → Option Nat → List Nat →
    Option (List Nat × Nat × Option Nat × List Nat)
  | 0, s, i, ellipsis, ip => some (s, i, ellipsis, ip)
  | fuel + 1, s, i, ellipsis, ip =>
    if ¬ i < 16 then some (s, i, ellipsis, ip)
    else
      match parseHexGroup s 0 0 with
      | none => none
      | some (off, acc, rest) =>
        if off = 0 then none
        else if rest.head? = some 46 then
          if ellipsis = none ∧ i ≠ 12 then none
          else if i + 4 > 16 then none
          else
            match parseIPv4Fields s with
            | none => none
            | some fields => some ([], i + 4, ellipsis, ip ++ fields)
        else
          let ip := ip ++ [acc / 256, acc % 256]
          let i := i + 2
          if rest = [] then some ([], i, ellipsis, ip)
          else if rest.head? ≠ some 58 then none
          else if rest.length = 1 then none
          else
            let s := rest.tail
            if s.head? = some 58 then
              if ellipsis ≠ none then none
              else if s.tail = [] then some ([], i, some i, ip)
              else parseIPv6Loop fuel s.tail i (some i) ip
            else parseIPv6Loop fuel s i ellipsis ip

/-- Embeds `netip.parseIPv6` for a string without a zone: the sixteen bytes of the
address. -/
def parseIPv6 (s : List Nat) : Option (List Nat) :=
  let lead : Bool := decide (2 ≤ s.length ∧ s.getD 0 0 = 58 ∧ s.getD 1 0 = 58)
  let ellipsis : Option Nat := if lead then some 0 else none
  let s := if lead then s.drop 2 else s
  if lead ∧ s = [] then some (List.replicate 16 0)
  else
    match parseIPv6Loop 8 s 0 ellipsis [] with
    | none => none
    | some (s, i, ellipsis, ip) =>
      if s ≠ [] then none
      else if i < 16 then
        match ellipsis with
        | none => none
        | some e => some (ip.take e ++ List.replicate (16 - i) 0 ++ ip.drop e)
      else if ellipsis ≠ none then none
      else some ip

/-- Embeds `net.ParseIP` (through `netip.ParseAddr`): the first `.`, `:` or `%` of the
string selects the parser; the result is the 16-byte form, an IPv4 address as an
IPv4-mapped one. A string with a zone (`%`) is never accepted: either `parseIPv6` fails
or `ParseIP` rejects the zone. -/
def ParseIP (s : List Nat) : Option (List Nat) :=
  match s.find? (fun c => decide (c = 46 ∨ c = 58 ∨ c = 37)) with
  | some 46 => (parseIPv4Fields s).map (fun v4 => List.replicate 10 0 ++ [0xff, 0xff] ++ v4)
  | some 58 => if 37 ∈ s then none else parseIPv6 s
  | _ => none

/-- The Go string of ASCII bytes. -/
def stringOf (b : List Nat) : String := String.mk (b.map Char.ofNat)

/-! ## Host and port: `net.SplitHostPort`, `splitTargetAddress` -/

/-- Embeds `bytealg.IndexByteString`: the index of the first `c`. -/
def indexByte (s : List Nat) (c : Nat) : Option Nat :=
  if c ∈ s then some (s.takeWhile (fun b => decide (b ≠ c))).length else none

/-- Embeds `bytealg.LastIndexByteString`: the index of the last `c`. -/
def lastIndexByte (s : List Nat) (c : Nat) : Option Nat :=
  if c ∈ s then some (s.length - 1 - (s.reverse.takeWhile (fun b => decide (b ≠ c))).length)
  else none

/-- Embeds `net.SplitHostPort`: host and port, or `none` for an error. -/
def SplitHostPort (hostport : List Nat) : Option (List Nat × List Nat) :=
  match lastIndexByte hostport 58 with
  | none => none
  | some i =>
    let bracket : Option (List Nat × Nat × Nat) :=
      if hostport.head? = some 91 then
        match indexByte hostport 93 with
        | none => none
        | some e =>
          if e + 1 = hostport.length then none
          else if e + 1 = i then some ((hostport.take e).drop 1, 1, e + 1)
          else none
      else
        let host := hostport.take i
        if 58 ∈ host then none else some (host, 0, 0)
    match bracket with
    | none => none
    | some (host, j, k) =>
      if 91 ∈ hostport.drop j then none
      else if 93 ∈ hostport.drop k then none
      else some (host, hostport.drop (i + 1))

/-- Embeds `splitTargetAddress`: the host and the port number. -/
def splitTargetAddress (target : List Nat) : Option (List Nat × Nat) :=
  match SplitHostPort target with
  | none => none
  | some (host, portStr) =>
    match Atoi portStr with
    | none => none
    | some port => if port < 0 ∨ port > 65535 then none else some (host, port.toNat)

/-- Embeds `encodeSocksAddress`: the address type, the address bytes and the port bytes. -/
def encodeSocksAddress (host : List Nat) (port : Nat) :
    Except String (Nat × List Nat × List Nat) :=
  let portBytes := [port / 256 % 256, port % 256]
  let ipResult : Option (Nat × List Nat × List Nat) :=
    match ParseIP host with
    | none => none
    | some ip =>
      match To4 ip with
      | some v4 => some (0x01, v4, portBytes)
      | none =>
        match To16 ip with
        | some v6 => some (0x04, v6, portBytes)
        | none => none
  match ipResult with
  | some r => .ok r
  | none =>
    if host = [] then .error "empty host"
    else if host.length > 255 then .error "hostname too long"
    else .ok (0x03, [host.length % 256] ++ host, portBytes)

/-- The dotted text of four octets, as `net.IP.String` writes it. -/
def dotted (a b c d : Nat) : List Nat :=
  digitsOf a ++ 46 :: (digitsOf b ++ 46 :: (digitsOf c ++ 46 :: digitsOf d))

/-! ## Upstream SOCKS4: `performSocks4UpstreamConnect` -/

/-- The identifier that an upstream SOCKS4 request carries: empty without credentials, else
the user name, or `fmt.Sprintf("%s:%s", username, password)` when the password is not
empty. -/
def socks4UserField (next : RotatingProxyNext) : List Nat :=
  if next.HasAuth then
    if next.Password ≠ "" then bytesOf next.Username ++ [58] ++ bytesOf next.Password
    else bytesOf next.Username
  else []

/-- Embeds `performSocks4UpstreamConnect` on the upstream connection `conn`: what is written
to the upstream is appended to `conn.output`, its answer is read from `conn.input`. The
error of `splitTargetAddress` is `.message "invalid target address"` here. -/
def performSocks4UpstreamConnect (conn : Conn) (target : List Nat) (next : RotatingProxyNext) :
    Except SocksError Unit × Conn :=
  match splitTargetAddress target with
  | none => (.error (.message "invalid target address"), conn)
  | some (host, port) =>
    let ip := ParseIP host
    let ipBytes := ip.bind To4
    let domain : List Nat := if ipBytes = none then host else []
    let ipBytes := if ipBytes = none then some [0x00, 0x00, 0x00, 0x01] else ipBytes
    let req := [0x04, 0x01]
    let portBytes := [port / 256 % 256, port % 256]
    let req := req ++ portBytes
    let req := req ++ ipBytes.getD []
    let req :=
      if next.HasAuth then
        let userField :=
          if next.Password ≠ "" then bytesOf next.Username ++ [58] ++ bytesOf next.Password
          else bytesOf next.Username
        req ++ userField
      else req
    let req := req ++ [0x00]
    let req := if domain ≠ [] then req ++ domain ++ [0x00] else req
    let conn := conn.Write req
    match ReadFull conn 8 with
    | (none, conn) => (.error .read, conn)
    | (some resp, conn) =>
      if resp.length < 2 ∨ resp.getD 1 0 ≠ 0x5A then
        (.error (.message "socks4 connect failed"), conn)
      else (.ok (), conn)

/-- An upstream SOCKS4 proxy with credentials. -/
def socks4Upstream : RotatingProxyNext :=
  { ProxyID := 1, IP := "198.51.100.10", Port := 1080, Username := "u", Password := "p",
    HasAuth := true, Protocol := "socks4" }

/-! ## Proxy lists: `ParseTextToProxies` -/

/-- The loop of `strings.ReplaceAll(s, old, new)` for a non-empty `old`: the matches are
replaced from left to right and do not overlap; `skip` counts the runes of the last match
that are still to be dropped. -/
def replaceAllLoop (old new : List Char) : List Char → Nat → List Char
  | [], _ => []
  | _ :: rest, skip + 1 => replaceAllLoop old new rest skip
  | c :: rest, 0 =>
    if old.isPrefixOf (c :: rest) then new ++ replaceAllLoop old new rest (old.length - 1)
    else c :: replaceAllLoop old new rest 0

/-- Embeds `strings.ReplaceAll` for a non-empty `old`. -/
def ReplaceAll (s old new : String) : String :=
  String.mk (replaceAllLoop old.toList new.toList s.toList 0)

/-- The pieces of a rune list between the occurrences of `sep`. -/
def splitRunes (sep : Char) : List Char → List (List Char)
  | [] => [[]]
  | c :: rest =>
    if c = sep then [] :: splitRunes sep rest
    else
      match splitRunes sep rest with
      | [] => [[c]]
      | piece :: pieces => (c :: piece) :: pieces

/-- Embeds `strings.Split(s, sep)` for a separator of one rune. -/
def Split (s : String) (sep : Char) : List String :=
  (splitRunes sep s.toList).map String.mk

/-- Embeds `cleanProxyString` -/
def cleanProxyString (proxies : String) (replaceAuthDelimiter : Bool) : String :=
  let proxies := if replaceAuthDelimiter then ReplaceAll proxies "@" ";" else proxies
  let proxies := ReplaceAll proxies "\r" ""
  let proxies := ReplaceAll proxies ".0" "."
  let proxies := ReplaceAll proxies ".." ".0."
  let proxies := ReplaceAll proxies ".:" ".0:"
  proxies

/-- Embeds `clearProxyString` -/
def clearProxyString (proxies : String) : String := cleanProxyString proxies true

/-- Embeds `clearProxyStringPreserveAuth` -/
def clearProxyStringPreserveAuth (proxies : String) : String := cleanProxyString proxies false

/-- Embeds `Proxy.SetIP`; `none` is an error. -/
def Proxy.SetIP (proxy : Proxy) (ip : String) : Option Proxy :=
  match ParseIP (bytesOf ip) with
  | none => none
  | some parsedIP =>
    match To4 parsedIP with
    | none => none
    | some ipv4 => some { proxy with IP := stringOf (IPString ipv4) }

/-- The second half of the body of the loop of `parseTextToProxies`, from
`hostSplit := strings.Split(hostPart, ":")` on, for the credentials read so far: the proxy
that is appended, or `none` where the loop goes on to the next line. -/
def parseProxyHost (allowColonAuth : Bool) (username password hostPart : String) :
    Option Proxy :=
  let hostSplit := Split hostPart ':'
  if hostSplit.length < 2 then none
  else
    let ip := TrimSpace (hostSplit.getD 0 "")
    let ip := if ip.toList.head? = some '0' then String.mk ip.toList.tail else ip
    if ParseIP (bytesOf ip) = none then none
    else
      let portStr := TrimSpace (hostSplit.getD 1 "")
      match Atoi (bytesOf portStr) with
      | none => none
      | some port =>
        if port < 1 ∨ port > 65535 then none
        else
          let candidateUser := TrimSpace (hostSplit.getD 2 "")
          let candidatePass := TrimSpace (String.intercalate ":" (hostSplit.drop 3))
          let colonAuth : Bool := allowColonAuth && decide (username = "") &&
            decide (password = "") && decide (hostSplit.length ≥ 4) &&
            !(decide (candidateUser = ip) && decide (candidatePass = portStr))
          let username := if colonAuth then candidateUser else username
          let password := if colonAuth then candidatePass else password
          let proxy : Proxy :=
            { ID := 0, IP := "", Port := port.toNat, Username := username,
              Password := password }
          proxy.SetIP ip

/-- The body of the loop of `parseTextToProxies` for one line `raw`: the credentials in
front of the last `@`, then `parseProxyHost` on what follows it. -/
def parseProxyLine (allowColonAuth : Bool) (raw : String) : Option Proxy :=
  let line := TrimSpace raw
  if line = "" then none
  else
    let runes := line.toList
    let afterAt := (runes.reverse.takeWhile (fun c => decide (c ≠ '@'))).reverse
    let credPart := runes.take (runes.length - afterAt.length - 1)
    let credSplit := SplitN credPart ':'
    let hasCreds : Bool := decide ('@' ∈ runes ∧ credSplit.length = 2)
    let username := if hasCreds then TrimSpace (String.mk (credSplit.getD 0 [])) else ""
    let password := if hasCreds then TrimSpace (String.mk (credSplit.getD 1 [])) else ""
    let hostPart := if '@' ∈ runes then String.mk afterAt else line
    parseProxyHost allowColonAuth username password hostPart

/-- Embeds `parseTextToProxies` -/
def parseTextToProxies (text : String) (allowColonAuth : Bool) : List Proxy :=
  let text := if allowColonAuth then clearProxyString text
    else clearProxyStringPreserveAuth text
  let lines := Split text '\n'
  lines.filterMap (parseProxyLine allowColonAuth)

/-- Embeds `ParseTextToProxies` -/
def ParseTextToProxies (text : String) : List Proxy := parseTextToProxies text true

/-- Embeds `ParseTextToProxiesStrictAuth` -/
def ParseTextToProxiesStrictAuth (text : String) : List Proxy := parseTextToProxies text false

/-! ## HTTP listener: `handleConnect` and the upstream handshakes -/

/-- The value of `connectEstablishedResponse`. -/
def connectEstablishedResponse : String :=
  "HTTP/1.1 200 Connection Established\r\nProxy-Agent: Magpie Rotator\r\n\r\n"

/-- Embeds `http.StatusText` for the status codes the rotator writes; the empty string for
the others. -/
def StatusText (status : Nat) : String :=
  if status = 200 then "OK"
  else if status = 407 then "Proxy Authentication Required"
  else if status = 500 then "Internal Server Error"
  else if status = 502 then "Bad Gateway"
  else ""

/-- Embeds `writeHijackedResponse`: the bytes written to the hijacked client connection. -/
def writeHijackedResponse (status : Nat) (message : String) : List Nat :=
  bytesOf ("HTTP/1.1 " ++ Itoa status ++ " " ++ StatusText status ++
    "\r\nContent-Type: text/plain\r\nContent-Length: " ++ Itoa (bytesOf message).length ++
    "\r\n\r\n" ++ message)

/-- Embeds `base64.StdEncoding.EncodeToString`: four characters for every three bytes, and a
padded group for the one or two bytes left. -/
def EncodeToString : List Nat → List Char
  | [] => []
  | [a] => [encodeStd.toList.getD (a / 4) 'A', encodeStd.toList.getD (a % 4 * 16) 'A', '=', '=']
  | [a, b] =>
    [encodeStd.toList.getD (a / 4) 'A', encodeStd.toList.getD (a % 4 * 16 + b / 16) 'A',
      encodeStd.toList.getD (b % 16 * 4) 'A', '=']
  | a :: b :: c :: rest =>
    [encodeStd.toList.getD (a / 4) 'A', encodeStd.toList.getD (a % 4 * 16 + b / 16) 'A',
      encodeStd.toList.getD (b % 16 * 4 + c / 64) 'A', encodeStd.toList.getD (c % 64) 'A'] ++
      EncodeToString rest

/-- Embeds `performUpstreamConnect` on the upstream connection `conn`. `ReadResponse` is
`http.ReadResponse` on the bytes the upstream sends: the status code and the bytes left
unread, or `none` for an error (reported as `.read`). -/
def performUpstreamConnect (ReadResponse : List Nat → Option (Nat × List Nat)) (conn : Conn)
    (targetHost : List Nat) (next : RotatingProxyNext) : Except SocksError Unit × Conn :=
  let request := bytesOf "CONNECT " ++ targetHost ++ bytesOf " HTTP/1.1\r\nHost: " ++
    targetHost ++ bytesOf "\r\nProxy-Connection: Keep-Alive\r\n"
  let request :=
    if next.HasAuth then
      let auth := EncodeToString (bytesOf next.Username ++ [58] ++ bytesOf next.Password)
      request ++ bytesOf "Proxy-Authorization: Basic " ++ bytesOf (String.mk auth) ++
        bytesOf "\r\n"
    else request
  let request := request ++ bytesOf "\r\n"
  let conn := conn.Write request
  match ReadResponse conn.input with
  | none => (.error .read, { conn with input := [] })
  | some (statusCode, rest) =>
    let conn : Conn := { conn with input := rest }
    if statusCode ≠ 200 then (.error (.message "upstream returned non-200 response"), conn)
    else (.ok (), conn)

/-- Embeds `sendSocks5Credentials` -/
def sendSocks5Credentials (conn : Conn) (username password : String) :
    Except SocksError Unit × Conn :=
  if (bytesOf username).length > 255 ∨ (bytesOf password).length > 255 then
    (.error (.message "socks5 credentials too long"), conn)
  else
    let payload := [0x01, (bytesOf username).length % 256]
    let payload := payload ++ bytesOf username
    let payload := payload ++ [(bytesOf password).length % 256]
    let payload := payload ++ bytesOf password
    let conn := conn.Write payload
    match ReadFull conn 2 with
    | (none, conn) => (.error .read, conn)
    | (some resp, conn) =>
      if resp.length < 2 ∨ resp.getD 1 0 ≠ 0x00 then
        (.error (.message "socks5 authentication failed"), conn)
      else (.ok (), conn)

/-- Embeds `discardSocks5Address` -/
def discardSocks5Address (conn : Conn) (atyp : Nat) : Except SocksError Unit × Conn :=
  let lenRead : Except SocksError Nat × Conn :=
    if atyp = 0x01 then (.ok 4, conn)
    else if atyp = 0x04 then (.ok 16, conn)
    else if atyp = 0x03 then
      match ReadFull conn 1 with
      | (none, conn) => (.error .read, conn)
      | (some lenBuf, conn) => (.ok (lenBuf.getD 0 0), conn)
    else (.error (.message "unsupported address type in socks5 reply"), conn)
  match lenRead with
  | (.error e, conn) => (.error e, conn)
  | (.ok addrLen, conn) =>
    match ReadFull conn (addrLen + 2) with
    | (none, conn) => (.error .read, conn)
    | (some _, conn) => (.ok (), conn)

/-- Embeds `performSocks5UpstreamConnect` on the upstream connection `conn`. The error of
`splitTargetAddress` is `.message "invalid target address"` here. -/
def performSocks5UpstreamConnect (conn : Conn) (target : List Nat)
    (next : RotatingProxyNext) : Except SocksError Unit × Conn :=
  let greeting := [0x05, 0x01, if next.HasAuth then 0x02 else 0x00]
  let conn := conn.Write greeting
  match ReadFull conn 2 with
  | (none, conn) => (.error .read, conn)
  | (some resp, conn) =>
    if resp.getD 0 0 ≠ 0x05 then
      (.error (.message "invalid socks5 response from upstream"), conn)
    else if resp.getD 1 0 = 0xff then
      (.error (.message
        "upstream socks5 proxy offered no acceptable authentication methods"), conn)
    else if next.HasAuth ∧ resp.getD 1 0 ≠ 0x02 then
      (.error (.message
        "upstream socks5 proxy does not accept username/password authentication"), conn)
    else
      let credentials : Except SocksError Unit × Conn :=
        if next.HasAuth ∧ resp.getD 1 0 = 0x02 then
          sendSocks5Credentials conn next.Username next.Password
        else (.ok (), conn)
      match credentials with
      | (.error e, conn) => (.error e, conn)
      | (.ok _, conn) =>
        match splitTargetAddress target with
        | none => (.error (.message "invalid target address"), conn)
        | some (host, port) =>
          match encodeSocksAddress host port with
          | .error e => (.error (.message e), conn)
          | .ok (atyp, addrBytes, portBytes) =>
            let req := [0x05, 0x01, 0x00, atyp]
            let req := req ++ addrBytes
            let req := req ++ portBytes
            let conn := conn.Write req
            match ReadFull conn 4 with
            | (none, conn) => (.error .read, conn)
            | (some reply, conn) =>
              if reply.getD 0 0 ≠ 0x05 then
                (.error (.message "invalid socks5 connect reply"), conn)
              else if reply.getD 1 0 ≠ 0x00 then
                (.error (.message
                  ("socks5 connect failed with code " ++ Itoa (reply.getD 1 0))), conn)
              else discardSocks5Address conn (reply.getD 3 0)

/-- The package-level hooks of the rotator, which its tests replace: the selector, the
dialler (`none` is a dial error), the HTTP `CONNECT` handshake, and the function that
dials and performs the handshake of the upstream protocol (its result and the upstream
connection as it leaves it, `none` if it could not be dialled). -/
structure Hooks where
  getNextRotatingProxyFunc : Nat → Nat → Except RotatorError RotatingProxyNext
  dialUpstreamFunc : RotatingProxyNext → Option Conn
  performUpstreamConnectFunc : Conn → List Nat → RotatingProxyNext →
    Except SocksError Unit × Conn
  connectThroughUpstreamFunc : List Nat → RotatingProxyNext →
    Except SocksError Unit × Option Conn

/-- Embeds `connectThroughUpstream`; a dial error is `.read`. -/
def connectThroughUpstream (dialUpstreamFunc : RotatingProxyNext → Option Conn)
    (performUpstreamConnectFunc : Conn → List Nat → RotatingProxyNext →
      Except SocksError Unit × Conn)
    (target : List Nat) (next : RotatingProxyNext) : Except SocksError Unit × Option Conn :=
  match dialUpstreamFunc next with
  | none => (.error .read, none)
  | some upConn =>
    let protocol := ToLower next.Protocol
    if protocol = "http" ∨ protocol = "https" then
      match performUpstreamConnectFunc upConn target next with
      | (result, upConn) => (result, some upConn)
    else if protocol = "socks5" then
      match performSocks5UpstreamConnect upConn target next with
      | (result, upConn) => (result, some upConn)
    else if protocol = "socks4" then
      match performSocks4UpstreamConnect upConn target next with
      | (result, upConn) => (result, some upConn)
    else
      (.error (.message ("unsupported upstream protocol " ++ next.Protocol)), some upConn)

/-- The hooks as the package sets them: `getNext` stands for
`database.GetNextRotatingProxy`, `dial` for `dialUpstream` and `ReadResponse` for
`http.ReadResponse`. -/
def defaultHooks (getNext : Nat → Nat → Except RotatorError RotatingProxyNext)
    (dial : RotatingProxyNext → Option Conn)
    (ReadResponse : List Nat → Option (Nat × List Nat)) : Hooks :=
  { getNextRotatingProxyFunc := getNext,
    dialUpstreamFunc := dial,
    performUpstreamConnectFunc := performUpstreamConnect ReadResponse,
    connectThroughUpstreamFunc :=
      connectThroughUpstream dial (performUpstreamConnect ReadResponse) }

/-- What one call of `handleConnect` did: the bytes written to the hijacked client
connection, the upstream connection as the handler leaves it (`none` if none was
dialled), and whether `pipeConnections` was reached. -/
structure ConnectTrace where
  client : List Nat
  upstream : Option Conn
  piped : Bool
  deriving DecidableEq, Repr

/-- Embeds `proxyHandler.handleConnect` for a connection that can be hijacked and a client
that accepts what is written to it; `host` is `r.Host`. -/
def handleConnect (rotator : RotatingProxy) (hooks : Hooks) (host : List Nat) :
    ConnectTrace :=
  match hooks.getNextRotatingProxyFunc rotator.UserID rotator.ID with
  | .error _ =>
    { client := writeHijackedResponse 502 "Failed to acquire upstream proxy",
      upstream := none, piped := false }
  | .ok next =>
    if !supportedUpstream next.Protocol then
      { client := writeHijackedResponse 502 "Upstream protocol not supported by rotator",
        upstream := none, piped := false }
    else
      match hooks.dialUpstreamFunc next with
      | none =>
        { client := writeHijackedResponse 502 "Failed to connect to upstream proxy",
          upstream := none, piped := false }
      | some upConn =>
        match hooks.performUpstreamConnectFunc upConn host next with
        | (.error _, upConn) =>
          { client := writeHijackedResponse 502 "Upstream CONNECT failed",
            upstream := some upConn, piped := false }
        | (.ok _, upConn) =>
          { client := bytesOf connectEstablishedResponse, upstream := some upConn,
            piped := true }

/-- The rotator of `TestHandleConnect_ProxiesDataThroughUpstream`. -/
def connectTestRotator : RotatingProxy := { openRotator with ID := 42, UserID := 7 }

/-- The upstream proxy of `TestHandleConnect_ProxiesDataThroughUpstream`. -/
def connectTestNext : RotatingProxyNext :=
  { ProxyID := 1, IP := "192.0.2.10", Port := 8080, Username := "", Password := "",
    HasAuth := false, Protocol := "http" }

/-- The hooks of `TestHandleConnect_ProxiesDataThroughUpstream`: the selector and
`connectThroughUpstreamFunc` are replaced (the latter hands out an open pipe for the
target `example.com:443`), the dialler and the `CONNECT` handshake are the package's own;
`dial` is what dialling 192.0.2.10:8080 gives. -/
def connectTestHooks (dial : RotatingProxyNext → Option Conn)
    (ReadResponse : List Nat → Option (Nat × List Nat)) : Hooks :=
  { getNextRotatingProxyFunc := fun userID rotatorID =>
      if userID ≠ 7 ∨ rotatorID ≠ 42 then .error .ErrRotatingProxyNotFound
      else .ok connectTestNext,
    dialUpstreamFunc := dial,
    performUpstreamConnectFunc := performUpstreamConnect ReadResponse,
    connectThroughUpstreamFunc := fun target _ =>
      if target ≠ bytesOf "example.com:443" then (.error .read, none)
      else (.ok (), some { input := [], output := [] }) }

/-- An upstream SOCKS5 proxy without credentials. -/
def socks5Upstream : RotatingProxyNext :=
  { ProxyID := 2, IP := "198.51.100.20", Port := 1080, Username := "", Password := "",
    HasAuth := false, Protocol := "socks5" }

/-- The connection to a SOCKS5 server that accepts the method `0x00` and reports success
with the bound address `0.0.0.0:0`: these are the bytes it sends. -/
def socks5Server : Conn :=
  { input := [0x05, 0x00] ++ [0x05, 0x00, 0x00, 0x01, 0, 0, 0, 0, 0, 0], output := [] }

/-- The HTTP `CONNECT` request for `example.com:443` without credentials. -/
def connectRequestText : String :=
  "CONNECT example.com:443 HTTP/1.1\r\nHost: example.com:443\r\n" ++
    "Proxy-Connection: Keep-Alive\r\n\r\n"

/-! # Theorems -/

/-! ## Rotation selector -/

/-- The loop never finds `last` among the remaining elements: it falls through. -/
theorem selectNextProxyLoop_absent (proxies : List Proxy) (last : Nat) (rest : List Proxy)
    (idx : Nat) (h : ∀ p ∈ rest, p.ID ≠ last) :
    selectNextProxyLoop proxies last idx rest = proxies[0]? := by
  induction rest generalizing idx with
  | nil => rfl
  | cons p rest ih =>
    have hp : p.ID ≠ last := h p (List.mem_cons_self _ _)
    simp only [selectNextProxyLoop, hp, if_false]
    exact ih (idx + 1) (fun q hq => h q (List.mem_cons_of_mem _ hq))

/-- The loop stops at the first remaining element whose id is `last`. -/
theorem selectNextProxyLoop_found (proxies : List Proxy) (last : Nat) (rest : List Proxy)
    (idx j : Nat) (hj : j < rest.length)
    (hid : (rest.get ⟨j, hj⟩).ID = last)
    (hfirst : ∀ k (hk : k < rest.length), k < j → (rest.get ⟨k, hk⟩).ID ≠ last) :
    selectNextProxyLoop proxies last idx rest
      = proxies[if idx + j + 1 ≥ proxies.length then 0 else idx + j + 1]? := by
  induction rest generalizing idx j with
  | nil => simp at hj
  | cons p rest ih =>
    cases j with
    | zero =>
      have hp : p.ID = last := by simpa using hid
      simp [selectNextProxyLoop, hp]
    | succ j =>
      have hp : p.ID ≠ last := by
        have := hfirst 0 (by simp) (by omega)
        simpa using this
      simp only [selectNextProxyLoop, hp, if_false]
      have hj2 : j < rest.length := by simpa using hj
      rw [ih (idx + 1) j hj2 (by simpa using hid)
        (fun k hk hkj => by
          have := hfirst (k + 1) (by simpa using hk) (by omega)
          simpa using this)]
      have : idx + 1 + j + 1 = idx + (j + 1) + 1 := by omega
      rw [this]

theorem nodup_ids_first (proxies : List Proxy) (hd : (proxies.map (·.ID)).Nodup)
    (i : Nat) (hi : i < proxies.length) (k : Nat) (hk : k < proxies.length) (hki : k < i) :
    (proxies.get ⟨k, hk⟩).ID ≠ (proxies.get ⟨i, hi⟩).ID := by
  intro heq
  have h1 := (List.nodup_iff_injective_get.mp hd)
  have hk2 : k < (proxies.map (·.ID)).length := by simpa using hk
  have hi2 : i < (proxies.map (·.ID)).length := by simpa using hi
  have := @h1 ⟨k, hk2⟩ ⟨i, hi2⟩ (by simpa using heq)
  simp at this
  omega

/-- C1. On a non-empty list with distinct ids `selectNextProxy` returns the first element
when `last_proxy_id` is nil or is the id of no element, and the element at position
`(i + 1) mod n` when `last_proxy_id` is the id of the element at position `i`. -/
theorem selectNextProxy_spec (proxies : List Proxy) (lastProxyID : Option Nat)
    (hne : proxies ≠ []) (hd : (proxies.map (·.ID)).Nodup) :
    (lastProxyID = none → selectNextProxy proxies lastProxyID = some (proxies.head hne)) ∧
    (∀ id, lastProxyID = some id → (∀ p ∈ proxies, p.ID ≠ id) →
      selectNextProxy proxies lastProxyID = some (proxies.head hne)) ∧
    (∀ id i (hi : i < proxies.length), lastProxyID = some id →
      (proxies.get ⟨i, hi⟩).ID = id →
      selectNextProxy proxies lastProxyID
        = some (proxies.get ⟨(i + 1) % proxies.length,
            Nat.mod_lt _ (List.length_pos.mpr hne)⟩)) := by
  have h0 : proxies[0]? = some (proxies.head hne) := by
    cases proxies with
    | nil => exact absurd rfl hne
    | cons p ps => simp
  refine ⟨?_, ?_, ?_⟩
  · rintro rfl
    exact h0
  · rintro id rfl habs
    simp only [selectNextProxy]
    rw [selectNextProxyLoop_absent proxies id proxies 0 habs, h0]
  · rintro id i hi rfl hid
    simp only [selectNextProxy]
    rw [selectNextProxyLoop_found proxies id proxies 0 i hi hid
      (fun k hk hki => hid ▸ nodup_ids_first proxies hd i hi k hk hki)]
    have hlen : 0 < proxies.length := List.length_pos.mpr hne
    have hidx : (if 0 + i + 1 ≥ proxies.length then 0 else 0 + i + 1)
        = (i + 1) % proxies.length := by
      split
      · have : i + 1 = proxies.length := by omega
        rw [this, Nat.mod_self]
      · rw [Nat.mod_eq_of_lt (by omega)]; omega
    rw [hidx]
    exact List.getElem?_eq_getElem _

theorem idAt_get (proxies : List Proxy) (j : Nat) (hj : j < proxies.length) :
    idAt proxies j = (proxies.get ⟨j, hj⟩).ID := by
  simp [idAt, List.getD, hj]

theorem idAt_injOn (proxies : List Proxy) (hd : (proxies.map (·.ID)).Nodup)
    (i j : Nat) (hi : i < proxies.length) (hj : j < proxies.length)
    (h : idAt proxies i = idAt proxies j) : i = j := by
  rw [idAt_get proxies i hi, idAt_get proxies j hj] at h
  rcases Nat.lt_trichotomy i j with hlt | heq | hgt
  · exact absurd h (nodup_ids_first proxies hd j hj i hi hlt)
  · exact heq
  · exact absurd h.symm (nodup_ids_first proxies hd i hi j hj hgt)

/-- With distinct ids, a stored id at position `i` selects position `(i+1) mod n`. -/
theorem selectNextProxy_at (proxies : List Proxy) (hd : (proxies.map (·.ID)).Nodup)
    (i : Nat) (hi : i < proxies.length) :
    selectNextProxy proxies (some (proxies.get ⟨i, hi⟩).ID)
      = proxies[(i + 1) % proxies.length]? := by
  simp only [selectNextProxy]
  rw [selectNextProxyLoop_found proxies _ proxies 0 i hi rfl
    (fun k hk hki => nodup_ids_first proxies hd i hi k hk hki)]
  have hidx : (if 0 + i + 1 ≥ proxies.length then 0 else 0 + i + 1)
      = (i + 1) % proxies.length := by
    split
    · have : i + 1 = proxies.length := by omega
      rw [this, Nat.mod_self]
    · rw [Nat.mod_eq_of_lt (by omega)]; omega
  rw [hidx]

/-- Whatever is stored, a non-empty list yields the element at some position. -/
theorem selectNextProxy_some (proxies : List Proxy) (last : Option Nat) (hne : proxies ≠ []) :
    ∃ j, ∃ hj : j < proxies.length, selectNextProxy proxies last = some (proxies.get ⟨j, hj⟩) := by
  have hlen : 0 < proxies.length := List.length_pos.mpr hne
  have h0 : proxies[0]? = some (proxies.get ⟨0, hlen⟩) := List.getElem?_eq_getElem _
  cases last with
  | none => exact ⟨0, hlen, h0⟩
  | some id =>
    by_cases hex : ∃ k, ∃ hk : k < proxies.length, (proxies.get ⟨k, hk⟩).ID = id
    · classical
      let P : Nat → Prop := fun k => ∃ hk : k < proxies.length, (proxies.get ⟨k, hk⟩).ID = id
      have hP : ∃ k, P k := hex
      obtain ⟨hk, hid⟩ := Nat.find_spec hP
      have hfirst : ∀ k (hk2 : k < proxies.length), k < Nat.find hP →
          (proxies.get ⟨k, hk2⟩).ID ≠ id := fun k hk2 hlt heq =>
        Nat.find_min hP hlt ⟨hk2, heq⟩
      refine ⟨(if 0 + Nat.find hP + 1 ≥ proxies.length then 0 else 0 + Nat.find hP + 1), ?_, ?_⟩
      · split <;> omega
      · simp only [selectNextProxy]
        rw [selectNextProxyLoop_found proxies id proxies 0 _ hk hid hfirst]
        exact List.getElem?_eq_getElem _
    · refine ⟨0, hlen, ?_⟩
      simp only [selectNextProxy]
      rw [selectNextProxyLoop_absent proxies id proxies 0, h0]
      intro p hp heq
      obtain ⟨k, hk⟩ := List.mem_iff_get.mp hp
      exact hex ⟨k.1, k.2, by rw [← heq, ← hk]⟩

/-- Rotations that start from the id stored at position `j` walk the list cyclically. -/
theorem rotations_from (proxies : List Proxy) (hd : (proxies.map (·.ID)).Nodup) (k : Nat) :
    ∀ j, j < proxies.length →
      rotations proxies (some (idAt proxies j)) k
        = (List.range k).map (fun t => idAt proxies ((j + 1 + t) % proxies.length)) := by
  induction k with
  | zero => intro j _; rfl
  | succ k ih =>
    intro j hj
    have hlen : 0 < proxies.length := by omega
    have hj2 : (j + 1) % proxies.length < proxies.length := Nat.mod_lt _ hlen
    rw [idAt_get proxies j hj]
    simp only [rotations]
    rw [selectNextProxy_at proxies hd j hj, List.getElem?_eq_getElem hj2]
    simp only []
    have hget : proxies[(j + 1) % proxies.length].ID = idAt proxies ((j + 1) % proxies.length) := by
      rw [idAt_get proxies _ hj2]; rfl
    rw [hget, ih _ hj2, List.range_succ_eq_map, List.map_cons, List.map_map]
    congr 1
    apply List.map_congr_left
    intro t _
    simp only [Function.comp, Nat.add_zero]
    congr 1
    rw [Nat.add_assoc, Nat.mod_add_mod]
    congr 1
    omega

/-- From any stored value the selected ids follow a cyclic walk from some position. -/
theorem rotations_cyclic (proxies : List Proxy) (last : Option Nat) (hne : proxies ≠ [])
    (hd : (proxies.map (·.ID)).Nodup) :
    ∃ a, ∀ k, rotations proxies last k
        = (List.range k).map (fun t => idAt proxies ((a + t) % proxies.length)) := by
  obtain ⟨j, hj, hsel⟩ := selectNextProxy_some proxies last hne
  refine ⟨j, fun k => ?_⟩
  cases k with
  | zero => rfl
  | succ k =>
    simp only [rotations, hsel]
    rw [← idAt_get proxies j hj, rotations_from proxies hd k j hj,
      List.range_succ_eq_map, List.map_cons, List.map_map]
    congr 1
    · rw [Nat.add_zero, Nat.mod_eq_of_lt hj]
    · apply List.map_congr_left
      intro t _
      simp only [Function.comp]
      congr 2
      omega

theorem rotationWindow_cyclic (proxies : List Proxy) (last : Option Nat) (hne : proxies ≠ [])
    (hd : (proxies.map (·.ID)).Nodup) (s : Nat) :
    ∃ b, ∀ m, rotationWindow proxies last s m
        = ((List.range m).map (fun t => (b + t) % proxies.length)).map (idAt proxies) := by
  obtain ⟨a, ha⟩ := rotations_cyclic proxies last hne hd
  refine ⟨a + s, fun m => ?_⟩
  rw [rotationWindow, ha, List.range_add, List.map_append, List.drop_left' (by simp),
    List.map_map, List.map_map]
  apply List.map_congr_left
  intro t _
  simp only [Function.comp]
  congr 2
  omega

theorem count_map_idAt (proxies : List Proxy) (hd : (proxies.map (·.ID)).Nodup)
    (i : Nat) (hi : i < proxies.length) (L : List Nat) (hL : ∀ x ∈ L, x < proxies.length) :
    (L.map (idAt proxies)).count (idAt proxies i) = L.count i := by
  induction L with
  | nil => rfl
  | cons x L ih =>
    have hx : x < proxies.length := hL x (List.mem_cons_self _ _)
    have ih2 := ih (fun y hy => hL y (List.mem_cons_of_mem _ hy))
    rw [List.map_cons, List.count_cons, List.count_cons, ih2]
    by_cases hxi : x = i
    · subst hxi; simp
    · have : idAt proxies x ≠ idAt proxies i := fun h => hxi (idAt_injOn proxies hd x i hx hi h)
      simp [hxi, this]

theorem cyc_lt (n b m : Nat) (hn : 0 < n) : ∀ x ∈ cyc n b m, x < n := by
  intro x hx
  simp only [cyc, List.mem_map] at hx
  obtain ⟨t, _, rfl⟩ := hx
  exact Nat.mod_lt _ hn

theorem cyc_add (n b m1 m2 : Nat) : cyc n b (m1 + m2) = cyc n b m1 ++ cyc n (b + m1) m2 := by
  simp only [cyc, List.range_add, List.map_append, List.map_map]
  congr 1
  apply List.map_congr_left
  intro t _
  simp only [Function.comp]
  congr 1
  omega

theorem cyc_block (n b i : Nat) (hi : i < n) : (cyc n b n).count i = 1 := by
  have hn : 0 < n := by omega
  apply List.count_eq_one_of_mem
  · apply List.Nodup.map_on _ (List.nodup_range n)
    intro u hu v hv huv
    rw [List.mem_range] at hu hv
    have h1 : (b + u) ≡ (b + v) [MOD n] := huv
    have h2 : u ≡ v [MOD n] := Nat.ModEq.add_left_cancel' b h1
    have h3 : u % n = v % n := h2
    rwa [Nat.mod_eq_of_lt hu, Nat.mod_eq_of_lt hv] at h3
  · simp only [cyc, List.mem_map, List.mem_range]
    refine ⟨(i + (n - b % n)) % n, Nat.mod_lt _ hn, ?_⟩
    have hb : b % n < n := Nat.mod_lt _ hn
    have hsum : b + (i + (n - b % n)) = i + n * (b / n + 1) := by
      have h1 := Nat.div_add_mod b n
      have h2 := Nat.mul_add n (b / n) 1
      omega
    rw [Nat.add_mod_mod, hsum, Nat.add_mul_mod_self_left, Nat.mod_eq_of_lt hi]


theorem cyc_short (n b r i : Nat) (hi : i < n) (hr : r ≤ n) : (cyc n b r).count i ≤ 1 := by
  have h := cyc_block n b i hi
  have hsplit : n = r + (n - r) := by omega
  rw [hsplit, cyc_add, List.count_append] at h
  have hsplit2 : r + (n - r) = n := by omega
  rw [hsplit2] at h
  omega

theorem cyc_blocks (n i : Nat) (hi : i < n) (q : Nat) :
    ∀ b r, (cyc n b (q * n + r)).count i = q + (cyc n (b + q * n) r).count i := by
  induction q with
  | zero => intro b r; simp
  | succ q ih =>
    intro b r
    have h1 : (q + 1) * n + r = n + (q * n + r) := by rw [Nat.succ_mul]; omega
    have h2 : b + (q + 1) * n = b + n + q * n := by rw [Nat.succ_mul]; omega
    rw [h1, cyc_add, List.count_append, cyc_block n b i hi, ih (b + n) r, h2]
    omega

/-- In `m` steps of a cyclic walk over `n` slots every slot is visited between
`⌊m/n⌋` and `⌈m/n⌉` times. -/
theorem cyc_count_bounds (n b m i : Nat) (hi : i < n) :
    m / n ≤ (cyc n b m).count i ∧ (cyc n b m).count i ≤ (m + n - 1) / n := by
  have hn : 0 < n := by omega
  have hm : m = (m / n) * n + m % n := by
    have := Nat.div_add_mod m n
    rw [Nat.mul_comm] at this
    omega
  have hcount := cyc_blocks n i hi (m / n) b (m % n)
  rw [← hm] at hcount
  have hshort := cyc_short n (b + m / n * n) (m % n) i hi (Nat.le_of_lt (Nat.mod_lt _ hn))
  refine ⟨by omega, ?_⟩
  rw [hcount]
  by_cases hr : m % n = 0
  · rw [hr]
    simp only [cyc, List.range_zero, List.map_nil, List.count_nil, Nat.add_zero]
    rw [Nat.le_div_iff_mul_le hn]
    omega
  · have hceil : m / n + 1 ≤ (m + n - 1) / n := by
      rw [Nat.le_div_iff_mul_le hn, Nat.add_mul]
      have : 1 ≤ m % n := Nat.one_le_iff_ne_zero.mpr hr
      omega
    omega

/-- Witness of C1 on three proxies: after the last one the selector wraps to the first. -/
theorem selectNextProxy_spec_witness :
    selectNextProxy threeProxies (some 30)
      = some { ID := 10, IP := "10.0.0.1", Port := 8080, Username := "user-one",
               Password := "pass-one" } :=
  (selectNextProxy_spec threeProxies (some 30) (by decide) (by decide)).2.2 30 2
    (by decide) rfl rfl

/-! ## `GetNextRotatingProxy` -/

theorem findRotator_none_iff (db : Database) (userID rid : Nat) :
    findRotator db userID rid = none
      ↔ ∀ r ∈ db.rotatingProxies, ¬ (r.UserID = userID ∧ r.ID = rid) := by
  simp [findRotator, List.find?_eq_none]

theorem findRotator_some (db : Database) (userID rid : Nat) (entity : RotatingProxy)
    (h : findRotator db userID rid = some entity) :
    entity ∈ db.rotatingProxies ∧ entity.UserID = userID ∧ entity.ID = rid := by
  have h1 := List.find?_some h
  have h2 := List.mem_of_find?_eq_some h
  simp at h1
  exact ⟨h2, h1.1, h1.2⟩

theorem GetNextRotatingProxy_notFound (db : Database) (now : Int) (userID rid : Nat)
    (h : findRotator db userID rid = none) :
    GetNextRotatingProxy db now userID rid = (.error .ErrRotatingProxyNotFound, db) := by
  simp only [GetNextRotatingProxy, h]

theorem GetNextRotatingProxy_noAlive (db : Database) (now : Int) (userID rid : Nat)
    (entity : RotatingProxy) (h : findRotator db userID rid = some entity)
    (hnil : eligibleSet db userID entity = []) :
    GetNextRotatingProxy db now userID rid = (.error .ErrRotatingProxyNoAliveProxies, db) := by
  simp [GetNextRotatingProxy, h, hnil]

theorem GetNextRotatingProxy_ok (db : Database) (now : Int) (userID rid : Nat)
    (entity : RotatingProxy) (h : findRotator db userID rid = some entity)
    (hne : eligibleSet db userID entity ≠ []) :
    ∃ selected, selectNextProxy (eligibleSet db userID entity) entity.LastProxyID = some selected ∧
      GetNextRotatingProxy db now userID rid =
        (.ok { ProxyID := selected.ID, IP := selected.GetIp, Port := selected.Port,
               Username := selected.Username, Password := selected.Password,
               HasAuth := selected.HasAuth,
               Protocol := (preloadProtocol db entity.ProtocolID).Name },
         { db with
           rotatingProxies := updateRotation db.rotatingProxies entity.ID selected.ID now }) := by
  obtain ⟨j, hj, hsel⟩ := selectNextProxy_some _ entity.LastProxyID hne
  refine ⟨_, hsel, ?_⟩
  have hlen : ¬ (eligibleSet db userID entity).length = 0 := fun h0 =>
    hne (List.length_eq_zero.mp h0)
  simp only [GetNextRotatingProxy, h, hlen, if_false, hsel]

/-- C3. `GetNextRotatingProxy` fails with `ErrRotatingProxyNotFound` exactly when no rotator
row has that id and that user, and with `ErrRotatingProxyNoAliveProxies` exactly when the
rotator is found and its eligible set is empty; it never panics; every failure leaves the
database (so `last_proxy_id` and `last_rotation_at`) unchanged; on success the rotator row
is still there and every row with that id stores the returned `proxy_id` as
`last_proxy_id` and the call time as `last_rotation_at`. -/
theorem GetNextRotatingProxy_errors (db : Database) (now : Int) (userID rid : Nat) :
    ((GetNextRotatingProxy db now userID rid).1 = .error .ErrRotatingProxyNotFound
      ↔ ∀ r ∈ db.rotatingProxies, ¬ (r.UserID = userID ∧ r.ID = rid)) ∧
    ((GetNextRotatingProxy db now userID rid).1 = .error .ErrRotatingProxyNoAliveProxies
      ↔ ∃ entity, findRotator db userID rid = some entity ∧
          eligibleSet db userID entity = []) ∧
    (GetNextRotatingProxy db now userID rid).1 ≠ .error .indexOutOfRange ∧
    (∀ e, (GetNextRotatingProxy db now userID rid).1 = .error e →
      (GetNextRotatingProxy db now userID rid).2 = db) ∧
    (∀ next, (GetNextRotatingProxy db now userID rid).1 = .ok next →
      (∃ r ∈ (GetNextRotatingProxy db now userID rid).2.rotatingProxies,
        r.ID = rid ∧ r.UserID = userID) ∧
      (∀ r ∈ (GetNextRotatingProxy db now userID rid).2.rotatingProxies, r.ID = rid →
        r.LastProxyID = some next.ProxyID ∧ r.LastRotationAt = some now)) := by
  cases hfind : findRotator db userID rid with
  | none =>
    have hnone := (findRotator_none_iff db userID rid).mp hfind
    rw [GetNextRotatingProxy_notFound db now userID rid hfind]
    refine ⟨⟨fun _ => hnone, fun _ => rfl⟩, ⟨?_, ?_⟩, ?_, fun _ _ => rfl, ?_⟩
    · intro h; simp at h
    · rintro ⟨entity, h, _⟩; simp at h
    · simp
    · intro next h; simp at h
  | some entity =>
    obtain ⟨hmem, huser, hid⟩ := findRotator_some db userID rid entity hfind
    have hnot : ¬ ∀ r ∈ db.rotatingProxies, ¬ (r.UserID = userID ∧ r.ID = rid) :=
      fun h => h entity hmem ⟨huser, hid⟩
    by_cases hnil : eligibleSet db userID entity = []
    · rw [GetNextRotatingProxy_noAlive db now userID rid entity hfind hnil]
      refine ⟨⟨?_, fun h => absurd h hnot⟩, ⟨fun _ => ⟨entity, rfl, hnil⟩, fun _ => rfl⟩,
        ?_, fun _ _ => rfl, ?_⟩
      · intro h; simp at h
      · simp
      · intro next h; simp at h
    · obtain ⟨selected, _, heq⟩ := GetNextRotatingProxy_ok db now userID rid entity hfind hnil
      rw [heq]
      refine ⟨⟨?_, fun h => absurd h hnot⟩, ⟨?_, ?_⟩, ?_, ?_, ?_⟩
      · intro h; simp at h
      · intro h; simp at h
      · rintro ⟨e2, h2, hnil2⟩
        rw [Option.some.inj h2] at hnil
        exact absurd hnil2 hnil
      · simp
      · intro e h; simp at h
      · intro next hnext
        have hnext2 : next.ProxyID = selected.ID := by
          have := Except.ok.inj hnext
          rw [← this]
        refine ⟨⟨_, List.mem_map.mpr ⟨entity, hmem, rfl⟩, ?_, ?_⟩, ?_⟩
        · simp [hid]
        · simp [huser]
        · intro r hr hrid
          simp only [updateRotation, List.mem_map] at hr
          obtain ⟨r0, _, rfl⟩ := hr
          by_cases h0 : r0.ID = entity.ID
          · simp [h0, hnext2]
          · exfalso
            simp only [h0, if_false] at hrid
            exact h0 (hrid.trans hid.symm)

theorem findRotator_updateRotation (db : Database) (userID rid : Nat) (entity : RotatingProxy)
    (selectedID : Nat) (now : Int) (h : findRotator db userID rid = some entity) :
    findRotator
        { db with rotatingProxies := updateRotation db.rotatingProxies entity.ID selectedID now }
        userID rid
      = some { entity with LastProxyID := some selectedID, LastRotationAt := some now } := by
  unfold findRotator at h ⊢
  simp only [updateRotation]
  rw [List.find?_map]
  have hcomp : ((fun r : RotatingProxy => decide (r.UserID = userID) && decide (r.ID = rid)) ∘
      fun r : RotatingProxy =>
        if r.ID = entity.ID then
          { r with LastProxyID := some selectedID, LastRotationAt := some now }
        else r)
      = fun r : RotatingProxy => decide (r.UserID = userID) && decide (r.ID = rid) := by
    funext r
    simp only [Function.comp]
    split <;> rfl
  rw [hcomp, h]
  simp

/-- Consecutive calls of `GetNextRotatingProxy` with no other write in between return the
ids of `rotations` over the rotator's eligible set: the set is the same at every call and
each call stores the id it selected. -/
theorem serialCalls_eq_rotations (userID rid : Nat) (times : List Int) :
    ∀ (db : Database) (entity : RotatingProxy), findRotator db userID rid = some entity →
      serialCalls userID rid db times
        = rotations (eligibleSet db userID entity) entity.LastProxyID times.length := by
  induction times with
  | nil => intro db entity _; rfl
  | cons now later ih =>
    intro db entity hfind
    by_cases hnil : eligibleSet db userID entity = []
    · rw [serialCalls, GetNextRotatingProxy_noAlive db now userID rid entity hfind hnil, hnil]
      simp only [List.length_cons, rotations]
      cases entity.LastProxyID <;> rfl
    · obtain ⟨selected, hsel, heq⟩ := GetNextRotatingProxy_ok db now userID rid entity hfind hnil
      rw [serialCalls, heq]
      simp only [List.length_cons, rotations, hsel]
      rw [ih _ _ (findRotator_updateRotation db userID rid entity selected.ID now hfind)]
      rfl

/-- C2. Serial rotations over a stable eligible set of `n ≥ 1` distinct proxies, from any
stored `last_proxy_id`: every window of `m` rotations (after any number `s` of earlier ones)
completes, selects each proxy at least `⌊m/n⌋ - 1` and at most `⌈m/n⌉ + 1` times, the counts
of two proxies differ by at most 2, and every proxy is selected at least once as soon as
`n ≤ m` (800 rotations over 50 proxies). The window is what `s + m` consecutive calls of
`GetNextRotatingProxy` return after the first `s`, on any database whose rotator has this
eligible set and this stored `last_proxy_id`. -/
theorem rotation_fairness (proxies : List Proxy) (last : Option Nat) (s m : Nat)
    (hne : proxies ≠ []) (hd : (proxies.map (·.ID)).Nodup) :
    (rotationWindow proxies last s m).length = m ∧
    (∀ p ∈ proxies,
      m / proxies.length ≤ (rotationWindow proxies last s m).count p.ID + 1 ∧
      (rotationWindow proxies last s m).count p.ID
        ≤ (m + proxies.length - 1) / proxies.length + 1) ∧
    (∀ p ∈ proxies, ∀ q ∈ proxies,
      (rotationWindow proxies last s m).count p.ID
        ≤ (rotationWindow proxies last s m).count q.ID + 2) ∧
    (proxies.length ≤ m → ∀ p ∈ proxies, 1 ≤ (rotationWindow proxies last s m).count p.ID) ∧
    (∀ (db : Database) (userID rid : Nat) (entity : RotatingProxy) (times : List Int),
      findRotator db userID rid = some entity → eligibleSet db userID entity = proxies →
      entity.LastProxyID = last → times.length = s + m →
      (serialCalls userID rid db times).drop s = rotationWindow proxies last s m) := by
  obtain ⟨b, hb⟩ := rotationWindow_cyclic proxies last hne hd s
  have hn : 0 < proxies.length := List.length_pos.mpr hne
  have hcount : ∀ p ∈ proxies,
      m / proxies.length ≤ (rotationWindow proxies last s m).count p.ID ∧
      (rotationWindow proxies last s m).count p.ID ≤ (m + proxies.length - 1) / proxies.length := by
    intro p hp
    obtain ⟨i, hi⟩ := List.mem_iff_get.mp hp
    have hid : p.ID = idAt proxies i.1 := by rw [idAt_get proxies i.1 i.2, ← hi]
    have hwin := hb m
    change rotationWindow proxies last s m = (cyc proxies.length b m).map (idAt proxies) at hwin
    rw [hwin, hid, count_map_idAt proxies hd i.1 i.2 _ (cyc_lt _ b m hn)]
    exact cyc_count_bounds proxies.length b m i.1 i.2
  have hceil : (m + proxies.length - 1) / proxies.length ≤ m / proxies.length + 1 := by
    have h1 : m + proxies.length - 1 < proxies.length * (m / proxies.length + 1 + 1) := by
      have h2 := Nat.lt_div_mul_add hn (a := m)
      have h3 := Nat.mul_add proxies.length (m / proxies.length + 1) 1
      have h4 := Nat.mul_add proxies.length (m / proxies.length) 1
      have h5 := Nat.mul_comm proxies.length (m / proxies.length)
      omega
    have := (Nat.div_lt_iff_lt_mul hn).mpr (by rwa [Nat.mul_comm] at h1)
    omega
  refine ⟨?_, ?_, ?_, ?_, ?_⟩
  · rw [hb m]; simp
  · intro p hp
    have := hcount p hp
    omega
  · intro p hp q hq
    have h1 := hcount p hp
    have h2 := hcount q hq
    omega
  · intro hle p hp
    have h1 := (hcount p hp).1
    have h2 : 1 ≤ m / proxies.length := (Nat.one_le_div_iff hn).mpr hle
    omega
  · intro db userID rid entity times hfind hset hlast hlen
    rw [serialCalls_eq_rotations userID rid times db entity hfind, hset, hlast, hlen]
    rfl

/-- Scenario S4 as an instance of C2: 800 rotations over the fifty proxies 1..50. -/
theorem rotation_fairness_witness :
    (rotationWindow fiftyProxies none 0 800).length = 800 ∧
    1 ≤ (rotationWindow fiftyProxies none 0 800).count 50 ∧
    (rotationWindow fiftyProxies none 0 800).count 1
      ≤ (rotationWindow fiftyProxies none 0 800).count 50 + 2 :=
  have hne : fiftyProxies ≠ [] := by decide
  have hd : (fiftyProxies.map (·.ID)).Nodup := by decide
  have h1 : ({ ID := 1, IP := "", Port := 8080, Username := "", Password := "" } : Proxy)
      ∈ fiftyProxies := by decide
  have h50 : ({ ID := 50, IP := "", Port := 8080, Username := "", Password := "" } : Proxy)
      ∈ fiftyProxies := by decide
  have hle : fiftyProxies.length ≤ 800 := by simp [fiftyProxies]
  have h := rotation_fairness fiftyProxies none 0 800 hne hd
  ⟨h.1, h.2.2.2.1 hle { ID := 50, IP := "", Port := 8080, Username := "", Password := "" } h50,
    h.2.2.1 { ID := 1, IP := "", Port := 8080, Username := "", Password := "" } h1
      { ID := 50, IP := "", Port := 8080, Username := "", Password := "" } h50⟩

/-! ## Status materialisation -/

theorem mapGet_none (latest : LatestMap) (key : proxyProtocolKey) :
    mapGet latest key = none ↔ ∀ kv ∈ latest, kv.1 ≠ key := by
  simp [mapGet, List.find?_eq_none]

theorem mapGet_some (latest : LatestMap) (key : proxyProtocolKey) (v : ProxyLatestStatistic)
    (h : mapGet latest key = some v) : (key, v) ∈ latest := by
  simp only [mapGet, Option.map_eq_some'] at h
  obtain ⟨kv, hfind, rfl⟩ := h
  have h1 := List.find?_some hfind
  have h2 := List.mem_of_find?_eq_some hfind
  simp at h1
  rw [← h1]
  exact h2

theorem mem_mapSet (latest : LatestMap) (key : proxyProtocolKey) (v : ProxyLatestStatistic)
    (kv : proxyProtocolKey × ProxyLatestStatistic) :
    kv ∈ mapSet latest key v ↔ kv = (key, v) ∨ (kv ∈ latest ∧ kv.1 ≠ key) := by
  unfold mapSet
  split
  · rename_i hany
    simp only [List.any_eq_true, decide_eq_true_eq] at hany
    obtain ⟨kv0, hkv0, hk0⟩ := hany
    simp only [List.mem_map]
    constructor
    · rintro ⟨x, hx, rfl⟩
      by_cases hxk : x.1 = key
      · left; simp [hxk]
      · right; simp [hxk, hx]
    · rintro (rfl | ⟨hmem, hne⟩)
      · exact ⟨kv0, hkv0, by simp [hk0]⟩
      · exact ⟨kv, hmem, by simp [hne]⟩
  · rename_i hany
    simp only [List.any_eq_true, decide_eq_true_eq, not_exists, not_and] at hany
    simp only [List.mem_append, List.mem_singleton]
    constructor
    · rintro (h | h)
      · exact Or.inr ⟨h, hany kv h⟩
      · exact Or.inl h
    · rintro (h | ⟨h, _⟩)
      · exact Or.inr h
      · exact Or.inl h

theorem keys_mapSet_nodup (latest : LatestMap) (key : proxyProtocolKey)
    (v : ProxyLatestStatistic) (h : (latest.map (·.1)).Nodup) :
    ((mapSet latest key v).map (·.1)).Nodup := by
  unfold mapSet
  split
  · have : (latest.map (fun kv => if kv.1 = key then (key, v) else kv)).map (·.1)
        = latest.map (·.1) := by
      rw [List.map_map]
      apply List.map_congr_left
      intro kv _
      by_cases hk : kv.1 = key <;> simp [hk]
    rw [this]
    exact h
  · rename_i hany
    simp only [List.any_eq_true, decide_eq_true_eq, not_exists, not_and] at hany
    rw [List.map_append, List.map_singleton]
    apply List.Nodup.append h (List.nodup_singleton _)
    intro k hk1 hk2
    rw [List.mem_singleton] at hk2
    obtain ⟨kv, hkv, rfl⟩ := List.mem_map.mp hk1
    exact hany kv hkv hk2

theorem setAdd_nodup (s : List Nat) (id : Nat) (h : s.Nodup) : (setAdd s id).Nodup := by
  unfold setAdd
  split
  · exact h
  · rename_i hmem
    apply List.Nodup.append h (List.nodup_singleton _)
    intro k hk1 hk2
    rw [List.mem_singleton] at hk2
    exact hmem (hk2 ▸ hk1)

theorem mem_setAdd (s : List Nat) (id p : Nat) : p ∈ setAdd s id ↔ p = id ∨ p ∈ s := by
  unfold setAdd
  split
  · rename_i hmem
    constructor
    · exact Or.inr
    · rintro (rfl | h)
      · exact hmem
      · exact h
  · simp [or_comm]

theorem isNewerLatestStat_iff (c e : ProxyLatestStatistic) :
    isNewerLatestStat c e = true
      ↔ e.CheckedAt < c.CheckedAt ∨ (e.CheckedAt = c.CheckedAt ∧ e.StatisticID < c.StatisticID) := by
  unfold isNewerLatestStat
  split
  · simp; omega
  · split
    · simp; omega
    · simp; omega

theorem isNewerLatestStat_false_iff (c e : ProxyLatestStatistic) :
    isNewerLatestStat c e = false
      ↔ c.CheckedAt < e.CheckedAt ∨ (c.CheckedAt = e.CheckedAt ∧ c.StatisticID ≤ e.StatisticID) := by
  rw [← Bool.not_eq_true, isNewerLatestStat_iff]
  omega

theorem isNewerLatestStat_irrefl (e : ProxyLatestStatistic) :
    isNewerLatestStat e e = false := by
  rw [isNewerLatestStat_false_iff]
  omega

theorem nodup_keys_unique (latest : LatestMap) (h : (latest.map (·.1)).Nodup)
    (a b : proxyProtocolKey × ProxyLatestStatistic) (ha : a ∈ latest) (hb : b ∈ latest)
    (hk : a.1 = b.1) : a = b :=
  List.inj_on_of_nodup_map h ha hb hk

theorem latestEntryOf_ids (now : Int) (s : ProxyStatistic) :
    (latestEntryOf now s).ProxyID = s.ProxyID ∧ (latestEntryOf now s).ProtocolID = s.ProtocolID ∧
    (latestEntryOf now s).StatisticID = s.ID ∧ (latestEntryOf now s).Alive = s.Alive :=
  ⟨rfl, rfl, rfl, rfl⟩

/-- Binding a statistic with non-zero ids that no seen statistic of its key beats keeps the
invariant. -/
theorem LatestInv_insert (now : Int) (seen : List ProxyStatistic) (m : LatestMap)
    (set : List Nat) (stat : ProxyStatistic) (hinv : LatestInv now seen (m, set))
    (hp : stat.ProxyID ≠ 0) (hq : stat.ProtocolID ≠ 0)
    (hbest : ∀ s ∈ seen, s.ProxyID = stat.ProxyID → s.ProtocolID = stat.ProtocolID →
      isNewerLatestStat (latestEntryOf now s) (latestEntryOf now stat) = false) :
    LatestInv now (seen ++ [stat])
      (mapSet m { ProxyID := stat.ProxyID, ProtocolID := stat.ProtocolID }
          (latestEntryOf now stat),
        setAdd set stat.ProxyID) := by
  obtain ⟨h1, h2, h3, h4, h5⟩ := hinv
  simp only at h1 h2 h3 h4 h5
  refine ⟨keys_mapSet_nodup _ _ _ h1, ?_, ?_, setAdd_nodup _ _ h4, ?_⟩
  · intro kv hkv
    simp only at hkv
    rcases (mem_mapSet _ _ _ _).mp hkv with rfl | ⟨hmem, hne⟩
    · refine ⟨rfl, hp, hq, ⟨stat, by simp, rfl⟩, ?_⟩
      intro s hs hsp hsq
      rcases List.mem_append.mp hs with hs | hs
      · exact hbest s hs hsp hsq
      · rw [List.mem_singleton] at hs
        subst hs
        exact isNewerLatestStat_irrefl _
    · obtain ⟨a, b, c, ⟨s0, hs0, hs0e⟩, e⟩ := h2 kv hmem
      refine ⟨a, b, c, ⟨s0, List.mem_append_left _ hs0, hs0e⟩, ?_⟩
      intro s hs hsp hsq
      rcases List.mem_append.mp hs with hs | hs
      · exact e s hs hsp hsq
      · rw [List.mem_singleton] at hs
        subst hs
        exfalso
        apply hne
        rw [a, hsp, hsq]
  · intro s hs hsp hsq
    simp only
    rcases List.mem_append.mp hs with hs | hs
    · obtain ⟨kv, hkv, hk⟩ := h3 s hs hsp hsq
      by_cases hkey : kv.1 = { ProxyID := stat.ProxyID, ProtocolID := stat.ProtocolID }
      · exact ⟨_, (mem_mapSet _ _ _ _).mpr (Or.inl rfl), by rw [← hk, hkey]⟩
      · exact ⟨kv, (mem_mapSet _ _ _ _).mpr (Or.inr ⟨hkv, hkey⟩), hk⟩
    · rw [List.mem_singleton] at hs
      subst hs
      exact ⟨_, (mem_mapSet _ _ _ _).mpr (Or.inl rfl), rfl⟩
  · intro p
    simp only
    rw [mem_setAdd]
    constructor
    · rintro (rfl | hp2)
      · exact ⟨_, (mem_mapSet _ _ _ _).mpr (Or.inl rfl), rfl⟩
      · obtain ⟨kv, hkv, hk⟩ := (h5 p).mp hp2
        by_cases hkey : kv.1 = { ProxyID := stat.ProxyID, ProtocolID := stat.ProtocolID }
        · exact ⟨_, (mem_mapSet _ _ _ _).mpr (Or.inl rfl), by rw [← hk, hkey]⟩
        · exact ⟨kv, (mem_mapSet _ _ _ _).mpr (Or.inr ⟨hkv, hkey⟩), hk⟩
    · rintro ⟨kv, hkv, hk⟩
      rcases (mem_mapSet _ _ _ _).mp hkv with rfl | ⟨hmem, _⟩
      · exact Or.inl hk.symm
      · exact Or.inr ((h5 p).mpr ⟨kv, hmem, hk⟩)

/-- Leaving the maps alone keeps the invariant when the new statistic is either skipped for
a zero id or is not newer than the binding of its key. -/
theorem LatestInv_keep (now : Int) (seen : List ProxyStatistic) (m : LatestMap)
    (set : List Nat) (stat : ProxyStatistic) (hinv : LatestInv now seen (m, set))
    (hnew : ∀ kv ∈ m, stat.ProxyID = kv.2.ProxyID → stat.ProtocolID = kv.2.ProtocolID →
      isNewerLatestStat (latestEntryOf now stat) kv.2 = false)
    (hcov : stat.ProxyID ≠ 0 → stat.ProtocolID ≠ 0 →
      ∃ kv ∈ m, kv.1 = { ProxyID := stat.ProxyID, ProtocolID := stat.ProtocolID }) :
    LatestInv now (seen ++ [stat]) (m, set) := by
  obtain ⟨h1, h2, h3, h4, h5⟩ := hinv
  refine ⟨h1, ?_, ?_, h4, h5⟩
  · intro kv hkv
    obtain ⟨a, b, c, ⟨s0, hs0, hs0e⟩, e⟩ := h2 kv hkv
    refine ⟨a, b, c, ⟨s0, List.mem_append_left _ hs0, hs0e⟩, ?_⟩
    intro s hs hsp hsq
    rcases List.mem_append.mp hs with hs | hs
    · exact e s hs hsp hsq
    · rw [List.mem_singleton] at hs
      subst hs
      exact hnew kv hkv hsp hsq
  · intro s hs hsp hsq
    rcases List.mem_append.mp hs with hs | hs
    · exact h3 s hs hsp hsq
    · rw [List.mem_singleton] at hs
      subst hs
      exact hcov hsp hsq

theorem LatestInv_step (now : Int) (seen : List ProxyStatistic) (state : LatestMap × List Nat)
    (stat : ProxyStatistic) (hinv : LatestInv now seen state) :
    LatestInv now (seen ++ [stat]) (latestProxyStatusStep now state stat) := by
  obtain ⟨m, set⟩ := state
  have hinv0 := hinv
  obtain ⟨h1, h2, h3, h4, h5⟩ := hinv
  simp only at h1 h2 h3 h4 h5
  unfold latestProxyStatusStep
  by_cases hzero : stat.ProxyID = 0 ∨ stat.ProtocolID = 0
  · rw [if_pos hzero]
    apply LatestInv_keep now seen m set stat hinv0
    · intro kv hkv hp hq
      exfalso
      obtain ⟨_, b, c, _, _⟩ := h2 kv hkv
      rcases hzero with hz | hz
      · exact b (hp ▸ hz)
      · exact c (hq ▸ hz)
    · intro hp hq
      exfalso
      rcases hzero with hz | hz
      · exact hp hz
      · exact hq hz
  · rw [if_neg hzero]
    have hp : stat.ProxyID ≠ 0 := fun h => hzero (Or.inl h)
    have hq : stat.ProtocolID ≠ 0 := fun h => hzero (Or.inr h)
    simp only
    cases hget : mapGet m { ProxyID := stat.ProxyID, ProtocolID := stat.ProtocolID } with
    | none =>
      simp only
      apply LatestInv_insert now seen m set stat hinv0 hp hq
      intro s hs hsp hsq
      exfalso
      obtain ⟨kv, hkv, hk⟩ := h3 s hs (hsp ▸ hp) (hsq ▸ hq)
      exact (mapGet_none _ _).mp hget kv hkv (by rw [hk, hsp, hsq])
    | some existing =>
      simp only
      have hmem := mapGet_some _ _ _ hget
      obtain ⟨_, _, _, _, hex⟩ := h2 _ hmem
      have hkey := (h2 _ hmem).1
      simp only at hkey hex
      have hpid : existing.ProxyID = stat.ProxyID := by
        have := congrArg proxyProtocolKey.ProxyID hkey
        exact this.symm
      have hqid : existing.ProtocolID = stat.ProtocolID := by
        have := congrArg proxyProtocolKey.ProtocolID hkey
        exact this.symm
      by_cases hnewer : isNewerLatestStat (latestEntryOf now stat) existing = true
      · simp only [hnewer, Bool.not_true, Bool.false_eq_true, if_false]
        apply LatestInv_insert now seen m set stat hinv0 hp hq
        intro s hs hsp hsq
        have hold := hex s hs (hsp.trans hpid.symm) (hsq.trans hqid.symm)
        rw [isNewerLatestStat_false_iff] at hold ⊢
        rw [isNewerLatestStat_iff] at hnewer
        omega
      · have hfalse : isNewerLatestStat (latestEntryOf now stat) existing = false := by
          simpa using hnewer
        simp only [hfalse, Bool.not_false, if_true]
        apply LatestInv_keep now seen m set stat hinv0
        · intro kv hkv hp2 hq2
          have hkv1 := (h2 kv hkv).1
          have : kv = ({ ProxyID := stat.ProxyID, ProtocolID := stat.ProtocolID }, existing) :=
            nodup_keys_unique m h1 _ _ hkv hmem (by rw [hkv1, ← hp2, ← hq2])
          rw [this]
          exact hfalse
        · intro _ _
          exact ⟨_, hmem, rfl⟩

theorem LatestInv_foldl (now : Int) (rest : List ProxyStatistic) :
    ∀ (seen : List ProxyStatistic) (state : LatestMap × List Nat),
      LatestInv now seen state →
      LatestInv now (seen ++ rest) (rest.foldl (latestProxyStatusStep now) state) := by
  induction rest with
  | nil => intro seen state h; simpa using h
  | cons stat rest ih =>
    intro seen state h
    have := ih (seen ++ [stat]) _ (LatestInv_step now seen state stat h)
    simpa using this

theorem LatestInv_init (now : Int) : LatestInv now [] ([], []) := by
  refine ⟨by simp, by simp, by simp, by simp, by simp⟩

theorem LatestInv_all (now : Int) (stats : List ProxyStatistic) :
    LatestInv now stats (stats.foldl (latestProxyStatusStep now) ([], [])) := by
  have := LatestInv_foldl now stats [] _ (LatestInv_init now)
  simpa using this

theorem latestProxyStatusEntries_eq (now : Int) (stats : List ProxyStatistic) :
    latestProxyStatusEntries now stats
      = ((stats.foldl (latestProxyStatusStep now) ([], [])).1.map (·.2),
         (stats.foldl (latestProxyStatusStep now) ([], [])).2) := by
  unfold latestProxyStatusEntries
  by_cases h0 : stats.length = 0
  · have : stats = [] := List.length_eq_zero.mp h0
    subst this
    rfl
  · rw [if_neg h0]
    simp only
    by_cases h1 : (stats.foldl (latestProxyStatusStep now) ([], [])).1.length = 0
    · rw [if_pos h1]
      have hnil := List.length_eq_zero.mp h1
      obtain ⟨_, _, _, _, h5⟩ := LatestInv_all now stats
      have hset : (stats.foldl (latestProxyStatusStep now) ([], [])).2 = [] := by
        apply List.eq_nil_iff_forall_not_mem.mpr
        intro p hp
        obtain ⟨kv, hkv, _⟩ := (h5 p).mp hp
        rw [hnil] at hkv
        simp at hkv
      rw [hnil, hset]
      rfl
    · rw [if_neg h1]

/-- The fields of the entry built for a statistic. -/
theorem latestEntryOf_fields (now : Int) (s : ProxyStatistic) :
    (latestEntryOf now s).ProxyID = s.ProxyID ∧
    (latestEntryOf now s).ProtocolID = s.ProtocolID ∧
    (latestEntryOf now s).Alive = s.Alive ∧
    (latestEntryOf now s).StatisticID = s.ID ∧
    (latestEntryOf now s).CheckedAt =
      (if s.CreatedAt = zeroTime then now else s.CreatedAt) := by
  refine ⟨rfl, rfl, rfl, rfl, ?_⟩
  unfold latestEntryOf IsZero
  by_cases h : s.CreatedAt = zeroTime <;> simp [h]

/-- C4. For every batch, `latestProxyStatusEntries` returns exactly one entry per
`(proxy_id, protocol_id)` occurring in the batch with both ids non-zero. Each entry is a
batch element of its key: it has the proxy id, protocol id, alive flag and statistic id of
that element, and its `checked_at` is the element's `created_at`, or the call time when
`created_at` is zero; and no batch element of that key has a greater
`(checked_at, statistic_id)` in lexicographic order. The returned proxy ids are distinct
and are exactly the proxy ids of the returned entries. -/
theorem latestProxyStatusEntries_spec (now : Int) (stats : List ProxyStatistic) :
    ((latestProxyStatusEntries now stats).1.map (fun e => (e.ProxyID, e.ProtocolID))).Nodup ∧
    (∀ p q, (∃ e ∈ (latestProxyStatusEntries now stats).1, e.ProxyID = p ∧ e.ProtocolID = q)
      ↔ (p ≠ 0 ∧ q ≠ 0 ∧ ∃ s ∈ stats, s.ProxyID = p ∧ s.ProtocolID = q)) ∧
    (∀ e ∈ (latestProxyStatusEntries now stats).1,
      (∃ s ∈ stats, e.ProxyID = s.ProxyID ∧ e.ProtocolID = s.ProtocolID ∧
        e.Alive = s.Alive ∧ e.StatisticID = s.ID ∧
        e.CheckedAt = (if s.CreatedAt = zeroTime then now else s.CreatedAt)) ∧
      ∀ s ∈ stats, s.ProxyID = e.ProxyID → s.ProtocolID = e.ProtocolID →
        (if s.CreatedAt = zeroTime then now else s.CreatedAt) < e.CheckedAt ∨
        ((if s.CreatedAt = zeroTime then now else s.CreatedAt) = e.CheckedAt ∧
          s.ID ≤ e.StatisticID)) ∧
    (latestProxyStatusEntries now stats).2.Nodup ∧
    (∀ p, p ∈ (latestProxyStatusEntries now stats).2
      ↔ ∃ e ∈ (latestProxyStatusEntries now stats).1, e.ProxyID = p) := by
  rw [latestProxyStatusEntries_eq]
  obtain ⟨h1, h2, h3, h4, h5⟩ := LatestInv_all now stats
  generalize stats.foldl (latestProxyStatusStep now) ([], []) = state at h1 h2 h3 h4 h5
  obtain ⟨m, set⟩ := state
  simp only at h1 h2 h3 h4 h5 ⊢
  refine ⟨?_, ?_, ?_, h4, ?_⟩
  · have hmap : (m.map (·.2)).map (fun e => (e.ProxyID, e.ProtocolID))
        = (m.map (·.1)).map (fun k => (k.ProxyID, k.ProtocolID)) := by
      rw [List.map_map, List.map_map]
      apply List.map_congr_left
      intro kv hkv
      have := (h2 kv hkv).1
      simp only [Function.comp]
      rw [this]
    rw [hmap]
    apply List.Nodup.map _ h1
    intro a b hab
    cases a; cases b
    simp only [Prod.mk.injEq] at hab
    simp [hab.1, hab.2]
  · intro p q
    constructor
    · rintro ⟨e, he, rfl, rfl⟩
      obtain ⟨kv, hkv, rfl⟩ := List.mem_map.mp he
      obtain ⟨_, b, c, ⟨s, hs, hse⟩, _⟩ := h2 kv hkv
      refine ⟨b, c, s, hs, ?_, ?_⟩
      · rw [hse]; rfl
      · rw [hse]; rfl
    · rintro ⟨hp, hq, s, hs, rfl, rfl⟩
      obtain ⟨kv, hkv, hk⟩ := h3 s hs hp hq
      have hkey := (h2 kv hkv).1
      refine ⟨kv.2, List.mem_map.mpr ⟨kv, hkv, rfl⟩, ?_, ?_⟩
      · have := congrArg proxyProtocolKey.ProxyID (hkey.symm.trans hk)
        exact this
      · have := congrArg proxyProtocolKey.ProtocolID (hkey.symm.trans hk)
        exact this
  · intro e he
    obtain ⟨kv, hkv, rfl⟩ := List.mem_map.mp he
    obtain ⟨_, _, _, ⟨s0, hs0, hse⟩, hbest⟩ := h2 kv hkv
    have hf := latestEntryOf_fields now s0
    refine ⟨⟨s0, hs0, ?_, ?_, ?_, ?_, ?_⟩, ?_⟩
    · rw [hse]; exact hf.1
    · rw [hse]; exact hf.2.1
    · rw [hse]; exact hf.2.2.1
    · rw [hse]; exact hf.2.2.2.1
    · rw [hse]; exact hf.2.2.2.2
    · intro s hs hsp hsq
      have := (isNewerLatestStat_false_iff _ _).mp (hbest s hs hsp hsq)
      have hfs := (latestEntryOf_fields now s).2.2.2.2
      rw [hfs] at this
      exact this
  · intro p
    rw [h5 p]
    constructor
    · rintro ⟨kv, hkv, hk⟩
      refine ⟨kv.2, List.mem_map.mpr ⟨kv, hkv, rfl⟩, ?_⟩
      have := congrArg proxyProtocolKey.ProxyID (h2 kv hkv).1
      rw [← hk, this]
    · rintro ⟨e, he, rfl⟩
      obtain ⟨kv, hkv, rfl⟩ := List.mem_map.mp he
      refine ⟨kv, hkv, ?_⟩
      have := congrArg proxyProtocolKey.ProxyID (h2 kv hkv).1
      exact this

/-! ### The conflict rule of `upsertProxyLatestStatistics` -/

theorem upsertLatestWhere_eq (c e : ProxyLatestStatistic) :
    upsertLatestWhere c e = isNewerLatestStat c e := by
  rw [Bool.eq_iff_iff, isNewerLatestStat_iff]
  simp only [upsertLatestWhere, Bool.or_eq_true, Bool.and_eq_true, decide_eq_true_eq]
  omega

theorem hasKey_iff (p : Nat) (q : Int) (r : ProxyLatestStatistic) :
    hasKey p q r = true ↔ r.ProxyID = p ∧ r.ProtocolID = q := by
  simp [hasKey]

theorem conflictUpdate_ids (e r : ProxyLatestStatistic) :
    (conflictUpdate e r).ProxyID = r.ProxyID ∧ (conflictUpdate e r).ProtocolID = r.ProtocolID := by
  unfold conflictUpdate
  split
  · exact ⟨rfl, rfl⟩
  · exact ⟨rfl, rfl⟩

theorem conflictUpdate_hasKey (p : Nat) (q : Int) (e r : ProxyLatestStatistic) :
    hasKey p q (conflictUpdate e r) = hasKey p q r := by
  simp only [hasKey, (conflictUpdate_ids e r).1, (conflictUpdate_ids e r).2]

theorem conflictUpdate_other (p : Nat) (q : Int) (e r : ProxyLatestStatistic)
    (he : hasKey p q e = false) (hr : hasKey p q r = true) : conflictUpdate e r = r := by
  unfold conflictUpdate
  rw [if_neg]
  rintro ⟨h1, h2, _⟩
  rw [hasKey_iff] at hr
  have : hasKey p q e = true := by rw [hasKey_iff, ← h1, ← h2]; exact hr
  rw [he] at this
  exact Bool.noConfusion this

theorem conflictUpdate_same (p : Nat) (q : Int) (e r : ProxyLatestStatistic)
    (he : hasKey p q e = true) (hr : hasKey p q r = true) :
    conflictUpdate e r = pickNewer r e := by
  rw [hasKey_iff] at he hr
  unfold conflictUpdate pickNewer
  rw [upsertLatestWhere_eq]
  by_cases hn : isNewerLatestStat e r = true
  · rw [if_pos ⟨hr.1.trans he.1.symm, hr.2.trans he.2.symm, hn⟩, if_pos hn]
    cases e
    cases r
    simp only at he hr
    simp [assignExcluded, he.1, he.2, hr.1, hr.2]
  · rw [if_neg (fun h => hn h.2.2), if_neg hn]

theorem filter_map_conflictUpdate (p : Nat) (q : Int) (e : ProxyLatestStatistic)
    (t : List ProxyLatestStatistic) :
    (t.map (conflictUpdate e)).filter (hasKey p q)
      = (t.filter (hasKey p q)).map (conflictUpdate e) := by
  induction t with
  | nil => rfl
  | cons r t ih =>
    rw [List.map_cons]
    by_cases hk : hasKey p q r = true
    · rw [List.filter_cons_of_pos (by rw [conflictUpdate_hasKey]; exact hk),
        List.filter_cons_of_pos hk, List.map_cons, ih]
    · rw [List.filter_cons_of_neg (by rw [conflictUpdate_hasKey]; exact hk),
        List.filter_cons_of_neg hk, ih]

theorem any_key_iff (table : List ProxyLatestStatistic) (e : ProxyLatestStatistic) :
    table.any (fun r => decide (r.ProxyID = e.ProxyID) && decide (r.ProtocolID = e.ProtocolID))
      = true ↔ table.filter (hasKey e.ProxyID e.ProtocolID) ≠ [] := by
  rw [List.any_eq_true]
  constructor
  · rintro ⟨r, hr, hk⟩ hnil
    have : r ∈ table.filter (hasKey e.ProxyID e.ProtocolID) := List.mem_filter.mpr ⟨hr, hk⟩
    rw [hnil] at this
    simp at this
  · intro hne
    obtain ⟨r, hr⟩ := List.exists_mem_of_ne_nil _ hne
    exact ⟨r, (List.mem_filter.mp hr).1, (List.mem_filter.mp hr).2⟩

theorem upsertLatestRow_other (table : List ProxyLatestStatistic) (e : ProxyLatestStatistic)
    (p : Nat) (q : Int) (he : hasKey p q e = false) :
    (upsertLatestRow table e).filter (hasKey p q) = table.filter (hasKey p q) := by
  unfold upsertLatestRow
  split
  · rw [filter_map_conflictUpdate]
    conv_rhs => rw [← List.map_id (table.filter (hasKey p q))]
    apply List.map_congr_left
    intro r hr
    exact conflictUpdate_other p q e r he (List.mem_filter.mp hr).2
  · rw [List.filter_append]
    simp [he]

theorem upsertLatestRow_first (table : List ProxyLatestStatistic) (e : ProxyLatestStatistic)
    (p : Nat) (q : Int) (he : hasKey p q e = true)
    (hnone : table.filter (hasKey p q) = []) :
    (upsertLatestRow table e).filter (hasKey p q) = [e] := by
  have hkey := (hasKey_iff p q e).mp he
  have hany : ¬ (table.any (fun r => decide (r.ProxyID = e.ProxyID) &&
      decide (r.ProtocolID = e.ProtocolID)) = true) := by
    rw [any_key_iff, hkey.1, hkey.2]
    exact fun h => h hnone
  unfold upsertLatestRow
  rw [if_neg hany, List.filter_append, hnone]
  simp [he]

theorem upsertLatestRow_stored (table : List ProxyLatestStatistic)
    (e x : ProxyLatestStatistic) (p : Nat) (q : Int) (he : hasKey p q e = true)
    (hone : table.filter (hasKey p q) = [x]) :
    (upsertLatestRow table e).filter (hasKey p q) = [pickNewer x e] := by
  have hkey := (hasKey_iff p q e).mp he
  have hx : x ∈ table.filter (hasKey p q) := by rw [hone]; simp
  have hany : table.any (fun r => decide (r.ProxyID = e.ProxyID) &&
      decide (r.ProtocolID = e.ProtocolID)) = true := by
    rw [any_key_iff, hkey.1, hkey.2, hone]
    simp
  unfold upsertLatestRow
  rw [if_pos hany, filter_map_conflictUpdate, hone, List.map_singleton,
    conflictUpdate_same p q e x he (List.mem_filter.mp hx).2]

theorem foldl_upsert_stored (p : Nat) (q : Int) (l : List ProxyLatestStatistic) :
    ∀ (table : List ProxyLatestStatistic) (cur : Option ProxyLatestStatistic),
      table.filter (hasKey p q) = cur.toList →
      (l.foldl upsertLatestRow table).filter (hasKey p q)
        = (storedAfter cur (l.filter (hasKey p q))).toList := by
  induction l with
  | nil =>
    intro table cur h
    cases cur <;> simpa [storedAfter] using h
  | cons e l ih =>
    intro table cur h
    rw [List.foldl_cons]
    by_cases he : hasKey p q e = true
    · rw [List.filter_cons_of_pos he]
      cases cur with
      | none =>
        rw [storedAfter]
        exact ih _ (some e) (upsertLatestRow_first table e p q he h)
      | some x =>
        rw [storedAfter]
        exact ih _ (some (pickNewer x e)) (upsertLatestRow_stored table e x p q he h)
    · rw [List.filter_cons_of_neg he]
      have he2 : hasKey p q e = false := by simpa using he
      exact ih _ cur ((upsertLatestRow_other table e p q he2).trans h)

theorem pickNewer_cases (x e : ProxyLatestStatistic) :
    (pickNewer x e = x ∨ pickNewer x e = e) ∧
    isNewerLatestStat x (pickNewer x e) = false ∧
    isNewerLatestStat e (pickNewer x e) = false := by
  unfold pickNewer
  by_cases h : isNewerLatestStat e x = true
  · rw [if_pos h]
    refine ⟨Or.inr rfl, ?_, isNewerLatestStat_irrefl e⟩
    rw [isNewerLatestStat_iff] at h
    rw [isNewerLatestStat_false_iff]
    omega
  · rw [if_neg h]
    exact ⟨Or.inl rfl, isNewerLatestStat_irrefl x, by simpa using h⟩

theorem isNewerLatestStat_false_trans (a b c : ProxyLatestStatistic)
    (h1 : isNewerLatestStat a b = false) (h2 : isNewerLatestStat b c = false) :
    isNewerLatestStat a c = false := by
  rw [isNewerLatestStat_false_iff] at h1 h2 ⊢
  omega

/-- The row stored after the candidates is one of them (or the initial row) and none of
them is newer than it. -/
theorem storedAfter_max (l : List ProxyLatestStatistic) :
    ∀ (cur : Option ProxyLatestStatistic), cur.toList ++ l ≠ [] →
      ∃ m, storedAfter cur l = some m ∧ m ∈ cur.toList ++ l ∧
        ∀ r ∈ cur.toList ++ l, isNewerLatestStat r m = false := by
  induction l with
  | nil =>
    intro cur hne
    cases cur with
    | none => simp at hne
    | some x =>
      refine ⟨x, rfl, by simp, ?_⟩
      intro r hr
      simp at hr
      rw [hr]
      exact isNewerLatestStat_irrefl x
  | cons e l ih =>
    intro cur _
    cases cur with
    | none =>
      obtain ⟨m, hm, hmem, hmax⟩ := ih (some e) (by simp)
      refine ⟨m, by rw [storedAfter]; exact hm, by simpa using hmem, ?_⟩
      intro r hr
      exact hmax r (by simpa using hr)
    | some x =>
      obtain ⟨m, hm, hmem, hmax⟩ := ih (some (pickNewer x e)) (by simp)
      obtain ⟨hcase, hx, he⟩ := pickNewer_cases x e
      have hpick := hmax (pickNewer x e) (by simp)
      refine ⟨m, by rw [storedAfter]; exact hm, ?_, ?_⟩
      · simp only [Option.toList, List.singleton_append, List.mem_cons] at hmem ⊢
        rcases hmem with h | h
        · rcases hcase with hc | hc
          · left; rw [h, hc]
          · right; left; rw [h, hc]
        · right; right; exact h
      · intro r hr
        simp only [Option.toList, List.singleton_append, List.mem_cons] at hr
        rcases hr with h | h | h
        · rw [h]; exact isNewerLatestStat_false_trans _ _ _ hx hpick
        · rw [h]; exact isNewerLatestStat_false_trans _ _ _ he hpick
        · exact hmax r (by simp [h])

theorem conflictUpdate_ge (e r : ProxyLatestStatistic) :
    r.CheckedAt < (conflictUpdate e r).CheckedAt ∨
    (r.CheckedAt = (conflictUpdate e r).CheckedAt ∧
      r.StatisticID ≤ (conflictUpdate e r).StatisticID) := by
  unfold conflictUpdate
  split
  · rename_i h
    have h3 := h.2.2
    rw [upsertLatestWhere_eq, isNewerLatestStat_iff] at h3
    simp only [assignExcluded]
    omega
  · omega

/-- C5. The conflict rule of `upsertProxyLatestStatistics` is `isNewerLatestStat`; an upsert
never lowers the `(checked_at, statistic_id)` of a stored row; and when the candidate rows
`l` (pairwise distinct statistic ids) are applied in any order `l'` to a table holding no
row for the key `(p, q)`, the row stored for `(p, q)` is the one row `m` of `l` with that
key than which no row of `l` with that key is greater in `(checked_at, statistic_id)`. -/
theorem upsertLatest_lexmax (table : List ProxyLatestStatistic) (p : Nat) (q : Int)
    (l : List ProxyLatestStatistic)
    (hfresh : ∀ r ∈ table, ¬ (r.ProxyID = p ∧ r.ProtocolID = q))
    (hsome : ∃ r ∈ l, r.ProxyID = p ∧ r.ProtocolID = q)
    (hids : (l.map (·.StatisticID)).Nodup) :
    (∀ c e, upsertLatestWhere c e = isNewerLatestStat c e) ∧
    (∀ (t : List ProxyLatestStatistic) (e r : ProxyLatestStatistic), r ∈ t →
      ∃ r2 ∈ upsertLatestRow t e, r2.ProxyID = r.ProxyID ∧ r2.ProtocolID = r.ProtocolID ∧
        (r.CheckedAt < r2.CheckedAt ∨
          (r.CheckedAt = r2.CheckedAt ∧ r.StatisticID ≤ r2.StatisticID))) ∧
    (∃ m ∈ l, m.ProxyID = p ∧ m.ProtocolID = q ∧
      (∀ r ∈ l, r.ProxyID = p → r.ProtocolID = q →
        r.CheckedAt < m.CheckedAt ∨
          (r.CheckedAt = m.CheckedAt ∧ r.StatisticID ≤ m.StatisticID)) ∧
      ∀ l2 : List ProxyLatestStatistic, l2.Perm l →
        (l2.foldl upsertLatestRow table).filter (hasKey p q) = [m]) := by
  refine ⟨upsertLatestWhere_eq, ?_, ?_⟩
  · intro t e r hr
    unfold upsertLatestRow
    split
    · exact ⟨conflictUpdate e r, List.mem_map.mpr ⟨r, hr, rfl⟩, (conflictUpdate_ids e r).1,
        (conflictUpdate_ids e r).2, conflictUpdate_ge e r⟩
    · exact ⟨r, List.mem_append_left _ hr, rfl, rfl, by omega⟩
  · have htable : table.filter (hasKey p q) = (none : Option ProxyLatestStatistic).toList := by
      apply List.eq_nil_iff_forall_not_mem.mpr
      intro r hr
      have := List.mem_filter.mp hr
      exact hfresh r this.1 ((hasKey_iff p q r).mp this.2)
    have hne : (none : Option ProxyLatestStatistic).toList ++ l.filter (hasKey p q) ≠ [] := by
      obtain ⟨r, hr, hk⟩ := hsome
      intro h
      have : r ∈ (none : Option ProxyLatestStatistic).toList ++ l.filter (hasKey p q) := by
        simp only [Option.toList, List.nil_append]
        exact List.mem_filter.mpr ⟨hr, (hasKey_iff p q r).mpr hk⟩
      rw [h] at this
      simp at this
    obtain ⟨m, hm, hmem, hmax⟩ := storedAfter_max _ none hne
    simp only [Option.toList, List.nil_append] at hmem hmax
    have hml := List.mem_filter.mp hmem
    have hmk := (hasKey_iff p q m).mp hml.2
    refine ⟨m, hml.1, hmk.1, hmk.2, ?_, ?_⟩
    · intro r hr hrp hrq
      have := hmax r (List.mem_filter.mpr ⟨hr, (hasKey_iff p q r).mpr ⟨hrp, hrq⟩⟩)
      exact (isNewerLatestStat_false_iff r m).mp this
    · intro l2 hperm
      have hperm2 : (l2.filter (hasKey p q)).Perm (l.filter (hasKey p q)) :=
        List.Perm.filter _ hperm
      have hne2 : (none : Option ProxyLatestStatistic).toList ++ l2.filter (hasKey p q) ≠ [] := by
        intro h
        simp only [Option.toList, List.nil_append] at h
        rw [h] at hperm2
        have := List.Perm.nil_eq hperm2
        rw [← this] at hmem
        simp at hmem
      obtain ⟨m2, hm2, hmem2, hmax2⟩ := storedAfter_max _ none hne2
      simp only [Option.toList, List.nil_append] at hmem2 hmax2
      rw [foldl_upsert_stored p q l2 table none htable, hm2]
      have h12 := hmax2 m (hperm2.symm.subset hmem)
      have h21 := hmax m2 (hperm2.subset hmem2)
      rw [isNewerLatestStat_false_iff] at h12 h21
      have hsid : m2.StatisticID = m.StatisticID := by omega
      have hm2l : m2 ∈ l := (List.mem_filter.mp (hperm2.subset hmem2)).1
      have : m2 = m := List.inj_on_of_nodup_map hids hm2l hml.1 hsid
      rw [this]
      rfl

/-- Witness of C5: three candidates for the key (5, 1) applied to the empty table. -/
theorem upsertLatest_lexmax_witness :
    ∃ m ∈ candidateRows, m.ProxyID = 5 ∧ m.ProtocolID = 1 ∧
      (∀ r ∈ candidateRows, r.ProxyID = 5 → r.ProtocolID = 1 →
        r.CheckedAt < m.CheckedAt ∨
          (r.CheckedAt = m.CheckedAt ∧ r.StatisticID ≤ m.StatisticID)) ∧
      ∀ l2 : List ProxyLatestStatistic, l2.Perm candidateRows →
        (l2.foldl upsertLatestRow []).filter (hasKey 5 1) = [m] :=
  (upsertLatest_lexmax [] 5 1 candidateRows (by simp)
    ⟨_, List.mem_cons_self _ _, rfl, rfl⟩ (by decide)).2.2

/-! ### Overall status -/

theorem foldl_max_ge (ts : List Int) : ∀ t : Int, t ≤ ts.foldl max t ∧
    (∀ x ∈ ts, x ≤ ts.foldl max t) ∧ (ts.foldl max t = t ∨ ts.foldl max t ∈ ts) := by
  induction ts with
  | nil => intro t; simp
  | cons u ts ih =>
    intro t
    obtain ⟨h1, h2, h3⟩ := ih (max t u)
    rw [List.foldl_cons]
    refine ⟨le_trans (le_max_left t u) h1, ?_, ?_⟩
    · intro x hx
      rcases List.mem_cons.mp hx with rfl | hx
      · exact le_trans (le_max_right t x) h1
      · exact h2 x hx
    · rcases h3 with h | h
      · rcases max_choice t u with hc | hc
        · left; rw [h, hc]
        · right; rw [h, hc]; exact List.mem_cons_self _ _
      · right; exact List.mem_cons_of_mem _ h

theorem sqlMax_spec (ts : List Int) (hne : ts ≠ []) :
    ∃ t, sqlMax ts = some t ∧ t ∈ ts ∧ ∀ x ∈ ts, x ≤ t := by
  cases ts with
  | nil => exact absurd rfl hne
  | cons u ts =>
    obtain ⟨h1, h2, h3⟩ := foldl_max_ge ts u
    refine ⟨ts.foldl max u, rfl, ?_, ?_⟩
    · rcases h3 with h | h
      · rw [h]; exact List.mem_cons_self _ _
      · exact List.mem_cons_of_mem _ h
    · intro x hx
      rcases List.mem_cons.mp hx with rfl | hx
      · exact h1
      · exact h2 x hx

/-- The grouped select yields, for a listed proxy id with latest rows, a row holding the
OR of `alive` and the greatest `checked_at` of those rows. -/
theorem selectOverallStatuses_mem (latest : List ProxyLatestStatistic) (proxyIDs : List Nat)
    (p : Nat) (hp : p ∈ proxyIDs) (hrows : latest.filter (fun r => decide (r.ProxyID = p)) ≠ []) :
    ∃ s ∈ selectOverallStatuses latest proxyIDs, s.ProxyID = p ∧
      (s.OverallAlive = true
        ↔ ∃ x ∈ latest.filter (fun r => decide (r.ProxyID = p)), x.Alive = true) ∧
      (∃ x ∈ latest.filter (fun r => decide (r.ProxyID = p)), x.CheckedAt = s.LastCheckedAt) ∧
      (∀ x ∈ latest.filter (fun r => decide (r.ProxyID = p)), x.CheckedAt ≤ s.LastCheckedAt) := by
  have hgroup : (latest.filter (fun pls => decide (pls.ProxyID ∈ proxyIDs))).filter
      (fun pls => decide (pls.ProxyID = p)) = latest.filter (fun r => decide (r.ProxyID = p)) := by
    rw [List.filter_filter]
    apply List.filter_congr
    intro x _
    by_cases hx : x.ProxyID = p
    · simp [hx, hp]
    · simp [hx]
  obtain ⟨r0, hr0⟩ := List.exists_mem_of_ne_nil _ hrows
  have hr0' := List.mem_filter.mp hr0
  have hr0p : r0.ProxyID = p := by simpa using hr0'.2
  have hdedup : p ∈ ((latest.filter (fun pls => decide (pls.ProxyID ∈ proxyIDs))).map
      (·.ProxyID)).dedup := by
    rw [List.mem_dedup, List.mem_map]
    exact ⟨r0, List.mem_filter.mpr ⟨hr0'.1, by simp [hr0p, hp]⟩, hr0p⟩
  have hts : (latest.filter (fun r => decide (r.ProxyID = p))).map (·.CheckedAt) ≠ [] := by
    intro h
    exact hrows (List.map_eq_nil_iff.mp h)
  obtain ⟨t, ht, htmem, htmax⟩ := sqlMax_spec _ hts
  refine ⟨{ ProxyID := p,
            OverallAlive := (latest.filter (fun r => decide (r.ProxyID = p))).any (·.Alive),
            LastCheckedAt := t }, ?_, rfl, ?_, ?_, ?_⟩
  · unfold selectOverallStatuses
    simp only
    rw [List.mem_filterMap]
    refine ⟨p, hdedup, ?_⟩
    rw [hgroup, ht]
    rfl
  · simp only [List.any_eq_true]
  · obtain ⟨x, hx, hxt⟩ := List.mem_map.mp htmem
    exact ⟨x, hx, hxt⟩
  · intro x hx
    exact htmax _ (List.mem_map.mpr ⟨x, hx, rfl⟩)

theorem selectOverallStatuses_nodup (latest : List ProxyLatestStatistic) (proxyIDs : List Nat) :
    ((selectOverallStatuses latest proxyIDs).map (·.ProxyID)).Nodup := by
  unfold selectOverallStatuses
  simp only
  rw [List.map_filterMap]
  apply List.Nodup.filterMap _ (List.nodup_dedup _)
  intro a a2 b hb hb2
  simp only [Option.mem_def, Option.map_eq_some', Option.bind_eq_some] at hb hb2
  obtain ⟨x, ⟨_, _, rfl⟩, rfl⟩ := hb
  obtain ⟨y, ⟨_, _, rfl⟩, h⟩ := hb2
  exact h.symm

theorem upsertOverallRow_set (table : List ProxyOverallStatus) (s : ProxyOverallStatus) :
    (∃ r ∈ upsertOverallRow table s, r.ProxyID = s.ProxyID) ∧
    ∀ r ∈ upsertOverallRow table s, r.ProxyID = s.ProxyID →
      r.OverallAlive = s.OverallAlive ∧ r.LastCheckedAt = s.LastCheckedAt := by
  unfold upsertOverallRow
  split
  · rename_i hany
    obtain ⟨r0, hr0, hr0p⟩ := List.any_eq_true.mp hany
    have hr0p : r0.ProxyID = s.ProxyID := by simpa using hr0p
    constructor
    · exact ⟨_, List.mem_map.mpr ⟨r0, hr0, rfl⟩, by simp [hr0p]⟩
    · intro r hr hrp
      obtain ⟨r1, _, rfl⟩ := List.mem_map.mp hr
      by_cases h1 : r1.ProxyID = s.ProxyID
      · simp [h1]
      · simp only [h1, if_false] at hrp
  · rename_i hany
    constructor
    · exact ⟨s, by simp, rfl⟩
    · intro r hr hrp
      rcases List.mem_append.mp hr with h | h
      · exfalso
        apply hany
        exact List.any_eq_true.mpr ⟨r, h, by simp [hrp]⟩
      · rw [List.mem_singleton] at h
        rw [h]
        exact ⟨rfl, rfl⟩

theorem upsertOverallRow_keep (table : List ProxyOverallStatus) (s : ProxyOverallStatus)
    (p : Nat) (a : Bool) (t : Int) (hne : s.ProxyID ≠ p)
    (h : (∃ r ∈ table, r.ProxyID = p) ∧
      ∀ r ∈ table, r.ProxyID = p → r.OverallAlive = a ∧ r.LastCheckedAt = t) :
    (∃ r ∈ upsertOverallRow table s, r.ProxyID = p) ∧
    ∀ r ∈ upsertOverallRow table s, r.ProxyID = p →
      r.OverallAlive = a ∧ r.LastCheckedAt = t := by
  obtain ⟨⟨r0, hr0, hr0p⟩, hall⟩ := h
  have hr0s : r0.ProxyID ≠ s.ProxyID := fun h => hne (h ▸ hr0p)
  unfold upsertOverallRow
  split
  · constructor
    · exact ⟨_, List.mem_map.mpr ⟨r0, hr0, rfl⟩, by rw [if_neg hr0s]; exact hr0p⟩
    · intro r hr hrp
      obtain ⟨r1, hr1, rfl⟩ := List.mem_map.mp hr
      by_cases h1 : r1.ProxyID = s.ProxyID
      · simp only [h1, if_true] at hrp
        exact absurd hrp hne
      · simp only [h1, if_false] at hrp ⊢
        exact hall r1 hr1 hrp
  · constructor
    · exact ⟨r0, List.mem_append_left _ hr0, hr0p⟩
    · intro r hr hrp
      rcases List.mem_append.mp hr with h | h
      · exact hall r h hrp
      · rw [List.mem_singleton] at h
        rw [h] at hrp
        exact absurd hrp hne

theorem foldl_upsertOverall_keep (sel : List ProxyOverallStatus) (p : Nat) (a : Bool) (t : Int)
    (hne : ∀ s ∈ sel, s.ProxyID ≠ p) :
    ∀ table : List ProxyOverallStatus,
      ((∃ r ∈ table, r.ProxyID = p) ∧
        ∀ r ∈ table, r.ProxyID = p → r.OverallAlive = a ∧ r.LastCheckedAt = t) →
      ((∃ r ∈ sel.foldl upsertOverallRow table, r.ProxyID = p) ∧
        ∀ r ∈ sel.foldl upsertOverallRow table, r.ProxyID = p →
          r.OverallAlive = a ∧ r.LastCheckedAt = t) := by
  induction sel with
  | nil => intro table h; exact h
  | cons s sel ih =>
    intro table h
    rw [List.foldl_cons]
    exact ih (fun x hx => hne x (List.mem_cons_of_mem _ hx)) _
      (upsertOverallRow_keep table s p a t (hne s (List.mem_cons_self _ _)) h)

theorem foldl_upsertOverall_set (sel : List ProxyOverallStatus) (s : ProxyOverallStatus) :
    ∀ table : List ProxyOverallStatus, (sel.map (·.ProxyID)).Nodup → s ∈ sel →
      ((∃ r ∈ sel.foldl upsertOverallRow table, r.ProxyID = s.ProxyID) ∧
        ∀ r ∈ sel.foldl upsertOverallRow table, r.ProxyID = s.ProxyID →
          r.OverallAlive = s.OverallAlive ∧ r.LastCheckedAt = s.LastCheckedAt) := by
  induction sel with
  | nil => intro _ _ h; simp at h
  | cons x sel ih =>
    intro table hnd hs
    rw [List.map_cons, List.nodup_cons] at hnd
    rw [List.foldl_cons]
    rcases List.mem_cons.mp hs with rfl | hs
    · apply foldl_upsertOverall_keep sel _ _ _ _ _ (upsertOverallRow_set table s)
      intro y hy hyp
      exact hnd.1 (List.mem_map.mpr ⟨y, hy, hyp⟩)
    · exact ih _ hnd.2 hs

theorem upsertLatestRow_has (table : List ProxyLatestStatistic) (e : ProxyLatestStatistic) :
    (∃ r ∈ upsertLatestRow table e, r.ProxyID = e.ProxyID) ∧
    ∀ r ∈ table, ∃ r2 ∈ upsertLatestRow table e, r2.ProxyID = r.ProxyID := by
  unfold upsertLatestRow
  split
  · rename_i hany
    obtain ⟨r0, hr0, hr0p⟩ := List.any_eq_true.mp hany
    have hr0p : r0.ProxyID = e.ProxyID := by
      simp only [Bool.and_eq_true, decide_eq_true_eq] at hr0p
      exact hr0p.1
    constructor
    · exact ⟨_, List.mem_map.mpr ⟨r0, hr0, rfl⟩, by rw [(conflictUpdate_ids e r0).1, hr0p]⟩
    · intro r hr
      exact ⟨_, List.mem_map.mpr ⟨r, hr, rfl⟩, (conflictUpdate_ids e r).1⟩
  · constructor
    · exact ⟨e, by simp, rfl⟩
    · intro r hr
      exact ⟨r, List.mem_append_left _ hr, rfl⟩

theorem foldl_upsertLatest_has (entries : List ProxyLatestStatistic) (p : Nat) :
    ∀ table : List ProxyLatestStatistic,
      ((∃ r ∈ table, r.ProxyID = p) ∨ ∃ e ∈ entries, e.ProxyID = p) →
      ∃ r ∈ entries.foldl upsertLatestRow table, r.ProxyID = p := by
  induction entries with
  | nil =>
    intro table h
    rcases h with h | ⟨e, he, _⟩
    · exact h
    · simp at he
  | cons x entries ih =>
    intro table h
    rw [List.foldl_cons]
    apply ih
    rcases h with ⟨r, hr, hrp⟩ | ⟨e, he, hep⟩
    · left
      obtain ⟨r2, hr2, hr2p⟩ := (upsertLatestRow_has table x).2 r hr
      exact ⟨r2, hr2, hr2p.trans hrp⟩
    · rcases List.mem_cons.mp he with rfl | he
      · left
        obtain ⟨r2, hr2, hr2p⟩ := (upsertLatestRow_has table e).1
        exact ⟨r2, hr2, hr2p.trans hep⟩
      · right
        exact ⟨e, he, hep⟩

theorem latestProxyStatusEntries_touched (now : Int) (stats : List ProxyStatistic) (p : Nat)
    (h : ∃ s ∈ stats, s.ProxyID = p ∧ s.ProxyID ≠ 0 ∧ s.ProtocolID ≠ 0) :
    (∃ e ∈ (latestProxyStatusEntries now stats).1, e.ProxyID = p) ∧
    p ∈ (latestProxyStatusEntries now stats).2 := by
  rw [latestProxyStatusEntries_eq]
  obtain ⟨_, h2, h3, _, h5⟩ := LatestInv_all now stats
  obtain ⟨s, hs, hsp, hp0, hq0⟩ := h
  obtain ⟨kv, hkv, hk⟩ := h3 s hs hp0 hq0
  have hkey := (h2 kv hkv).1
  have hkvp : kv.1.ProxyID = p := by rw [hk]; exact hsp
  constructor
  · refine ⟨kv.2, List.mem_map.mpr ⟨kv, hkv, rfl⟩, ?_⟩
    have := congrArg proxyProtocolKey.ProxyID hkey
    rw [← hkvp, this]
  · exact (h5 p).mpr ⟨kv, hkv, hkvp⟩

/-- C6. After `updateProxyStatusCaches` commits a batch, every proxy that the batch touches
(a statistic of the batch names it with non-zero proxy and protocol ids) has latest rows
and an overall-status row, and every overall-status row of that proxy has `overall_alive`
true exactly when one of the proxy's latest rows is alive, and `last_checked_at` equal to
the greatest `checked_at` of those rows. -/
theorem updateProxyStatusCaches_overall (db : Database) (now : Int)
    (stats : List ProxyStatistic) (p : Nat)
    (htouched : ∃ s ∈ stats, s.ProxyID = p ∧ s.ProxyID ≠ 0 ∧ s.ProtocolID ≠ 0) :
    (updateProxyStatusCaches db now stats).proxyLatestStatistics.filter
        (fun r => decide (r.ProxyID = p)) ≠ [] ∧
    (∃ o ∈ (updateProxyStatusCaches db now stats).proxyOverallStatuses, o.ProxyID = p) ∧
    ∀ o ∈ (updateProxyStatusCaches db now stats).proxyOverallStatuses, o.ProxyID = p →
      (o.OverallAlive = true
        ↔ ∃ x ∈ (updateProxyStatusCaches db now stats).proxyLatestStatistics,
            x.ProxyID = p ∧ x.Alive = true) ∧
      (∃ x ∈ (updateProxyStatusCaches db now stats).proxyLatestStatistics,
        x.ProxyID = p ∧ x.CheckedAt = o.LastCheckedAt) ∧
      (∀ x ∈ (updateProxyStatusCaches db now stats).proxyLatestStatistics,
        x.ProxyID = p → x.CheckedAt ≤ o.LastCheckedAt) := by
  obtain ⟨⟨e, he, hep⟩, hpids⟩ := latestProxyStatusEntries_touched now stats p htouched
  have hlen1 : ¬ (latestProxyStatusEntries now stats).1.length = 0 := by
    intro h
    rw [List.length_eq_zero.mp h] at he
    simp at he
  have hlen2 : ¬ (latestProxyStatusEntries now stats).2.length = 0 := by
    intro h
    rw [List.length_eq_zero.mp h] at hpids
    simp at hpids
  have hdb : updateProxyStatusCaches db now stats
      = { db with
          proxyLatestStatistics :=
            (latestProxyStatusEntries now stats).1.foldl upsertLatestRow db.proxyLatestStatistics,
          proxyOverallStatuses :=
            (selectOverallStatuses
              ((latestProxyStatusEntries now stats).1.foldl upsertLatestRow
                db.proxyLatestStatistics)
              (latestProxyStatusEntries now stats).2).foldl upsertOverallRow
              db.proxyOverallStatuses } := by
    simp only [updateProxyStatusCaches, upsertProxyOverallStatuses, upsertProxyLatestStatistics,
      hlen1, hlen2, if_false]
  have hrow : ∃ r ∈ (latestProxyStatusEntries now stats).1.foldl upsertLatestRow
      db.proxyLatestStatistics, r.ProxyID = p :=
    foldl_upsertLatest_has _ p _ (Or.inr ⟨e, he, hep⟩)
  rw [hdb]
  simp only
  generalize (latestProxyStatusEntries now stats).1.foldl upsertLatestRow
    db.proxyLatestStatistics = latest at hrow ⊢
  generalize (latestProxyStatusEntries now stats).2 = proxyIDs at hpids ⊢
  obtain ⟨r0, hr0, hr0p⟩ := hrow
  have hrows : latest.filter (fun r => decide (r.ProxyID = p)) ≠ [] := by
    intro h
    have : r0 ∈ latest.filter (fun r => decide (r.ProxyID = p)) :=
      List.mem_filter.mpr ⟨hr0, by simp [hr0p]⟩
    rw [h] at this
    simp at this
  obtain ⟨s, hs, hsp, halive, hlast, hmax⟩ :=
    selectOverallStatuses_mem latest proxyIDs p hpids hrows
  obtain ⟨hex, hall⟩ := foldl_upsertOverall_set _ s db.proxyOverallStatuses
    (selectOverallStatuses_nodup latest proxyIDs) hs
  rw [hsp] at hex hall
  refine ⟨hrows, hex, ?_⟩
  intro o ho hop
  obtain ⟨ha, ht⟩ := hall o ho hop
  rw [ha, ht]
  refine ⟨?_, ?_, ?_⟩
  · rw [halive]
    constructor
    · rintro ⟨x, hx, hxa⟩
      have := List.mem_filter.mp hx
      exact ⟨x, this.1, by simpa using this.2, hxa⟩
    · rintro ⟨x, hx, hxp, hxa⟩
      exact ⟨x, List.mem_filter.mpr ⟨hx, by simp [hxp]⟩, hxa⟩
  · obtain ⟨x, hx, hxt⟩ := hlast
    have := List.mem_filter.mp hx
    exact ⟨x, this.1, by simpa using this.2, hxt⟩
  · intro x hx hxp
    exact hmax x (List.mem_filter.mpr ⟨hx, by simp [hxp]⟩)

/-- Witness of C6: the sample batch touches proxy 5. -/
theorem updateProxyStatusCaches_overall_witness :
    ∃ o ∈ (updateProxyStatusCaches emptyDatabase 1000 sampleBatch).proxyOverallStatuses,
      o.ProxyID = 5 :=
  (updateProxyStatusCaches_overall emptyDatabase 1000 sampleBatch 5
    ⟨_, List.mem_cons_self _ _, rfl, by decide, by decide⟩).2.1

/-! ## Checker retries -/

/-- The loop entered at index `i` with every earlier probe failed: what it returns when
the first success among the remaining probes is at index `j`. -/
theorem CheckProxyWithRetriesLoop_success (probe : Nat → ProbeOutcome) (retries : Nat)
    (remaining : Nat) :
    ∀ (i j : Nat) (html : String) (err : Option String) (rt : Int),
      i ≤ j → j < i + remaining → (probe j).err = none →
      (∀ k, i ≤ k → k < j → (probe k).err ≠ none) →
      CheckProxyWithRetriesLoop probe retries remaining i html err rt
        = { html := (probe j).html, err := none, responseTime := (probe j).elapsedMs,
            attempt := j, probes := j + 1 } := by
  induction remaining with
  | zero => intro i j _ _ _ h1 h2; omega
  | succ remaining ih =>
    intro i j html err rt hij hj hok hfail
    rw [CheckProxyWithRetriesLoop]
    by_cases hi : (probe i).err = none
    · have hji : j = i := by
        by_contra hne
        exact hfail i (Nat.le_refl _) (by omega) hi
      subst hji
      simp only [hi, if_true]
    · simp only [hi, if_false]
      have hne : i ≠ j := fun h => hi (h ▸ hok)
      exact ih (i + 1) j _ _ _ (by omega) (by omega) hok
        (fun k hk1 hk2 => hfail k (by omega) hk2)

/-- The loop entered at index `i` when all `r + 1` remaining probes fail. -/
theorem CheckProxyWithRetriesLoop_failure (probe : Nat → ProbeOutcome) (retries : Nat)
    (r : Nat) :
    ∀ (i : Nat) (html : String) (err : Option String) (rt : Int),
      (∀ k, i ≤ k → k < i + (r + 1) → (probe k).err ≠ none) →
      CheckProxyWithRetriesLoop probe retries (r + 1) i html err rt
        = { html := (probe (i + r)).html, err := (probe (i + r)).err,
            responseTime := (probe (i + r)).elapsedMs, attempt := retries,
            probes := i + r + 1 } := by
  induction r with
  | zero =>
    intro i html err rt hfail
    have hi : (probe i).err ≠ none := hfail i (Nat.le_refl _) (by omega)
    rw [CheckProxyWithRetriesLoop]
    simp only [hi, if_false]
    rfl
  | succ r ih =>
    intro i html err rt hfail
    have hi : (probe i).err ≠ none := hfail i (Nat.le_refl _) (by omega)
    rw [CheckProxyWithRetriesLoop]
    simp only [hi, if_false]
    rw [ih (i + 1) _ _ _ (fun k hk1 hk2 => hfail k (by omega) (by omega))]
    have : i + 1 + r = i + (r + 1) := by omega
    rw [this]

/-- C7. With `retries = 0` the loop body never runs: `CheckProxyWithRetries` issues no probe
request at all and returns an empty body with a nil error and attempt 0, whatever the probe
would have answered. -/
theorem CheckProxyWithRetries_zero_retries (probe : Nat → ProbeOutcome) :
    CheckProxyWithRetries probe 0
      = { html := "", err := none, responseTime := 0, attempt := 0, probes := 0 } := rfl

/-- C8. For every `retries` and every sequence of probe outcomes, `CheckProxyWithRetries`
issues at most `retries` probe requests; when attempt `j < retries` is the first to succeed
it issues `j + 1` requests and returns that attempt's body and elapsed time with a nil
error and attempt `j`; when none of the `retries` attempts succeeds it issues all of them
and returns attempt `retries` together with the body, error and elapsed time of the last
attempt (attempt `retries - 1`, when there is one). -/
theorem CheckProxyWithRetries_spec (probe : Nat → ProbeOutcome) (retries : Nat) :
    (CheckProxyWithRetries probe retries).probes ≤ retries ∧
    (∀ j, j < retries → (probe j).err = none → (∀ k, k < j → (probe k).err ≠ none) →
      CheckProxyWithRetries probe retries
        = { html := (probe j).html, err := none, responseTime := (probe j).elapsedMs,
            attempt := j, probes := j + 1 }) ∧
    ((∀ k, k < retries → (probe k).err ≠ none) →
      (CheckProxyWithRetries probe retries).attempt = retries ∧
      (CheckProxyWithRetries probe retries).probes = retries ∧
      ∀ r, retries = r + 1 →
        (CheckProxyWithRetries probe retries).err = (probe r).err ∧
        (CheckProxyWithRetries probe retries).err ≠ none ∧
        (CheckProxyWithRetries probe retries).html = (probe r).html ∧
        (CheckProxyWithRetries probe retries).responseTime = (probe r).elapsedMs) := by
  have hsucc : ∀ j, j < retries → (probe j).err = none →
      (∀ k, k < j → (probe k).err ≠ none) →
      CheckProxyWithRetries probe retries
        = { html := (probe j).html, err := none, responseTime := (probe j).elapsedMs,
            attempt := j, probes := j + 1 } := by
    intro j hj hok hfail
    exact CheckProxyWithRetriesLoop_success probe retries retries 0 j _ _ _ (Nat.zero_le _)
      (by omega) hok (fun k _ hk => hfail k hk)
  cases retries with
  | zero =>
    refine ⟨Nat.le_refl _, hsucc, ?_⟩
    intro _
    refine ⟨rfl, rfl, ?_⟩
    intro r hr
    omega
  | succ r =>
    have hfailAll : (∀ k, k < r + 1 → (probe k).err ≠ none) →
        CheckProxyWithRetries probe (r + 1)
          = { html := (probe r).html, err := (probe r).err,
              responseTime := (probe r).elapsedMs, attempt := r + 1, probes := r + 1 } := by
      intro hfail
      have := CheckProxyWithRetriesLoop_failure probe (r + 1) r 0 "" none 0
        (fun k _ hk => hfail k (by omega))
      simp only [Nat.zero_add] at this
      exact this
    refine ⟨?_, hsucc, ?_⟩
    · by_cases hex : ∃ j, j < r + 1 ∧ (probe j).err = none
      · classical
        have hj := Nat.find_spec hex
        have hmin : ∀ k, k < Nat.find hex → (probe k).err ≠ none := fun k hk hok =>
          Nat.find_min hex hk ⟨Nat.lt_trans hk hj.1, hok⟩
        rw [hsucc (Nat.find hex) hj.1 hj.2 hmin]
        exact hj.1
      · have hfail : ∀ k, k < r + 1 → (probe k).err ≠ none :=
          fun k hk hok => hex ⟨k, hk, hok⟩
        rw [hfailAll hfail]
    · intro hfail
      rw [hfailAll hfail]
      refine ⟨rfl, rfl, ?_⟩
      intro r2 hr2
      have : r2 = r := by omega
      subst this
      exact ⟨rfl, hfail r2 (by omega), rfl, rfl⟩

/-! ## Queue cadence -/

theorem find_first_key {β : Type} (l : List (List Nat × β)) (m : List Nat) (v : β)
    (hall : ∀ e ∈ l, e.1 = m → e.2 = v) (hex : ∃ e ∈ l, e.1 = m) :
    (l.find? (fun e => decide (e.1 = m))).map (·.2) = some v := by
  induction l with
  | nil =>
    obtain ⟨e, he, _⟩ := hex
    simp at he
  | cons x l ih =>
    by_cases hx : x.1 = m
    · rw [List.find?_cons_of_pos _ (by simpa using hx)]
      simp only [Option.map_some']
      rw [hall x (List.mem_cons_self _ _) hx]
    · rw [List.find?_cons_of_neg _ (by simpa using hx)]
      apply ih (fun e he => hall e (List.mem_cons_of_mem _ he))
      obtain ⟨e, he, hem⟩ := hex
      rcases List.mem_cons.mp he with rfl | he
      · exact absurd hem hx
      · exact ⟨e, he, hem⟩

theorem zadd_mem (queue : List (List Nat × Int)) (member : List Nat) (score : Int) :
    (∃ e ∈ zadd queue member score, e.1 = member) ∧
    ∀ e ∈ zadd queue member score, e.1 = member → e.2 = score := by
  unfold zadd
  split
  · rename_i hany
    obtain ⟨e0, he0, hm0⟩ := List.any_eq_true.mp hany
    have hm0 : e0.1 = member := by simpa using hm0
    constructor
    · exact ⟨_, List.mem_map.mpr ⟨e0, he0, rfl⟩, by simp [hm0]⟩
    · intro e he hem
      obtain ⟨e1, _, rfl⟩ := List.mem_map.mp he
      by_cases h1 : e1.1 = member
      · simp [h1]
      · simp only [h1, if_false] at hem
  · rename_i hany
    constructor
    · exact ⟨(member, score), by simp, rfl⟩
    · intro e he hem
      rcases List.mem_append.mp he with h | h
      · exfalso
        exact hany (List.any_eq_true.mpr ⟨e, h, by simpa using hem⟩)
      · rw [List.mem_singleton] at h
        rw [h]

theorem zscore_zadd (queue : List (List Nat × Int)) (member : List Nat) (score : Int) :
    zscore (zadd queue member score) member = some score :=
  find_first_key _ member score (zadd_mem queue member score).2 (zadd_mem queue member score).1

theorem setRecord_mem (records : List (List Nat × Proxy)) (hash : List Nat) (proxy : Proxy) :
    (∃ e ∈ setRecord records hash proxy, e.1 = hash) ∧
    ∀ e ∈ setRecord records hash proxy, e.1 = hash → e.2 = proxy := by
  unfold setRecord
  split
  · rename_i hany
    obtain ⟨e0, he0, hm0⟩ := List.any_eq_true.mp hany
    have hm0 : e0.1 = hash := by simpa using hm0
    constructor
    · exact ⟨_, List.mem_map.mpr ⟨e0, he0, rfl⟩, by simp [hm0]⟩
    · intro e he hem
      obtain ⟨e1, _, rfl⟩ := List.mem_map.mp he
      by_cases h1 : e1.1 = hash
      · simp [h1]
      · simp only [h1, if_false] at hem
  · rename_i hany
    constructor
    · exact ⟨(hash, proxy), by simp, rfl⟩
    · intro e he hem
      rcases List.mem_append.mp he with h | h
      · exfalso
        exact hany (List.any_eq_true.mpr ⟨e, h, by simpa using hem⟩)
      · rw [List.mem_singleton] at h
        rw [h]

theorem getRecord_setRecord (records : List (List Nat × Proxy)) (hash : List Nat)
    (proxy : Proxy) : getRecord (setRecord records hash proxy) hash = some proxy :=
  find_first_key _ hash proxy (setRecord_mem records hash proxy).2
    (setRecord_mem records hash proxy).1

theorem lowestScored_mem (queue : List (List Nat × Int)) (e : List Nat × Int)
    (h : lowestScored queue = some e) : e ∈ queue := by
  induction queue generalizing e with
  | nil => simp [lowestScored] at h
  | cons x rest ih =>
    rw [lowestScored] at h
    cases hrest : lowestScored rest with
    | none =>
      rw [hrest] at h
      simp only [Option.some.injEq] at h
      rw [← h]
      exact List.mem_cons_self _ _
    | some m =>
      rw [hrest] at h
      simp only at h
      split at h
      · simp only [Option.some.injEq] at h
        rw [← h]
        exact List.mem_cons_self _ _
      · simp only [Option.some.injEq] at h
        rw [← h]
        exact List.mem_cons_of_mem _ (ih m hrest)

/-- What a successful pop returns: an entry of the sorted set that is due, the record
stored under its member, and the store with the records untouched. -/
theorem popDue_spec (rpq : RedisProxyQueue) (now : Int) (member : List Nat) (proxy : Proxy)
    (score : Int) (rest : RedisProxyQueue)
    (h : popDue rpq now = some (member, proxy, score, rest)) :
    (member, score) ∈ rpq.queue ∧ score ≤ now ∧ getRecord rpq.records member = some proxy ∧
    rest.records = rpq.records := by
  unfold popDue at h
  cases hlow : lowestScored rpq.queue with
  | none => rw [hlow] at h; simp at h
  | some e =>
    obtain ⟨m, sc⟩ := e
    rw [hlow] at h
    simp only at h
    by_cases hdue : sc ≤ now
    · rw [if_pos hdue] at h
      cases hrec : getRecord rpq.records m with
      | none => rw [hrec] at h; simp at h
      | some x =>
        rw [hrec] at h
        simp only [Option.some.injEq, Prod.mk.injEq] at h
        obtain ⟨hm, hx, hs, hr⟩ := h
        subst hm hx hs
        refine ⟨lowestScored_mem _ _ hlow, hdue, hrec, ?_⟩
        rw [← hr]
    · rw [if_neg hdue] at h
      simp at h

theorem Unix_timeUnix_add (t p : Int) : Unix (timeUnix t + p * Second) = t + p := by
  unfold Unix timeUnix
  rw [← Int.add_mul]
  exact Int.mul_ediv_cancel _ (by decide)

/-- C9 (as stated) fails for a period with a fractional second part: with a period of 1.5 s
a proxy scheduled at unix second 10 is, after two pop-and-requeue rounds of the worker,
scheduled at second 12, while `t + 2P` is second 13. -/
theorem requeue_cadence_counterexample :
    ((workIteration 1500000000 oneProxyQueue 100).bind
        (fun rpq => workIteration 1500000000 rpq 100)).map
      (fun rpq => zscore rpq.queue queuedProxy.Hash) = some (some 12) ∧
    Unix (timeUnix 10 + 2 * 1500000000) = 13 := by
  decide

/-- C9 (amended). `RequeueProxy(proxy, t)` stores the proxy with score `Unix(t + P)` for every
period `P`, and it takes no clock reading. When the period is a whole number `p` of seconds
and the worker pops the proxy with score `t` (at any time `now1`), it requeues it with score
`t + p`; when it pops it again (at any time `now2`) the pop returns that proxy with score
`t + p`, and the second requeue stores score `t + 2p`. -/
theorem requeue_cadence (interval p : Int) (rpq : RedisProxyQueue) (proxy : Proxy)
    (t now1 now2 : Int) (rest1 : RedisProxyQueue) (proxy2 : Proxy) (score2 : Int)
    (rest2 : RedisProxyQueue)
    (hperiod : interval = p * Second)
    (hpop1 : popDue rpq now1 = some (proxy.Hash, proxy, t, rest1))
    (hpop2 : popDue (RequeueProxy interval rest1 proxy (timeUnix t)) now2
      = some (proxy.Hash, proxy2, score2, rest2)) :
    (∀ (anyInterval : Int) (q : RedisProxyQueue) (x : Proxy) (lastCheckTime : Int),
      zscore (RequeueProxy anyInterval q x lastCheckTime).queue x.Hash
        = some (Unix (lastCheckTime + anyInterval))) ∧
    workIteration interval rpq now1 = some (RequeueProxy interval rest1 proxy (timeUnix t)) ∧
    zscore (RequeueProxy interval rest1 proxy (timeUnix t)).queue proxy.Hash = some (t + p) ∧
    proxy2 = proxy ∧ score2 = t + p ∧
    workIteration interval (RequeueProxy interval rest1 proxy (timeUnix t)) now2
      = some (RequeueProxy interval rest2 proxy (timeUnix (t + p))) ∧
    zscore (RequeueProxy interval rest2 proxy (timeUnix (t + p))).queue proxy.Hash
      = some (t + 2 * p) := by
  have hscore : ∀ (anyInterval : Int) (q : RedisProxyQueue) (x : Proxy) (lastCheckTime : Int),
      zscore (RequeueProxy anyInterval q x lastCheckTime).queue x.Hash
        = some (Unix (lastCheckTime + anyInterval)) := by
    intro i q x lct
    exact zscore_zadd _ _ _
  obtain ⟨hmem2, _, hrec2, _⟩ := popDue_spec _ _ _ _ _ _ hpop2
  have hp2 : proxy2 = proxy := by
    have h1 : getRecord (RequeueProxy interval rest1 proxy (timeUnix t)).records proxy.Hash
        = some proxy := getRecord_setRecord _ _ _
    rw [h1] at hrec2
    exact (Option.some.inj hrec2).symm
  have hs2 : score2 = t + p := by
    have h1 := (zadd_mem rest1.queue proxy.Hash (Unix (timeUnix t + interval))).2 _ hmem2 rfl
    simp only at h1
    rw [h1, hperiod, Unix_timeUnix_add]
  subst hp2 hs2
  refine ⟨hscore, ?_, ?_, rfl, rfl, ?_, ?_⟩
  · simp only [workIteration, GetNextProxy, hpop1]
  · rw [hscore, hperiod, Unix_timeUnix_add]
  · simp only [workIteration, GetNextProxy, hpop2]
  · rw [hscore, hperiod, Unix_timeUnix_add]
    congr 1
    omega

/-- Witness of C9 (amended): a period of two seconds on the one-proxy queue. -/
theorem requeue_cadence_witness :
    zscore (RequeueProxy (2 * Second) { records := [([7], queuedProxy)], queue := [] }
        queuedProxy (timeUnix (10 + 2))).queue queuedProxy.Hash = some (10 + 2 * 2) :=
  (requeue_cadence (2 * Second) 2 oneProxyQueue queuedProxy 10 100 100
    { records := [([7], queuedProxy)], queue := [] } queuedProxy 12
    { records := [([7], queuedProxy)], queue := [] } rfl (by decide) (by decide)).2.2.2.2.2.2

/-! ## Worker auto-sizing -/

/-- The value `ceilDiv a b` is the least `n` with `a ≤ n * b`: it is the ceiling of `a / b`. -/
theorem ceilDiv_le_iff (a b n : Nat) (hb : 0 < b) : ceilDiv a b ≤ n ↔ a ≤ n * b := by
  unfold ceilDiv
  rw [Nat.div_le_iff_le_mul_add_pred hb, Nat.mul_comm b n]
  omega

theorem wrapInt64_of_lt (n : Nat) (h : n < 2 ^ 63) : wrapInt64 (n : Int) = (n : Int) := by
  unfold wrapInt64
  omega

theorem toUint64_of_lt (n : Nat) (h : n < 2 ^ 64) : toUint64 (n : Int) = n := by
  unfold toUint64
  omega

theorem getAutoThreads_eq (cfg : CheckerConfig) (totalProxies activeInstances : Nat)
    (hsum : totalProxies + max 1 activeInstances - 1 < 2 ^ 63)
    (hretries : cfg.Retries + 1 < 2 ^ cfg.RetriesBits)
    (hnum : specPerInstanceProxies totalProxies activeInstances * 4 * (cfg.Retries + 1)
      * cfg.Timeout + specPeriodMs cfg - 1 < 2 ^ 64) :
    getAutoThreads cfg (some totalProxies) (some activeInstances)
      = (if (if specRequiredThreads cfg totalProxies activeInstances = 0 ∧
              0 < specPerInstanceProxies totalProxies activeInstances then 1
            else specRequiredThreads cfg totalProxies activeInstances) > MaxUint32
         then MaxUint32
         else (if specRequiredThreads cfg totalProxies activeInstances = 0 ∧
              0 < specPerInstanceProxies totalProxies activeInstances then 1
            else specRequiredThreads cfg totalProxies activeInstances)) % 2 ^ 32 := by
  have ha : (if activeInstances = 0 then 1 else activeInstances) = max 1 activeInstances := by
    split <;> omega
  have hpos : 0 < max 1 activeInstances := by omega
  have hcast : (totalProxies : Int) + ((max 1 activeInstances : Nat) : Int) - 1
      = ((totalProxies + max 1 activeInstances - 1 : Nat) : Int) := by omega
  have hper : Int.tdiv (wrapInt64 ((totalProxies : Int) + ((max 1 activeInstances : Nat) : Int) - 1))
      ((max 1 activeInstances : Nat) : Int)
      = ((specPerInstanceProxies totalProxies activeInstances : Nat) : Int) := by
    rw [hcast, wrapInt64_of_lt _ hsum, ← Int.ofNat_tdiv]
    rfl
  have hperlt : specPerInstanceProxies totalProxies activeInstances < 2 ^ 64 := by
    have : specPerInstanceProxies totalProxies activeInstances
        ≤ totalProxies + max 1 activeInstances - 1 := Nat.div_le_self _ _
    omega
  have hperiod : 0 < specPeriodMs cfg := by
    unfold specPeriodMs
    split <;> omega
  have htimeout : specPerInstanceProxies totalProxies activeInstances * 4 * (cfg.Retries + 1)
      * (cfg.Timeout % 2 ^ 64)
      = specPerInstanceProxies totalProxies activeInstances * 4 * (cfg.Retries + 1)
        * cfg.Timeout := by
    by_cases h0 : specPerInstanceProxies totalProxies activeInstances = 0
    · rw [h0]; simp
    · have h1 : 1 ≤ specPerInstanceProxies totalProxies activeInstances * 4 * (cfg.Retries + 1) :=
        Nat.one_le_iff_ne_zero.mpr (by
          intro h
          rcases Nat.mul_eq_zero.mp h with h | h
          · omega
          · omega)
      have h2 : cfg.Timeout
          ≤ specPerInstanceProxies totalProxies activeInstances * 4 * (cfg.Retries + 1)
            * cfg.Timeout := Nat.le_mul_of_pos_left _ h1
      rw [Nat.mod_eq_of_lt (by omega)]
  unfold getAutoThreads
  simp only [ha, hper, toUint64_of_lt _ hperlt, Nat.mod_eq_of_lt hretries, htimeout]
  have hN : specPerInstanceProxies totalProxies activeInstances * 4 * (cfg.Retries + 1)
      * cfg.Timeout % 2 ^ 64
      = specPerInstanceProxies totalProxies activeInstances * 4 * (cfg.Retries + 1)
        * cfg.Timeout := Nat.mod_eq_of_lt (by omega)
  have hperiodEq : (if cfg.CheckingPeriodMs = 0 then 86400000 else cfg.CheckingPeriodMs)
      = specPeriodMs cfg := rfl
  rw [hN, hperiodEq, Nat.mod_eq_of_lt hnum]
  have hreq : (specPerInstanceProxies totalProxies activeInstances * 4 * (cfg.Retries + 1)
      * cfg.Timeout + specPeriodMs cfg - 1) / specPeriodMs cfg
      = specRequiredThreads cfg totalProxies activeInstances := rfl
  rw [hreq]
  have hgt : ((specPerInstanceProxies totalProxies activeInstances : Nat) : Int) > 0
      ↔ 0 < specPerInstanceProxies totalProxies activeInstances := by omega
  simp only [hgt]

/-- C10 (as stated) fails where the 64-bit product wraps: with `2^62` queued proxies, one
instance, no retries, a 1 ms timeout and a 50-day period the numerator `2^62 * 4` wraps to
0 and `getAutoThreads` returns 1, although the ceiling is 4270079647, inside
`[1, 2^32-1]`. -/
theorem getAutoThreads_counterexample :
    getAutoThreads longPeriodConfig (some (2 ^ 62)) (some 1) = 1 ∧
    specRequiredThreads longPeriodConfig (2 ^ 62) 1 = 4270079647 ∧
    1 ≤ specRequiredThreads longPeriodConfig (2 ^ 62) 1 ∧
    specRequiredThreads longPeriodConfig (2 ^ 62) 1 ≤ 2 ^ 32 - 1 := by
  decide

/-- C10 (amended). When no machine integer wraps (the `int64` sum, `retries+1` in its own
type, the `uint64` numerator plus period) `getAutoThreads` returns
`ceil(per_instance_proxies * 4 * (retries+1) * timeout_ms / period_ms)`, with
`per_instance_proxies = ceil(total / max(1, active_instances))` and a configured period of
0 taken as 86,400,000 ms, whenever that value lies within `[1, 2^32-1]`. -/
theorem getAutoThreads_ceil (cfg : CheckerConfig) (totalProxies activeInstances : Nat)
    (hsum : totalProxies + max 1 activeInstances - 1 < 2 ^ 63)
    (hretries : cfg.Retries + 1 < 2 ^ cfg.RetriesBits)
    (hnum : specPerInstanceProxies totalProxies activeInstances * 4 * (cfg.Retries + 1)
      * cfg.Timeout + specPeriodMs cfg - 1 < 2 ^ 64)
    (hlow : 1 ≤ specRequiredThreads cfg totalProxies activeInstances)
    (hhigh : specRequiredThreads cfg totalProxies activeInstances ≤ 2 ^ 32 - 1) :
    getAutoThreads cfg (some totalProxies) (some activeInstances)
      = specRequiredThreads cfg totalProxies activeInstances := by
  rw [getAutoThreads_eq cfg totalProxies activeInstances hsum hretries hnum]
  have h0 : ¬ (specRequiredThreads cfg totalProxies activeInstances = 0 ∧
      0 < specPerInstanceProxies totalProxies activeInstances) := fun h => by omega
  have h1 : ¬ (specRequiredThreads cfg totalProxies activeInstances > MaxUint32) := by
    unfold MaxUint32
    omega
  rw [if_neg h0, if_neg h1]
  exact Nat.mod_eq_of_lt (by omega)

/-- Witness of C10 (amended): 100000 queued proxies on two instances with the default
settings need 53 workers. -/
theorem getAutoThreads_ceil_witness :
    getAutoThreads defaultCheckerConfig (some 100000) (some 2)
      = specRequiredThreads defaultCheckerConfig 100000 2 ∧
    specRequiredThreads defaultCheckerConfig 100000 2 = 53 :=
  ⟨getAutoThreads_ceil defaultCheckerConfig 100000 2 (by decide) (by decide) (by decide)
    (by decide) (by decide), by decide⟩

/-! ## Worker auto-sizing: the clamp -/

theorem getAutoThreads_le (cfg : CheckerConfig) (proxyCount instanceCount : Option Nat) :
    getAutoThreads cfg proxyCount instanceCount ≤ 2 ^ 32 - 1 := by
  unfold getAutoThreads
  cases proxyCount with
  | none => simp
  | some totalProxies =>
    simp only
    omega

theorem getAutoThreads_lookup_failed (cfg : CheckerConfig) (instanceCount : Option Nat) :
    getAutoThreads cfg none instanceCount = 1 := rfl

theorem getAutoThreads_instances_failed (cfg : CheckerConfig) (proxyCount : Option Nat) :
    getAutoThreads cfg proxyCount none = getAutoThreads cfg proxyCount (some 1) := by
  cases proxyCount <;> rfl

/-- The `int64` value of `perInstanceProxies` when the sum does not wrap. -/
theorem perInstanceProxies_eq (totalProxies activeInstances : Nat)
    (hsum : totalProxies + max 1 activeInstances - 1 < 2 ^ 63) :
    Int.tdiv (wrapInt64 ((totalProxies : Int) + ((max 1 activeInstances : Nat) : Int) - 1))
      ((max 1 activeInstances : Nat) : Int)
      = ((specPerInstanceProxies totalProxies activeInstances : Nat) : Int) := by
  have hcast : (totalProxies : Int) + ((max 1 activeInstances : Nat) : Int) - 1
      = ((totalProxies + max 1 activeInstances - 1 : Nat) : Int) := by omega
  rw [hcast, wrapInt64_of_lt _ hsum, ← Int.ofNat_tdiv]
  rfl

theorem getAutoThreads_nonempty (cfg : CheckerConfig) (totalProxies activeInstances : Nat)
    (hpos : 1 ≤ totalProxies) (hsum : totalProxies + max 1 activeInstances - 1 < 2 ^ 63) :
    1 ≤ getAutoThreads cfg (some totalProxies) (some activeInstances) := by
  have ha : (if activeInstances = 0 then 1 else activeInstances) = max 1 activeInstances := by
    split <;> omega
  have hper := perInstanceProxies_eq totalProxies activeInstances hsum
  have hperpos : 1 ≤ specPerInstanceProxies totalProxies activeInstances := by
    unfold specPerInstanceProxies ceilDiv
    rw [Nat.le_div_iff_mul_le (by omega)]
    omega
  unfold getAutoThreads
  simp only [ha, hper]
  have hgt : ((specPerInstanceProxies totalProxies activeInstances : Nat) : Int) > 0 := by
    omega
  simp only [hgt, and_true, MaxUint32]
  generalize ((toUint64 ((specPerInstanceProxies totalProxies activeInstances : Nat) : Int) * 4 *
    ((cfg.Retries + 1) % 2 ^ cfg.RetriesBits) * (cfg.Timeout % 2 ^ 64)) % 2 ^ 64
    + (if cfg.CheckingPeriodMs = 0 then 86400000 else cfg.CheckingPeriodMs) - 1) % 2 ^ 64
    / (if cfg.CheckingPeriodMs = 0 then 86400000 else cfg.CheckingPeriodMs) = req
  by_cases hreq : req = 0
  · simp [hreq]
  · simp only [hreq, if_false]
    split <;> omega

theorem getAutoThreads_empty (cfg : CheckerConfig) (activeInstances : Nat)
    (ha63 : activeInstances < 2 ^ 63) :
    getAutoThreads cfg (some 0) (some activeInstances) = 0 := by
  have ha : (if activeInstances = 0 then 1 else activeInstances) = max 1 activeInstances := by
    split <;> omega
  have hper := perInstanceProxies_eq 0 activeInstances (by omega)
  have hzero : specPerInstanceProxies 0 activeInstances = 0 := by
    unfold specPerInstanceProxies ceilDiv
    rw [Nat.div_eq_zero_iff (by omega)]
    omega
  rw [hzero] at hper
  unfold getAutoThreads
  simp only [Nat.cast_zero] at hper
  simp only [ha, Nat.cast_zero, hper]
  have hu : toUint64 0 = 0 := by decide
  simp only [hu, Nat.zero_mul, Nat.zero_mod, Nat.zero_add]
  have hreq : ∀ period : Nat, 0 < period → (period - 1) % 2 ^ 64 / period = 0 := by
    intro period hp
    rw [Nat.div_eq_zero_iff hp]
    have := Nat.mod_le (period - 1) (2 ^ 64)
    omega
  have hperiod : 0 < (if cfg.CheckingPeriodMs = 0 then 86400000 else cfg.CheckingPeriodMs) := by
    split <;> omega
  rw [hreq _ hperiod]
  simp [MaxUint32]

/-- C11 (as stated) fails on an empty queue: the guard bumps the target to 1 only when
`perInstanceProxies > 0`, so with no queued proxies `getAutoThreads` returns 0. -/
theorem getAutoThreads_clamp_counterexample :
    getAutoThreads defaultCheckerConfig (some 0) (some 1) = 0 := by
  decide

/-- C11 (amended). `getAutoThreads` returns at most `2^32-1` for every input; it returns 1
when the queue-size lookup fails; a failing instance-count lookup counts as one instance;
it returns at least 1 whenever the queue is not empty (the `int64` sum not wrapping); and
it returns 0 for an empty queue. -/
theorem getAutoThreads_clamp (cfg : CheckerConfig) (totalProxies activeInstances : Nat)
    (hpos : 1 ≤ totalProxies) (hsum : totalProxies + max 1 activeInstances - 1 < 2 ^ 63) :
    (∀ (c : CheckerConfig) (proxyCount instanceCount : Option Nat),
      getAutoThreads c proxyCount instanceCount ≤ 2 ^ 32 - 1) ∧
    (∀ (c : CheckerConfig) (instanceCount : Option Nat),
      getAutoThreads c none instanceCount = 1) ∧
    (∀ (c : CheckerConfig) (proxyCount : Option Nat),
      getAutoThreads c proxyCount none = getAutoThreads c proxyCount (some 1)) ∧
    1 ≤ getAutoThreads cfg (some totalProxies) (some activeInstances) ∧
    (∀ (c : CheckerConfig) (a : Nat), a < 2 ^ 63 → getAutoThreads c (some 0) (some a) = 0) :=
  ⟨getAutoThreads_le, getAutoThreads_lookup_failed, getAutoThreads_instances_failed,
    getAutoThreads_nonempty cfg totalProxies activeInstances hpos hsum,
    getAutoThreads_empty⟩

/-- Witness of C11 (amended): one queued proxy on one instance needs one worker. -/
theorem getAutoThreads_clamp_witness :
    1 ≤ getAutoThreads defaultCheckerConfig (some 1) (some 1) :=
  (getAutoThreads_clamp defaultCheckerConfig 1 1 (by decide) (by decide)).2.2.2.1

/-! ## Anonymity level -/

theorem hasPrefixRunes_iff (s p : List Char) : hasPrefixRunes s p = true ↔ p <+: s := by
  induction s generalizing p with
  | nil =>
    cases p with
    | nil => simp [hasPrefixRunes]
    | cons d p => simp [hasPrefixRunes]
  | cons c s ih =>
    cases p with
    | nil => simp [hasPrefixRunes]
    | cons d p =>
      simp only [hasPrefixRunes, Bool.and_eq_true, beq_iff_eq, ih, List.cons_prefix_cons]
      constructor
      · rintro ⟨h1, h2⟩
        exact ⟨h1.symm, h2⟩
      · rintro ⟨h1, h2⟩
        exact ⟨h1.symm, h2⟩

theorem containsRunes_iff (s p : List Char) : containsRunes s p = true ↔ p <:+: s := by
  induction s with
  | nil =>
    cases p with
    | nil => simp [containsRunes]
    | cons d p => simp [containsRunes]
  | cons c s ih =>
    simp only [containsRunes, Bool.or_eq_true, hasPrefixRunes_iff, ih, List.infix_cons_iff]

/-- The meaning of `strings.Contains`: the runes of `substr` are a contiguous block of `s`. -/
theorem Contains_iff (s substr : String) :
    Contains s substr = true ↔ substr.toList <:+: s.toList :=
  containsRunes_iff _ _

theorem GetProxyLevelLoop_two (html : String) (proxyHeader : List String) :
    GetProxyLevelLoop html proxyHeader = 2 ↔
      ∃ header ∈ proxyHeader, Contains html header = true := by
  induction proxyHeader with
  | nil => simp [GetProxyLevelLoop]
  | cons h rest ih =>
    simp only [GetProxyLevelLoop, List.mem_cons, exists_eq_or_imp]
    by_cases hc : Contains html h = true
    · simp [hc]
    · simp [hc, ih]

theorem GetProxyLevelLoop_cases (html : String) (proxyHeader : List String) :
    GetProxyLevelLoop html proxyHeader = 2 ∨ GetProxyLevelLoop html proxyHeader = 1 := by
  induction proxyHeader with
  | nil => simp [GetProxyLevelLoop]
  | cons h rest ih =>
    simp only [GetProxyLevelLoop]
    split
    · exact Or.inl rfl
    · exact ih

/-- C13. For every response body `GetProxyLevel` returns 3 exactly when the body contains
the instance's public IP; 2 exactly when it does not, but contains at least one header name
of the configured proxy-header list; and 1 exactly when it contains neither. -/
theorem GetProxyLevel_spec (currentIp : String) (proxyHeader : List String) (html : String) :
    (GetProxyLevel currentIp proxyHeader html = 3 ↔ currentIp.toList <:+: html.toList) ∧
    (GetProxyLevel currentIp proxyHeader html = 2 ↔
      ¬ currentIp.toList <:+: html.toList ∧
        ∃ header ∈ proxyHeader, header.toList <:+: html.toList) ∧
    (GetProxyLevel currentIp proxyHeader html = 1 ↔
      ¬ currentIp.toList <:+: html.toList ∧
        ∀ header ∈ proxyHeader, ¬ header.toList <:+: html.toList) := by
  have hloop := GetProxyLevelLoop_two html proxyHeader
  have hcases := GetProxyLevelLoop_cases html proxyHeader
  simp only [Contains_iff] at hloop
  unfold GetProxyLevel
  by_cases hip : Contains html currentIp = true
  · have hin := (Contains_iff html currentIp).1 hip
    rw [if_pos hip]
    refine ⟨⟨fun _ => hin, fun _ => rfl⟩, ⟨fun h => ?_, fun h => absurd hin h.1⟩,
      ⟨fun h => ?_, fun h => absurd hin h.1⟩⟩
    · omega
    · omega
  · have hin : ¬ currentIp.toList <:+: html.toList := fun h =>
      hip ((Contains_iff html currentIp).2 h)
    rw [if_neg hip]
    refine ⟨⟨fun h => ?_, fun h => absurd h hin⟩, ⟨fun h => ⟨hin, hloop.1 h⟩, fun h => hloop.2 h.2⟩,
      ⟨fun h => ⟨hin, ?_⟩, fun h => ?_⟩⟩
    · omega
    · intro header hmem hinf
      have : GetProxyLevelLoop html proxyHeader = 2 := hloop.2 ⟨header, hmem, hinf⟩
      omega
    · rcases hcases with h2 | h1
      · obtain ⟨header, hmem, hinf⟩ := hloop.1 h2
        exact absurd hinf (h.2 header hmem)
      · exact h1

/-! ## Rounding to `float64` -/

/-- Rounding to one decimal: the result is a whole number of tenths at distance at most
`1/20` from the value. -/
theorem mathRound_tenth (q : ℚ) :
    |(mathRound (q * 10) : ℚ) / 10 - q| ≤ 1 / 20 := by
  have key : |(mathRound (q * 10) : ℚ) - q * 10| ≤ 1 / 2 := by
    unfold mathRound
    split
    · have h1 := Int.floor_le (q * 10 + 1 / 2)
      have h2 := Int.lt_floor_add_one (q * 10 + 1 / 2)
      rw [abs_le]
      constructor <;> linarith
    · have h1 := Int.floor_le (-(q * 10) + 1 / 2)
      have h2 := Int.lt_floor_add_one (-(q * 10) + 1 / 2)
      rw [abs_le]
      push_cast
      constructor <;> linarith
  have : (mathRound (q * 10) : ℚ) / 10 - q = ((mathRound (q * 10) : ℚ) - q * 10) / 10 := by
    ring
  rw [this, abs_div]
  have h10 : |(10 : ℚ)| = 10 := abs_of_pos (by norm_num)
  rw [h10, div_le_iff₀ (by norm_num)]
  linarith

theorem mathRound_eq (q : ℚ) (z : ℤ) (h0 : 0 ≤ q) (hlo : (z : ℚ) - 1 / 2 ≤ q)
    (hhi : q < (z : ℚ) + 1 / 2) : mathRound q = z := by
  unfold mathRound
  rw [if_pos h0, Int.floor_eq_iff]
  constructor <;> linarith

theorem mem_sanitizeRotatorReputationLabels (labels : List String) (l : String) :
    l ∈ sanitizeRotatorReputationLabels labels ↔
      l ∈ reputationLabelOrder ∧ ∃ raw ∈ labels, ToLower (TrimSpace raw) = l := by
  unfold sanitizeRotatorReputationLabels
  by_cases h0 : labels.length = 0
  · have : labels = [] := List.length_eq_zero.mp h0
    subst this
    simp
  · simp only [h0, if_false]
    split
    · rename_i hlen
      have hnil := List.length_eq_zero.mp hlen
      constructor
      · intro h
        simp at h
      · rintro ⟨hl, raw, hraw, heq⟩
        have : l ∈ (labels.map (fun raw => ToLower (TrimSpace raw))).filter
            (fun label => decide (label ∈ reputationLabelOrder)) := by
          rw [List.mem_filter]
          exact ⟨List.mem_map.mpr ⟨raw, hraw, heq⟩, by simpa using hl⟩
        rw [hnil] at this
        simp at this
    · simp only [List.mem_filter, List.mem_map, decide_eq_true_eq]
      constructor
      · rintro ⟨hl, ⟨raw, hraw, heq⟩, _⟩
        exact ⟨hl, raw, hraw, heq⟩
      · rintro ⟨hl, raw, hraw, heq⟩
        exact ⟨hl, ⟨raw, hraw, heq⟩, hl⟩

theorem sanitizeRotatorReputationLabels_sublist (labels : List String) :
    (sanitizeRotatorReputationLabels labels).Sublist reputationLabelOrder := by
  unfold sanitizeRotatorReputationLabels
  split
  · exact List.nil_sublist _
  · simp only
    split
    · exact List.nil_sublist _
    · exact List.filter_sublist _

theorem reputationLabelOrder_nodup : reputationLabelOrder.Nodup := by
  decide

theorem sanitizeRotatorReputationLabels_nodup (labels : List String) :
    (sanitizeRotatorReputationLabels labels).Nodup :=
  (sanitizeRotatorReputationLabels_sublist labels).nodup reputationLabelOrder_nodup

/-- A duplicate-free list of known labels is shorter than the full list exactly when it
misses one of them. -/
theorem length_lt_iff_missing (ls : List String) (hsub : ls.Sublist reputationLabelOrder) :
    ls.length < reputationLabelOrder.length ↔ ∃ l ∈ reputationLabelOrder, l ∉ ls := by
  constructor
  · intro hlt
    by_contra hall
    push_neg at hall
    have hsubset : reputationLabelOrder ⊆ ls := fun l hl => hall l hl
    have := (List.subperm_of_subset reputationLabelOrder_nodup hsubset).length_le
    omega
  · rintro ⟨l, hl, hnot⟩
    rcases Nat.lt_or_ge ls.length reputationLabelOrder.length with h | h
    · exact h
    · have heq := hsub.eq_of_length_le h
      rw [heq] at hnot
      exact absurd hl hnot

theorem shouldApplyReputationFilter_iff (labels : List String) :
    shouldApplyReputationFilter (sanitizeRotatorReputationLabels labels) = true ↔
      (∃ l, l ∈ sanitizeRotatorReputationLabels labels) ∧
      (∃ l ∈ reputationLabelOrder, l ∉ sanitizeRotatorReputationLabels labels) := by
  unfold shouldApplyReputationFilter
  rw [Bool.and_eq_true, decide_eq_true_eq, decide_eq_true_eq,
    length_lt_iff_missing _ (sanitizeRotatorReputationLabels_sublist labels)]
  constructor
  · rintro ⟨h1, h2⟩
    exact ⟨List.exists_mem_of_length_pos h1, h2⟩
  · rintro ⟨⟨l, hl⟩, h2⟩
    exact ⟨List.length_pos_of_mem hl, h2⟩

/-- Membership in the result of `aliveProxiesForProtocol`: the row of `proxies` has a join
partner in every joined table and passes the uptime condition. -/
theorem mem_aliveProxiesForProtocol (db : Database) (userID : Nat) (protocolID : Int)
    (labels : List String) (uptimeFilterType : String) (uptimePercentage : Option Float64)
    (proxy : Proxy) :
    proxy ∈ aliveProxiesForProtocol db userID protocolID labels uptimeFilterType
        uptimePercentage ↔
      proxy ∈ db.proxies ∧
      (∃ up ∈ db.userProxies, up.ProxyID = proxy.ID ∧ up.UserID = userID) ∧
      (∃ pls ∈ db.proxyLatestStatistics,
        pls.ProxyID = proxy.ID ∧ pls.ProtocolID = protocolID ∧ pls.Alive = true) ∧
      (∃ pr, pr ∈ applyReputationFilter db (sanitizeRotatorReputationLabels labels) proxy) ∧
      applyUptimeFilter db protocolID uptimeFilterType uptimePercentage proxy = true := by
  unfold aliveProxiesForProtocol
  simp only [List.mem_insertionSort, List.mem_flatMap, List.mem_filter, Bool.and_eq_true,
    decide_eq_true_eq]
  constructor
  · rintro ⟨p, hp, up, ⟨hup, hup1, hup2⟩, pls, ⟨hpls, ⟨hpls1, hpls2⟩, hpls3⟩, pr, hpr, hmem⟩
    split at hmem
    · rename_i hu
      simp only [List.mem_singleton] at hmem
      subst hmem
      exact ⟨hp, ⟨up, hup, hup1, hup2⟩, ⟨pls, hpls, hpls1, hpls2, hpls3⟩, ⟨pr, hpr⟩, hu⟩
    · simp at hmem
  · rintro ⟨hp, ⟨up, hup, hup1, hup2⟩, ⟨pls, hpls, hpls1, hpls2, hpls3⟩, ⟨pr, hpr⟩, hu⟩
    refine ⟨proxy, hp, up, ⟨hup, hup1, hup2⟩, pls, ⟨hpls, ⟨hpls1, hpls2⟩, hpls3⟩, pr, hpr, ?_⟩
    simp [hu]

theorem sanitizeRotatorReputationLabels_idem (labels : List String) :
    sanitizeRotatorReputationLabels (sanitizeRotatorReputationLabels labels) =
      sanitizeRotatorReputationLabels labels := by
  have hall : ∀ s ∈ reputationLabelOrder.sublists, sanitizeRotatorReputationLabels s = s := by
    decide
  exact hall _ (List.mem_sublists.mpr (sanitizeRotatorReputationLabels_sublist labels))

theorem applyReputationFilter_skipped (db : Database) (labels : List String) (proxy : Proxy)
    (h : shouldApplyReputationFilter (sanitizeRotatorReputationLabels labels) = false) :
    applyReputationFilter db (sanitizeRotatorReputationLabels labels) proxy =
      applyReputationFilter db (sanitizeRotatorReputationLabels []) proxy := by
  have h0 : shouldApplyReputationFilter (sanitizeRotatorReputationLabels []) = false := by
    decide
  simp [applyReputationFilter, h, h0]

/-- Without a reputation filter the join with `proxy_reputations` is not made: the result
does not depend on the table. -/
theorem aliveProxiesForProtocol_reputations (db : Database) (userID : Nat) (protocolID : Int)
    (labels : List String) (uptimeFilterType : String) (uptimePercentage : Option Float64)
    (h : shouldApplyReputationFilter (sanitizeRotatorReputationLabels labels) = false)
    (reputations : List ProxyReputation) :
    aliveProxiesForProtocol { db with proxyReputations := reputations } userID protocolID
        labels uptimeFilterType uptimePercentage =
      aliveProxiesForProtocol db userID protocolID labels uptimeFilterType
        uptimePercentage := by
  unfold aliveProxiesForProtocol
  simp only [applyReputationFilter, h, Bool.not_false, if_true]
  rfl

/-- C14. The labels the filter works with are exactly the labels of `good`, `neutral`,
`poor` named by the raw list after trimming and lower-casing, without duplicates (and
sanitising twice changes nothing); the filter is applied exactly when that set is
non-empty and misses one of the three labels. When the set is non-empty and misses a
label, a proxy is eligible exactly when it meets the other conditions of the query (a proxy
of the user with an alive latest statistic of the protocol that passes the uptime filter)
and has an `overall` reputation row with a label of the set. When the set is empty or holds
all three labels, a proxy is eligible exactly when it meets the other conditions, whatever
its reputation rows are: the result is the same for every content of the reputation
table. -/
theorem reputationFilter_spec (db : Database) (userID : Nat) (protocolID : Int)
    (labels : List String) (uptimeFilterType : String) (uptimePercentage : Option Float64) :
    (∀ l, l ∈ sanitizeRotatorReputationLabels labels ↔
      l ∈ ["good", "neutral", "poor"] ∧ ∃ raw ∈ labels, ToLower (TrimSpace raw) = l) ∧
    (sanitizeRotatorReputationLabels labels).Nodup ∧
    sanitizeRotatorReputationLabels (sanitizeRotatorReputationLabels labels) =
      sanitizeRotatorReputationLabels labels ∧
    (shouldApplyReputationFilter (sanitizeRotatorReputationLabels labels) = true ↔
      (∃ l, l ∈ sanitizeRotatorReputationLabels labels) ∧
      (∃ l ∈ ["good", "neutral", "poor"], l ∉ sanitizeRotatorReputationLabels labels)) ∧
    ((∃ l, l ∈ sanitizeRotatorReputationLabels labels) ∧
        (∃ l ∈ ["good", "neutral", "poor"], l ∉ sanitizeRotatorReputationLabels labels) →
      ∀ proxy, proxy ∈ aliveProxiesForProtocol db userID protocolID labels uptimeFilterType
          uptimePercentage ↔
        (proxy ∈ db.proxies ∧
          (∃ up ∈ db.userProxies, up.ProxyID = proxy.ID ∧ up.UserID = userID) ∧
          (∃ pls ∈ db.proxyLatestStatistics,
            pls.ProxyID = proxy.ID ∧ pls.ProtocolID = protocolID ∧ pls.Alive = true) ∧
          applyUptimeFilter db protocolID uptimeFilterType uptimePercentage proxy = true) ∧
        ∃ pr ∈ db.proxyReputations, pr.ProxyID = proxy.ID ∧ pr.Kind = "overall" ∧
          pr.Label ∈ sanitizeRotatorReputationLabels labels) ∧
    (sanitizeRotatorReputationLabels labels = [] ∨
        (∀ l ∈ ["good", "neutral", "poor"], l ∈ sanitizeRotatorReputationLabels labels) →
      (∀ proxy, proxy ∈ aliveProxiesForProtocol db userID protocolID labels uptimeFilterType
          uptimePercentage ↔
        (proxy ∈ db.proxies ∧
          (∃ up ∈ db.userProxies, up.ProxyID = proxy.ID ∧ up.UserID = userID) ∧
          (∃ pls ∈ db.proxyLatestStatistics,
            pls.ProxyID = proxy.ID ∧ pls.ProtocolID = protocolID ∧ pls.Alive = true) ∧
          applyUptimeFilter db protocolID uptimeFilterType uptimePercentage proxy = true)) ∧
      ∀ reputations : List ProxyReputation,
        aliveProxiesForProtocol { db with proxyReputations := reputations } userID protocolID
            labels uptimeFilterType uptimePercentage =
          aliveProxiesForProtocol db userID protocolID labels uptimeFilterType
            uptimePercentage) := by
  refine ⟨mem_sanitizeRotatorReputationLabels labels,
    sanitizeRotatorReputationLabels_nodup labels, sanitizeRotatorReputationLabels_idem labels,
    shouldApplyReputationFilter_iff labels, fun hset proxy => ?_, fun hset => ?_⟩
  · have happ := (shouldApplyReputationFilter_iff labels).mpr hset
    rw [mem_aliveProxiesForProtocol]
    have hleft : (∃ pr, pr ∈ applyReputationFilter db
        (sanitizeRotatorReputationLabels labels) proxy) ↔
        ∃ pr ∈ db.proxyReputations, pr.ProxyID = proxy.ID ∧ pr.Kind = "overall" ∧
          pr.Label ∈ sanitizeRotatorReputationLabels labels := by
      simp only [applyReputationFilter, happ, Bool.not_true, Bool.false_eq_true, if_false,
        List.mem_filter, Bool.and_eq_true, decide_eq_true_eq]
      constructor
      · rintro ⟨pr, hpr, ⟨h1, h2⟩, h3⟩
        exact ⟨pr, hpr, h1, h2, h3⟩
      · rintro ⟨pr, hpr, h1, h2, h3⟩
        exact ⟨pr, hpr, ⟨h1, h2⟩, h3⟩
    rw [hleft]
    constructor
    · rintro ⟨h1, h2, h3, h4, h5⟩
      exact ⟨⟨h1, h2, h3, h5⟩, h4⟩
    · rintro ⟨⟨h1, h2, h3, h5⟩, h4⟩
      exact ⟨h1, h2, h3, h4, h5⟩
  · have hskip : shouldApplyReputationFilter (sanitizeRotatorReputationLabels labels) =
        false := by
      rw [Bool.eq_false_iff]
      intro happ
      obtain ⟨⟨l, hl⟩, l2, hl2, hnot⟩ := (shouldApplyReputationFilter_iff labels).mp happ
      rcases hset with hnil | hall
      · rw [hnil] at hl
        cases hl
      · exact hnot (hall l2 hl2)
    refine ⟨fun proxy => ?_, aliveProxiesForProtocol_reputations db userID protocolID labels
      uptimeFilterType uptimePercentage hskip⟩
    rw [mem_aliveProxiesForProtocol]
    have hright : ∃ pr, pr ∈ applyReputationFilter db
        (sanitizeRotatorReputationLabels labels) proxy := by
      simp [applyReputationFilter, hskip]
    constructor
    · rintro ⟨h1, h2, h3, _, h5⟩
      exact ⟨h1, h2, h3, h5⟩
    · rintro ⟨h1, h2, h3, h5⟩
      exact ⟨h1, h2, h3, hright, h5⟩

/-! ## Uptime filter -/

theorem perm_pair_cases {α : Type} [DecidableEq α] (a b : α) (l : List α)
    (h : l.Perm [a, b]) : l = [a, b] ∨ l = [b, a] := by
  have hlen := h.length_eq
  match l, hlen with
  | [x, y], _ =>
    have hx : x ∈ [a, b] := h.subset (List.mem_cons_self _ _)
    have hrest := (List.cons_perm_iff_perm_erase.mp h).2
    simp only [List.mem_cons, List.mem_singleton, List.not_mem_nil, or_false] at hx
    rcases hx with hx | hx
    · subst hx
      rw [List.erase_cons_head] at hrest
      have := List.perm_singleton.mp hrest
      left
      rw [this]
    · subst hx
      by_cases hab : a = x
      · subst hab
        rw [List.erase_cons_head] at hrest
        have := List.perm_singleton.mp hrest
        left
        rw [this]
      · have herase : [a, x].erase x = [a] := by
          simp [List.erase_cons, hab]
        rw [herase] at hrest
        have := List.perm_singleton.mp hrest
        right
        rw [this]

theorem socksUser_protocolMap : socksUser.GetProtocolMap = [("https", 2), ("socks5", 4)] := by
  decide

/-- Whatever order the `range` over the protocol map takes, the two protocol ids of
`socksUser` end up under the same judge key and the same regex, and the second one visited
overwrites the first. -/
theorem prefetchUser_socksUser (order : RangeOrder) (hv : order.Valid) :
    ∃ protocolId : Int, (protocolId = 2 ∨ protocolId = 4) ∧
      (prefetchUser order singleJudge
        { judgeRequests := [], calls := 0, maxTimeout := 0, maxRetries := 0 }
        socksUser).judgeRequests =
        [("7_https", sharedRequest protocolId)] := by
  have hperm := hv.1 socksUser.GetProtocolMap
  rw [socksUser_protocolMap] at hperm
  unfold prefetchUser
  rw [socksUser_protocolMap]
  rcases perm_pair_cases _ _ _ hperm with h | h
  · refine ⟨4, Or.inr rfl, ?_⟩
    rw [h]
    decide
  · refine ⟨2, Or.inl rfl, ?_⟩
    rw [h]
    decide

/-- C12 fails: an owning user who enabled HTTPS and SOCKS5 (HTTPS requests for SOCKS, the
default) and whose judge pool returns the same judge and regex for both has the protocol
ids 2 and 4 enabled, but one iteration of `work` writes exactly one statistic, for whichever
of the two ids the `range` over the protocol map visits last; no statistic is written for
the other, whatever the probe returns. -/
theorem workStatistics_drops_protocol (order : RangeOrder) (hv : order.Valid)
    (probe : Nat → String → Nat → Nat → ProbeOutcome)
    (CheckForValidResponse : String → String → Bool) (proxyID : Nat) :
    enabledProtocolIds [socksUser] = [2, 4] ∧
    ((workStatistics order singleJudge probe CheckForValidResponse proxyID [socksUser]).map
        (·.ProtocolID) = [2] ∨
      (workStatistics order singleJudge probe CheckForValidResponse proxyID [socksUser]).map
        (·.ProtocolID) = [4]) := by
  refine ⟨by decide, ?_⟩
  obtain ⟨protocolId, hid, hreq⟩ := prefetchUser_socksUser order hv
  have hrequests := List.perm_singleton.mp (hv.2.1 [("7_https", sharedRequest protocolId)])
  have hregexes := List.perm_singleton.mp (hv.2.2 [("default", protocolId)])
  have hmap : (workStatistics order singleJudge probe CheckForValidResponse proxyID
      [socksUser]).map (·.ProtocolID) = [protocolId] := by
    unfold sharedRequest at hreq hrequests
    unfold workStatistics
    simp only [List.foldl, hreq, hrequests, List.flatMap_cons, List.flatMap_nil,
      List.append_nil, requestStatistics, sharedRequest, hregexes, List.map_cons,
      List.map_nil]
  rw [hmap]
  rcases hid with h | h
  · left
    rw [h]
  · right
    rw [h]

/-- Instance of the failure with the entries visited in insertion order and a probe that
always fails: the only statistic written is for SOCKS5, none for HTTPS. -/
theorem workStatistics_drops_protocol_witness :
    enabledProtocolIds [socksUser] = [2, 4] ∧
    ((workStatistics insertionOrder singleJudge (fun _ _ _ => failingProbe) (fun _ _ => true)
        1 [socksUser]).map (·.ProtocolID) = [2] ∨
      (workStatistics insertionOrder singleJudge (fun _ _ _ => failingProbe) (fun _ _ => true)
        1 [socksUser]).map (·.ProtocolID) = [4]) :=
  workStatistics_drops_protocol insertionOrder
    ⟨fun _ => List.Perm.refl _, fun _ => List.Perm.refl _, fun _ => List.Perm.refl _⟩
    (fun _ _ _ => failingProbe) (fun _ _ => true) 1

/-! ## SOCKS5 method selection -/

theorem ReadFull_output (conn : Conn) (n : Nat) : (ReadFull conn n).2.output = conn.output := by
  unfold ReadFull
  split <;> rfl

theorem ReadFull_append (bytes rest output : List Nat) :
    ReadFull { input := bytes ++ rest, output := output } bytes.length =
      (some bytes, { input := rest, output := output }) := by
  unfold ReadFull
  simp

theorem Conn.Extends.refl (c : Conn) : c.Extends c := ⟨[], by simp⟩

theorem Conn.Extends.trans {c1 c2 c3 : Conn} (h1 : c1.Extends c2) (h2 : c2.Extends c3) :
    c1.Extends c3 := by
  obtain ⟨t1, h1⟩ := h1
  obtain ⟨t2, h2⟩ := h2
  exact ⟨t1 ++ t2, by rw [h2, h1, List.append_assoc]⟩

theorem Conn.Extends.of_output {c1 c2 : Conn} (h : c2.output = c1.output) : c1.Extends c2 :=
  ⟨[], by simp [h]⟩

theorem ReadFull_extends (conn : Conn) (n : Nat) : conn.Extends (ReadFull conn n).2 :=
  Conn.Extends.of_output (ReadFull_output conn n)

theorem Write_extends (conn : Conn) (bytes : List Nat) : conn.Extends (conn.Write bytes) :=
  ⟨bytes, rfl⟩

theorem writeSocks5Reply_extends (conn : Conn) (rep : Nat) :
    conn.Extends (writeSocks5Reply conn rep) :=
  ⟨_, rfl⟩

theorem readSocksAddress_output (conn : Conn) (atyp : Nat) :
    (readSocksAddress conn atyp).2.output = conn.output := by
  unfold readSocksAddress
  have key : ∀ (hostRead : Except SocksError (List Nat) × Conn),
      hostRead.2.output = conn.output →
      (match hostRead with
        | (.error e, conn) => ((.error e : Except SocksError (List Nat)), conn)
        | (.ok host, conn) =>
          match ReadFull conn 2 with
          | (none, conn) => (.error .read, conn)
          | (some portBuf, conn) =>
            (.ok (JoinHostPort host (bytesOf (Itoa (BigEndianUint16 portBuf)))), conn)).2.output
        = conn.output := by
    rintro ⟨_ | host, c⟩ hc
    · exact hc
    · simp only
      have h2 := ReadFull_output c 2
      rcases hr : ReadFull c 2 with ⟨_ | portBuf, c2⟩
      · rw [hr] at h2
        exact h2.trans hc
      · rw [hr] at h2
        exact h2.trans hc
  apply key
  split_ifs
  · have h := ReadFull_output conn 4
    rcases hr : ReadFull conn 4 with ⟨_ | ip, c⟩ <;> rw [hr] at h <;> exact h
  · have h := ReadFull_output conn 1
    rcases hr : ReadFull conn 1 with ⟨_ | lenBuf, c⟩ <;> rw [hr] at h
    · exact h
    · simp only
      have h' := ReadFull_output c (lenBuf.getD 0 0)
      rcases hr' : ReadFull c (lenBuf.getD 0 0) with ⟨_ | domain, c'⟩ <;> rw [hr'] at h' <;>
        exact h'.trans h
  · have h := ReadFull_output conn 16
    rcases hr : ReadFull conn 16 with ⟨_ | ip, c⟩ <;> rw [hr] at h <;> exact h
  · rfl

theorem readSocks5Target_extends (conn : Conn) : conn.Extends (readSocks5Target conn).2 := by
  unfold readSocks5Target
  have h := ReadFull_extends conn 4
  rcases hr : ReadFull conn 4 with ⟨_ | header, c⟩ <;> rw [hr] at h
  · exact h
  · simp only
    split_ifs
    · exact h.trans (writeSocks5Reply_extends c 1)
    · exact h.trans (writeSocks5Reply_extends c 7)
    · have ha := readSocksAddress_output c (header.getD 3 0)
      rcases hra : readSocksAddress c (header.getD 3 0) with ⟨_ | target, c'⟩ <;> rw [hra] at ha
      · exact h.trans ((Conn.Extends.of_output ha).trans (writeSocks5Reply_extends c' 8))
      · exact h.trans (Conn.Extends.of_output ha)

theorem verifySocks5Credentials_extends (rotator : RotatingProxy) (conn : Conn) :
    conn.Extends (verifySocks5Credentials rotator conn).2 := by
  unfold verifySocks5Credentials
  have h := ReadFull_extends conn 2
  rcases hr : ReadFull conn 2 with ⟨_ | header, c⟩ <;> rw [hr] at h
  · exact h
  · simp only
    split_ifs
    · exact h.trans (Write_extends c _)
    · have hu := ReadFull_extends c (header.getD 1 0)
      rcases hru : ReadFull c (header.getD 1 0) with ⟨_ | username, cu⟩ <;> rw [hru] at hu
      · exact h.trans hu
      · simp only
        have hl := ReadFull_extends cu 1
        rcases hrl : ReadFull cu 1 with ⟨_ | passLen, cl⟩ <;> rw [hrl] at hl
        · exact h.trans (hu.trans hl)
        · simp only
          have hp := ReadFull_extends cl (passLen.getD 0 0)
          rcases hrp : ReadFull cl (passLen.getD 0 0) with ⟨_ | password, cp⟩ <;>
            rw [hrp] at hp
          · exact h.trans (hu.trans (hl.trans hp))
          · simp only
            split_ifs
            · exact h.trans (hu.trans (hl.trans (hp.trans (Write_extends cp _))))
            · exact h.trans (hu.trans (hl.trans (hp.trans (Write_extends cp _))))

theorem afterSelection_extends (rotator : RotatingProxy) (selected : Nat) (conn : Conn) :
    conn.Extends (afterSelection rotator selected conn).2 := by
  unfold afterSelection
  split_ifs
  · have h := verifySocks5Credentials_extends rotator conn
    rcases hr : verifySocks5Credentials rotator conn with ⟨_ | err, c⟩ <;> rw [hr] at h
    · exact h.trans (readSocks5Target_extends c)
    · exact h
  · exact readSocks5Target_extends conn

theorem performSocks5Handshake_greeting (rotator : RotatingProxy) (methods rest : List Nat) :
    performSocks5Handshake rotator (socks5Greeting methods rest) =
      if selectSocks5Method rotator.AuthRequired methods = 0xff then
        (.error (.message "no acceptable authentication methods"),
          { input := rest, output := [0x05, 0xff] })
      else
        afterSelection rotator (selectSocks5Method rotator.AuthRequired methods)
          { input := rest,
            output := [0x05, selectSocks5Method rotator.AuthRequired methods] } := by
  have h2 : ReadFull (socks5Greeting methods rest) 2 =
      (some [0x05, methods.length], { input := methods ++ rest, output := [] }) := by
    have := ReadFull_append [0x05, methods.length] (methods ++ rest) []
    simpa [socks5Greeting] using this
  have hm := ReadFull_append methods rest []
  unfold performSocks5Handshake afterSelection
  simp only [h2, List.getD_cons_zero, List.getD_cons_succ, ne_eq, not_true_eq_false, if_false,
    hm, Conn.Write, List.nil_append]

theorem selectSocks5Method_cases (authRequired : Bool) (methods : List Nat) :
    (authRequired = true → 2 ∈ methods → selectSocks5Method authRequired methods = 2) ∧
    (authRequired = false → 0 ∈ methods → selectSocks5Method authRequired methods = 0) ∧
    (authRequired = false → 0 ∉ methods → 2 ∈ methods →
      selectSocks5Method authRequired methods = 2) ∧
    (authRequired = true → 2 ∉ methods → selectSocks5Method authRequired methods = 0xff) ∧
    (authRequired = false → 0 ∉ methods → 2 ∉ methods →
      selectSocks5Method authRequired methods = 0xff) := by
  have hany : ∀ m : Nat, methods.any (fun method => decide (method = m)) = true ↔
      m ∈ methods := by
    intro m
    simp
  refine ⟨fun ha h2 => ?_, fun ha h0 => ?_, fun ha h0 h2 => ?_, fun ha h2 => ?_,
    fun ha h0 h2 => ?_⟩
  · simp only [selectSocks5Method, ha, if_true, (hany 2).2 h2]
  · simp [selectSocks5Method, ha, (hany 0).2 h0]
  · have h0' : ¬ methods.any (fun method => decide (method = 0)) = true :=
      fun h => h0 ((hany 0).1 h)
    simp only [selectSocks5Method, ha, h0', (hany 2).2 h2, if_true, Bool.false_eq_true,
      if_false]
  · have h2' : ¬ methods.any (fun method => decide (method = 2)) = true :=
      fun h => h2 ((hany 2).1 h)
    simp [selectSocks5Method, ha, h2']
  · have h0' : ¬ methods.any (fun method => decide (method = 0)) = true :=
      fun h => h0 ((hany 0).1 h)
    have h2' : ¬ methods.any (fun method => decide (method = 2)) = true :=
      fun h => h2 ((hany 2).1 h)
    simp only [selectSocks5Method, ha, h0', h2', if_true, Bool.false_eq_true, if_false]

/-- After a greeting for which a method other than `0xff` is selected, the reply starts with
`05` and that method, and the handshake goes on with `afterSelection`. -/
theorem performSocks5Handshake_selected (rotator : RotatingProxy) (methods rest : List Nat)
    (selected : Nat) (hsel : selectSocks5Method rotator.AuthRequired methods = selected)
    (hne : selected ≠ 0xff) :
    performSocks5Handshake rotator (socks5Greeting methods rest) =
      afterSelection rotator selected { input := rest, output := [0x05, selected] } ∧
    (performSocks5Handshake rotator (socks5Greeting methods rest)).2.output.take 2 =
      [0x05, selected] := by
  have heq : performSocks5Handshake rotator (socks5Greeting methods rest) =
      afterSelection rotator selected { input := rest, output := [0x05, selected] } := by
    rw [performSocks5Handshake_greeting, hsel, if_neg hne]
  refine ⟨heq, ?_⟩
  obtain ⟨tail, ht⟩ := afterSelection_extends rotator selected
    { input := rest, output := [0x05, selected] }
  rw [heq, ht]
  rfl

/-- C18. After a SOCKS5 greeting offering `methods`, the reply starts with `05 02` when
authentication is required and `0x02` is offered, with `05 00` when it is not required and
`0x00` is offered, with `05 02` when it is not required, `0x00` is not offered and `0x02`
is; the handshake then goes on (credentials are verified exactly for `0x02`). In every other
case the reply is `05 FF` and the handshake ends with an error. A rotator that requires
authentication never answers `05 00`. -/
theorem socks5_method_selection (rotator : RotatingProxy) (methods rest : List Nat) :
    (rotator.AuthRequired = true → 2 ∈ methods →
      performSocks5Handshake rotator (socks5Greeting methods rest) =
        afterSelection rotator 2 { input := rest, output := [0x05, 0x02] } ∧
      (performSocks5Handshake rotator (socks5Greeting methods rest)).2.output.take 2 =
        [0x05, 0x02]) ∧
    (rotator.AuthRequired = false → 0 ∈ methods →
      performSocks5Handshake rotator (socks5Greeting methods rest) =
        readSocks5Target { input := rest, output := [0x05, 0x00] } ∧
      (performSocks5Handshake rotator (socks5Greeting methods rest)).2.output.take 2 =
        [0x05, 0x00]) ∧
    (rotator.AuthRequired = false → 0 ∉ methods → 2 ∈ methods →
      performSocks5Handshake rotator (socks5Greeting methods rest) =
        afterSelection rotator 2 { input := rest, output := [0x05, 0x02] } ∧
      (performSocks5Handshake rotator (socks5Greeting methods rest)).2.output.take 2 =
        [0x05, 0x02]) ∧
    ((rotator.AuthRequired = true ∧ 2 ∉ methods) ∨
        (rotator.AuthRequired = false ∧ 0 ∉ methods ∧ 2 ∉ methods) →
      performSocks5Handshake rotator (socks5Greeting methods rest) =
        (.error (.message "no acceptable authentication methods"),
          { input := rest, output := [0x05, 0xff] })) ∧
    (rotator.AuthRequired = true →
      (performSocks5Handshake rotator (socks5Greeting methods rest)).2.output.take 2 ≠
        [0x05, 0x00]) := by
  obtain ⟨c1, c2, c3, c4, c5⟩ := selectSocks5Method_cases rotator.AuthRequired methods
  refine ⟨fun ha h2 => ?_, fun ha h0 => ?_, fun ha h0 h2 => ?_, fun h => ?_, fun ha => ?_⟩
  · exact performSocks5Handshake_selected rotator methods rest 2 (c1 ha h2) (by decide)
  · have h := performSocks5Handshake_selected rotator methods rest 0 (c2 ha h0) (by decide)
    refine ⟨?_, h.2⟩
    rw [h.1]
    rfl
  · exact performSocks5Handshake_selected rotator methods rest 2 (c3 ha h0 h2) (by decide)
  · have hsel : selectSocks5Method rotator.AuthRequired methods = 0xff := by
      rcases h with ⟨ha, h2⟩ | ⟨ha, h0, h2⟩
      · exact c4 ha h2
      · exact c5 ha h0 h2
    rw [performSocks5Handshake_greeting, if_pos hsel]
  · by_cases h2 : 2 ∈ methods
    · rw [(performSocks5Handshake_selected rotator methods rest 2 (c1 ha h2) (by decide)).2]
      decide
    · rw [performSocks5Handshake_greeting, if_pos (c4 ha h2)]
      simp

/-! ## SOCKS5 user name / password sub-negotiation -/

theorem verifySocks5Credentials_request (rotator : RotatingProxy) (ver : Nat)
    (username password rest output : List Nat) :
    verifySocks5Credentials rotator
        { input := socks5AuthRequest ver username password rest, output := output } =
      if ver ≠ 0x01 then
        (some (.message "invalid socks5 authentication version"),
          { input := username ++ ([password.length] ++ (password ++ rest)),
            output := output ++ [0x01, 0x01] })
      else if rotator.AuthRequired ∧ (username ≠ bytesOf rotator.AuthUsername ∨
          password ≠ bytesOf rotator.AuthPassword) then
        (some (.message "invalid socks5 credentials"),
          { input := rest, output := output ++ [0x01, 0x01] })
      else (none, { input := rest, output := output ++ [0x01, 0x00] }) := by
  have h2 := ReadFull_append [ver, username.length]
    (username ++ ([password.length] ++ (password ++ rest))) output
  have hu := ReadFull_append username ([password.length] ++ (password ++ rest)) output
  have hl := ReadFull_append [password.length] (password ++ rest) output
  have hp := ReadFull_append password rest output
  simp only [List.length_cons, List.length_nil, Nat.zero_add, Nat.reduceAdd] at h2 hl
  unfold verifySocks5Credentials socks5AuthRequest
  simp only [h2, List.getD_cons_zero, List.getD_cons_succ, hu, hl, hp, Conn.Write]

theorem ReadFull_short (conn : Conn) (n : Nat) (h : conn.input.length < n) :
    ReadFull conn n = (none, { input := [], output := conn.output }) := by
  unfold ReadFull
  rw [if_pos h]

/-- A sub-negotiation request that stops early ends with the read error, and nothing is
written. -/
theorem verifySocks5Credentials_truncated (rotator : RotatingProxy)
    (username part output : List Nat) (n : Nat) (hpart : part.length < n) :
    (∀ short : List Nat, short.length < 2 →
      verifySocks5Credentials rotator { input := short, output := output } =
        (some .read, { input := [], output := output })) ∧
    verifySocks5Credentials rotator { input := [0x01, n] ++ part, output := output } =
      (some .read, { input := [], output := output }) ∧
    verifySocks5Credentials rotator
        { input := [0x01, username.length] ++ username, output := output } =
      (some .read, { input := [], output := output }) ∧
    verifySocks5Credentials rotator
        { input := [0x01, username.length] ++ (username ++ ([n] ++ part)), output := output } =
      (some .read, { input := [], output := output }) := by
  refine ⟨fun short hs => ?_, ?_, ?_, ?_⟩
  · unfold verifySocks5Credentials
    rw [ReadFull_short _ 2 hs]
  · have h2 := ReadFull_append [0x01, n] part output
    simp only [List.length_cons, List.length_nil, Nat.zero_add, Nat.reduceAdd] at h2
    unfold verifySocks5Credentials
    simp only [h2, List.getD_cons_zero, List.getD_cons_succ, ne_eq, not_true_eq_false,
      if_false]
    rw [ReadFull_short _ n hpart]
  · have h2 := ReadFull_append [0x01, username.length] username output
    have hu := ReadFull_append username [] output
    simp only [List.length_cons, List.length_nil, Nat.zero_add, Nat.reduceAdd] at h2
    simp only [List.append_nil] at hu
    unfold verifySocks5Credentials
    simp only [h2, List.getD_cons_zero, List.getD_cons_succ, ne_eq, not_true_eq_false,
      if_false, hu]
    rw [ReadFull_short _ 1 (by simp)]
  · have h2 := ReadFull_append [0x01, username.length] (username ++ ([n] ++ part)) output
    have hu := ReadFull_append username ([n] ++ part) output
    have hl := ReadFull_append [n] part output
    simp only [List.length_cons, List.length_nil, Nat.zero_add, Nat.reduceAdd] at h2 hl
    unfold verifySocks5Credentials
    simp only [h2, List.getD_cons_zero, List.getD_cons_succ, ne_eq, not_true_eq_false,
      if_false, hu, hl]
    rw [ReadFull_short _ n hpart]

/-- C19 (as stated) fails when `0x02` is selected as the fallback of a rotator that requires
no authentication: the credentials `x` / `y` differ from the configured (empty) ones, yet the
reply is `01 00` and the handshake completes. -/
theorem socks5_credentials_counterexample :
    selectSocks5Method openRotator.AuthRequired [0x02] = 0x02 ∧
    [120] ≠ bytesOf openRotator.AuthUsername ∧ [121] ≠ bytesOf openRotator.AuthPassword ∧
    performSocks5Handshake openRotator
        (socks5Greeting [0x02] (socks5AuthRequest 0x01 [120] [121] connectRequest)) =
      (.ok (bytesOf "1.1.1.1:1080"), { input := [], output := [0x05, 0x02, 0x01, 0x00] }) := by
  decide

/-- C19 (amended). When `0x02` has been selected and the client sends a complete request:
a rotator that requires authentication replies `01 00` and goes on to read the target
exactly when the request has version `01` and the presented user name and password equal
the configured ones, and replies `01 01` and ends the handshake with an error otherwise; a
rotator that requires no authentication (`0x02` selected as fallback) replies `01 00` and
goes on for every user name and password of a version `01` request. -/
theorem socks5_credentials (rotator : RotatingProxy) (methods : List Nat) (ver : Nat)
    (username password rest : List Nat)
    (hsel : selectSocks5Method rotator.AuthRequired methods = 0x02) :
    (rotator.AuthRequired = true → ver = 0x01 → username = bytesOf rotator.AuthUsername →
      password = bytesOf rotator.AuthPassword →
      performSocks5Handshake rotator
          (socks5Greeting methods (socks5AuthRequest ver username password rest)) =
        readSocks5Target { input := rest, output := [0x05, 0x02, 0x01, 0x00] }) ∧
    (rotator.AuthRequired = true → ver = 0x01 →
      ¬ (username = bytesOf rotator.AuthUsername ∧ password = bytesOf rotator.AuthPassword) →
      performSocks5Handshake rotator
          (socks5Greeting methods (socks5AuthRequest ver username password rest)) =
        (.error (.message "invalid socks5 credentials"),
          { input := rest, output := [0x05, 0x02, 0x01, 0x01] })) ∧
    (rotator.AuthRequired = false → ver = 0x01 →
      performSocks5Handshake rotator
          (socks5Greeting methods (socks5AuthRequest ver username password rest)) =
        readSocks5Target { input := rest, output := [0x05, 0x02, 0x01, 0x00] }) ∧
    (ver ≠ 0x01 →
      performSocks5Handshake rotator
          (socks5Greeting methods (socks5AuthRequest ver username password rest)) =
        (.error (.message "invalid socks5 authentication version"),
          { input := username ++ ([password.length] ++ (password ++ rest)),
            output := [0x05, 0x02, 0x01, 0x01] })) := by
  have hstep : performSocks5Handshake rotator
      (socks5Greeting methods (socks5AuthRequest ver username password rest)) =
      afterSelection rotator 2
        { input := socks5AuthRequest ver username password rest, output := [0x05, 0x02] } := by
    rw [performSocks5Handshake_greeting, hsel]
    rfl
  rw [hstep]
  unfold afterSelection
  rw [if_pos rfl, verifySocks5Credentials_request]
  refine ⟨fun ha hver hu hp => ?_, fun ha hver hne => ?_, fun ha hver => ?_, fun hver => ?_⟩
  · simp [hver, hu, hp]
  · have hor : username ≠ bytesOf rotator.AuthUsername ∨
        password ≠ bytesOf rotator.AuthPassword := by
      by_contra hcon
      push_neg at hcon
      exact hne hcon
    simp [hver, ha, hor]
  · simp [hver, ha]
  · simp [hver]

/-- Witness of C19 (amended): the rotator `rot-user` / `rot-pass` offered `0x02` accepts
its own credentials and goes on to read the target. -/
theorem socks5_credentials_witness :
    performSocks5Handshake authRotator
        (socks5Greeting [0x00, 0x02]
          (socks5AuthRequest 0x01 (bytesOf "rot-user") (bytesOf "rot-pass") connectRequest)) =
      readSocks5Target { input := connectRequest, output := [0x05, 0x02, 0x01, 0x00] } :=
  (socks5_credentials authRotator [0x00, 0x02] 0x01 (bytesOf "rot-user") (bytesOf "rot-pass")
    connectRequest (by decide)).1 rfl rfl rfl rfl

/-! ## SOCKS4 identifier check -/

theorem takeWhile_ne_append (ident tail : List Nat) (delim : Nat) (h : delim ∉ ident) :
    (ident ++ delim :: tail).takeWhile (fun b => decide (b ≠ delim)) = ident := by
  induction ident with
  | nil => simp
  | cons a l ih =>
    have ha : a ≠ delim := fun hc => h (by rw [hc]; exact List.mem_cons_self _ _)
    have hl : delim ∉ l := fun hc => h (List.mem_cons_of_mem _ hc)
    rw [List.cons_append, List.takeWhile_cons, ih hl]
    simp [ha]

theorem dropWhile_ne_append (ident tail : List Nat) (delim : Nat) (h : delim ∉ ident) :
    (ident ++ delim :: tail).dropWhile (fun b => decide (b ≠ delim)) = delim :: tail := by
  induction ident with
  | nil => simp
  | cons a l ih =>
    have ha : a ≠ delim := fun hc => h (by rw [hc]; exact List.mem_cons_self _ _)
    have hl : delim ∉ l := fun hc => h (List.mem_cons_of_mem _ hc)
    rw [List.cons_append, List.dropWhile_cons, ih hl]
    simp [ha]

theorem ReadString_append (ident rest output : List Nat) (delim : Nat) (h : delim ∉ ident) :
    ReadString { input := ident ++ ([delim] ++ rest), output := output } delim =
      (some (ident ++ [delim]), { input := rest, output := output }) := by
  have hmem : delim ∈ ident ++ delim :: rest := by simp
  unfold ReadString
  simp only [List.singleton_append, takeWhile_ne_append ident rest delim h,
    dropWhile_ne_append ident rest delim h, List.drop_succ_cons, List.drop_zero]
  rw [if_pos hmem]

theorem ReadString_some (conn : Conn) (delim : Nat) (h : delim ∈ conn.input) :
    ∃ line c, ReadString conn delim = (some line, c) ∧ c.output = conn.output := by
  unfold ReadString
  rw [if_pos h]
  exact ⟨_, _, rfl, rfl⟩

theorem TrimSuffix_append (s : List Nat) (b : Nat) : TrimSuffix (s ++ [b]) [b] = s := by
  unfold TrimSuffix
  have : [b].isSuffixOf (s ++ [b]) = true := by
    rw [List.isSuffixOf_iff_suffix]
    exact List.suffix_append _ _
  simp [this]

/-- C20 (as stated) fails: the rotator `rot-user` / `rot-pass` rejects the identifier
`rot-user` (the user name alone) with status `0x5B` and requests no upstream proxy; only
`rot-user:rot-pass` is accepted. -/
theorem socks4_ident_counterexample :
    authRotator.AuthRequired = true ∧
    handleSocks4 authRotator testNext (fun _ _ => true)
        (socks4Request [0x04, 0x38] [1, 1, 1, 1] (bytesOf authRotator.AuthUsername) []) =
      { conn := { input := [], output := [0x00, 0x5B, 0x04, 0x38, 1, 1, 1, 1] },
        upstreamRequested := false, connectTarget := none, piped := false } := by
  decide

/-- C20 (amended). For a rotator with `auth_required` and a well-formed SOCKS4/4a `CONNECT`
request, an upstream proxy is requested exactly when the identifier equals the expected one:
`username:password` when the password is not empty, the user name alone when it is empty.
For every other identifier the reply is `00 5B` with the destination port and address, no
upstream proxy is requested, no upstream connection is made and nothing is piped. -/
theorem socks4_ident_auth (rotator : RotatingProxy)
    (getNextRotatingProxyFunc : Nat → Nat → Except RotatorError RotatingProxyNext)
    (connectThroughUpstreamFunc : List Nat → RotatingProxyNext → Bool)
    (dstPort dstIP ident rest : List Nat)
    (hauth : rotator.AuthRequired = true) (hport : dstPort.length = 2)
    (hip : dstIP.length = 4) (hident : 0 ∉ ident)
    (hdomain : dstIP.getD 0 0 = 0 ∧ dstIP.getD 1 0 = 0 ∧ dstIP.getD 2 0 = 0 ∧
      dstIP.getD 3 0 ≠ 0 → 0 ∈ rest) :
    (rotator.AuthPassword ≠ "" →
      socks4Expected rotator = bytesOf rotator.AuthUsername ++ [58] ++
        bytesOf rotator.AuthPassword) ∧
    (rotator.AuthPassword = "" → socks4Expected rotator = bytesOf rotator.AuthUsername) ∧
    ((handleSocks4 rotator getNextRotatingProxyFunc connectThroughUpstreamFunc
        (socks4Request dstPort dstIP ident rest)).upstreamRequested = true ↔
      ident = socks4Expected rotator) ∧
    (ident ≠ socks4Expected rotator →
      ∃ unread, handleSocks4 rotator getNextRotatingProxyFunc connectThroughUpstreamFunc
          (socks4Request dstPort dstIP ident rest) =
        { conn := { input := unread, output := [0x00, 0x5B] ++ dstPort ++ dstIP },
          upstreamRequested := false, connectTarget := none, piped := false }) := by
  refine ⟨fun hp => by simp [socks4Expected, hp], fun hp => by simp [socks4Expected, hp], ?_⟩
  obtain ⟨p0, p1, rfl⟩ : ∃ p0 p1, dstPort = [p0, p1] := by
    match dstPort, hport with
    | [p0, p1], _ => exact ⟨p0, p1, rfl⟩
  obtain ⟨a, b, c, d, rfl⟩ : ∃ a b c d, dstIP = [a, b, c, d] := by
    match dstIP, hip with
    | [a, b, c, d], _ => exact ⟨a, b, c, d, rfl⟩
  have h8 := ReadFull_append ([0x04, 0x01] ++ [p0, p1] ++ [a, b, c, d])
    (ident ++ ([0] ++ rest)) []
  have hrs := ReadString_append ident rest [] 0 hident
  have htrim := TrimSuffix_append ident 0
  simp only [List.getD_cons_zero, List.getD_cons_succ] at hdomain
  -- the host part: either the dotted address or the domain of a SOCKS4a request
  have hhost : ∃ host unread,
      (if a = 0 ∧ b = 0 ∧ c = 0 ∧ d ≠ 0 then
        match ReadString { input := rest, output := [] } 0 with
        | (none, conn) => ((none : Option (List Nat)), conn)
        | (some domain, conn) => (some (TrimSuffix domain [0]), conn)
      else (some (IPString [a, b, c, d]), { input := rest, output := [] })) =
      (some host, { input := unread, output := [] }) := by
    split_ifs with h4a
    · obtain ⟨line, conn, hline, hout⟩ := ReadString_some { input := rest, output := [] } 0
        (hdomain h4a)
      rw [hline]
      obtain ⟨input, output⟩ := conn
      simp only at hout
      subst hout
      exact ⟨_, _, rfl⟩
    · exact ⟨_, _, rfl⟩
  obtain ⟨host, unread, hhost⟩ := hhost
  have hrun : handleSocks4 rotator getNextRotatingProxyFunc connectThroughUpstreamFunc
      (socks4Request [p0, p1] [a, b, c, d] ident rest) =
      if ident ≠ socks4Expected rotator then
        { conn := { input := unread, output := [0x00, 0x5B, p0, p1, a, b, c, d] },
          upstreamRequested := false, connectTarget := none, piped := false }
      else
        match getNextRotatingProxyFunc rotator.UserID rotator.ID with
        | .error _ =>
          { conn := { input := unread, output := [0x00, 0x5B, p0, p1, a, b, c, d] },
            upstreamRequested := true, connectTarget := none, piped := false }
        | .ok next =>
          if !supportedUpstream next.Protocol then
            { conn := { input := unread, output := [0x00, 0x5B, p0, p1, a, b, c, d] },
              upstreamRequested := true, connectTarget := none, piped := false }
          else if !connectThroughUpstreamFunc
              (JoinHostPort host (bytesOf (Itoa (BigEndianUint16 [p0, p1])))) next then
            { conn := { input := unread, output := [0x00, 0x5B, p0, p1, a, b, c, d] },
              upstreamRequested := true,
              connectTarget := some
                (JoinHostPort host (bytesOf (Itoa (BigEndianUint16 [p0, p1])))),
              piped := false }
          else
            { conn := { input := unread, output := [0x00, 0x5A, p0, p1, a, b, c, d] },
              upstreamRequested := true,
              connectTarget := some
                (JoinHostPort host (bytesOf (Itoa (BigEndianUint16 [p0, p1])))),
              piped := true } := by
    unfold handleSocks4 socks4Request
    simp only [List.length_cons, List.length_nil, List.length_append, Nat.reduceAdd,
      List.cons_append, List.nil_append] at h8
    simp only [List.cons_append, List.nil_append, h8, List.getD_cons_zero,
      List.getD_cons_succ, ne_eq, not_true_eq_false, or_self, if_false, List.drop_succ_cons,
      List.drop_zero, List.take_succ_cons, List.take_zero, List.take_nil]
    have hrs' := hrs
    simp only [List.cons_append, List.nil_append] at hrs'
    simp only [hrs', htrim, hhost, hauth, true_and]
    split_ifs <;> try rfl
  rw [hrun]
  constructor
  · by_cases hid : ident = socks4Expected rotator
    · simp only [hid, ne_eq, not_true_eq_false, if_false, iff_true]
      cases getNextRotatingProxyFunc rotator.UserID rotator.ID with
      | error e => rfl
      | ok next =>
        simp only
        split_ifs <;> rfl
    · simp [hid]
  · intro hid
    exact ⟨unread, by rw [if_pos hid]; rfl⟩

/-- Witness of C20 (amended): the request of `TestSocks4Handler_WithUserIDAuth`, with the
identifier `rot-user:rot-pass`, passes authentication and an upstream proxy is requested. -/
theorem socks4_ident_auth_witness :
    (handleSocks4 authRotator testNext (fun _ _ => true)
        (socks4Request [0x04, 0x38] [1, 1, 1, 1] (bytesOf "rot-user:rot-pass")
          [])).upstreamRequested = true ↔
      bytesOf "rot-user:rot-pass" = socks4Expected authRotator :=
  (socks4_ident_auth authRotator testNext (fun _ _ => true) [0x04, 0x38] [1, 1, 1, 1]
    (bytesOf "rot-user:rot-pass") [] rfl rfl rfl (by decide) (by decide)).2.2.1

/-! ## HTTP Basic authentication -/

theorem takeWhile_ne_sep {α : Type} [DecidableEq α] (a tail : List α) (sep : α)
    (h : sep ∉ a) : (a ++ sep :: tail).takeWhile (fun x => decide (x ≠ sep)) = a := by
  induction a with
  | nil => simp
  | cons x l ih =>
    have hx : x ≠ sep := fun hc => h (by rw [hc]; exact List.mem_cons_self _ _)
    have hl : sep ∉ l := fun hc => h (List.mem_cons_of_mem _ hc)
    rw [List.cons_append, List.takeWhile_cons, ih hl]
    simp [hx]

theorem dropWhile_ne_sep {α : Type} [DecidableEq α] (a tail : List α) (sep : α)
    (h : sep ∉ a) : (a ++ sep :: tail).dropWhile (fun x => decide (x ≠ sep)) = sep :: tail := by
  induction a with
  | nil => simp
  | cons x l ih =>
    have hx : x ≠ sep := fun hc => h (by rw [hc]; exact List.mem_cons_self _ _)
    have hl : sep ∉ l := fun hc => h (List.mem_cons_of_mem _ hc)
    rw [List.cons_append, List.dropWhile_cons, ih hl]
    simp [hx]

/-- Splitting at the first separator. -/
theorem SplitN_append {α : Type} [DecidableEq α] (a b : List α) (sep : α) (h : sep ∉ a) :
    SplitN (a ++ sep :: b) sep = [a, b] := by
  have hmem : sep ∈ a ++ sep :: b := by simp
  unfold SplitN
  rw [if_pos hmem, takeWhile_ne_sep a b sep h, dropWhile_ne_sep a b sep h]
  rfl

theorem SplitN_length_two {α : Type} [DecidableEq α] (s : List α) (sep : α)
    (h : (SplitN s sep).length = 2) :
    ∃ a b, s = a ++ sep :: b ∧ sep ∉ a ∧ SplitN s sep = [a, b] := by
  by_cases hmem : sep ∈ s
  · obtain ⟨a, b, hs, ha⟩ := List.eq_append_cons_of_mem hmem
    exact ⟨a, b, hs, ha, by rw [hs]; exact SplitN_append a b sep ha⟩
  · unfold SplitN at h
    rw [if_neg hmem] at h
    simp at h

/-- When `authenticateClient` returns true for a rotator that requires authentication. -/
theorem authenticateClient_true_iff (rotator : RotatingProxy) (w : ResponseWriter)
    (proxyAuthorization : String) (hauth : rotator.AuthRequired = true) :
    (authenticateClient rotator w proxyAuthorization).1 = true ↔
      ∃ scheme payload, (TrimSpace proxyAuthorization).toList = scheme ++ ' ' :: payload ∧
        ' ' ∉ scheme ∧ EqualFold scheme "Basic".toList = true ∧
        DecodeString payload =
          some (bytesOf rotator.AuthUsername ++ 58 :: bytesOf rotator.AuthPassword) ∧
        58 ∉ bytesOf rotator.AuthUsername := by
  unfold authenticateClient
  simp only [hauth, Bool.not_true, Bool.false_eq_true, if_false]
  by_cases h1 : TrimSpace proxyAuthorization = ""
  · rw [if_pos h1]
    constructor
    · intro h
      exact absurd h (by simp)
    · rintro ⟨scheme, payload, hs, _⟩
      rw [h1] at hs
      cases scheme <;> exact absurd hs (by simp)
  rw [if_neg h1]
  by_cases h2 : (SplitN (TrimSpace proxyAuthorization).toList ' ').length ≠ 2 ∨
      (!EqualFold ((SplitN (TrimSpace proxyAuthorization).toList ' ').getD 0 [])
        "Basic".toList) = true
  · rw [if_pos h2]
    constructor
    · intro h
      exact absurd h (by simp)
    · rintro ⟨scheme, payload, hs, hscheme, hfold, _⟩
      have hsplit := SplitN_append scheme payload ' ' hscheme
      rw [hs, hsplit] at h2
      simp only [List.length_cons, List.length_nil, List.getD_cons_zero, hfold] at h2
      simp at h2
  rw [if_neg h2]
  push_neg at h2
  obtain ⟨hlen, hfold⟩ := h2
  obtain ⟨scheme, payload, hs, hscheme, hsplit⟩ := SplitN_length_two _ _ hlen
  rw [hsplit] at hfold ⊢
  simp only [List.getD_cons_zero, List.getD_cons_succ, Bool.not_eq_true,
    Bool.not_eq_false] at hfold ⊢
  -- the split of the header is unique
  have huniq : ∀ scheme2 payload2, (TrimSpace proxyAuthorization).toList =
      scheme2 ++ ' ' :: payload2 → ' ' ∉ scheme2 → scheme2 = scheme ∧ payload2 = payload := by
    intro scheme2 payload2 hs2 hscheme2
    have h := SplitN_append scheme2 payload2 ' ' hscheme2
    rw [← hs2, hsplit] at h
    simp only [List.cons.injEq, and_true] at h
    exact ⟨h.1.symm, h.2.symm⟩
  cases hdec : DecodeString payload with
  | none =>
    simp only
    constructor
    · intro h
      exact absurd h (by simp)
    · rintro ⟨scheme2, payload2, hs2, hscheme2, _, hdec2, _⟩
      obtain ⟨_, hp⟩ := huniq scheme2 payload2 hs2 hscheme2
      rw [hp, hdec] at hdec2
      exact absurd hdec2 (by simp)
  | some decoded =>
    simp only
    by_cases h3 : (SplitN decoded 58).length ≠ 2
    · rw [if_pos h3]
      constructor
      · intro h
        exact absurd h (by simp)
      · rintro ⟨scheme2, payload2, hs2, hscheme2, _, hdec2, hcolon⟩
        obtain ⟨_, hp⟩ := huniq scheme2 payload2 hs2 hscheme2
        rw [hp, hdec] at hdec2
        have hd : decoded = bytesOf rotator.AuthUsername ++ 58 :: bytesOf rotator.AuthPassword :=
          Option.some.inj hdec2
        rw [hd, SplitN_append _ _ 58 hcolon] at h3
        exact absurd rfl h3
    rw [if_neg h3]
    push_neg at h3
    obtain ⟨u, p, hd, hu, hcreds⟩ := SplitN_length_two _ _ h3
    rw [hcreds]
    simp only [List.getD_cons_zero, List.getD_cons_succ]
    by_cases h4 : u ≠ bytesOf rotator.AuthUsername ∨ p ≠ bytesOf rotator.AuthPassword
    · rw [if_pos h4]
      constructor
      · intro h
        exact absurd h (by simp)
      · rintro ⟨scheme2, payload2, hs2, hscheme2, _, hdec2, hcolon⟩
        obtain ⟨_, hp⟩ := huniq scheme2 payload2 hs2 hscheme2
        rw [hp, hdec] at hdec2
        have hd2 : decoded = bytesOf rotator.AuthUsername ++ 58 :: bytesOf rotator.AuthPassword :=
          Option.some.inj hdec2
        have hc2 := SplitN_append (bytesOf rotator.AuthUsername)
          (bytesOf rotator.AuthPassword) 58 hcolon
        rw [← hd2, hcreds] at hc2
        simp only [List.cons.injEq, and_true] at hc2
        rcases h4 with h4 | h4
        · exact absurd hc2.1 h4
        · exact absurd hc2.2 h4
    · rw [if_neg h4]
      push_neg at h4
      constructor
      · intro _
        refine ⟨scheme, payload, hs, hscheme, by simpa using hfold, ?_, ?_⟩
        · rw [hdec, hd, h4.1, h4.2]
        · rw [← h4.1]
          exact hu
      · intro _
        rfl

/-- Every path of `authenticateClient` either returns true and leaves the response alone,
or returns false after `writeProxyAuthRequired`. -/
theorem authenticateClient_response (rotator : RotatingProxy) (w : ResponseWriter)
    (proxyAuthorization : String) :
    authenticateClient rotator w proxyAuthorization = (true, w) ∨
    authenticateClient rotator w proxyAuthorization = (false, writeProxyAuthRequired w) := by
  unfold authenticateClient
  by_cases ha : rotator.AuthRequired = true
  · simp only [ha, Bool.not_true, Bool.false_eq_true, if_false]
    by_cases h1 : TrimSpace proxyAuthorization = ""
    · rw [if_pos h1]
      exact Or.inr rfl
    · rw [if_neg h1]
      split_ifs
      · exact Or.inr rfl
      · cases DecodeString ((SplitN (TrimSpace proxyAuthorization).toList ' ').getD 1 []) with
        | none => exact Or.inr rfl
        | some decoded =>
          simp only
          split_ifs
          · exact Or.inr rfl
          · exact Or.inr rfl
          · exact Or.inl rfl
  · have hf : rotator.AuthRequired = false := by
      cases hr : rotator.AuthRequired
      · rfl
      · exact absurd hr ha
    rw [hf]
    exact Or.inl rfl

theorem writeProxyAuthRequired_spec (w : ResponseWriter) :
    mapLookup (writeProxyAuthRequired w).header "Proxy-Authenticate" =
      some "Basic realm=\"Magpie Rotator\"" ∧
    (w.code = none → (writeProxyAuthRequired w).code = some 407) ∧
    (writeProxyAuthRequired w).body = w.body ++ bytesOf "Proxy authentication required" := by
  refine ⟨?_, fun hc => ?_, rfl⟩
  · unfold writeProxyAuthRequired
    simp only
    generalize w.header = m
    unfold mapLookup mapAssign
    induction m with
    | nil => simp
    | cons kv m ih =>
      by_cases hk : kv.1 = "Proxy-Authenticate"
      · simp [hk]
      · have hany : ((kv :: m).any (fun kv => decide (kv.1 = "Proxy-Authenticate"))) =
            (m.any (fun kv => decide (kv.1 = "Proxy-Authenticate"))) := by
          simp [hk]
        rw [hany]
        split at ih
        · rename_i hm
          rw [if_pos hm]
          simp only [List.map_cons, hk, if_false, List.find?_cons, decide_False]
          exact ih
        · rename_i hm
          rw [if_neg hm]
          simp only [List.cons_append, List.find?_cons, hk, decide_False]
          exact ih
  · unfold writeProxyAuthRequired
    simp [hc]

theorem decodeMap_alphabet : ∀ i < 64, decodeMap (encodeStd.toList.getD i 'A') = some i := by
  decide

theorem quantumBytes_three (a b c : Nat) (ha : a < 256) (hb : b < 256) (hc : c < 256) :
    quantumBytes [a / 4, a % 4 * 16 + b / 16, b % 16 * 4 + c / 64, c % 64] 4 = [a, b, c] := by
  unfold quantumBytes
  simp only [List.getD_cons_zero, List.getD_cons_succ, Nat.reduceSub, List.take_succ_cons,
    List.take_zero, List.cons.injEq, and_true]
  refine ⟨?_, ?_, ?_⟩ <;> omega

theorem quantumBytes_two (a b : Nat) (ha : a < 256) (hb : b < 256) :
    quantumBytes [a / 4, a % 4 * 16 + b / 16, b % 16 * 4] 3 = [a, b] := by
  unfold quantumBytes
  simp only [List.getD_cons_zero, List.getD_cons_succ, List.getD_nil, Nat.reduceSub,
    List.take_succ_cons, List.take_zero, List.cons.injEq, and_true]
  refine ⟨?_, ?_⟩ <;> omega

theorem quantumBytes_one (a : Nat) (ha : a < 256) :
    quantumBytes [a / 4, a % 4 * 16] 2 = [a] := by
  unfold quantumBytes
  simp only [List.getD_cons_zero, List.getD_cons_succ, List.getD_nil, Nat.reduceSub,
    List.take_succ_cons, List.take_zero, List.cons.injEq, and_true]
  omega

/-- Decoding undoes the standard encoding. -/
theorem DecodeString_specBase64 (bytes : List Nat) (h : ∀ b ∈ bytes, b < 256) :
    DecodeString (specBase64 bytes) = some bytes := by
  unfold DecodeString
  induction bytes using specBase64.induct with
  | case1 => rfl
  | case2 a =>
    have ha : a < 256 := h a (by simp)
    have h0 := decodeMap_alphabet (a / 4) (by omega)
    have h1 := decodeMap_alphabet (a % 4 * 16) (by omega)
    have hpad : decodeMap '=' = none := by decide
    simp only [specBase64, DecodeLoop, h0, h1, hpad]
    simp [quantumBytes_one a ha, isNewline]
  | case3 a b =>
    have ha : a < 256 := h a (by simp)
    have hb : b < 256 := h b (by simp)
    have h0 := decodeMap_alphabet (a / 4) (by omega)
    have h1 := decodeMap_alphabet (a % 4 * 16 + b / 16) (by omega)
    have h2 := decodeMap_alphabet (b % 16 * 4) (by omega)
    have hpad : decodeMap '=' = none := by decide
    simp only [specBase64, DecodeLoop, h0, h1, h2, hpad]
    simp [quantumBytes_two a b ha hb, isNewline]
  | case4 a b c rest ih =>
    have ha : a < 256 := h a (by simp)
    have hb : b < 256 := h b (by simp)
    have hc : c < 256 := h c (by simp)
    have hrest : ∀ x ∈ rest, x < 256 := fun x hx => h x (by simp [hx])
    have h0 := decodeMap_alphabet (a / 4) (by omega)
    have h1 := decodeMap_alphabet (a % 4 * 16 + b / 16) (by omega)
    have h2 := decodeMap_alphabet (b % 16 * 4 + c / 64) (by omega)
    have h3 := decodeMap_alphabet (c % 64) (by omega)
    simp only [specBase64, List.cons_append, List.nil_append, DecodeLoop, h0, h1, h2, h3]
    simp [ih hrest, quantumBytes_three a b c ha hb hc]

theorem utf8EncodeRune_lt (c : Char) : ∀ b ∈ utf8EncodeRune c, b < 256 := by
  have hv : c.toNat < 0x110000 := by
    have := c.valid
    unfold Char.toNat
    rcases this with h | ⟨_, h⟩
    · have : c.val.toNat < 0xd800 := h
      omega
    · exact h
  intro b hb
  unfold utf8EncodeRune at hb
  simp only at hb
  split_ifs at hb <;> simp only [List.mem_cons, List.mem_singleton, List.not_mem_nil,
    or_false] at hb <;> omega

theorem bytesOf_lt (s : String) : ∀ b ∈ bytesOf s, b < 256 := by
  intro b hb
  unfold bytesOf at hb
  rw [List.mem_flatMap] at hb
  obtain ⟨c, _, hc⟩ := hb
  exact utf8EncodeRune_lt c b hc

theorem alphabet_not_space : ∀ i, isSpace (encodeStd.toList.getD i 'A') = false := by
  intro i
  by_cases hi : i < 64
  · have hall : ∀ j < 64, isSpace (encodeStd.toList.getD j 'A') = false := by decide
    exact hall i hi
  · have hlen : encodeStd.toList.length ≤ i := by
      have : encodeStd.toList.length = 64 := by decide
      omega
    rw [List.getD_eq_default _ _ hlen]
    decide

/-- The standard encoding of a non-empty byte string ends in a character that is not white
space. -/
theorem specBase64_last (bytes : List Nat) (hne : bytes ≠ []) :
    ∃ init last, specBase64 bytes = init ++ [last] ∧ isSpace last = false := by
  induction bytes using specBase64.induct with
  | case1 => exact absurd rfl hne
  | case2 a =>
    exact ⟨[encodeStd.toList.getD (a / 4) 'A', encodeStd.toList.getD (a % 4 * 16) 'A', '='],
      '=', rfl, by decide⟩
  | case3 a b =>
    exact ⟨[encodeStd.toList.getD (a / 4) 'A',
      encodeStd.toList.getD (a % 4 * 16 + b / 16) 'A',
      encodeStd.toList.getD (b % 16 * 4) 'A'], '=', rfl, by decide⟩
  | case4 a b c rest ih =>
    by_cases hrest : rest = []
    · subst hrest
      refine ⟨[encodeStd.toList.getD (a / 4) 'A',
        encodeStd.toList.getD (a % 4 * 16 + b / 16) 'A',
        encodeStd.toList.getD (b % 16 * 4 + c / 64) 'A'], encodeStd.toList.getD (c % 64) 'A',
        rfl, alphabet_not_space _⟩
    · obtain ⟨init, last, hinit, hlast⟩ := ih hrest
      refine ⟨[encodeStd.toList.getD (a / 4) 'A',
        encodeStd.toList.getD (a % 4 * 16 + b / 16) 'A',
        encodeStd.toList.getD (b % 16 * 4 + c / 64) 'A',
        encodeStd.toList.getD (c % 64) 'A'] ++ init, last, ?_, hlast⟩
      simp only [specBase64, hinit, List.cons_append, List.nil_append, List.append_assoc]

theorem TrimSpace_specBasicHeader (username password : String) :
    (TrimSpace (specBasicHeader username password)).toList =
      "Basic".toList ++ ' ' ::
        specBase64 (bytesOf username ++ [58] ++ bytesOf password) := by
  obtain ⟨init, last, hinit, hlast⟩ := specBase64_last
    (bytesOf username ++ [58] ++ bytesOf password) (by simp)
  unfold TrimSpace specBasicHeader
  rw [hinit]
  have hB : isSpace 'B' = false := by decide
  have h1 : ("Basic ".toList ++ (init ++ [last])).dropWhile isSpace =
      "Basic ".toList ++ (init ++ [last]) := by
    show ('B' :: _).dropWhile isSpace = _
    rw [List.dropWhile_cons, hB]
    rfl
  have h2 : ("Basic ".toList ++ (init ++ [last])).reverse.dropWhile isSpace =
      ("Basic ".toList ++ (init ++ [last])).reverse := by
    rw [List.reverse_append, List.reverse_append, List.reverse_singleton,
      List.singleton_append, List.cons_append, List.dropWhile_cons, hlast]
    rfl
  show (((("Basic ".toList ++ (init ++ [last])).dropWhile isSpace).reverse.dropWhile
    isSpace).reverse) = _
  rw [h1, h2, List.reverse_reverse]
  rfl

/-- The header `Basic base64(user:pass)` is accepted when the user name has no colon. -/
theorem authenticateClient_canonical (rotator : RotatingProxy) (w : ResponseWriter)
    (hauth : rotator.AuthRequired = true) (hcolon : 58 ∉ bytesOf rotator.AuthUsername) :
    authenticateClient rotator w
        (specBasicHeader rotator.AuthUsername rotator.AuthPassword) = (true, w) := by
  have htrue : (authenticateClient rotator w
      (specBasicHeader rotator.AuthUsername rotator.AuthPassword)).1 = true := by
    rw [authenticateClient_true_iff rotator w _ hauth]
    refine ⟨"Basic".toList, specBase64 (bytesOf rotator.AuthUsername ++ [58] ++
      bytesOf rotator.AuthPassword), TrimSpace_specBasicHeader _ _, by decide, by decide, ?_,
      hcolon⟩
    have hlt : ∀ b ∈ bytesOf rotator.AuthUsername ++ [58] ++ bytesOf rotator.AuthPassword,
        b < 256 := by
      intro b hb
      simp only [List.mem_append, List.mem_singleton] at hb
      rcases hb with (hb | hb) | hb
      · exact bytesOf_lt _ b hb
      · omega
      · exact bytesOf_lt _ b hb
    rw [DecodeString_specBase64 _ hlt]
    simp
  rcases authenticateClient_response rotator w
    (specBasicHeader rotator.AuthUsername rotator.AuthPassword) with h | h
  · exact h
  · rw [h] at htrue
    exact absurd htrue (by simp)

/-- C17 (as stated) fails for a user name with a colon: the rotator `a:b` / `c` answers the
header `Basic base64(a:b:c)`, the standard encoding of its own `user:pass`, with 407,
because the decoded credentials are split at the first colon. -/
theorem authenticateClient_counterexample :
    colonRotator.AuthRequired = true ∧
    specBasicHeader colonRotator.AuthUsername colonRotator.AuthPassword = "Basic YTpiOmM=" ∧
    authenticateClient colonRotator newRecorder
        (specBasicHeader colonRotator.AuthUsername colonRotator.AuthPassword) =
      (false, { header := [("Proxy-Authenticate", "Basic realm=\"Magpie Rotator\"")],
                code := some 407, body := bytesOf "Proxy authentication required" }) := by
  decide

/-- C17 (amended). `authenticateClient` returns true iff authentication is not required, or
the trimmed `Proxy-Authorization` value is a scheme without space that equals `Basic` under
case folding, one space, and a payload that `base64.StdEncoding` decodes to
`username:password`, where the user name contains no colon. So a rotator whose user name
has no colon accepts `Basic base64(user:pass)`, and one whose user name has a colon accepts
no header. When it returns true the response is untouched; when it returns false the
response got the header `Proxy-Authenticate: Basic realm="Magpie Rotator"`, the status 407
(if no status was written before) and the body text. -/
theorem authenticateClient_spec (rotator : RotatingProxy) (w : ResponseWriter)
    (proxyAuthorization : String) :
    ((authenticateClient rotator w proxyAuthorization).1 = true ↔
      rotator.AuthRequired = false ∨
      ∃ scheme payload, (TrimSpace proxyAuthorization).toList = scheme ++ ' ' :: payload ∧
        ' ' ∉ scheme ∧ EqualFold scheme "Basic".toList = true ∧
        DecodeString payload =
          some (bytesOf rotator.AuthUsername ++ 58 :: bytesOf rotator.AuthPassword) ∧
        58 ∉ bytesOf rotator.AuthUsername) ∧
    (rotator.AuthRequired = true → 58 ∉ bytesOf rotator.AuthUsername →
      authenticateClient rotator w
        (specBasicHeader rotator.AuthUsername rotator.AuthPassword) = (true, w)) ∧
    (rotator.AuthRequired = true → 58 ∈ bytesOf rotator.AuthUsername →
      (authenticateClient rotator w proxyAuthorization).1 = false) ∧
    ((authenticateClient rotator w proxyAuthorization).1 = true →
      (authenticateClient rotator w proxyAuthorization).2 = w) ∧
    ((authenticateClient rotator w proxyAuthorization).1 = false →
      (authenticateClient rotator w proxyAuthorization).2 = writeProxyAuthRequired w ∧
      mapLookup (authenticateClient rotator w proxyAuthorization).2.header
        "Proxy-Authenticate" = some "Basic realm=\"Magpie Rotator\"" ∧
      (w.code = none → (authenticateClient rotator w proxyAuthorization).2.code = some 407) ∧
      (authenticateClient rotator w proxyAuthorization).2.body =
        w.body ++ bytesOf "Proxy authentication required") := by
  have hresp := authenticateClient_response rotator w proxyAuthorization
  refine ⟨?_, authenticateClient_canonical rotator w, fun hauth hcolon => ?_, fun ht => ?_,
    fun hf => ?_⟩
  · cases hauth : rotator.AuthRequired with
    | false =>
      simp only [true_or, iff_true]
      unfold authenticateClient
      rw [hauth]
      rfl
    | true =>
      rw [authenticateClient_true_iff rotator w proxyAuthorization hauth]
      simp
  · cases hval : (authenticateClient rotator w proxyAuthorization).1 with
    | false => rfl
    | true =>
      obtain ⟨_, _, _, _, _, _, hno⟩ :=
        (authenticateClient_true_iff rotator w proxyAuthorization hauth).1 hval
      exact absurd hcolon hno
  · rcases hresp with h | h
    · rw [h]
    · rw [h] at ht
      exact absurd ht (by simp)
  · rcases hresp with h | h
    · rw [h] at hf
      exact absurd hf (by simp)
    · rw [h]
      obtain ⟨h1, h2, h3⟩ := writeProxyAuthRequired_spec w
      exact ⟨rfl, h1, h2, h3⟩

/-- Instance of C17 (amended): the request of
`TestAuthenticateClient_SucceedsWithValidCredentials` is accepted and nothing is written. -/
theorem authenticateClient_spec_witness :
    authenticateClient httpRotator newRecorder
        (specBasicHeader httpRotator.AuthUsername httpRotator.AuthPassword) =
      (true, newRecorder) :=
  (authenticateClient_spec httpRotator newRecorder "").2.1 rfl (by decide)

/-! ## SOCKS4 reply to a granted request -/

/-- A well-formed SOCKS4 request (not of the 4a form) is parsed into its destination port
and address and its identifier; the target host is the dotted address. -/
theorem handleSocks4_address (rotator : RotatingProxy)
    (getNextRotatingProxyFunc : Nat → Nat → Except RotatorError RotatingProxyNext)
    (connectThroughUpstreamFunc : List Nat → RotatingProxyNext → Bool)
    (p0 p1 a b c d : Nat) (ident rest : List Nat) (hident : 0 ∉ ident)
    (h4a : ¬ (a = 0 ∧ b = 0 ∧ c = 0 ∧ d ≠ 0)) :
    handleSocks4 rotator getNextRotatingProxyFunc connectThroughUpstreamFunc
        (socks4Request [p0, p1] [a, b, c, d] ident rest) =
      afterSocks4Request rotator getNextRotatingProxyFunc connectThroughUpstreamFunc
        [p0, p1] [a, b, c, d] ident (IPString [a, b, c, d]) rest := by
  have h8 := ReadFull_append ([0x04, 0x01] ++ [p0, p1] ++ [a, b, c, d])
    (ident ++ ([0] ++ rest)) []
  have hrs := ReadString_append ident rest [] 0 hident
  have htrim := TrimSuffix_append ident 0
  unfold handleSocks4 socks4Request afterSocks4Request
  simp only [List.length_cons, List.length_nil, List.length_append, Nat.reduceAdd,
    List.cons_append, List.nil_append] at h8
  simp only [List.cons_append, List.nil_append, h8, List.getD_cons_zero,
    List.getD_cons_succ, ne_eq, not_true_eq_false, or_self, if_false, List.drop_succ_cons,
    List.drop_zero, List.take_succ_cons, List.take_zero, List.take_nil]
  simp only [List.cons_append, List.nil_append] at hrs
  simp only [hrs, htrim, h4a, if_false]

/-- A well-formed SOCKS4a request (address `0.0.0.x`, `x` not zero) is parsed into its
destination port, its identifier and the domain that follows the identifier. -/
theorem handleSocks4_domain (rotator : RotatingProxy)
    (getNextRotatingProxyFunc : Nat → Nat → Except RotatorError RotatingProxyNext)
    (connectThroughUpstreamFunc : List Nat → RotatingProxyNext → Bool)
    (p0 p1 d : Nat) (ident domain rest : List Nat) (hident : 0 ∉ ident)
    (hdomain : 0 ∉ domain) (hd : d ≠ 0) :
    handleSocks4 rotator getNextRotatingProxyFunc connectThroughUpstreamFunc
        (socks4Request [p0, p1] [0, 0, 0, d] ident (domain ++ ([0] ++ rest))) =
      afterSocks4Request rotator getNextRotatingProxyFunc connectThroughUpstreamFunc
        [p0, p1] [0, 0, 0, d] ident domain rest := by
  have h8 := ReadFull_append ([0x04, 0x01] ++ [p0, p1] ++ [0, 0, 0, d])
    (ident ++ ([0] ++ (domain ++ ([0] ++ rest)))) []
  have hrs := ReadString_append ident (domain ++ ([0] ++ rest)) [] 0 hident
  have hrd := ReadString_append domain rest [] 0 hdomain
  have htrim := TrimSuffix_append ident 0
  have htrimd := TrimSuffix_append domain 0
  unfold handleSocks4 socks4Request afterSocks4Request
  simp only [List.length_cons, List.length_nil, List.length_append, Nat.reduceAdd,
    List.cons_append, List.nil_append] at h8
  simp only [List.cons_append, List.nil_append, h8, List.getD_cons_zero,
    List.getD_cons_succ, ne_eq, not_true_eq_false, or_self, if_false, List.drop_succ_cons,
    List.drop_zero, List.take_succ_cons, List.take_zero, List.take_nil]
  simp only [List.cons_append, List.nil_append] at hrs hrd
  simp only [hrs, htrim, hd, not_false_eq_true, and_self, if_true, hrd, htrimd]

/-- C24 (as stated) fails: in the scenario the reply to the granted request is
`00 5A 04 38 01 01 01 01`, the status followed by the destination port and address of the
request, not `00 5A 00 00 00 00 00 00`. -/
theorem socks4_granted_counterexample :
    (handleSocks4 authRotator testNext (fun _ _ => true)
        (socks4Request [0x04, 0x38] [1, 1, 1, 1] (bytesOf "rot-user:rot-pass") [])).conn.output =
      [0x00, 0x5A, 0x04, 0x38, 0x01, 0x01, 0x01, 0x01] ∧
    (handleSocks4 authRotator testNext (fun _ _ => true)
        (socks4Request [0x04, 0x38] [1, 1, 1, 1] (bytesOf "rot-user:rot-pass") [])).conn.output ≠
      [0x00, 0x5A, 0x00, 0x00, 0x00, 0x00, 0x00, 0x00] := by
  decide

/-- C24 (amended). For a granted SOCKS4 request (well formed, with the expected identifier
when authentication is required, an upstream proxy of a supported protocol and a successful
upstream connection) the reply is exactly the eight bytes `00 5A`, the two destination port
bytes and the four destination address bytes of the request, and the connection is then
piped: for a request with a plain address to the target `address:port`, and for a SOCKS4a
request (address `0.0.0.x` with `x` not zero, followed by a domain) to the target
`domain:port`. -/
theorem socks4_granted_reply (rotator : RotatingProxy)
    (getNextRotatingProxyFunc : Nat → Nat → Except RotatorError RotatingProxyNext)
    (connectThroughUpstreamFunc : List Nat → RotatingProxyNext → Bool)
    (p0 p1 : Nat) (ident rest : List Nat) (next : RotatingProxyNext)
    (hident : 0 ∉ ident)
    (hauth : rotator.AuthRequired = true → ident = socks4Expected rotator)
    (hnext : getNextRotatingProxyFunc rotator.UserID rotator.ID = .ok next)
    (hsupported : supportedUpstream next.Protocol = true)
    (hconnect : ∀ target, connectThroughUpstreamFunc target next = true) :
    (∀ a b c d : Nat, ¬ (a = 0 ∧ b = 0 ∧ c = 0 ∧ d ≠ 0) →
      handleSocks4 rotator getNextRotatingProxyFunc connectThroughUpstreamFunc
          (socks4Request [p0, p1] [a, b, c, d] ident rest) =
        { conn := { input := rest, output := [0x00, 0x5A, p0, p1, a, b, c, d] },
          upstreamRequested := true,
          connectTarget := some (JoinHostPort (IPString [a, b, c, d])
            (bytesOf (Itoa (p0 * 256 + p1)))),
          piped := true }) ∧
    (∀ (d : Nat) (domain : List Nat), d ≠ 0 → 0 ∉ domain →
      handleSocks4 rotator getNextRotatingProxyFunc connectThroughUpstreamFunc
          (socks4Request [p0, p1] [0, 0, 0, d] ident (domain ++ ([0] ++ rest))) =
        { conn := { input := rest, output := [0x00, 0x5A, p0, p1, 0, 0, 0, d] },
          upstreamRequested := true,
          connectTarget := some (JoinHostPort domain (bytesOf (Itoa (p0 * 256 + p1)))),
          piped := true }) := by
  have hno : ¬ (rotator.AuthRequired = true ∧ ident ≠ socks4Expected rotator) :=
    fun h => h.2 (hauth h.1)
  constructor
  · intro a b c d h4a
    rw [handleSocks4_address rotator getNextRotatingProxyFunc connectThroughUpstreamFunc
      p0 p1 a b c d ident rest hident h4a]
    unfold afterSocks4Request
    simp only [hno, if_false, hnext, hsupported, hconnect, Bool.not_true, Bool.false_eq_true]
    rfl
  · intro d domain hd hdomain
    rw [handleSocks4_domain rotator getNextRotatingProxyFunc connectThroughUpstreamFunc
      p0 p1 d ident domain rest hident hdomain hd]
    unfold afterSocks4Request
    simp only [hno, if_false, hnext, hsupported, hconnect, Bool.not_true, Bool.false_eq_true]
    rfl

/-- Witness of C24 (amended): the request of `TestSocks4Handler_WithUserIDAuth`, and the
same request in the SOCKS4a form for the domain `example.com`. -/
theorem socks4_granted_reply_witness :
    handleSocks4 authRotator testNext (fun _ _ => true)
        (socks4Request [0x04, 0x38] [1, 1, 1, 1] (bytesOf "rot-user:rot-pass") []) =
      { conn := { input := [], output := [0x00, 0x5A, 0x04, 0x38, 1, 1, 1, 1] },
        upstreamRequested := true,
        connectTarget := some (JoinHostPort (IPString [1, 1, 1, 1])
          (bytesOf (Itoa (0x04 * 256 + 0x38)))),
        piped := true } ∧
    handleSocks4 authRotator testNext (fun _ _ => true)
        (socks4Request [0x04, 0x38] [0, 0, 0, 1] (bytesOf "rot-user:rot-pass")
          (bytesOf "example.com" ++ ([0] ++ []))) =
      { conn := { input := [], output := [0x00, 0x5A, 0x04, 0x38, 0, 0, 0, 1] },
        upstreamRequested := true,
        connectTarget := some (JoinHostPort (bytesOf "example.com")
          (bytesOf (Itoa (0x04 * 256 + 0x38)))),
        piped := true } :=
  ⟨(socks4_granted_reply authRotator testNext (fun _ _ => true) 0x04 0x38
      (bytesOf "rot-user:rot-pass") []
      { ProxyID := 101, IP := "198.51.100.10", Port := 9050, Username := "", Password := "",
        HasAuth := false, Protocol := "socks4" }
      (by decide) (fun _ => by decide) rfl (by decide) (fun _ => rfl)).1 1 1 1 1 (by decide),
    (socks4_granted_reply authRotator testNext (fun _ _ => true) 0x04 0x38
      (bytesOf "rot-user:rot-pass") []
      { ProxyID := 101, IP := "198.51.100.10", Port := 9050, Username := "", Password := "",
        HasAuth := false, Protocol := "socks4" }
      (by decide) (fun _ => by decide) rfl (by decide) (fun _ => rfl)).2 1
      (bytesOf "example.com") (by decide) (by decide)⟩

/-! ## SOCKS5 failure replies -/

theorem writeSocks5Reply_output (conn : Conn) (rep : Nat) :
    (writeSocks5Reply conn rep).output = conn.output ++ specFailureReply rep := rfl

theorem writeSocks5Reply_eq (input output : List Nat) (rep : Nat) :
    writeSocks5Reply { input := input, output := output } rep =
      { input := input, output := output ++ specFailureReply rep } := rfl

theorem ReadFull_ok (conn : Conn) (n : Nat) (h : n ≤ conn.input.length) :
    ReadFull conn n = (some (conn.input.take n),
      { input := conn.input.drop n, output := conn.output }) := by
  unfold ReadFull
  rw [if_neg (by omega)]

/-- When `readSocksAddress` fails: the address type is not one of 1, 3, 4, or the address
and port bytes are cut short. -/
theorem readSocksAddress_error_iff (atyp : Nat) (tail out : List Nat) :
    (∃ e, (readSocksAddress { input := tail, output := out } atyp).1 = .error e) ↔
      specAddressComplete atyp tail = false := by
  unfold readSocksAddress specAddressComplete
  by_cases h1 : atyp = 0x01
  · simp only [h1, if_true]
    by_cases hlen : 4 ≤ tail.length
    · rw [ReadFull_ok _ 4 hlen]
      simp only
      by_cases hlen2 : 6 ≤ tail.length
      · rw [ReadFull_ok _ 2 (by simp; omega)]
        simp [hlen2]
      · rw [ReadFull_short _ 2 (by simp; omega)]
        simp [hlen2]
    · rw [ReadFull_short _ 4 (by simp; omega)]
      simp
      omega
  · by_cases h3 : atyp = 0x03
    · simp only [h3, if_true]
      have e1 : ¬ (3 : Nat) = 1 := by decide
      have e4 : ¬ (3 : Nat) = 4 := by decide
      simp only [e1, e4, if_false]
      by_cases hlen : 1 ≤ tail.length
      · rw [ReadFull_ok _ 1 hlen]
        simp only
        have hget : (tail.take 1).getD 0 0 = tail.getD 0 0 := by
          cases tail with
          | nil => simp at hlen
          | cons x xs => simp
        rw [hget]
        generalize tail.getD 0 0 = n
        by_cases hlen2 : n ≤ (tail.drop 1).length
        · rw [ReadFull_ok _ _ hlen2]
          simp only
          by_cases hlen3 : 2 ≤ ((tail.drop 1).drop n).length
          · rw [ReadFull_ok _ 2 hlen3]
            simp only [List.length_drop] at hlen2 hlen3
            simp
            omega
          · rw [ReadFull_short _ 2 (by simp only; omega)]
            simp only [List.length_drop] at hlen2 hlen3
            simp
            omega
        · rw [ReadFull_short _ _ (by simp only; omega)]
          simp only [List.length_drop] at hlen2
          simp
          omega
      · rw [ReadFull_short _ 1 (by simp only; omega)]
        simp
        omega
    · by_cases h4 : atyp = 0x04
      · simp only [h4, if_true]
        have e1 : ¬ (4 : Nat) = 1 := by decide
        have e3 : ¬ (4 : Nat) = 3 := by decide
        simp only [e1, e3, if_false]
        by_cases hlen : 16 ≤ tail.length
        · rw [ReadFull_ok _ 16 hlen]
          simp only
          by_cases hlen2 : 18 ≤ tail.length
          · rw [ReadFull_ok _ 2 (by simp; omega)]
            simp [hlen2]
          · rw [ReadFull_short _ 2 (by simp; omega)]
            simp [hlen2]
        · rw [ReadFull_short _ 16 (by simp; omega)]
          simp
          omega
      · simp [h1, h3, h4]

theorem readSocks5Target_request (ver cmd rsv atyp : Nat) (tail out : List Nat) :
    readSocks5Target { input := [ver, cmd, rsv, atyp] ++ tail, output := out } =
      if ver ≠ 0x05 then
        (.error (.message "invalid socks version"),
          { input := tail, output := out ++ specFailureReply 0x01 })
      else if cmd ≠ 0x01 then
        (.error (.message "unsupported socks5 command"),
          { input := tail, output := out ++ specFailureReply 0x07 })
      else
        match readSocksAddress { input := tail, output := out } atyp with
        | (.error e, conn) => (.error e, writeSocks5Reply conn 0x08)
        | (.ok target, conn) => (.ok target, conn) := by
  have h4 := ReadFull_append [ver, cmd, rsv, atyp] tail out
  simp only [List.length_cons, List.length_nil, Nat.zero_add, Nat.reduceAdd] at h4
  unfold readSocks5Target
  simp only [h4, List.getD_cons_zero, List.getD_cons_succ, writeSocks5Reply_eq]

/-- C23 (as stated) fails: a `CONNECT` request of address type IPv4 that is cut short after
two address bytes is answered with `0x08`, although its address type is one of 1, 3, 4. -/
theorem socks5_failure_counterexample :
    handleSocks5 openRotator testNext (fun _ _ => some none)
        (socks5Greeting [0x00] [0x05, 0x01, 0x00, 0x01, 1, 1]) =
      { conn := { input := [], output := [0x05, 0x00] ++ specFailureReply 0x08 },
        upstreamRequested := false, connectTarget := none, piped := false } := by
  decide

/-- C23 (amended). Every failure reply is `05 <code> 00 01` and six zero bytes. For a request
`ver cmd rsv atyp ...` read after the method negotiation the code is `0x01` when `ver` is
not 5; else `0x07` when `cmd` is not `CONNECT`; else `0x08` exactly when reading the address
fails, that is when `atyp` is none of 1, 3, 4 or the address and port bytes are cut short.
Once the request is read the code is `0x01` when the rotation selector returns an error,
`0x07` when the selected upstream protocol is unsupported and `0x05` when connecting through
the upstream fails; a failed handshake gets no further reply. -/
theorem socks5_failure_replies (rotator : RotatingProxy)
    (getNextRotatingProxyFunc : Nat → Nat → Except RotatorError RotatingProxyNext)
    (connectThroughUpstreamFunc : List Nat → RotatingProxyNext → Option (Option (List Nat × Nat)))
    (conn : Conn) (ver cmd rsv atyp : Nat) (tail out : List Nat) :
    (∀ (c : Conn) (rep : Nat), (writeSocks5Reply c rep).output =
      c.output ++ [0x05, rep, 0x00, 0x01, 0, 0, 0, 0, 0, 0]) ∧
    (ver ≠ 0x05 →
      readSocks5Target { input := [ver, cmd, rsv, atyp] ++ tail, output := out } =
        (.error (.message "invalid socks version"),
          { input := tail, output := out ++ specFailureReply 0x01 })) ∧
    (ver = 0x05 → cmd ≠ 0x01 →
      readSocks5Target { input := [ver, cmd, rsv, atyp] ++ tail, output := out } =
        (.error (.message "unsupported socks5 command"),
          { input := tail, output := out ++ specFailureReply 0x07 })) ∧
    (ver = 0x05 → cmd = 0x01 →
      ((∃ e, (readSocks5Target { input := [ver, cmd, rsv, atyp] ++ tail, output := out }).1 =
          .error e) ↔ specAddressComplete atyp tail = false) ∧
      (specAddressComplete atyp tail = false →
        (readSocks5Target { input := [ver, cmd, rsv, atyp] ++ tail, output := out }).2.output =
          out ++ specFailureReply 0x08) ∧
      (specAddressComplete atyp tail = true →
        (readSocks5Target { input := [ver, cmd, rsv, atyp] ++ tail, output := out }).2.output =
          out)) ∧
    (atyp ≠ 0x01 → atyp ≠ 0x03 → atyp ≠ 0x04 → specAddressComplete atyp tail = false) ∧
    (∀ e c, performSocks5Handshake rotator conn = (.error e, c) →
      handleSocks5 rotator getNextRotatingProxyFunc connectThroughUpstreamFunc conn =
        { conn := c, upstreamRequested := false, connectTarget := none, piped := false }) ∧
    (∀ target c, performSocks5Handshake rotator conn = (.ok target, c) →
      (∀ e, getNextRotatingProxyFunc rotator.UserID rotator.ID = .error e →
        handleSocks5 rotator getNextRotatingProxyFunc connectThroughUpstreamFunc conn =
          { conn := { input := c.input, output := c.output ++ specFailureReply 0x01 },
            upstreamRequested := true, connectTarget := none, piped := false }) ∧
      (∀ next, getNextRotatingProxyFunc rotator.UserID rotator.ID = .ok next →
        supportedUpstream next.Protocol = false →
        handleSocks5 rotator getNextRotatingProxyFunc connectThroughUpstreamFunc conn =
          { conn := { input := c.input, output := c.output ++ specFailureReply 0x07 },
            upstreamRequested := true, connectTarget := none, piped := false }) ∧
      (∀ next, getNextRotatingProxyFunc rotator.UserID rotator.ID = .ok next →
        supportedUpstream next.Protocol = true →
        connectThroughUpstreamFunc target next = none →
        handleSocks5 rotator getNextRotatingProxyFunc connectThroughUpstreamFunc conn =
          { conn := { input := c.input, output := c.output ++ specFailureReply 0x05 },
            upstreamRequested := true, connectTarget := some target, piped := false })) := by
  refine ⟨fun c rep => rfl, fun hver => ?_, fun hver hcmd => ?_, fun hver hcmd => ?_,
    fun h1 h3 h4 => ?_, fun e c hhs => ?_, fun target c hhs => ⟨fun e hn => ?_,
      fun next hn hsup => ?_, fun next hn hsup hconn => ?_⟩⟩
  · rw [readSocks5Target_request, if_pos hver]
  · rw [readSocks5Target_request, if_neg (by simp [hver]), if_pos hcmd]
  · rw [readSocks5Target_request, if_neg (by simp [hver]), if_neg (by simp [hcmd])]
    have herr := readSocksAddress_error_iff atyp tail out
    have hout := readSocksAddress_output { input := tail, output := out } atyp
    rcases hres : readSocksAddress { input := tail, output := out } atyp with ⟨res, c⟩
    rw [hres] at herr hout
    simp only at hout
    cases res with
    | error e =>
      have hfalse : specAddressComplete atyp tail = false := herr.1 ⟨e, rfl⟩
      refine ⟨⟨fun _ => hfalse, fun _ => ⟨e, rfl⟩⟩, fun _ => ?_, fun ht => ?_⟩
      · simp only [writeSocks5Reply_output, hout]
      · rw [hfalse] at ht
        exact absurd ht (by decide)
    | ok target =>
      have htrue : specAddressComplete atyp tail = true := by
        cases hc : specAddressComplete atyp tail with
        | true => rfl
        | false =>
          obtain ⟨e, he⟩ := herr.2 hc
          simp at he
      refine ⟨⟨fun h => ?_, fun h => ?_⟩, fun hf => ?_, fun _ => hout⟩
      · obtain ⟨e, he⟩ := h
        simp at he
      · rw [htrue] at h
        exact absurd h (by decide)
      · rw [htrue] at hf
        exact absurd hf (by decide)
  · simp [specAddressComplete, h1, h3, h4]
  · unfold handleSocks5
    rw [hhs]
  · unfold handleSocks5
    rw [hhs]
    simp only [hn]
    rfl
  · unfold handleSocks5
    rw [hhs]
    simp only [hn, hsup, Bool.not_false, if_true]
    rfl
  · unfold handleSocks5
    rw [hhs]
    simp only [hn, hsup, Bool.not_true, Bool.false_eq_true, if_false, hconn]
    rfl

/-- Instance of C23 (amended): a complete `CONNECT` request to a rotator whose selector
finds no alive proxy is answered `05 01 00 01` and six zero bytes. -/
theorem socks5_failure_replies_witness :
    handleSocks5 openRotator failingNext (fun _ _ => none)
        (socks5Greeting [0x00] connectRequest) =
      { conn := { input := [], output := [0x05, 0x00] ++ specFailureReply 0x01 },
        upstreamRequested := true, connectTarget := none, piped := false } :=
  ((socks5_failure_replies openRotator failingNext (fun _ _ => none)
    (socks5Greeting [0x00] connectRequest) 5 1 0 1 [] []).2.2.2.2.2.2
    (bytesOf "1.1.1.1:1080") { input := [], output := [0x05, 0x00] } (by decide)).1
    .ErrRotatingProxyNoAliveProxies rfl

/-! ## Choice of the client-side SOCKS state machine -/

/-- C22 fails: `handle` chooses the state machine by the name of the upstream protocol
(`rotator.Protocol.Name`), not by the listen protocol that made `Start` open the SOCKS
listener. A rotator that listens for SOCKS4 over HTTP upstream proxies serves every
connection with the SOCKS5 state machine (a SOCKS4 request is answered with the SOCKS5
reply `05 01 00 01 ..`), and one that listens for SOCKS5 over SOCKS4 upstream proxies serves
every connection with the SOCKS4 state machine. -/
theorem handle_dispatch_on_upstream
    (getNextRotatingProxyFunc : Nat → Nat → Except RotatorError RotatingProxyNext)
    (connectThroughUpstreamFunc : List Nat → RotatingProxyNext → Option (Option (List Nat × Nat)))
    (conn : Conn) :
    (Start socks4OverHttp = .ok .startSocksServer ∧
      listenProtocolName socks4OverHttp = "socks4" ∧
      handle socks4OverHttp getNextRotatingProxyFunc connectThroughUpstreamFunc conn =
        handleSocks5 socks4OverHttp getNextRotatingProxyFunc connectThroughUpstreamFunc conn) ∧
    (Start socks5OverSocks4 = .ok .startSocksServer ∧
      listenProtocolName socks5OverSocks4 = "socks5" ∧
      handle socks5OverSocks4 getNextRotatingProxyFunc connectThroughUpstreamFunc conn =
        handleSocks4 socks5OverSocks4 getNextRotatingProxyFunc
          (fun target next => (connectThroughUpstreamFunc target next).isSome) conn) ∧
    (handle socks4OverHttp getNextRotatingProxyFunc connectThroughUpstreamFunc
        (socks4Request [0x04, 0x38] [1, 1, 1, 1] [] [])).conn.output =
      [0x05, 0x01, 0x00, 0x01, 0, 0, 0, 0, 0, 0] ∧
    (handle socks5OverSocks4 getNextRotatingProxyFunc connectThroughUpstreamFunc
        (socks5Greeting [0x00] connectRequest)).conn.output =
      [0x00, 0x5B, 0x00, 0x05, 0x01, 0x00, 0x01, 0x01] := by
  have h1 : ToLower (TrimSpace socks4OverHttp.Protocol.Name) ≠ "socks4" := by decide
  have h2 : ToLower (TrimSpace socks5OverSocks4.Protocol.Name) = "socks4" := by decide
  refine ⟨⟨by decide, by decide, ?_⟩, ⟨by decide, by decide, ?_⟩, ?_, ?_⟩
  · unfold handle
    rw [if_neg h1]
  · unfold handle
    rw [if_pos h2]
  · unfold handle
    rw [if_neg h1]
    rfl
  · unfold handle
    rw [if_pos h2]
    rfl

/-! ## SOCKS listeners and QUIC / HTTP3 transports -/

/-- `Start` refuses a SOCKS listen protocol on a QUIC or HTTP/3 listen transport. -/
theorem Start_socks_refused (rotator : RotatingProxy)
    (hsocks : isSocksProtocol (listenProtocolName rotator) = true)
    (htransport : listenTransportProtocolName rotator = "quic" ∨
      listenTransportProtocolName rotator = "http3") :
    Start rotator = .error "socks rotators require tcp transport" := by
  unfold Start
  simp only [htransport, if_true, hsocks]

/-- Whether `CreateRotatingProxy` returns an error does not depend on the two transport
fields of the request. -/
theorem CreateRotatingProxy_transport (env : CreateEnv) (db : Database) (userID : Nat)
    (payload : RotatingProxyCreateRequest) (transport listenTransport : String)
    (e : CreateError) :
    (CreateRotatingProxy env db userID
        { payload with TransportProtocol := transport,
                       ListenTransportProtocol := listenTransport }).1 = .error e ↔
      (CreateRotatingProxy env db userID payload).1 = .error e := by
  unfold CreateRotatingProxy
  simp only
  repeat' split
  all_goals simp_all

/-- A successful `CreateRotatingProxy` appends one row, with the id and the name it
returns; a failed one leaves the database as it was. -/
theorem CreateRotatingProxy_stores (env : CreateEnv) (db : Database) (userID : Nat)
    (payload : RotatingProxyCreateRequest) :
    (∀ created, (CreateRotatingProxy env db userID payload).1 = .ok created →
      ∃ row, (CreateRotatingProxy env db userID payload).2.rotatingProxies =
          db.rotatingProxies ++ [row] ∧ row.ID = created.ID ∧ row.Name = created.Name ∧
        row.ListenPort = created.ListenPort) ∧
    (∀ e, (CreateRotatingProxy env db userID payload).1 = .error e →
      (CreateRotatingProxy env db userID payload).2 = db) := by
  unfold CreateRotatingProxy
  simp only
  constructor
  · intro created
    repeat' split
    all_goals first
      | (intro h
         have h2 := Except.ok.inj h
         subst h2
         exact ⟨_, rfl, rfl, rfl, rfl⟩)
      | (intro h; cases h)
  · intro e
    repeat' split
    all_goals first
      | (intro _; rfl)
      | (intro h; cases h)

/-- C25 (as stated) fails: the request for a rotator that listens for SOCKS5 clients on
QUIC is accepted by `CreateRotatingProxy`, which returns no error and stores the rotator;
only `Start` on the stored rotator returns an error. -/
theorem CreateRotatingProxy_counterexample :
    ToLower (TrimSpace socksOnQuicRequest.ListenProtocol) = "socks5" ∧
    NormalizeTransportProtocol socksOnQuicRequest.ListenTransportProtocol = "quic" ∧
    (CreateRotatingProxy scenarioEnv createScenario 7 socksOnQuicRequest).1 =
      .ok socksOnQuicCreated ∧
    ((CreateRotatingProxy scenarioEnv createScenario 7 socksOnQuicRequest).2.rotatingProxies.map
        (fun r => (r.ID, r.ListenProtocolID, r.ListenTransportProtocol, r.ListenPort))) =
      [(1, 4, "quic", 20000)] ∧
    (GetRotatingProxyByID scenarioEnv
        (CreateRotatingProxy scenarioEnv createScenario 7 socksOnQuicRequest).2 1).map Start =
      some (.error "socks rotators require tcp transport") := by
  refine ⟨by decide, by decide, by decide, by decide, by decide⟩

/-- C25 (amended). SOCKS listen protocols on QUIC or HTTP/3 are refused when the listener
is started, not when the rotator is created: `Start` returns an error for every rotator
whose listen protocol name is `socks4` or `socks5` and whose listen transport is `quic` or
`http3`; whether `CreateRotatingProxy` returns an error does not depend on the transports
of the request; when it succeeds it has stored the rotator, and when it fails the database
is unchanged. -/
theorem socks_transport_check (env : CreateEnv) (db : Database) (userID : Nat)
    (payload : RotatingProxyCreateRequest) :
    (∀ rotator : RotatingProxy, isSocksProtocol (listenProtocolName rotator) = true →
      (listenTransportProtocolName rotator = "quic" ∨
        listenTransportProtocolName rotator = "http3") →
      Start rotator = .error "socks rotators require tcp transport") ∧
    (∀ (transport listenTransport : String) (e : CreateError),
      (CreateRotatingProxy env db userID
          { payload with TransportProtocol := transport,
                         ListenTransportProtocol := listenTransport }).1 = .error e ↔
        (CreateRotatingProxy env db userID payload).1 = .error e) ∧
    (∀ created, (CreateRotatingProxy env db userID payload).1 = .ok created →
      ∃ row, (CreateRotatingProxy env db userID payload).2.rotatingProxies =
          db.rotatingProxies ++ [row] ∧ row.ID = created.ID ∧ row.Name = created.Name ∧
        row.ListenPort = created.ListenPort) ∧
    (∀ e, (CreateRotatingProxy env db userID payload).1 = .error e →
      (CreateRotatingProxy env db userID payload).2 = db) :=
  ⟨Start_socks_refused, CreateRotatingProxy_transport env db userID payload,
    (CreateRotatingProxy_stores env db userID payload).1,
    (CreateRotatingProxy_stores env db userID payload).2⟩

/-- Instance of C25 (amended): a rotator that listens for SOCKS4 clients on HTTP/3 is not
started. -/
theorem socks_transport_check_witness :
    Start { socks4OverHttp with ListenTransportProtocol := "HTTP3" } =
      .error "socks rotators require tcp transport" :=
  (socks_transport_check scenarioEnv createScenario 7 socksOnQuicRequest).1
    { socks4OverHttp with ListenTransportProtocol := "HTTP3" } (by decide)
    (Or.inr (by decide))

/-! ## Deduplication by hash -/

/-- A proxy whose hash was seen leaves the state of the loop as it is. -/
theorem deduplicateStep_seen (sha256 : List Nat → List Nat) (lower : Char → Char)
    (seen : List (List Nat)) (unique : List Proxy) (p : Proxy)
    (h : (p.GenerateHash sha256 lower).Hash ∈ seen) :
    deduplicateStep sha256 lower (seen, unique) p = (seen, unique) := by
  unfold deduplicateStep
  exact if_pos h

/-- A proxy whose hash is new is appended with its hash set. -/
theorem deduplicateStep_new (sha256 : List Nat → List Nat) (lower : Char → Char)
    (seen : List (List Nat)) (unique : List Proxy) (p : Proxy)
    (h : (p.GenerateHash sha256 lower).Hash ∉ seen) :
    deduplicateStep sha256 lower (seen, unique) p =
      ((p.GenerateHash sha256 lower).Hash :: seen, unique ++ [p.GenerateHash sha256 lower]) := by
  unfold deduplicateStep
  exact if_neg h

/-- The loop of `deduplicateProxies` appends the first occurrences of the hashes of `rest`
that are not in `seen`. -/
theorem foldl_deduplicateStep (sha256 : List Nat → List Nat) (lower : Char → Char)
    (rest : List Proxy) (seen : List (List Nat)) (unique : List Proxy) :
    ∃ kept, (rest.foldl (deduplicateStep sha256 lower) (seen, unique)).2 = unique ++ kept ∧
      kept.Sublist (rest.map (Proxy.GenerateHash sha256 lower)) ∧
      (kept.map (·.Hash)).Nodup ∧
      (∀ q ∈ kept, q.Hash ∉ seen) ∧
      (∀ p ∈ rest.map (Proxy.GenerateHash sha256 lower),
        p.Hash ∈ seen ∨ ∃ q ∈ kept, q.Hash = p.Hash) ∧
      (∀ q ∈ kept, (rest.map (Proxy.GenerateHash sha256 lower)).find?
        (fun p => decide (p.Hash = q.Hash)) = some q) := by
  induction rest generalizing seen unique with
  | nil => exact ⟨[], by simp, by simp, by simp, by simp, by simp, by simp⟩
  | cons p rest ih =>
    simp only [List.foldl_cons, List.map_cons]
    by_cases hseen : (p.GenerateHash sha256 lower).Hash ∈ seen
    · rw [deduplicateStep_seen sha256 lower seen unique p hseen]
      obtain ⟨kept, h1, h2, h3, h4, h5, h6⟩ := ih seen unique
      refine ⟨kept, h1, h2.cons _, h3, h4, ?_, ?_⟩
      · intro x hx
        rcases List.mem_cons.mp hx with rfl | hx
        · exact Or.inl hseen
        · exact h5 x hx
      · intro q hq
        have hne : (p.GenerateHash sha256 lower).Hash ≠ q.Hash := fun hc =>
          h4 q hq (hc ▸ hseen)
        rw [List.find?_cons]
        simp only [hne, decide_False]
        exact h6 q hq
    · rw [deduplicateStep_new sha256 lower seen unique p hseen]
      obtain ⟨kept, h1, h2, h3, h4, h5, h6⟩ :=
        ih ((p.GenerateHash sha256 lower).Hash :: seen) (unique ++ [p.GenerateHash sha256 lower])
      refine ⟨p.GenerateHash sha256 lower :: kept, ?_, h2.cons₂ _, ?_, ?_, ?_, ?_⟩
      · rw [h1, List.append_assoc]
        rfl
      · rw [List.map_cons, List.nodup_cons]
        refine ⟨?_, h3⟩
        intro hmem
        obtain ⟨q, hq, hqh⟩ := List.mem_map.mp hmem
        exact h4 q hq (by rw [hqh]; exact List.mem_cons_self _ _)
      · intro q hq
        rcases List.mem_cons.mp hq with rfl | hq
        · exact hseen
        · exact fun hc => h4 q hq (List.mem_cons_of_mem _ hc)
      · intro x hx
        rcases List.mem_cons.mp hx with rfl | hx
        · exact Or.inr ⟨_, List.mem_cons_self _ _, rfl⟩
        · rcases h5 x hx with h | ⟨q, hq, hqh⟩
          · rcases List.mem_cons.mp h with h | h
            · exact Or.inr ⟨_, List.mem_cons_self _ _, h.symm⟩
            · exact Or.inl h
          · exact Or.inr ⟨q, List.mem_cons_of_mem _ hq, hqh⟩
      · intro q hq
        rcases List.mem_cons.mp hq with rfl | hq
        · simp
        · have hne : (p.GenerateHash sha256 lower).Hash ≠ q.Hash := fun hc =>
            h4 q hq (by rw [← hc]; exact List.mem_cons_self _ _)
          rw [List.find?_cons]
          simp only [hne, decide_False]
          exact h6 q hq

/-- Hashing a hashed proxy changes nothing: the hash does not read the `Hash` field. -/
theorem GenerateHash_idem (sha256 : List Nat → List Nat) (lower : Char → Char) (p : Proxy) :
    (p.GenerateHash sha256 lower).GenerateHash sha256 lower = p.GenerateHash sha256 lower := by
  rfl

/-- On a list of hashed proxies with distinct unseen hashes the loop keeps everything. -/
theorem foldl_deduplicateStep_fixed (sha256 : List Nat → List Nat) (lower : Char → Char)
    (l : List Proxy) (seen : List (List Nat)) (unique : List Proxy)
    (hfix : ∀ q ∈ l, q.GenerateHash sha256 lower = q)
    (hnodup : (l.map (·.Hash)).Nodup) (hnew : ∀ q ∈ l, q.Hash ∉ seen) :
    (l.foldl (deduplicateStep sha256 lower) (seen, unique)).2 = unique ++ l := by
  induction l generalizing seen unique with
  | nil => simp
  | cons p l ih =>
    have hp : p.GenerateHash sha256 lower = p := hfix p (List.mem_cons_self _ _)
    have hps : (p.GenerateHash sha256 lower).Hash ∉ seen := by
      rw [hp]
      exact hnew p (List.mem_cons_self _ _)
    rw [List.map_cons, List.nodup_cons] at hnodup
    rw [List.foldl_cons, deduplicateStep_new sha256 lower seen unique p hps, hp,
      ih (p.Hash :: seen) (unique ++ [p]) (fun q hq => hfix q (List.mem_cons_of_mem _ hq))
        hnodup.2 ?_, List.append_assoc]
    · rfl
    · intro q hq hc
      rcases List.mem_cons.mp hc with h | h
      · exact hnodup.1 (List.mem_map.mpr ⟨q, hq, h⟩)
      · exact hnew q (List.mem_cons_of_mem _ hq) h

/-- C26: `deduplicateProxies` returns proxies whose hashes are pairwise distinct; the result
is, in input order, exactly the first occurrence of every hash of the hashed input; running
it on its own result changes nothing; and two proxies with the same ip, port, username and
password get the same hash and are kept as one entry. -/
theorem deduplicateProxies_spec (sha256 : List Nat → List Nat) (lower : Char → Char)
    (proxies : List Proxy) :
    let hashed := proxies.map (Proxy.GenerateHash sha256 lower)
    let out := deduplicateProxies sha256 lower proxies
    (out.map (·.Hash)).Nodup ∧
    out.Sublist hashed ∧
    (∀ p ∈ hashed, ∃ q ∈ out, q.Hash = p.Hash) ∧
    (∀ q ∈ out, hashed.find? (fun p => decide (p.Hash = q.Hash)) = some q) ∧
    deduplicateProxies sha256 lower out = out ∧
    (∀ p q : Proxy, p.IP = q.IP → p.Port = q.Port → p.Username = q.Username →
      p.Password = q.Password →
      (p.GenerateHash sha256 lower).Hash = (q.GenerateHash sha256 lower).Hash ∧
      (deduplicateProxies sha256 lower [p, q]).length = 1 ∧
      deduplicateProxies sha256 lower [p, q] = [p.GenerateHash sha256 lower]) := by
  intro hashed out
  obtain ⟨kept, h1, h2, h3, h4, h5, h6⟩ := foldl_deduplicateStep sha256 lower proxies [] []
  have hout : out = kept := by
    show (proxies.foldl (deduplicateStep sha256 lower) ([], [])).2 = kept
    rw [h1]
    rfl
  rw [hout]
  refine ⟨h3, h2, ?_, h6, ?_, ?_⟩
  · intro p hp
    rcases h5 p hp with h | h
    · cases h
    · exact h
  · have hfix : ∀ q ∈ kept, q.GenerateHash sha256 lower = q := by
      intro q hq
      obtain ⟨p, _, hpq⟩ := List.mem_map.mp (h2.subset hq)
      rw [← hpq]
      rfl
    have := foldl_deduplicateStep_fixed sha256 lower kept [] [] hfix h3 (fun q _ => by simp)
    unfold deduplicateProxies
    rw [this]
    rfl
  · intro p q hip hport huser hpass
    have hh : (p.GenerateHash sha256 lower).Hash = (q.GenerateHash sha256 lower).Hash := by
      unfold Proxy.GenerateHash hashInput Proxy.GetIp
      simp only [hip, hport, huser, hpass]
    have hd : deduplicateProxies sha256 lower [p, q] = [p.GenerateHash sha256 lower] := by
      unfold deduplicateProxies
      rw [List.foldl_cons, deduplicateStep_new sha256 lower [] [] p (by simp), List.foldl_cons,
        deduplicateStep_seen sha256 lower _ _ q (by rw [← hh]; exact List.mem_cons_self _ _)]
      rfl
    exact ⟨hh, by rw [hd]; rfl, hd⟩

/-! ## Decimal digits -/

theorem digitChar_toNat (k : Nat) (h : k < 10) : (Nat.digitChar k).toNat = k + 48 := by
  interval_cases k <;> rfl

theorem foldl_decimal (l : List Nat) (acc : Nat) :
    l.foldl (fun n ch => n * 10 + (ch - 48)) acc = acc * 10 ^ l.length + decimalValue l := by
  unfold decimalValue
  induction l generalizing acc with
  | nil => simp
  | cons a l ih =>
    rw [List.foldl_cons, List.foldl_cons, ih, ih (0 * 10 + (a - 48)), List.length_cons, pow_succ]
    ring

theorem decimalValue_cons (a : Nat) (l : List Nat) :
    decimalValue (a :: l) = (a - 48) * 10 ^ l.length + decimalValue l := by
  show List.foldl _ _ _ = _
  rw [List.foldl_cons, foldl_decimal]
  simp

theorem toDigitsCore_value (fuel : Nat) : ∀ (n : Nat) (ds : List Char), n < fuel →
    decimalValue ((Nat.toDigitsCore 10 fuel n ds).map Char.toNat) =
      n * 10 ^ ds.length + decimalValue (ds.map Char.toNat) := by
  induction fuel with
  | zero => intro n ds h; omega
  | succ fuel ih =>
    intro n ds h
    unfold Nat.toDigitsCore
    simp only
    have hd : (Nat.digitChar (n % 10)).toNat - 48 = n % 10 := by
      rw [digitChar_toNat _ (Nat.mod_lt _ (by decide))]
      omega
    by_cases h0 : n / 10 = 0
    · rw [if_pos h0, List.map_cons, decimalValue_cons, hd, List.length_map]
      have : n % 10 = n := by omega
      rw [this]
    · rw [if_neg h0, ih (n / 10) _ (by omega), List.map_cons, decimalValue_cons, hd,
        List.length_map, List.length_cons, pow_succ]
      have : n = 10 * (n / 10) + n % 10 := (Nat.div_add_mod n 10).symm
      generalize 10 ^ ds.length = k at *
      generalize decimalValue (List.map Char.toNat ds) = w
      generalize n / 10 = q at *
      generalize n % 10 = r at *
      subst this
      ring

theorem decimalValue_digitsOf (n : Nat) : decimalValue (digitsOf n) = n := by
  unfold digitsOf Nat.toDigits
  rw [toDigitsCore_value (n + 1) n [] (by omega)]
  simp [decimalValue]

theorem toDigitsCore_digits (fuel : Nat) : ∀ (n : Nat) (ds : List Char),
    (∀ c ∈ ds, 48 ≤ c.toNat ∧ c.toNat ≤ 57) →
    ∀ c ∈ Nat.toDigitsCore 10 fuel n ds, 48 ≤ c.toNat ∧ c.toNat ≤ 57 := by
  induction fuel with
  | zero => intro n ds h; unfold Nat.toDigitsCore; exact h
  | succ fuel ih =>
    intro n ds h
    unfold Nat.toDigitsCore
    simp only
    have hd : ∀ c ∈ Nat.digitChar (n % 10) :: ds, 48 ≤ c.toNat ∧ c.toNat ≤ 57 := by
      intro c hc
      rcases List.mem_cons.mp hc with rfl | hc
      · rw [digitChar_toNat _ (Nat.mod_lt _ (by decide))]
        have := Nat.mod_lt n (show 10 > 0 by decide)
        omega
      · exact h c hc
    by_cases h0 : n / 10 = 0
    · rw [if_pos h0]; exact hd
    · rw [if_neg h0]; exact ih _ _ hd

theorem toDigitsCore_ne_nil (fuel n : Nat) (ds : List Char) :
    Nat.toDigitsCore 10 (fuel + 1) n ds ≠ [] := by
  induction fuel generalizing n ds with
  | zero =>
    unfold Nat.toDigitsCore
    simp only
    by_cases h0 : n / 10 = 0
    · rw [if_pos h0]; simp
    · rw [if_neg h0]; unfold Nat.toDigitsCore; simp
  | succ fuel ih =>
    unfold Nat.toDigitsCore
    simp only
    by_cases h0 : n / 10 = 0
    · rw [if_pos h0]; simp
    · rw [if_neg h0]; exact ih _ _

theorem digitsOf_digits (n : Nat) : ∀ b ∈ digitsOf n, 48 ≤ b ∧ b ≤ 57 := by
  intro b hb
  unfold digitsOf at hb
  obtain ⟨c, hc, rfl⟩ := List.mem_map.mp hb
  exact toDigitsCore_digits (n + 1) n [] (by simp) c hc

theorem digitsOf_ne_nil (n : Nat) : digitsOf n ≠ [] := by
  unfold digitsOf Nat.toDigits
  intro h
  exact toDigitsCore_ne_nil n n [] (List.map_eq_nil_iff.mp h)

theorem bytesOf_ascii (l : List Char) (h : ∀ c ∈ l, c.toNat < 128) :
    bytesOf (String.mk l) = l.map Char.toNat := by
  unfold bytesOf
  show l.flatMap utf8EncodeRune = _
  induction l with
  | nil => rfl
  | cons a l ih =>
    rw [List.flatMap_cons, List.map_cons, ih (fun c hc => h c (List.mem_cons_of_mem _ hc))]
    unfold utf8EncodeRune
    simp only
    rw [if_pos (h a (List.mem_cons_self _ _))]
    rfl

theorem bytesOf_Itoa (n : Nat) : bytesOf (Itoa n) = digitsOf n := by
  unfold Itoa digitsOf
  apply bytesOf_ascii
  intro c hc
  have := toDigitsCore_digits (n + 1) n [] (by simp) c hc
  omega

theorem Itoa_injective (m n : Nat) (h : Itoa m = Itoa n) : m = n := by
  have := congrArg (fun s => decimalValue (bytesOf s)) h
  simp only [bytesOf_Itoa, decimalValue_digitsOf] at this
  exact this

theorem Atoi_digitsOf (n : Nat) (h : n < 2 ^ 63) : Atoi (digitsOf n) = some (n : Int) := by
  have hd := digitsOf_digits n
  have hne := digitsOf_ne_nil n
  have hhead : ¬ ((digitsOf n).head? = some 45 ∨ (digitsOf n).head? = some 43) := by
    intro hc
    cases hl : digitsOf n with
    | nil => exact hne hl
    | cons a l =>
      have := hd a (by rw [hl]; exact List.mem_cons_self _ _)
      rw [hl] at hc
      simp at hc
      omega
  unfold Atoi
  simp only
  rw [if_neg hhead, if_neg hne, if_pos (by
    rw [List.all_eq_true]
    intro b hb
    exact decide_eq_true (hd b hb))]
  have h45 : ¬ (digitsOf n).head? = some 45 := fun hc => hhead (Or.inl hc)
  simp only [h45, decide_False, decimalValue_digitsOf]
  rw [if_neg (by
    have : (0 : Int) ≤ (n : Int) := Int.ofNat_nonneg n
    have h2 : (n : Int) < 2 ^ 63 := by exact_mod_cast h
    omega)]
  rfl

/-! ## The hashed string -/

/-- Two joined strings with the same separator are equal only if their parts are, when the
separator is not in either first part. -/
theorem append_sep_inj {α : Type} [DecidableEq α] (a b a2 b2 : List α) (sep : α)
    (ha : sep ∉ a) (ha2 : sep ∉ a2) (h : a ++ sep :: b = a2 ++ sep :: b2) :
    a = a2 ∧ b = b2 := by
  have h1 := congrArg (fun l => l.takeWhile (fun x => decide (x ≠ sep))) h
  have h2 := congrArg (fun l => (l.dropWhile (fun x => decide (x ≠ sep))).drop 1) h
  simp only [takeWhile_ne_sep _ _ _ ha, takeWhile_ne_sep _ _ _ ha2] at h1
  simp only [dropWhile_ne_sep _ _ _ ha, dropWhile_ne_sep _ _ _ ha2] at h2
  exact ⟨h1, by simpa using h2⟩

/-- The runes of the hashed string. -/
theorem hashInput_data (lower : Char → Char) (p : Proxy) :
    (hashInput lower p).data = p.IP.data.map lower ++ lower '|' ::
      ((Itoa p.Port).data.map lower ++ lower '|' ::
        (p.Username.data.map lower ++ lower '|' :: p.Password.data.map lower)) := by
  unfold hashInput Proxy.GetIp
  simp [String.toList]

/-- The rune mapping `toLowerRune` sends only the bar to the bar. -/
theorem toLowerRune_bar (c : Char) : toLowerRune c = '|' ↔ c = '|' := by
  constructor
  · intro h
    unfold toLowerRune at h
    simp only at h
    split at h
    · rename_i hv
      obtain ⟨h1, h2⟩ := hv
      generalize c.val.toNat = v at h h1 h2
      interval_cases v <;> exact absurd h (by decide)
    · split at h
      · exact absurd h (by decide)
      · split at h
        · exact absurd h (by decide)
        · exact h
  · rintro rfl
    decide

/-- The rune mapping `toLowerRune` leaves decimal digits as they are. -/
theorem toLowerRune_digit (c : Char) (h1 : 48 ≤ c.toNat) (h2 : c.toNat ≤ 57) :
    toLowerRune c = c := by
  unfold toLowerRune
  unfold Char.toNat at h1 h2
  simp only
  rw [if_neg (by omega), if_neg (by omega), if_neg (by omega)]

/-- Lower-casing keeps the digits of a number. -/
theorem map_lower_Itoa (lower : Char → Char)
    (hdigit : ∀ c : Char, 48 ≤ c.toNat → c.toNat ≤ 57 → lower c = c) (n : Nat) :
    (Itoa n).data.map lower = (Itoa n).data := by
  unfold Itoa
  show (Nat.toDigits 10 n).map lower = Nat.toDigits 10 n
  conv_rhs => rw [← List.map_id (Nat.toDigits 10 n)]
  apply List.map_congr_left
  intro c hc
  have := toDigitsCore_digits (n + 1) n [] (by simp) c hc
  exact hdigit c this.1 this.2

/-- A bar is in the lower-cased runes only if it is in the runes. -/
theorem bar_not_mem_map (lower : Char → Char) (hbar : ∀ c : Char, lower c = '|' ↔ c = '|')
    (l : List Char) (h : '|' ∉ l) : lower '|' ∉ l.map lower := by
  intro hc
  obtain ⟨c, hc1, hc2⟩ := List.mem_map.mp hc
  rw [(hbar '|').mpr rfl] at hc2
  exact h ((hbar c).mp hc2 ▸ hc1)

/-- The digits of a number hold no bar. -/
theorem bar_not_mem_Itoa (n : Nat) : '|' ∉ (Itoa n).data := by
  intro hc
  have := toDigitsCore_digits (n + 1) n [] (by simp) _ hc
  revert this
  decide

/-- C28 (amended): for proxies whose ip holds no bar, two hashed strings are equal exactly
when the ips are equal up to letter case, the ports are equal, and the strings
`username|password` are equal up to letter case; when in addition neither username holds
a bar, exactly when ips, usernames and passwords are equal up to letter case and the ports
are equal. Here `lower` is any rune mapping that sends only the bar to the bar and leaves
digits as they are, as lower-casing does. -/
theorem hashInput_eq_iff (lower : Char → Char)
    (hbar : ∀ c : Char, lower c = '|' ↔ c = '|')
    (hdigit : ∀ c : Char, 48 ≤ c.toNat → c.toNat ≤ 57 → lower c = c)
    (p q : Proxy) (hp : '|' ∉ p.IP.data) (hq : '|' ∉ q.IP.data) :
    (hashInput lower p = hashInput lower q ↔
      (p.IP.data.map lower = q.IP.data.map lower ∧ p.Port = q.Port ∧
        (p.Username ++ "|" ++ p.Password).data.map lower =
          (q.Username ++ "|" ++ q.Password).data.map lower)) ∧
    ('|' ∉ p.Username.data → '|' ∉ q.Username.data →
      (hashInput lower p = hashInput lower q ↔
        (p.IP.data.map lower = q.IP.data.map lower ∧ p.Port = q.Port ∧
          p.Username.data.map lower = q.Username.data.map lower ∧
          p.Password.data.map lower = q.Password.data.map lower))) := by
  have hjoin : ∀ u w : String, (u ++ "|" ++ w).data.map lower =
      u.data.map lower ++ lower '|' :: w.data.map lower := by
    intro u w
    simp
  have hmain : hashInput lower p = hashInput lower q ↔
      (p.IP.data.map lower = q.IP.data.map lower ∧ p.Port = q.Port ∧
        (p.Username ++ "|" ++ p.Password).data.map lower =
          (q.Username ++ "|" ++ q.Password).data.map lower) := by
    rw [hjoin, hjoin]
    constructor
    · intro h
      have hd := congrArg String.data h
      rw [hashInput_data, hashInput_data] at hd
      obtain ⟨h1, h2⟩ := append_sep_inj _ _ _ _ _ (bar_not_mem_map lower hbar _ hp)
        (bar_not_mem_map lower hbar _ hq) hd
      rw [map_lower_Itoa lower hdigit, map_lower_Itoa lower hdigit, (hbar '|').mpr rfl] at h2
      obtain ⟨h3, h4⟩ := append_sep_inj _ _ _ _ _ (bar_not_mem_Itoa _) (bar_not_mem_Itoa _) h2
      refine ⟨h1, Itoa_injective _ _ (String.ext h3), ?_⟩
      rw [(hbar '|').mpr rfl]
      exact h4
    · rintro ⟨h1, h2, h3⟩
      apply String.ext
      rw [hashInput_data, hashInput_data, h1, h2, h3]
  refine ⟨hmain, ?_⟩
  intro hpu hqu
  rw [hmain, hjoin, hjoin]
  constructor
  · rintro ⟨h1, h2, h3⟩
    obtain ⟨h4, h5⟩ := append_sep_inj _ _ _ _ _ (bar_not_mem_map lower hbar _ hpu)
      (bar_not_mem_map lower hbar _ hqu) h3
    exact ⟨h1, h2, h4, h5⟩
  · rintro ⟨h1, h2, h3, h4⟩
    exact ⟨h1, h2, by rw [h3, h4]⟩

/-- The amended C28 at two proxies that differ in letter case only. -/
theorem hashInput_eq_iff_witness :
    '|' ∉ ("1.1.1.1" : String).data ∧
    hashInput toLowerRune { ID := 0, IP := "1.1.1.1", Port := 80, Username := "User", Password := "pw" } =
      hashInput toLowerRune { ID := 1, IP := "1.1.1.1", Port := 80, Username := "user", Password := "PW" } :=
  ⟨by decide,
    ((hashInput_eq_iff toLowerRune toLowerRune_bar toLowerRune_digit
      { ID := 0, IP := "1.1.1.1", Port := 80, Username := "User", Password := "pw" }
      { ID := 1, IP := "1.1.1.1", Port := 80, Username := "user", Password := "PW" }
      (by decide) (by decide)).1).mpr ⟨by decide, by decide, by decide⟩⟩

/-- C28 as stated fails: the proxies `pipeProxyA` (username `a|b`, password `c`) and
`pipeProxyB` (username `a`, password `b|c`) have the same hashed string, hence the same
hash, although neither their usernames nor their passwords are equal up to letter case. -/
theorem hashInput_counterexample :
    hashInput toLowerRune pipeProxyA = hashInput toLowerRune pipeProxyB ∧
    (∀ sha256 : List Nat → List Nat, (pipeProxyA.GenerateHash sha256 toLowerRune).Hash =
      (pipeProxyB.GenerateHash sha256 toLowerRune).Hash) ∧
    pipeProxyA.IP = pipeProxyB.IP ∧ pipeProxyA.Port = pipeProxyB.Port ∧
    ToLower pipeProxyA.Username ≠ ToLower pipeProxyB.Username ∧
    ToLower pipeProxyA.Password ≠ ToLower pipeProxyB.Password :=
  ⟨by decide, fun sha256 => congrArg (fun s => sha256 (bytesOf s))
    (show hashInput toLowerRune pipeProxyA = hashInput toLowerRune pipeProxyB by decide),
    by decide, by decide, by decide, by decide⟩

/-! ## Dotted IPv4 text -/

set_option maxRecDepth 100000 in
/-- The digits of an octet. -/
theorem digitsOf_octet : ∀ n < 256, digitsOf n =
    if n < 10 then [48 + n]
    else if n < 100 then [48 + n / 10, 48 + n % 10]
    else [48 + n / 100, 48 + n / 10 % 10, 48 + n % 10] := by
  decide

/-- One round of the loop of `parseIPv4Fields` on a digit. -/
theorem parseIPv4FieldsLoop_digit (c : Nat) (rest : List Nat) (prev : Option Nat)
    (val pos digLen : Nat) (fields : List Nat) (hc : 48 ≤ c ∧ c ≤ 57)
    (hlz : ¬ (digLen = 1 ∧ val = 0)) (hv : ¬ val * 10 + (c - 48) > 255) :
    parseIPv4FieldsLoop (c :: rest) prev val pos digLen fields =
      parseIPv4FieldsLoop rest (some c) (val * 10 + (c - 48)) pos (digLen + 1) fields := by
  rw [parseIPv4FieldsLoop, if_pos hc, if_neg hlz, if_neg hv]

/-- One round of the loop of `parseIPv4Fields` on a dot. -/
theorem parseIPv4FieldsLoop_dot (rest : List Nat) (p val pos digLen : Nat)
    (fields : List Nat) (hp : p ≠ 46) (hrest : rest ≠ []) (hpos : pos ≠ 3) :
    parseIPv4FieldsLoop (46 :: rest) (some p) val pos digLen fields =
      parseIPv4FieldsLoop rest (some 46) 0 (pos + 1) 0 (fields ++ [val]) := by
  rw [parseIPv4FieldsLoop, if_neg (by omega), if_pos rfl, if_neg (by simp [hrest, hp]),
    if_neg hpos]

/-- The loop of `parseIPv4Fields` reads the digits of an octet at the start of a field. -/
theorem parseIPv4FieldsLoop_octet (n : Nat) (hn : n < 256) (rest : List Nat)
    (prev : Option Nat) (pos : Nat) (fields : List Nat) :
    ∃ p digLen, p ≠ 46 ∧
      parseIPv4FieldsLoop (digitsOf n ++ rest) prev 0 pos 0 fields =
        parseIPv4FieldsLoop rest (some p) n pos digLen fields := by
  rw [digitsOf_octet n hn]
  by_cases h10 : n < 10
  · rw [if_pos h10]
    refine ⟨48 + n, 1, by omega, ?_⟩
    rw [List.singleton_append, parseIPv4FieldsLoop_digit _ _ _ _ _ _ _ (by omega) (by omega)
      (by omega)]
    congr 1
    omega
  · rw [if_neg h10]
    by_cases h100 : n < 100
    · rw [if_pos h100]
      refine ⟨48 + n % 10, 2, by omega, ?_⟩
      rw [List.cons_append, List.singleton_append,
        parseIPv4FieldsLoop_digit _ _ _ _ _ _ _ (by omega) (by omega) (by omega),
        parseIPv4FieldsLoop_digit _ _ _ _ _ _ _ (by omega) (by omega) (by omega)]
      congr 1
      omega
    · rw [if_neg h100]
      refine ⟨48 + n % 10, 3, by omega, ?_⟩
      rw [List.cons_append, List.cons_append, List.singleton_append,
        parseIPv4FieldsLoop_digit _ _ _ _ _ _ _ (by omega) (by omega) (by omega),
        parseIPv4FieldsLoop_digit _ _ _ _ _ _ _ (by omega) (by omega) (by omega),
        parseIPv4FieldsLoop_digit _ _ _ _ _ _ _ (by omega) (by omega) (by omega)]
      congr 1
      omega

theorem bytesOf_append (s t : String) : bytesOf (s ++ t) = bytesOf s ++ bytesOf t := by
  unfold bytesOf
  simp [String.toList]

/-- The text of a four-byte address is the dotted text. -/
theorem IPString_four (a b c d : Nat) : IPString [a, b, c, d] = dotted a b c d := by
  have h : String.intercalate "." ([a, b, c, d].map Itoa) =
      Itoa a ++ ("." ++ (Itoa b ++ ("." ++ (Itoa c ++ ("." ++ Itoa d))))) := by
    apply String.ext
    simp [String.intercalate, String.intercalate.go]
  unfold IPString
  rw [if_neg (by simp), if_neg (by simp)]
  have h4 : To4 [a, b, c, d] = some [a, b, c, d] := by
    unfold To4
    exact if_pos rfl
  rw [h4]
  simp only
  rw [h]
  simp only [bytesOf_append, bytesOf_Itoa]
  rfl

/-- The dotted text of four octets parses to the octets. -/
theorem parseIPv4Fields_dotted (a b c d : Nat) (ha : a < 256) (hb : b < 256) (hc : c < 256)
    (hd : d < 256) : parseIPv4Fields (dotted a b c d) = some [a, b, c, d] := by
  unfold parseIPv4Fields dotted
  obtain ⟨p1, l1, hp1, h1⟩ := parseIPv4FieldsLoop_octet a ha
    (46 :: (digitsOf b ++ 46 :: (digitsOf c ++ 46 :: digitsOf d))) none 0 []
  rw [h1, parseIPv4FieldsLoop_dot _ _ _ _ _ _ hp1 (by simp) (by omega)]
  obtain ⟨p2, l2, hp2, h2⟩ := parseIPv4FieldsLoop_octet b hb
    (46 :: (digitsOf c ++ 46 :: digitsOf d)) (some 46) (0 + 1) ([] ++ [a])
  rw [h2, parseIPv4FieldsLoop_dot _ _ _ _ _ _ hp2 (by simp) (by omega)]
  obtain ⟨p3, l3, hp3, h3⟩ := parseIPv4FieldsLoop_octet c hc
    (46 :: digitsOf d) (some 46) (0 + 1 + 1) ([] ++ [a] ++ [b])
  rw [h3, parseIPv4FieldsLoop_dot _ _ _ _ _ _ hp3 (digitsOf_ne_nil d) (by omega)]
  obtain ⟨p4, l4, hp4, h4⟩ := parseIPv4FieldsLoop_octet d hd
    [] (some 46) (0 + 1 + 1 + 1) ([] ++ [a] ++ [b] ++ [c])
  rw [List.append_nil] at h4
  rw [h4, parseIPv4FieldsLoop, if_neg (by omega)]
  rfl

/-- The bytes of a dotted text are digits and dots. -/
theorem dotted_bytes (a b c d : Nat) : ∀ x ∈ dotted a b c d, x = 46 ∨ (48 ≤ x ∧ x ≤ 57) := by
  intro x hx
  unfold dotted at hx
  simp only [List.mem_append, List.mem_cons] at hx
  rcases hx with h | h | h | h | h | h | h
  · exact Or.inr (digitsOf_digits a x h)
  · exact Or.inl h
  · exact Or.inr (digitsOf_digits b x h)
  · exact Or.inl h
  · exact Or.inr (digitsOf_digits c x h)
  · exact Or.inl h
  · exact Or.inr (digitsOf_digits d x h)

/-- Skipping a prefix that does not satisfy the predicate. -/
theorem find_append_of_not {α : Type} (p : α → Bool) (l rest : List α)
    (h : ∀ x ∈ l, p x = false) : (l ++ rest).find? p = rest.find? p := by
  induction l with
  | nil => rfl
  | cons a l ih =>
    rw [List.cons_append, List.find?_cons, h a (List.mem_cons_self _ _)]
    exact ih (fun x hx => h x (List.mem_cons_of_mem _ hx))

/-- The dotted text of four octets is accepted by `ParseIP` as the IPv4-mapped address. -/
theorem ParseIP_dotted (a b c d : Nat) (ha : a < 256) (hb : b < 256) (hc : c < 256)
    (hd : d < 256) :
    ParseIP (dotted a b c d) = some (List.replicate 10 0 ++ [0xff, 0xff] ++ [a, b, c, d]) := by
  have hfind : (dotted a b c d).find? (fun c => decide (c = 46 ∨ c = 58 ∨ c = 37)) =
      some 46 := by
    unfold dotted
    rw [find_append_of_not _ _ _ (by
      intro x hx
      have := digitsOf_digits a x hx
      simp
      omega)]
    rfl
  unfold ParseIP
  rw [hfind]
  simp only
  rw [parseIPv4Fields_dotted a b c d ha hb hc hd]
  rfl

/-- The four bytes of an IPv4-mapped address. -/
theorem To4_mapped (a b c d : Nat) :
    To4 (List.replicate 10 0 ++ [0xff, 0xff] ++ [a, b, c, d]) = some [a, b, c, d] := by
  unfold To4
  rw [if_neg (by simp), if_pos (by simp)]
  rfl

/-- The loop of `parseIPv4Fields` ends with four octets. -/
theorem parseIPv4FieldsLoop_length (s : List Nat) : ∀ (prev : Option Nat)
    (val pos digLen : Nat) (fields out : List Nat), fields.length = pos → pos ≤ 3 →
    parseIPv4FieldsLoop s prev val pos digLen fields = some out → out.length = 4 := by
  induction s with
  | nil =>
    intro prev val pos digLen fields out hlen hpos h
    rw [parseIPv4FieldsLoop] at h
    split at h
    · cases h
    · have := Option.some.inj h
      subst this
      rw [List.length_append, hlen]
      simp
      omega
  | cons c rest ih =>
    intro prev val pos digLen fields out hlen hpos h
    rw [parseIPv4FieldsLoop] at h
    split at h
    · split at h
      · cases h
      · split at h
        · cases h
        · exact ih _ _ _ _ _ _ hlen hpos h
    · split at h
      · split at h
        · cases h
        · split at h
          · cases h
          · rename_i hp3
            exact ih _ _ _ _ _ _ (by rw [List.length_append, hlen]; rfl) (by omega) h
      · cases h

/-- The text parser of IPv4 yields four octets. -/
theorem parseIPv4Fields_length (s out : List Nat) (h : parseIPv4Fields s = some out) :
    out.length = 4 :=
  parseIPv4FieldsLoop_length s none 0 0 0 [] out rfl (by omega) h

/-- The loop of `parseIPv6` keeps `i` even, at most 16, and equal to the number of bytes
stored. -/
theorem parseIPv6Loop_length (fuel : Nat) : ∀ (s : List Nat) (i : Nat) (ellipsis : Option Nat)
    (ip s2 : List Nat) (i2 : Nat) (e2 : Option Nat) (ip2 : List Nat),
    ip.length = i → i % 2 = 0 → i ≤ 16 →
    parseIPv6Loop fuel s i ellipsis ip = some (s2, i2, e2, ip2) →
    ip2.length = i2 ∧ i2 ≤ 16 := by
  induction fuel with
  | zero =>
    intro s i ellipsis ip s2 i2 e2 ip2 hlen hpar hle h
    rw [parseIPv6Loop] at h
    have := Option.some.inj h
    simp only [Prod.mk.injEq] at this
    obtain ⟨_, rfl, _, rfl⟩ := this
    exact ⟨hlen, hle⟩
  | succ fuel ih =>
    intro s i ellipsis ip s2 i2 e2 ip2 hlen hpar hle h
    rw [parseIPv6Loop] at h
    split at h
    · have := Option.some.inj h
      simp only [Prod.mk.injEq] at this
      obtain ⟨_, rfl, _, rfl⟩ := this
      exact ⟨hlen, hle⟩
    · rename_i hi
      have hi16 : i < 16 := by omega
      have hlen2 : ∀ acc : Nat, (ip ++ [acc / 256, acc % 256]).length = i + 2 := by
        intro acc
        rw [List.length_append, hlen]
        rfl
      split at h
      · cases h
      · rename_i off acc rest hgroup
        simp only at h
        split at h
        · cases h
        · split at h
          · split at h
            · cases h
            · split at h
              · cases h
              · split at h
                · cases h
                · rename_i fields hfields
                  have := Option.some.inj h
                  simp only [Prod.mk.injEq] at this
                  obtain ⟨_, rfl, _, rfl⟩ := this
                  rw [List.length_append, hlen, parseIPv4Fields_length _ _ hfields]
                  exact ⟨rfl, by omega⟩
          · split at h
            · have := Option.some.inj h
              simp only [Prod.mk.injEq] at this
              obtain ⟨_, rfl, _, rfl⟩ := this
              exact ⟨hlen2 acc, by omega⟩
            · split at h
              · cases h
              · split at h
                · cases h
                · split at h
                  · split at h
                    · cases h
                    · split at h
                      · have := Option.some.inj h
                        simp only [Prod.mk.injEq] at this
                        obtain ⟨_, rfl, _, rfl⟩ := this
                        exact ⟨hlen2 acc, by omega⟩
                      · exact ih _ _ _ _ _ _ _ _ (hlen2 acc) (by omega) (by omega) h
                  · exact ih _ _ _ _ _ _ _ _ (hlen2 acc) (by omega) (by omega) h

/-- The steps of `parseIPv6` after its loop yield sixteen bytes. -/
theorem parseIPv6_finish (s0 : List Nat) (e0 : Option Nat) (out : List Nat)
    (h : (match parseIPv6Loop 8 s0 0 e0 [] with
      | none => none
      | some (s, i, ellipsis, ip) =>
        if s ≠ [] then none
        else if i < 16 then
          match ellipsis with
          | none => none
          | some e => some (ip.take e ++ List.replicate (16 - i) 0 ++ ip.drop e)
        else if ellipsis ≠ none then none
        else some ip) = some out) : out.length = 16 := by
  split at h
  · cases h
  · rename_i s2 i2 e2 ip2 hloop
    have hinv := parseIPv6Loop_length 8 _ 0 _ [] s2 i2 e2 ip2 rfl rfl (by omega) hloop
    split at h
    · cases h
    · split at h
      · split at h
        · cases h
        · rename_i e
          have := Option.some.inj h
          subst this
          simp only [List.length_append, List.length_take, List.length_drop,
            List.length_replicate]
          omega
      · split at h
        · cases h
        · have := Option.some.inj h
          subst this
          omega

/-- The text parser of IPv6 yields sixteen bytes. -/
theorem parseIPv6_length (s out : List Nat) (h : parseIPv6 s = some out) :
    out.length = 16 := by
  unfold parseIPv6 at h
  simp only at h
  by_cases hlead : decide (2 ≤ s.length ∧ s.getD 0 0 = 58 ∧ s.getD 1 0 = 58) = true
  · simp only [hlead, if_true, true_and] at h
    split at h
    · have := Option.some.inj h
      subst this
      simp
    · exact parseIPv6_finish _ _ out h
  · simp only [hlead, if_false, false_and] at h
    exact parseIPv6_finish _ _ out h

/-- An address accepted by `ParseIP` has sixteen bytes. -/
theorem ParseIP_length (s ip : List Nat) (h : ParseIP s = some ip) : ip.length = 16 := by
  unfold ParseIP at h
  split at h
  · cases hv : parseIPv4Fields s with
    | none => rw [hv] at h; cases h
    | some v4 =>
      rw [hv] at h
      have := Option.some.inj h
      subst this
      have := parseIPv4Fields_length s v4 hv
      simp [this]
  · split at h
    · cases h
    · exact parseIPv6_length s ip h
  · cases h

/-- The two port bytes of a 16-bit port give the port back. -/
theorem BigEndianUint16_port (port : Nat) :
    BigEndianUint16 [port / 256, port % 256] = port := by
  unfold BigEndianUint16
  simp only [List.getD_cons_zero, List.getD_cons_succ]
  omega

/-- Reading an address of `n` bytes and the port behind it. -/
theorem ReadFull_two (addr : List Nat) (p0 p1 : Nat) (rest out : List Nat) :
    ReadFull { input := addr ++ [p0, p1] ++ rest, output := out } addr.length =
      (some addr, { input := [p0, p1] ++ rest, output := out }) ∧
    ReadFull { input := [p0, p1] ++ rest, output := out } 2 =
      (some [p0, p1], { input := rest, output := out }) := by
  constructor
  · rw [List.append_assoc]
    exact ReadFull_append addr _ out
  · exact ReadFull_append [p0, p1] rest out

/-- C30: for a port in 0..65535, `encodeSocksAddress` succeeds and `readSocksAddress`, given
the address type and the address and port bytes it produced, returns `host:port`
(`JoinHostPort`) when the host is the dotted text of four octets, when it is the canonical
text of an IPv6 address that is not IPv4-mapped (`ParseIP` accepts it, `To4` is nil and
`IP.String` gives the host back), and when it is a non-empty name of at most 255 bytes
that `ParseIP` rejects; and `encodeSocksAddress` fails exactly for the empty host and for
a host longer than 255 bytes that `ParseIP` rejects. -/
theorem encodeSocksAddress_roundtrip (host : List Nat) (port : Nat) (rest out : List Nat)
    (hport : port < 65536) :
    (∀ a b c d : Nat, a < 256 → b < 256 → c < 256 → d < 256 → host = dotted a b c d →
      encodeSocksAddress host port = .ok (0x01, [a, b, c, d], [port / 256, port % 256]) ∧
      readSocksAddress
          { input := [a, b, c, d] ++ [port / 256, port % 256] ++ rest, output := out } 0x01 =
        (.ok (JoinHostPort host (bytesOf (Itoa port))), { input := rest, output := out })) ∧
    (∀ ip : List Nat, ParseIP host = some ip → To4 ip = none → IPString ip = host →
      encodeSocksAddress host port = .ok (0x04, ip, [port / 256, port % 256]) ∧
      readSocksAddress
          { input := ip ++ [port / 256, port % 256] ++ rest, output := out } 0x04 =
        (.ok (JoinHostPort host (bytesOf (Itoa port))), { input := rest, output := out })) ∧
    (ParseIP host = none → host ≠ [] → host.length ≤ 255 →
      encodeSocksAddress host port =
        .ok (0x03, [host.length] ++ host, [port / 256, port % 256]) ∧
      readSocksAddress
          { input := ([host.length] ++ host) ++ [port / 256, port % 256] ++ rest,
            output := out } 0x03 =
        (.ok (JoinHostPort host (bytesOf (Itoa port))), { input := rest, output := out })) ∧
    ((∃ e, encodeSocksAddress host port = .error e) ↔
      (host = [] ∨ (ParseIP host = none ∧ 255 < host.length))) := by
  have hp : port / 256 % 256 = port / 256 := by omega
  have hbe := BigEndianUint16_port port
  refine ⟨?_, ?_, ?_, ?_⟩
  · intro a b c d ha hb hc hd hhost
    subst hhost
    constructor
    · unfold encodeSocksAddress
      simp only [ParseIP_dotted a b c d ha hb hc hd, To4_mapped, hp]
    · have h1 := ReadFull_two [a, b, c, d] (port / 256) (port % 256) rest out
      unfold readSocksAddress
      rw [if_pos rfl]
      simp only [show (4 : Nat) = [a, b, c, d].length from rfl]
      rw [h1.1]
      simp only
      rw [h1.2]
      simp only
      rw [hbe, IPString_four]
  · intro ip hip h4 hcanon
    have hlen := ParseIP_length host ip hip
    have h16 : To16 ip = some ip := by
      unfold To16
      rw [if_neg (by omega), if_pos hlen]
    constructor
    · unfold encodeSocksAddress
      simp only [hip, h4, h16, hp]
    · have h1 := ReadFull_two ip (port / 256) (port % 256) rest out
      unfold readSocksAddress
      rw [if_neg (by decide), if_neg (by decide), if_pos rfl]
      rw [hlen] at h1
      rw [h1.1]
      simp only
      rw [h1.2]
      simp only
      rw [hbe, hcanon]
  · intro hnone hne hlen
    constructor
    · unfold encodeSocksAddress
      simp only [hnone, hp]
      rw [if_neg hne, if_neg (by omega), Nat.mod_eq_of_lt (by omega)]
    · have h0 := ReadFull_append [host.length] (host ++ [port / 256, port % 256] ++ rest) out
      have h1 := ReadFull_two host (port / 256) (port % 256) rest out
      unfold readSocksAddress
      rw [if_neg (by decide), if_pos rfl]
      simp only [List.append_assoc] at h0 h1 ⊢
      simp only [List.length_singleton] at h0
      rw [h0]
      simp only [List.getD_cons_zero]
      rw [h1.1]
      simp only
      rw [h1.2]
      simp only
      rw [hbe]
  · constructor
    · rintro ⟨e, he⟩
      unfold encodeSocksAddress at he
      cases hip : ParseIP host with
      | none =>
        simp only [hip] at he
        by_cases hne : host = []
        · exact Or.inl hne
        · rw [if_neg hne] at he
          by_cases hl : host.length > 255
          · exact Or.inr ⟨rfl, hl⟩
          · rw [if_neg hl] at he
            cases he
      | some ip =>
        have hlen := ParseIP_length host ip hip
        simp only [hip] at he
        cases h4 : To4 ip with
        | some v4 =>
          simp only [h4] at he
          cases he
        | none =>
          have h16 : To16 ip = some ip := by
            unfold To16
            rw [if_neg (by omega), if_pos hlen]
          simp only [h4, h16] at he
          cases he
    · rintro (hempty | ⟨hnone, hl⟩)
      · subst hempty
        exact ⟨"empty host", rfl⟩
      · refine ⟨"hostname too long", ?_⟩
        unfold encodeSocksAddress
        simp only [hnone]
        rw [if_neg (by intro hc; rw [hc] at hl; simp at hl), if_pos hl]

/-- C30 at the name `example.com`, the address `2001:db8::1` and the port 443. -/
theorem encodeSocksAddress_roundtrip_witness :
    443 < 65536 ∧
    readSocksAddress
        { input := ([(bytesOf "example.com").length] ++ bytesOf "example.com") ++
            [443 / 256, 443 % 256] ++ [], output := [] } 0x03 =
      (.ok (JoinHostPort (bytesOf "example.com") (bytesOf (Itoa 443))),
        { input := [], output := [] }) ∧
    readSocksAddress
        { input := [0x20, 0x01, 0x0d, 0xb8, 0, 0, 0, 0, 0, 0, 0, 0, 0, 0, 0, 1] ++
            [443 / 256, 443 % 256] ++ [], output := [] } 0x04 =
      (.ok (JoinHostPort (bytesOf "2001:db8::1") (bytesOf (Itoa 443))),
        { input := [], output := [] }) :=
  ⟨by decide,
    ((encodeSocksAddress_roundtrip (bytesOf "example.com") 443 [] []
      (by decide)).2.2.1 (by decide) (by decide) (by decide)).2,
    ((encodeSocksAddress_roundtrip (bytesOf "2001:db8::1") 443 [] []
      (by decide)).2.1 [0x20, 0x01, 0x0d, 0xb8, 0, 0, 0, 0, 0, 0, 0, 0, 0, 0, 0, 1]
      (by decide) (by decide) (by decide)).2⟩

/-! ## Host and port -/

/-- The index of the last `c` in `a ++ c :: b` when `b` holds no `c`. -/
theorem lastIndexByte_append (a b : List Nat) (c : Nat) (hb : c ∉ b) :
    lastIndexByte (a ++ c :: b) c = some a.length := by
  unfold lastIndexByte
  rw [if_pos (by simp)]
  have hrev : (a ++ c :: b).reverse = b.reverse ++ c :: a.reverse := by simp
  rw [hrev, takeWhile_ne_append _ _ _ (by simpa using hb)]
  simp only [List.length_append, List.length_cons, List.length_reverse]
  congr 1
  omega

/-- The index of the first `c` in `a ++ c :: b` when `a` holds no `c`. -/
theorem indexByte_append (a b : List Nat) (c : Nat) (ha : c ∉ a) :
    indexByte (a ++ c :: b) c = some a.length := by
  unfold indexByte
  rw [if_pos (by simp), takeWhile_ne_append _ _ _ ha]

/-- `SplitHostPort` undoes `JoinHostPort` for a host without brackets and a decimal port. -/
theorem SplitHostPort_JoinHostPort (host port : List Nat) (h91 : 91 ∉ host) (h93 : 93 ∉ host)
    (hp : ∀ x ∈ port, 48 ≤ x ∧ x ≤ 57) :
    SplitHostPort (JoinHostPort host port) = some (host, port) := by
  have hp58 : 58 ∉ port := fun h => by have := hp 58 h; omega
  have hp91 : 91 ∉ port := fun h => by have := hp 91 h; omega
  have hp93 : 93 ∉ port := fun h => by have := hp 93 h; omega
  unfold JoinHostPort
  by_cases hcolon : 58 ∈ host
  · rw [if_pos hcolon]
    have hshape : [91] ++ host ++ [93, 58] ++ port = (91 :: host ++ [93]) ++ 58 :: port := by
      simp
    have hshape2 : [91] ++ host ++ [93, 58] ++ port = (91 :: host) ++ 93 :: (58 :: port) := by
      simp
    have hlast : lastIndexByte ([91] ++ host ++ [93, 58] ++ port) 58 = some (host.length + 2) := by
      rw [hshape, lastIndexByte_append _ _ _ hp58]
      simp
    have hidx : indexByte ([91] ++ host ++ [93, 58] ++ port) 93 = some (host.length + 1) := by
      rw [hshape2, indexByte_append _ _ _ (by simp [h93])]
      simp
    unfold SplitHostPort
    rw [hlast]
    simp only
    rw [if_pos (by simp), hidx]
    simp only
    rw [if_neg (by simp), if_pos trivial]
    simp only
    have hd1 : ([91] ++ host ++ [93, 58] ++ port).drop 1 = host ++ 93 :: 58 :: port := by simp
    have hd2 : ([91] ++ host ++ [93, 58] ++ port).drop (host.length + 1 + 1) = 58 :: port := by
      rw [hshape]
      have : host.length + 1 + 1 = (91 :: host ++ [93]).length := by simp
      rw [this, List.drop_left]
    have hd3 : ([91] ++ host ++ [93, 58] ++ port).drop (host.length + 2 + 1) = port := by
      have : [91] ++ host ++ [93, 58] ++ port = (91 :: host ++ [93, 58]) ++ port := by simp
      rw [this]
      have : host.length + 2 + 1 = (91 :: host ++ [93, 58]).length := by simp
      rw [this, List.drop_left]
    have ht : (([91] ++ host ++ [93, 58] ++ port).take (host.length + 1)).drop 1 = host := by
      rw [hshape2]
      have : host.length + 1 = (91 :: host).length := by simp
      rw [this, List.take_left]
      rfl
    rw [hd1, hd2, hd3, ht, if_neg (by simp [h91, hp91]), if_neg (by simp [hp93])]
  · rw [if_neg hcolon]
    have hshape : host ++ [58] ++ port = host ++ 58 :: port := by simp
    have hlast : lastIndexByte (host ++ [58] ++ port) 58 = some host.length := by
      rw [hshape, lastIndexByte_append _ _ _ hp58]
    have hhead : (host ++ [58] ++ port).head? ≠ some 91 := by
      cases host with
      | nil => simp
      | cons a l =>
        simp only [List.cons_append, List.head?_cons, ne_eq, Option.some.injEq]
        intro hc
        exact h91 (by rw [hc]; exact List.mem_cons_self _ _)
    unfold SplitHostPort
    rw [hlast]
    simp only
    rw [if_neg hhead]
    have ht : (host ++ [58] ++ port).take host.length = host := by
      rw [hshape, List.take_left]
    have hd : (host ++ [58] ++ port).drop (host.length + 1) = port := by
      have : host.length + 1 = (host ++ [58]).length := by simp
      rw [this, List.drop_left]
    rw [ht, if_neg hcolon]
    simp only [List.drop_zero]
    rw [hd, if_neg (by simp [h91, hp91]), if_neg (by simp [h93, hp93])]

/-- `splitTargetAddress` undoes `JoinHostPort` with a decimal port. -/
theorem splitTargetAddress_JoinHostPort (host : List Nat) (port : Nat) (h91 : 91 ∉ host)
    (h93 : 93 ∉ host) (hport : port < 65536) :
    splitTargetAddress (JoinHostPort host (bytesOf (Itoa port))) = some (host, port) := by
  unfold splitTargetAddress
  rw [bytesOf_Itoa, SplitHostPort_JoinHostPort host _ h91 h93 (digitsOf_digits port)]
  simp only
  rw [Atoi_digitsOf port (by omega)]
  simp only
  rw [if_neg (by omega)]
  rfl


/-- What `performSocks4UpstreamConnect` has written does not depend on the answer. -/
theorem socks4_answer_output (c : Conn) :
    (match ReadFull c 8 with
      | (none, conn) => ((.error .read : Except SocksError Unit), conn)
      | (some resp, conn) =>
        if resp.length < 2 ∨ resp.getD 1 0 ≠ 0x5A then
          (.error (.message "socks4 connect failed"), conn)
        else (.ok (), conn)).2.output = c.output := by
  have := ReadFull_output c 8
  split
  · rename_i h
    rw [h] at this
    exact this
  · rename_i h
    rw [h] at this
    split
    · exact this
    · exact this

/-- The bytes `performSocks4UpstreamConnect` writes for a host that is not an IPv4
address: the SOCKS4a form. -/
theorem performSocks4UpstreamConnect_name (reply target host : List Nat) (port : Nat)
    (next : RotatingProxyNext) (hsplit : splitTargetAddress target = some (host, port))
    (hport : port < 65536) (hne : host ≠ []) (hbind : (ParseIP host).bind To4 = none) :
    (performSocks4UpstreamConnect { input := reply, output := [] } target next).2.output =
      ([0x04, 0x01] ++ [port / 256, port % 256] ++ [0, 0, 0, 1]) ++
        (socks4UserField next ++ ([0] ++ (host ++ [0]))) := by
  have hp : port / 256 % 256 = port / 256 := by omega
  unfold performSocks4UpstreamConnect
  rw [hsplit]
  simp only
  rw [socks4_answer_output]
  unfold Conn.Write socks4UserField
  simp only [hbind, hp, if_true, List.nil_append, ne_eq, hne, not_false_eq_true]
  by_cases hauth : next.HasAuth = true
  · by_cases hpw : next.Password = ""
    · simp [hauth, hpw]
    · simp [hauth, hpw]
  · simp [hauth]

/-- The bytes `performSocks4UpstreamConnect` writes for an IPv4 address: the plain SOCKS4
form. -/
theorem performSocks4UpstreamConnect_address (reply target host v4 : List Nat) (port : Nat)
    (next : RotatingProxyNext) (hsplit : splitTargetAddress target = some (host, port))
    (hport : port < 65536) (hbind : (ParseIP host).bind To4 = some v4) :
    (performSocks4UpstreamConnect { input := reply, output := [] } target next).2.output =
      ([0x04, 0x01] ++ [port / 256, port % 256] ++ v4) ++
        (socks4UserField next ++ ([0] ++ [])) := by
  have hp : port / 256 % 256 = port / 256 := by omega
  unfold performSocks4UpstreamConnect
  rw [hsplit]
  simp only
  rw [socks4_answer_output]
  unfold Conn.Write socks4UserField
  simp only [hbind, hp, List.nil_append, ne_eq, not_true_eq_false, if_false]
  by_cases hauth : next.HasAuth = true
  · by_cases hpw : next.Password = ""
    · simp [hauth, hpw]
    · simp [hauth, hpw]
  · simp [hauth]

/-- The identifier of an upstream request holds no zero byte when the credentials hold
none. -/
theorem socks4UserField_zero (next : RotatingProxyNext) (huser : 0 ∉ bytesOf next.Username)
    (hpass : 0 ∉ bytesOf next.Password) : 0 ∉ socks4UserField next := by
  unfold socks4UserField
  split
  · split
    · simp [huser, hpass]
    · exact huser
  · simp

/-- C29: the request that `performSocks4UpstreamConnect` writes for the target
`JoinHostPort host port` is read by `handleSocks4` as the same destination port, the same
identifier and the same target host, so that the handler goes on with the same target
`host:port`. This holds for a port in 0..65535, credentials without zero bytes, and a host
that is either a name (not empty, no zero byte, no bracket, not the text of an IPv4 or
IPv4-mapped address), for which the request has the SOCKS4a form with the marker address
`0.0.0.1`, or the dotted text of four octets that are not `0.0.0.x` with `x` not zero. -/
theorem socks4_request_roundtrip (rotator : RotatingProxy)
    (getNextRotatingProxyFunc : Nat → Nat → Except RotatorError RotatingProxyNext)
    (connectThroughUpstreamFunc : List Nat → RotatingProxyNext → Bool)
    (next : RotatingProxyNext) (host : List Nat) (port : Nat) (reply rest : List Nat)
    (hport : port < 65536) (huser : 0 ∉ bytesOf next.Username)
    (hpass : 0 ∉ bytesOf next.Password) :
    let target := JoinHostPort host (bytesOf (Itoa port))
    let written :=
      (performSocks4UpstreamConnect { input := reply, output := [] } target next).2.output
    (host ≠ [] → 0 ∉ host → 91 ∉ host → 93 ∉ host → (ParseIP host).bind To4 = none →
      written = [0x04, 0x01, port / 256, port % 256, 0, 0, 0, 1] ++ socks4UserField next ++
        [0] ++ host ++ [0] ∧
      handleSocks4 rotator getNextRotatingProxyFunc connectThroughUpstreamFunc
          { input := written ++ rest, output := [] } =
        afterSocks4Request rotator getNextRotatingProxyFunc connectThroughUpstreamFunc
          [port / 256, port % 256] [0, 0, 0, 1] (socks4UserField next) host rest) ∧
    (∀ a b c d : Nat, a < 256 → b < 256 → c < 256 → d < 256 →
      ¬ (a = 0 ∧ b = 0 ∧ c = 0 ∧ d ≠ 0) → host = dotted a b c d →
      written = [0x04, 0x01, port / 256, port % 256, a, b, c, d] ++ socks4UserField next ++
        [0] ∧
      handleSocks4 rotator getNextRotatingProxyFunc connectThroughUpstreamFunc
          { input := written ++ rest, output := [] } =
        afterSocks4Request rotator getNextRotatingProxyFunc connectThroughUpstreamFunc
          [port / 256, port % 256] [a, b, c, d] (socks4UserField next) host rest) ∧
    JoinHostPort host (bytesOf (Itoa (BigEndianUint16 [port / 256, port % 256]))) = target := by
  intro target written
  have hident := socks4UserField_zero next huser hpass
  refine ⟨?_, ?_, ?_⟩
  · intro hne h0 h91 h93 hbind
    have hsplit := splitTargetAddress_JoinHostPort host port h91 h93 hport
    have hw : written = ([0x04, 0x01] ++ [port / 256, port % 256] ++ [0, 0, 0, 1]) ++
        (socks4UserField next ++ ([0] ++ (host ++ [0]))) :=
      performSocks4UpstreamConnect_name reply target host port next hsplit hport hne hbind
    constructor
    · rw [hw]
      simp
    · have := handleSocks4_domain rotator getNextRotatingProxyFunc connectThroughUpstreamFunc
        (port / 256) (port % 256) 1 (socks4UserField next) host rest hident h0 (by decide)
      rw [← this, hw]
      unfold socks4Request
      simp
  · intro a b c d ha hb hc hd h4a hhost
    have hbytes := dotted_bytes a b c d
    have h91 : 91 ∉ host := fun h => by
      rw [hhost] at h
      have := hbytes 91 h
      omega
    have h93 : 93 ∉ host := fun h => by
      rw [hhost] at h
      have := hbytes 93 h
      omega
    have hsplit := splitTargetAddress_JoinHostPort host port h91 h93 hport
    have hbind : (ParseIP host).bind To4 = some [a, b, c, d] := by
      rw [hhost, ParseIP_dotted a b c d ha hb hc hd]
      exact To4_mapped a b c d
    have hw : written = ([0x04, 0x01] ++ [port / 256, port % 256] ++ [a, b, c, d]) ++
        (socks4UserField next ++ ([0] ++ [])) :=
      performSocks4UpstreamConnect_address reply target host _ port next hsplit hport hbind
    constructor
    · rw [hw]
      simp
    · have := handleSocks4_address rotator getNextRotatingProxyFunc
        connectThroughUpstreamFunc (port / 256) (port % 256) a b c d (socks4UserField next)
        rest hident h4a
      rw [IPString_four, ← hhost] at this
      rw [← this, hw]
      unfold socks4Request
      simp
  · show JoinHostPort host _ = JoinHostPort host _
    rw [BigEndianUint16_port]

/-- C29 at the target `example.com:443` and the credentials `u` / `p`. -/
theorem socks4_request_roundtrip_witness :
    443 < 65536 ∧ 0 ∉ bytesOf socks4Upstream.Username ∧
    handleSocks4 openRotator testNext (fun _ _ => true)
        { input := (performSocks4UpstreamConnect { input := [], output := [] }
            (JoinHostPort (bytesOf "example.com") (bytesOf (Itoa 443))) socks4Upstream).2.output
            ++ [], output := [] } =
      afterSocks4Request openRotator testNext (fun _ _ => true) [443 / 256, 443 % 256]
        [0, 0, 0, 1] (socks4UserField socks4Upstream) (bytesOf "example.com") [] :=
  ⟨by decide, by decide,
    ((socks4_request_roundtrip openRotator testNext (fun _ _ => true) socks4Upstream
      (bytesOf "example.com") 443 [] [] (by decide) (by decide) (by decide)).1
      (by decide) (by decide) (by decide) (by decide) (by decide)).2⟩

/-! ## The bytes of a parsed address -/

/-- The loop of `parseIPv4Fields` yields octets below 256. -/
theorem parseIPv4FieldsLoop_bytes (s : List Nat) : ∀ (prev : Option Nat)
    (val pos digLen : Nat) (fields out : List Nat), val ≤ 255 → (∀ b ∈ fields, b < 256) →
    parseIPv4FieldsLoop s prev val pos digLen fields = some out → ∀ b ∈ out, b < 256 := by
  induction s with
  | nil =>
    intro prev val pos digLen fields out hval hfields h
    rw [parseIPv4FieldsLoop] at h
    split at h
    · cases h
    · have := Option.some.inj h
      subst this
      intro b hb
      rcases List.mem_append.mp hb with hb | hb
      · exact hfields b hb
      · rw [List.mem_singleton] at hb
        omega
  | cons c rest ih =>
    intro prev val pos digLen fields out hval hfields h
    rw [parseIPv4FieldsLoop] at h
    split at h
    · split at h
      · cases h
      · split at h
        · cases h
        · exact ih _ _ _ _ _ _ (by omega) hfields h
    · split at h
      · split at h
        · cases h
        · split at h
          · cases h
          · refine ih _ _ _ _ _ _ (by omega) ?_ h
            intro b hb
            rcases List.mem_append.mp hb with hb | hb
            · exact hfields b hb
            · rw [List.mem_singleton] at hb
              omega
      · cases h

/-- A hexadecimal group has a value below 65536. -/
theorem parseHexGroup_acc (s : List Nat) : ∀ (off acc off2 acc2 : Nat) (rest : List Nat),
    acc ≤ 0xffff → parseHexGroup s off acc = some (off2, acc2, rest) → acc2 ≤ 0xffff := by
  induction s with
  | nil =>
    intro off acc off2 acc2 rest hacc h
    rw [parseHexGroup] at h
    have := Option.some.inj h
    simp only [Prod.mk.injEq] at this
    omega
  | cons c s ih =>
    intro off acc off2 acc2 rest hacc h
    rw [parseHexGroup] at h
    split at h
    · have := Option.some.inj h
      simp only [Prod.mk.injEq] at this
      omega
    · split at h
      · cases h
      · split at h
        · cases h
        · exact ih _ _ _ _ _ (by omega) h

/-- The loop of `parseIPv6` stores bytes below 256. -/
theorem parseIPv6Loop_bytes (fuel : Nat) : ∀ (s : List Nat) (i : Nat) (ellipsis : Option Nat)
    (ip s2 : List Nat) (i2 : Nat) (e2 : Option Nat) (ip2 : List Nat),
    (∀ b ∈ ip, b < 256) →
    parseIPv6Loop fuel s i ellipsis ip = some (s2, i2, e2, ip2) → ∀ b ∈ ip2, b < 256 := by
  induction fuel with
  | zero =>
    intro s i ellipsis ip s2 i2 e2 ip2 hip h
    rw [parseIPv6Loop] at h
    have := Option.some.inj h
    simp only [Prod.mk.injEq] at this
    obtain ⟨_, _, _, rfl⟩ := this
    exact hip
  | succ fuel ih =>
    intro s i ellipsis ip s2 i2 e2 ip2 hip h
    rw [parseIPv6Loop] at h
    split at h
    · have := Option.some.inj h
      simp only [Prod.mk.injEq] at this
      obtain ⟨_, _, _, rfl⟩ := this
      exact hip
    · split at h
      · cases h
      · rename_i off acc rest hgroup
        have hacc := parseHexGroup_acc s 0 0 off acc rest (by omega) hgroup
        have hip2 : ∀ b ∈ ip ++ [acc / 256, acc % 256], b < 256 := by
          intro b hb
          rcases List.mem_append.mp hb with hb | hb
          · exact hip b hb
          · simp only [List.mem_cons, List.mem_singleton, List.not_mem_nil, or_false] at hb
            omega
        simp only at h
        split at h
        · cases h
        · split at h
          · split at h
            · cases h
            · split at h
              · cases h
              · split at h
                · cases h
                · rename_i fields hfields
                  have := Option.some.inj h
                  simp only [Prod.mk.injEq] at this
                  obtain ⟨_, _, _, rfl⟩ := this
                  intro b hb
                  rcases List.mem_append.mp hb with hb | hb
                  · exact hip b hb
                  · exact parseIPv4FieldsLoop_bytes s none 0 0 0 [] fields (by omega)
                      (by simp) hfields b hb
          · split at h
            · have := Option.some.inj h
              simp only [Prod.mk.injEq] at this
              obtain ⟨_, _, _, rfl⟩ := this
              exact hip2
            · split at h
              · cases h
              · split at h
                · cases h
                · split at h
                  · split at h
                    · cases h
                    · split at h
                      · have := Option.some.inj h
                        simp only [Prod.mk.injEq] at this
                        obtain ⟨_, _, _, rfl⟩ := this
                        exact hip2
                      · exact ih _ _ _ _ _ _ _ _ hip2 h
                  · exact ih _ _ _ _ _ _ _ _ hip2 h

/-- The steps of `parseIPv6` after its loop yield bytes below 256. -/
theorem parseIPv6_finish_bytes (s0 : List Nat) (e0 : Option Nat) (out : List Nat)
    (h : (match parseIPv6Loop 8 s0 0 e0 [] with
      | none => none
      | some (s, i, ellipsis, ip) =>
        if s ≠ [] then none
        else if i < 16 then
          match ellipsis with
          | none => none
          | some e => some (ip.take e ++ List.replicate (16 - i) 0 ++ ip.drop e)
        else if ellipsis ≠ none then none
        else some ip) = some out) : ∀ b ∈ out, b < 256 := by
  split at h
  · cases h
  · rename_i s2 i2 e2 ip2 hloop
    have hinv := parseIPv6Loop_bytes 8 _ 0 _ [] s2 i2 e2 ip2 (by simp) hloop
    split at h
    · cases h
    · split at h
      · split at h
        · cases h
        · rename_i e
          have := Option.some.inj h
          subst this
          intro b hb
          simp only [List.mem_append, List.mem_replicate] at hb
          rcases hb with (hb | hb) | hb
          · exact hinv b (List.mem_of_mem_take hb)
          · omega
          · exact hinv b (List.mem_of_mem_drop hb)
      · split at h
        · cases h
        · have := Option.some.inj h
          subst this
          exact hinv

/-- The text parser of IPv6 yields bytes below 256. -/
theorem parseIPv6_bytes (s out : List Nat) (h : parseIPv6 s = some out) :
    ∀ b ∈ out, b < 256 := by
  unfold parseIPv6 at h
  simp only at h
  by_cases hlead : decide (2 ≤ s.length ∧ s.getD 0 0 = 58 ∧ s.getD 1 0 = 58) = true
  · simp only [hlead, if_true, true_and] at h
    split at h
    · have := Option.some.inj h
      subst this
      intro b hb
      rw [List.mem_replicate] at hb
      omega
    · exact parseIPv6_finish_bytes _ _ out h
  · simp only [hlead, if_false, false_and] at h
    exact parseIPv6_finish_bytes _ _ out h

/-- An address accepted by `ParseIP` is made of bytes below 256. -/
theorem ParseIP_bytes (s ip : List Nat) (h : ParseIP s = some ip) : ∀ b ∈ ip, b < 256 := by
  unfold ParseIP at h
  split at h
  · cases hv : parseIPv4Fields s with
    | none => rw [hv] at h; cases h
    | some v4 =>
      rw [hv] at h
      have := Option.some.inj h
      subst this
      have hb4 := parseIPv4FieldsLoop_bytes s none 0 0 0 [] v4 (by omega) (by simp) hv
      intro b hb
      simp only [List.mem_append, List.mem_replicate, List.mem_cons, List.mem_singleton,
        List.not_mem_nil, or_false] at hb
      rcases hb with (hb | hb | hb) | hb
      · omega
      · omega
      · omega
      · exact hb4 b hb
  · split at h
    · cases h
    · exact parseIPv6_bytes s ip h
  · cases h

/-- The four bytes `To4` gives for a parsed address are octets. -/
theorem To4_octets (ip v4 : List Nat) (hlen : ip.length = 16) (hb : ∀ b ∈ ip, b < 256)
    (h : To4 ip = some v4) :
    ∃ a b c d, a < 256 ∧ b < 256 ∧ c < 256 ∧ d < 256 ∧ v4 = [a, b, c, d] := by
  unfold To4 at h
  rw [if_neg (by omega)] at h
  split at h
  · have := Option.some.inj h
    subst this
    match ip, hlen, hb with
    | [x0, x1, x2, x3, x4, x5, x6, x7, x8, x9, x10, x11, a, b, c, d], _, hb =>
      exact ⟨a, b, c, d, hb a (by simp), hb b (by simp), hb c (by simp), hb d (by simp), rfl⟩
  · cases h

/-- A proxy that `SetIP` accepts has the dotted text of four octets as its address, and
its other fields are kept. -/
theorem SetIP_some (proxy p : Proxy) (ip : String) (h : proxy.SetIP ip = some p) :
    p.Port = proxy.Port ∧
    ∃ a b c d, a < 256 ∧ b < 256 ∧ c < 256 ∧ d < 256 ∧ p.IP = stringOf (dotted a b c d) := by
  unfold Proxy.SetIP at h
  split at h
  · cases h
  · rename_i parsedIP hparse
    split at h
    · cases h
    · rename_i ipv4 h4
      have := Option.some.inj h
      subst this
      obtain ⟨a, b, c, d, ha, hb, hc, hd, hv⟩ := To4_octets parsedIP ipv4
        (ParseIP_length _ _ hparse) (ParseIP_bytes _ _ hparse) h4
      subst hv
      exact ⟨rfl, a, b, c, d, ha, hb, hc, hd, by rw [IPString_four]⟩

/-- A proxy that the second half of the loop body yields has a port in 1..65535 and the
dotted text of four octets as its address. -/
theorem parseProxyHost_some (allowColonAuth : Bool) (username password hostPart : String)
    (p : Proxy) (h : parseProxyHost allowColonAuth username password hostPart = some p) :
    1 ≤ p.Port ∧ p.Port ≤ 65535 ∧
    ∃ a b c d, a < 256 ∧ b < 256 ∧ c < 256 ∧ d < 256 ∧ p.IP = stringOf (dotted a b c d) := by
  unfold parseProxyHost at h
  simp only at h
  repeat' (split at h)
  all_goals first
    | cases h
    | (obtain ⟨hp, hip⟩ := SetIP_some _ p _ h
       simp only at hp
       exact ⟨by omega, by omega, hip⟩)

/-- A proxy that the loop of `parseTextToProxies` appends has a port in 1..65535 and the
dotted text of four octets as its address. -/
theorem parseProxyLine_some (allowColonAuth : Bool) (raw : String) (p : Proxy)
    (h : parseProxyLine allowColonAuth raw = some p) :
    1 ≤ p.Port ∧ p.Port ≤ 65535 ∧
    ∃ a b c d, a < 256 ∧ b < 256 ∧ c < 256 ∧ d < 256 ∧ p.IP = stringOf (dotted a b c d) := by
  unfold parseProxyLine at h
  simp only at h
  split at h
  · cases h
  · exact parseProxyHost_some _ _ _ _ p h

/-- C27: the first half fails. The well-formed line `10.0.0.1:80` is dropped by
`ParseTextToProxies` (and by `ParseTextToProxiesStrictAuth`): `cleanProxyString` turns it
into `10.0..1:80`, which `net.ParseIP` rejects; the same happens to `1.0.0.0:80`, whereas
`10.0.5.1:80` gives its one proxy. The second half holds: every proxy returned for any
input has a port in 1..65535 and the dotted text of four octets as its address. -/
theorem ParseTextToProxies_drops_zero_octets :
    ParseTextToProxies "10.0.0.1:80" = [] ∧
    ParseTextToProxiesStrictAuth "10.0.0.1:80" = [] ∧
    cleanProxyString "10.0.0.1:80" true = "10.0..1:80" ∧
    ParseIP (bytesOf "10.0..1") = none ∧
    ParseTextToProxies "1.0.0.0:80" = [] ∧
    ParseTextToProxies "10.0.5.1:80" =
      [{ ID := 0, IP := "10.0.5.1", Port := 80, Username := "", Password := "" }] ∧
    (∀ (text : String) (allowColonAuth : Bool) (p : Proxy),
      p ∈ parseTextToProxies text allowColonAuth →
      1 ≤ p.Port ∧ p.Port ≤ 65535 ∧
      ∃ a b c d, a < 256 ∧ b < 256 ∧ c < 256 ∧ d < 256 ∧
        p.IP = stringOf (dotted a b c d)) := by
  refine ⟨by decide, by decide, by decide, by decide, by decide, by decide, ?_⟩
  intro text allowColonAuth p hp
  unfold parseTextToProxies at hp
  simp only at hp
  obtain ⟨raw, _, hraw⟩ := List.mem_filterMap.mp hp
  exact parseProxyLine_some allowColonAuth raw p hraw

/-! ## HTTP `CONNECT` through the rotator -/

/-- With the package's own hooks, `handleConnect` performs the HTTP `CONNECT` handshake on
the dialled connection, whatever the protocol of the upstream proxy is. -/
theorem handleConnect_default (rotator : RotatingProxy)
    (getNext : Nat → Nat → Except RotatorError RotatingProxyNext)
    (dial : RotatingProxyNext → Option Conn)
    (ReadResponse : List Nat → Option (Nat × List Nat)) (host : List Nat)
    (next : RotatingProxyNext) (upConn : Conn)
    (hnext : getNext rotator.UserID rotator.ID = .ok next)
    (hsupported : supportedUpstream next.Protocol = true) (hdial : dial next = some upConn) :
    handleConnect rotator (defaultHooks getNext dial ReadResponse) host =
      match performUpstreamConnect ReadResponse upConn host next with
      | (.error _, upConn) =>
        { client := writeHijackedResponse 502 "Upstream CONNECT failed",
          upstream := some upConn, piped := false }
      | (.ok _, upConn) =>
        { client := bytesOf connectEstablishedResponse, upstream := some upConn,
          piped := true } := by
  unfold handleConnect defaultHooks
  simp only [hnext, hsupported, hdial]
  rfl

/-- What `performUpstreamConnect` writes, and when it succeeds. -/
theorem performUpstreamConnect_spec (ReadResponse : List Nat → Option (Nat × List Nat))
    (conn : Conn) (targetHost : List Nat) (next : RotatingProxyNext)
    (hauth : next.HasAuth = false) :
    (performUpstreamConnect ReadResponse conn targetHost next).2.output =
      conn.output ++ (bytesOf "CONNECT " ++ targetHost ++ bytesOf " HTTP/1.1\r\nHost: " ++
        targetHost ++ bytesOf "\r\nProxy-Connection: Keep-Alive\r\n" ++ bytesOf "\r\n") ∧
    ((performUpstreamConnect ReadResponse conn targetHost next).1 = .ok () ↔
      ∃ rest, ReadResponse conn.input = some (200, rest)) := by
  unfold performUpstreamConnect Conn.Write
  simp only [hauth, Bool.false_eq_true, if_false]
  cases h : ReadResponse conn.input with
  | none => simp
  | some r =>
    obtain ⟨code, rest⟩ := r
    by_cases hc : code = 200
    · simp [hc]
    · simp [hc]

/-- C21 fails: `handleConnect` does not obtain its tunnel through `connectThroughUpstream`.
(1) Replacing the hook `connectThroughUpstreamFunc` never changes what `handleConnect`
does. (2) With the hooks of `TestHandleConnect_ProxiesDataThroughUpstream`, whose
replaced `connectThroughUpstreamFunc` succeeds, a dial that fails makes `handleConnect`
answer 502 instead of `200 Connection Established`. (3) For a SOCKS5 upstream proxy whose
server accepts the SOCKS5 handshake, `connectThroughUpstream` succeeds after writing the
greeting and the `CONNECT` request of SOCKS5, whereas `handleConnect` writes the text of
an HTTP `CONNECT` request to that server, answers 200 exactly when the bytes the server
sends are read as an HTTP response with status 200, and answers 502 when they are not an
HTTP response. -/
theorem handleConnect_bypasses_connectThroughUpstream :
    (∀ (rotator : RotatingProxy) (hooks : Hooks)
        (f : List Nat → RotatingProxyNext → Except SocksError Unit × Option Conn)
        (host : List Nat),
      handleConnect rotator { hooks with connectThroughUpstreamFunc := f } host =
        handleConnect rotator hooks host) ∧
    (∀ ReadResponse : List Nat → Option (Nat × List Nat),
      handleConnect connectTestRotator (connectTestHooks (fun _ => none) ReadResponse)
          (bytesOf "example.com:443") =
        { client := writeHijackedResponse 502 "Failed to connect to upstream proxy",
          upstream := none, piped := false } ∧
      ((connectTestHooks (fun _ => none) ReadResponse).connectThroughUpstreamFunc
          (bytesOf "example.com:443") connectTestNext).1 = .ok ()) ∧
    (∀ ReadResponse : List Nat → Option (Nat × List Nat),
      connectThroughUpstream (fun _ => some socks5Server)
          (performUpstreamConnect ReadResponse) (bytesOf "example.com:443") socks5Upstream =
        (.ok (), some { input := [], output := [0x05, 0x01, 0x00] ++
          ([0x05, 0x01, 0x00, 0x03, 11] ++ bytesOf "example.com" ++ [1, 187]) }) ∧
      (handleConnect openRotator
          (defaultHooks (fun _ _ => .ok socks5Upstream) (fun _ => some socks5Server)
            ReadResponse) (bytesOf "example.com:443")).upstream.map (·.output) =
        some (bytesOf connectRequestText) ∧
      ((handleConnect openRotator
          (defaultHooks (fun _ _ => .ok socks5Upstream) (fun _ => some socks5Server)
            ReadResponse) (bytesOf "example.com:443")).client =
          bytesOf connectEstablishedResponse ↔
        ∃ rest, ReadResponse socks5Server.input = some (200, rest)) ∧
      (ReadResponse socks5Server.input = none →
        (handleConnect openRotator
          (defaultHooks (fun _ _ => .ok socks5Upstream) (fun _ => some socks5Server)
            ReadResponse) (bytesOf "example.com:443")).client =
          writeHijackedResponse 502 "Upstream CONNECT failed")) := by
  refine ⟨fun _ _ _ _ => rfl, fun _ => ⟨rfl, rfl⟩, ?_⟩
  intro ReadResponse
  have hdef := handleConnect_default openRotator (fun _ _ => .ok socks5Upstream)
    (fun _ => some socks5Server) ReadResponse (bytesOf "example.com:443") socks5Upstream
    socks5Server rfl (by decide) rfl
  have hspec := performUpstreamConnect_spec ReadResponse socks5Server
    (bytesOf "example.com:443") socks5Upstream rfl
  have hne : writeHijackedResponse 502 "Upstream CONNECT failed" ≠
      bytesOf connectEstablishedResponse := by decide
  have htext : socks5Server.output ++ (bytesOf "CONNECT " ++ bytesOf "example.com:443" ++
      bytesOf " HTTP/1.1\r\nHost: " ++ bytesOf "example.com:443" ++
      bytesOf "\r\nProxy-Connection: Keep-Alive\r\n" ++ bytesOf "\r\n") =
      bytesOf connectRequestText := by decide
  rw [htext] at hspec
  rw [hdef]
  refine ⟨rfl, ?_⟩
  cases hres : performUpstreamConnect ReadResponse socks5Server (bytesOf "example.com:443")
    socks5Upstream with
  | mk result upConn =>
    rw [hres] at hspec
    cases result with
    | error e =>
      refine ⟨?_, ?_, ?_⟩
      · exact congrArg some hspec.1
      · constructor
        · intro h
          exact absurd h hne
        · intro h
          have := hspec.2.mpr h
          cases this
      · intro _
        rfl
    | ok u =>
      refine ⟨?_, ?_, ?_⟩
      · exact congrArg some hspec.1
      · constructor
        · intro _
          exact hspec.2.mp rfl
        · intro _
          rfl
      · intro hnone
        obtain ⟨rest, hrest⟩ := hspec.2.mp rfl
        rw [hnone] at hrest
        cases hrest

end Magpie
